import Mathlib

/-!
Route table, recovery ledger and transport events of Lustre

A shallow embedding of

* `lnet/lnet/router.c`: the route table (`lnet_add_route`, `lnet_del_route`,
  `lnet_check_routes`, `lnet_get_route`), the router reference counting
  (`lnet_rtr_addref_locked`, `lnet_rtr_decref_locked`), the router checker
  (`lnet_notify_locked`, `lnet_ni_notify_locked`, `lnet_parse_rc_info`,
  `lnet_router_checker_event`, `lnet_ping_router_locked`, `lnet_prune_rc_data`) and the
  router buffer pools (`lnet_rtrpool_alloc_bufs`, `lnet_alloc_rtrpools`);
* `lustre/mdt/mdt_recovery.c`: the `last_rcvd` ledger (`mdt_init_server_data`,
  `mdt_init_clients_data`, `mdt_client_add`, `mdt_client_free`, `mdt_update_last_rcvd`)
  and the transaction callbacks (`mdt_txn_stop_cb`, `mdt_txn_commit_cb`);
* `lustre/ptlrpc/events.c`: the reply callback (`reply_in_callback`) and the bulk
  callbacks (`bulk_source_callback`, `bulk_sink_callback`);
* `lustre/ptlrpc/niobuf.c`: `ptl_send_buf`, `ptl_send_rpc`, the start of a bulk transfer
  (`ptlrpc_start_bulk_transfer`, `ptlrpc_register_bulk`) and its abort
  (`ptlrpc_abort_bulk`, `ptlrpc_unregister_bulk`).

The global `the_lnet` and the `mdt_device` are explicit state records that every
operation takes and returns.  Pointers to peers are modelled by the peer's NID (the peer
table holds one peer per NID), intrusive lists by Lean lists in list order.  Results of
calls that leave this code (memory allocation, the random generator, disk I/O, export
creation, fault injection) are explicit arguments of the operation that makes the call.
A failed `LASSERT`/`LBUG` is the result `none` or the outcome `lbug`; a loop that waits
for another thread runs for a number of rounds given as an argument.
-/

namespace Lustre

/-! ## Error numbers -/

def ENOENT : Int := 2
def ENOMEM : Int := 12
def EFAULT : Int := 14
def EINVAL : Int := 22
def EOVERFLOW : Int := 75
def ENOTCONN : Int := 107
def ETIMEDOUT : Int := 110
def EHOSTUNREACH : Int := 113

/-! ## LNet: data model -/

/-- The NID macros of `lnet/types.h` and the module parameter read by
`lnet_peers_start_down`; the header is not part of the sources, so the development is
parametric in them. -/
structure lnet_consts where
  LNET_NID_ANY : Nat
  LOLND : Nat
  LNET_NIDNET : Nat → Nat
  LNET_NETTYP : Nat → Nat
  check_routers_before_use : Bool

/-- The values `lnet/types.h` gives the NID macros: a NID is 64 bits, its upper half the
network, whose upper 16 bits are the network type. -/
def lnet_types_h : lnet_consts where
  LNET_NID_ANY := 2 ^ 64 - 1
  LOLND := 9
  LNET_NIDNET := fun nid => (nid / 2 ^ 32) % 2 ^ 32
  LNET_NETTYP := fun net => (net / 2 ^ 16) % 2 ^ 16
  check_routers_before_use := false

/-- `lnet_route_t`; `lr_gateway` is the NID of the gateway peer the route points to. -/
structure lnet_route where
  lr_net : Nat
  lr_gateway : Nat
  lr_hops : Nat
  lr_downis : Nat
  deriving DecidableEq, Repr

/-- `lnet_remotenet_t`: a remote network and its routes in list order. -/
structure lnet_remotenet where
  lrn_net : Nat
  lrn_routes : List lnet_route
  deriving DecidableEq, Repr

/-- `lnet_peer_t`, the fields the route code reads or writes.  `lp_ni` is the NID of the
local interface the peer is attached to, `lp_rcd` the router-check-data handle.  The
list `lp_routes` is not stored: it is `lp_routes` below, the routes of the table whose
gateway is this peer. -/
structure lnet_peer where
  lp_nid : Nat
  lp_ni : Nat
  lp_refcount : Int
  lp_rtr_refcount : Int
  lp_alive : Bool
  lp_alive_count : Nat
  lp_timestamp : Nat
  lp_ping_deadline : Nat
  lp_notify : Bool
  lp_notifylnd : Bool
  lp_notifying : Bool
  lp_rcd : Option Nat
  lp_ping_version : Nat
  lp_ping_notsent : Bool
  lp_ping_timestamp : Nat
  deriving DecidableEq, Repr

/-- `the_lnet`, the part the route code touches.  `ln_nis` holds the NIDs of the local
interfaces, `ln_peers` the peer table, `ln_routers` the NIDs of the peers on the router
list in list order. -/
structure lnet_t where
  ln_nis : List Nat
  ln_peers : List lnet_peer
  ln_remote_nets : List lnet_remotenet
  ln_routers : List Nat
  ln_rcd_deathrow : List Nat
  ln_remote_nets_version : Nat
  ln_routers_version : Nat
  deriving DecidableEq, Repr

/-- Results of the calls `lnet_add_route` makes out of the route code: whether
`LIBCFS_ALLOC` of the route and of the remote net succeed, whether the peer allocation
inside `lnet_nid2peer_locked` succeeds, and the value `cfs_rand()` returns. -/
structure add_route_env where
  alloc_ok : Bool
  peer_alloc_ok : Bool
  rand : Nat
  deriving DecidableEq, Repr

/-! ## LNet: peer table -/

def lnet_find_peer (s : lnet_t) (nid : Nat) : Option lnet_peer :=
  s.ln_peers.find? (fun p => p.lp_nid == nid)

/-- Apply `f` to the peer with the given NID (a write through the peer pointer). -/
def update_peer (f : lnet_peer → lnet_peer) (nid : Nat) (s : lnet_t) : lnet_t :=
  { s with ln_peers := s.ln_peers.map (fun p => if p.lp_nid = nid then f p else p) }

/-- Modelled from the spec: `lnet_peer_addref_locked` (lib-lnet.h is not part of the
sources) takes one reference on the peer. -/
def lnet_peer_addref_locked (nid : Nat) (s : lnet_t) : lnet_t :=
  update_peer (fun p => { p with lp_refcount := p.lp_refcount + 1 }) nid s

/-- Modelled from the spec: `lnet_peer_decref_locked` (lib-lnet.h is not part of the
sources) drops one reference; the peer whose last reference is dropped ceases to
exist. -/
def lnet_peer_decref_locked (nid : Nat) (s : lnet_t) : lnet_t :=
  let s1 := update_peer (fun p => { p with lp_refcount := p.lp_refcount - 1 }) nid s
  { s1 with ln_peers :=
      (s1.ln_peers.filter (fun p => !(p.lp_nid == nid && p.lp_refcount == 0))) }

/-- Modelled from the spec: `lnet_islocalnet` (lib-lnet.h is not part of the sources):
the network is the network of one of the local interfaces. -/
def lnet_islocalnet (C : lnet_consts) (s : lnet_t) (net : Nat) : Bool :=
  s.ln_nis.any (fun ni => C.LNET_NIDNET ni == net)

/-- `lnet_peers_start_down`: the module parameter `check_routers_before_use`. -/
def lnet_peers_start_down (C : lnet_consts) : Bool := C.check_routers_before_use

/-- Modelled from the spec: `lnet_nid2peer_locked` (peer.c is not part of the sources)
resolves or creates the peer of a NID.  An existing peer gets one more reference.  A new
peer needs memory (`-ENOMEM`) and a local interface on the network of the NID
(`-EHOSTUNREACH`); it starts with one reference for the caller and one for the peer
table, no router reference, no notification or ping state, and alive unless peers start
down (`lnet_peers_start_down`, which router.c provides for the peer creation). -/
def lnet_nid2peer_locked (C : lnet_consts) (peer_alloc_ok : Bool) (nid : Nat)
    (s : lnet_t) : lnet_t × Int :=
  match lnet_find_peer s nid with
  | some _ => (lnet_peer_addref_locked nid s, 0)
  | none =>
    if !peer_alloc_ok then (s, -ENOMEM)
    else
      match s.ln_nis.find? (fun ni => C.LNET_NIDNET ni == C.LNET_NIDNET nid) with
      | none => (s, -EHOSTUNREACH)
      | some ni =>
        ({ s with ln_peers :=
            { lp_nid := nid, lp_ni := ni, lp_refcount := 2, lp_rtr_refcount := 0,
              lp_alive := !lnet_peers_start_down C, lp_alive_count := 0,
              lp_timestamp := 0, lp_ping_deadline := 0, lp_notify := false,
              lp_notifylnd := false, lp_notifying := false, lp_rcd := none,
              lp_ping_version := 0, lp_ping_notsent := false, lp_ping_timestamp := 0 }
              :: s.ln_peers }, 0)

/-! ## LNet: router reference counting -/

/-- The insertion sort of `lnet_rtr_addref_locked`: walk the router list from its tail
to the first router with a smaller NID and insert behind it, at the front if there is
none. -/
def rtr_list_insert (nid : Nat) (routers : List Nat) : List Nat :=
  (routers.reverse.dropWhile (fun r => !decide (r < nid))).reverse ++
    nid :: (routers.reverse.takeWhile (fun r => !decide (r < nid))).reverse

/-- `lnet_rtr_addref_locked`; `ln_routers_version` is a `__u64`. -/
def lnet_rtr_addref_locked (nid : Nat) (s : lnet_t) : lnet_t :=
  let s1 := update_peer (fun p => { p with lp_rtr_refcount := p.lp_rtr_refcount + 1 }) nid s
  match lnet_find_peer s1 nid with
  | none => s1
  | some lp =>
    if lp.lp_rtr_refcount = 1 then
      let s2 := { s1 with ln_routers := rtr_list_insert nid s1.ln_routers }
      let s3 := lnet_peer_addref_locked nid s2
      { s3 with ln_routers_version := (s3.ln_routers_version + 1) % 2 ^ 64 }
    else s1

/-- `lnet_rtr_decref_locked`. -/
def lnet_rtr_decref_locked (nid : Nat) (s : lnet_t) : lnet_t :=
  let s1 := update_peer (fun p => { p with lp_rtr_refcount := p.lp_rtr_refcount - 1 }) nid s
  match lnet_find_peer s1 nid with
  | none => s1
  | some lp =>
    if lp.lp_rtr_refcount = 0 then
      let s2 :=
        match lp.lp_rcd with
        | some rcd =>
          update_peer (fun p => { p with lp_rcd := none }) nid
            { s1 with ln_rcd_deathrow := rcd :: s1.ln_rcd_deathrow }
        | none => s1
      let s3 := { s2 with ln_routers := s2.ln_routers.erase nid }
      let s4 := lnet_peer_decref_locked nid s3
      { s4 with ln_routers_version := (s4.ln_routers_version + 1) % 2 ^ 64 }
    else s1

/-! ## LNet: the route table -/

/-- `lnet_find_net_locked`: the first remote net with the given network. -/
def lnet_find_net_locked (s : lnet_t) (net : Nat) : Option lnet_remotenet :=
  s.ln_remote_nets.find? (fun rnet => rnet.lrn_net == net)

/-- The place `lnet_add_route_to_rnet` links the new route at: behind the entry the
second walk stops at, which is entry `offset`, or the list head when `offset` is the
length of the list. -/
def rnet_insert_route (rand : Nat) (route : lnet_route) (routes : List lnet_route) :
    List lnet_route :=
  let len := routes.length
  let offset := rand % (len + 1)
  if offset = len then route :: routes
  else routes.take (offset + 1) ++ route :: routes.drop (offset + 1)

/-- The first remote net of the given network with `f` applied to its route list. -/
def update_rnet (f : List lnet_route → List lnet_route) (net : Nat) :
    List lnet_remotenet → List lnet_remotenet
  | [] => []
  | rnet :: rest =>
    if rnet.lrn_net = net then { rnet with lrn_routes := f rnet.lrn_routes } :: rest
    else rnet :: update_rnet f net rest

/-- `lnet_add_route_to_rnet`, for the remote net of `route.lr_net`. -/
def lnet_add_route_to_rnet (rand : Nat) (route : lnet_route) (s : lnet_t) : lnet_t :=
  let s1 := { s with ln_remote_nets :=
    (update_rnet (rnet_insert_route rand route) route.lr_net s.ln_remote_nets) }
  let s2 := { s1 with ln_remote_nets_version := s1.ln_remote_nets_version + 1 }
  lnet_rtr_addref_locked route.lr_gateway s2

/-- The lookup of the remote net in `lnet_add_route`: a network without a remote net
gets a new, empty one at the tail of the table. -/
def add_route_new_net (net : Nat) (s : lnet_t) : lnet_t :=
  match lnet_find_net_locked s net with
  | none => { s with ln_remote_nets :=
      (s.ln_remote_nets ++ [{ lrn_net := net, lrn_routes := [] }]) }
  | some _ => s

/-- `lnet_add_route`: the new table and the return code. -/
def lnet_add_route (C : lnet_consts) (e : add_route_env) (net hops gateway : Nat)
    (s : lnet_t) : lnet_t × Int :=
  if gateway = C.LNET_NID_ANY ∨
      C.LNET_NETTYP (C.LNET_NIDNET gateway) = C.LOLND ∨
      net = C.LNET_NIDNET C.LNET_NID_ANY ∨
      C.LNET_NETTYP net = C.LOLND ∨
      C.LNET_NIDNET gateway = net ∨
      hops < 1 ∨ hops > 255 then (s, -EINVAL)
  else if lnet_islocalnet C s net then (s, 0)
  else if !e.alloc_ok then (s, -ENOMEM)
  else
    match lnet_nid2peer_locked C e.peer_alloc_ok gateway s with
    | (s1, rc) =>
      if rc ≠ 0 then (if rc = -EHOSTUNREACH then (s1, 0) else (s1, rc))
      else
        let s2 := add_route_new_net net s1
        let rnet2 := (lnet_find_net_locked s2 net).getD { lrn_net := net, lrn_routes := [] }
        let add_route := rnet2.lrn_routes.all (fun route2 => route2.lr_gateway != gateway)
        let s3 :=
          if add_route then
            lnet_add_route_to_rnet e.rand
              { lr_net := net, lr_gateway := gateway, lr_hops := hops, lr_downis := 0 }
              (lnet_peer_addref_locked gateway s2)
          else s2
        (lnet_peer_decref_locked gateway s3, 0)

/-- The route test of `lnet_del_route`: the network and the gateway are each the
wildcard or the route's own. -/
def del_route_gw_match (C : lnet_consts) (gw_nid : Nat) (route : lnet_route) : Bool :=
  gw_nid == C.LNET_NID_ANY || gw_nid == route.lr_gateway

def del_route_net_match (C : lnet_consts) (net : Nat) (rnet : lnet_remotenet) : Bool :=
  net == C.LNET_NIDNET C.LNET_NID_ANY || net == rnet.lrn_net

/-- The inner walk of `lnet_del_route`: unlink the first matching route of a remote
net. -/
def del_route_in_rnet (C : lnet_consts) (gw_nid : Nat) :
    List lnet_route → Option (List lnet_route × lnet_route)
  | [] => none
  | route :: rest =>
    if del_route_gw_match C gw_nid route then some (rest, route)
    else
      match del_route_in_rnet C gw_nid rest with
      | some (rest', found) => some (route :: rest', found)
      | none => none

/-- The outer walk of `lnet_del_route`: unlink the first matching route of the table and
the remote net that becomes empty by it. -/
def del_route_in_nets (C : lnet_consts) (net gw_nid : Nat) :
    List lnet_remotenet → Option (List lnet_remotenet × lnet_route)
  | [] => none
  | rnet :: rest =>
    match (if del_route_net_match C net rnet
        then del_route_in_rnet C gw_nid rnet.lrn_routes else none) with
    | some (routes', found) =>
      some ((if routes'.isEmpty then rest
             else { rnet with lrn_routes := routes' } :: rest), found)
    | none =>
      match del_route_in_nets C net gw_nid rest with
      | some (rest', found) => some (rnet :: rest', found)
      | none => none

/-- One pass of `lnet_del_route` from the label `again` to the `goto again`: `none` when
the walk reaches the end of the table without a match. -/
def lnet_del_route_pass (C : lnet_consts) (net gw_nid : Nat) (s : lnet_t) : Option lnet_t :=
  match del_route_in_nets C net gw_nid s.ln_remote_nets with
  | none => none
  | some (nets', found) =>
    let s1 := { s with ln_remote_nets := nets',
                       ln_remote_nets_version := s.ln_remote_nets_version + 1 }
    some (lnet_peer_decref_locked found.lr_gateway
      (lnet_rtr_decref_locked found.lr_gateway s1))

/-- The loop of `lnet_del_route`, at most `fuel` passes that delete a route. -/
def lnet_del_route_loop (C : lnet_consts) (net gw_nid : Nat) :
    Nat → lnet_t → Int → lnet_t × Int
  | 0, s, rc => (s, rc)
  | fuel + 1, s, rc =>
    match lnet_del_route_pass C net gw_nid s with
    | none => (s, rc)
    | some s1 => lnet_del_route_loop C net gw_nid fuel s1 0

/-- The routes of the table in enumeration order. -/
def all_routes (s : lnet_t) : List lnet_route :=
  s.ln_remote_nets.flatMap (fun rnet => rnet.lrn_routes)

/-- `lnet_del_route`: every pass deletes one route, so one pass per route of the table
and a last one that finds nothing are enough. -/
def lnet_del_route (C : lnet_consts) (net gw_nid : Nat) (s : lnet_t) : lnet_t × Int :=
  lnet_del_route_loop C net gw_nid ((all_routes s).length + 1) s (-ENOENT)

/-- The list `lp_routes` of a peer: the routes of the table through it. -/
def lp_routes (s : lnet_t) (nid : Nat) : List lnet_route :=
  (all_routes s).filter (fun route => route.lr_gateway == nid)

/-- The (network, gateway) pairs of the table, one per route, the network being the one
of the remote net that owns the route. -/
def route_pairs (s : lnet_t) : List (Nat × Nat) :=
  s.ln_remote_nets.flatMap (fun rnet => rnet.lrn_routes.map (fun r => (rnet.lrn_net, r.lr_gateway)))

/-- A call of the administrative route interface. -/
inductive route_op where
  | add (e : add_route_env) (net hops gateway : Nat)
  | del (net gw_nid : Nat)
  deriving DecidableEq, Repr

def route_step (C : lnet_consts) (s : lnet_t) : route_op → lnet_t
  | .add e net hops gateway => (lnet_add_route C e net hops gateway s).1
  | .del net gw_nid => (lnet_del_route C net gw_nid s).1

/-- The table after a sequence of calls, first call first. -/
def route_run (C : lnet_consts) (s : lnet_t) (ops : List route_op) : lnet_t :=
  ops.foldl (route_step C) s

/-- Well-formedness of the route table: one remote net per network, and within a remote
net one route per gateway. -/
def rnets_wf (nets : List lnet_remotenet) : Prop :=
  (nets.map (fun rnet => rnet.lrn_net)).Nodup ∧
    ∀ rnet ∈ nets, (rnet.lrn_routes.map (fun r => r.lr_gateway)).Nodup

/-- The remote nets `lnet_add_route` leaves when it gets as far as the route table: the
table with a remote net for `net` appended if there was none, and the route linked into
the remote net of `net` unless that already has a route through the gateway. -/
def add_route_nets (rand net hops gateway : Nat) (nets : List lnet_remotenet) :
    List lnet_remotenet :=
  let nets2 :=
    match nets.find? (fun rnet => rnet.lrn_net == net) with
    | none => nets ++ [{ lrn_net := net, lrn_routes := [] }]
    | some _ => nets
  let rnet2 := (nets2.find? (fun rnet => rnet.lrn_net == net)).getD
    { lrn_net := net, lrn_routes := [] }
  if rnet2.lrn_routes.all (fun route2 => route2.lr_gateway != gateway) then
    update_rnet (rnet_insert_route rand
      { lr_net := net, lr_gateway := gateway, lr_hops := hops, lr_downis := 0 }) net nets2
  else nets2

/-- Add `k` to the value of `c` at `nid`. -/
def bump (c : Nat → Int) (nid : Nat) (k : Int) : Nat → Int :=
  fun n => if n = nid then c n + k else c n

/-- The reference-count bookkeeping of the peer table and the router list against a
number of routes `c` per gateway NID and a number `x` of further references held by the
running call: one peer per NID; `lp_rtr_refcount` is the number of routes; the references
of a peer cover the peer table, its routes, the router list and the running call; every
gateway of a route is a peer; the router list holds each gateway of a route once. -/
structure peers_ok (s : lnet_t) (c x : Nat → Int) : Prop where
  nodup : (s.ln_peers.map (fun p => p.lp_nid)).Nodup
  rtr : ∀ p ∈ s.ln_peers, p.lp_rtr_refcount = c p.lp_nid
  ref : ∀ p ∈ s.ln_peers,
    1 + c p.lp_nid + (if 0 < c p.lp_nid then 1 else 0) + x p.lp_nid ≤ p.lp_refcount
  nonneg : ∀ p ∈ s.ln_peers, 0 ≤ c p.lp_nid ∧ 0 ≤ x p.lp_nid
  gw_peer : ∀ nid, 0 < c nid → ∃ p ∈ s.ln_peers, p.lp_nid = nid
  routers_nodup : s.ln_routers.Nodup
  routers : ∀ nid, nid ∈ s.ln_routers ↔ 0 < c nid

/-- The number of routes of the table through the gateway `nid`. -/
def rtr_count (s : lnet_t) (nid : Nat) : Int := ((lp_routes s nid).length : Int)

/-- The invariant of the route table and the router list between calls: the table is
well formed and the reference counts and the router list match the routes. -/
structure route_inv (s : lnet_t) : Prop where
  wf : rnets_wf s.ln_remote_nets
  peers : peers_ok s (rtr_count s) (fun _ => 0)

/-- A state before any route is added: no remote net, no router, one peer per NID, and
each peer with no router reference and at least the reference of the peer table. -/
def route_table_empty (s : lnet_t) : Prop :=
  s.ln_remote_nets = [] ∧ s.ln_routers = [] ∧
    (s.ln_peers.map (fun p => p.lp_nid)).Nodup ∧
    ∀ p ∈ s.ln_peers, p.lp_rtr_refcount = 0 ∧ 1 ≤ p.lp_refcount

/-- A node with one local interface, NID 7 on network `0x20000`, before any route is
configured. -/
def lnet_boot : lnet_t where
  ln_nis := [0x20000 * 2 ^ 32 + 7]
  ln_peers := []
  ln_remote_nets := []
  ln_routers := []
  ln_rcd_deathrow := []
  ln_remote_nets_version := 0
  ln_routers_version := 0

/-- Routes to network `0x20001` through the gateways 1 and 2 of the local network, the
first added twice, then deleted and added again. -/
def route_ops_sample : List route_op :=
  [ .add ⟨true, true, 0⟩ 0x20001 1 (0x20000 * 2 ^ 32 + 1),
    .add ⟨true, true, 5⟩ 0x20001 2 (0x20000 * 2 ^ 32 + 2),
    .add ⟨true, true, 3⟩ 0x20001 4 (0x20000 * 2 ^ 32 + 1),
    .del 0x20001 (0x20000 * 2 ^ 32 + 1),
    .add ⟨true, true, 1⟩ 0x20001 1 (0x20000 * 2 ^ 32 + 1) ]

/-- Every remote net of the table owns a route. -/
def rnets_nonempty (nets : List lnet_remotenet) : Prop :=
  ∀ rnet ∈ nets, rnet.lrn_routes ≠ []

/-- The parameter test of `lnet_add_route` on the network and the gateway, passed. -/
def route_params_ok (C : lnet_consts) (net gateway : Nat) : Prop :=
  gateway ≠ C.LNET_NID_ANY ∧ C.LNET_NETTYP (C.LNET_NIDNET gateway) ≠ C.LOLND ∧
    net ≠ C.LNET_NIDNET C.LNET_NID_ANY ∧ C.LNET_NETTYP net ≠ C.LOLND ∧
    C.LNET_NIDNET gateway ≠ net

/-- Every route of the table is one `lnet_add_route` accepts: its network and gateway
pass the parameter test and its network is not a local one. -/
def routes_valid (C : lnet_consts) (s : lnet_t) : Prop :=
  ∀ p ∈ route_pairs s, route_params_ok C p.1 p.2 ∧ lnet_islocalnet C s p.1 = false

/-- The route entries of the table for the network `net` through the gateway `gw`, in
enumeration order. -/
def routes_of (nets : List lnet_remotenet) (net gw : Nat) : List lnet_route :=
  nets.flatMap (fun rnet =>
    if rnet.lrn_net = net then rnet.lrn_routes.filter (fun r => r.lr_gateway == gw) else [])

/-- What `lnet_get_route` stores through its out pointers. -/
structure route_info where
  net : Nat
  hops : Nat
  gateway : Nat
  alive : Bool
  deriving DecidableEq, Repr

/-- The routes in the order `lnet_get_route` walks them, each with its remote net. -/
def route_entries (s : lnet_t) : List (lnet_remotenet × lnet_route) :=
  s.ln_remote_nets.flatMap (fun rnet => rnet.lrn_routes.map (fun route => (rnet, route)))

/-- `lnet_get_route`: the return code and, with it 0, the values stored through the out
pointers.  A negative `idx` never counts down to 0 within the walk.  `none` when the
gateway of the route is not a peer of the peer table. -/
def lnet_get_route (s : lnet_t) (idx : Int) : Option (Int × Option route_info) :=
  if idx < 0 then some (-ENOENT, none)
  else
    match (route_entries s)[idx.toNat]? with
    | none => some (-ENOENT, none)
    | some (rnet, route) =>
      match lnet_find_peer s route.lr_gateway with
      | none => none
      | some lp =>
        some (0, some { net := rnet.lrn_net, hops := route.lr_hops, gateway := lp.lp_nid,
                        alive := lp.lp_alive })

/-- A node with local interfaces on the networks `0x20000` and `0x20002`, before any
route is configured and any peer is known. -/
def lnet_boot2 : lnet_t :=
  { lnet_boot with ln_nis := [0x20000 * 2 ^ 32 + 7, 0x20002 * 2 ^ 32 + 7] }

/-- A property of peers that does not depend on the reference counts and on `lp_rcd`. -/
def peer_frame (P : lnet_peer → Prop) : Prop :=
  ∀ (p : lnet_peer) (r k : Int) (d : Option Nat),
    P p → P { p with lp_refcount := r, lp_rtr_refcount := k, lp_rcd := d }

/-- The two calls that give the network `net` a route of one hop through `g1` and a route
of two hops through `g2`. -/
def two_gateway_ops (e1 e2 : add_route_env) (net g1 g2 : Nat) : List route_op :=
  [.add e1 net 1 g1, .add e2 net 2 g2]

/-! ## LNet: the routes a deletion matches -/

/-- The routes of the table in enumeration order, each with the network of the remote
net that owns it. -/
def net_routes (nets : List lnet_remotenet) : List (Nat × lnet_route) :=
  nets.flatMap (fun rnet => rnet.lrn_routes.map (fun route => (rnet.lrn_net, route)))

/-- The two tests of `lnet_del_route` on a route of the table: the network is the
wildcard or the one of the remote net, and the gateway is the wildcard or the one of the
route. -/
def del_route_match (C : lnet_consts) (net gw_nid : Nat) (e : Nat × lnet_route) : Bool :=
  (net == C.LNET_NIDNET C.LNET_NID_ANY || net == e.1) &&
    (gw_nid == C.LNET_NID_ANY || gw_nid == e.2.lr_gateway)

/-- `lnet_destroy_routes`. -/
def lnet_destroy_routes (C : lnet_consts) (s : lnet_t) : lnet_t :=
  (lnet_del_route C (C.LNET_NIDNET C.LNET_NID_ANY) C.LNET_NID_ANY s).1

/-! ## MDT: constants and byte order -/

/-- The constants of `lustre_disk.h` and `lustre_idl.h` the ledger code uses and the byte
order of the host; the headers are not part of the sources, so the development is
parametric in them. -/
structure mdt_consts where
  big_endian : Bool
  LR_MAX_CLIENTS : Nat
  LR_SERVER_SIZE : Nat
  LR_CLIENT_START : Nat
  LR_CLIENT_SIZE : Nat
  MDT_INCOMPAT_SUPP : Nat
  MDT_ROCOMPAT_SUPP : Nat
  OBD_INCOMPAT_MDT : Nat
  OBD_INCOMPAT_COMMON_LR : Nat
  OBD_ROCOMPAT_LOVOBJID : Nat
  OBD_COMPAT_MDT : Nat
  MDS_CLOSE : Nat

/-- The values the Lustre headers give the constants, on a little-endian host. -/
def lustre_disk_h : mdt_consts where
  big_endian := false
  LR_MAX_CLIENTS := 32768
  LR_SERVER_SIZE := 512
  LR_CLIENT_START := 8192
  LR_CLIENT_SIZE := 128
  MDT_INCOMPAT_SUPP := 9
  MDT_ROCOMPAT_SUPP := 1
  OBD_INCOMPAT_MDT := 1
  OBD_INCOMPAT_COMMON_LR := 8
  OBD_ROCOMPAT_LOVOBJID := 1
  OBD_COMPAT_MDT := 8
  MDS_CLOSE := 35

/-- The same layout with room for four clients only, for evaluation. -/
def lustre_disk_small : mdt_consts :=
  { lustre_disk_h with LR_MAX_CLIENTS := 4 }

/-- The same constants on a big-endian host. -/
def lustre_disk_be : mdt_consts :=
  { lustre_disk_h with big_endian := true }

def swab16 (v : Nat) : Nat := (v % 256) * 256 + (v / 256) % 256

def swab32 (v : Nat) : Nat := swab16 (v % 65536) * 65536 + swab16 ((v / 65536) % 65536)

def swab64 (v : Nat) : Nat := swab32 (v % 2 ^ 32) * 2 ^ 32 + swab32 ((v / 2 ^ 32) % 2 ^ 32)

def cpu_to_le16 (K : mdt_consts) (v : Nat) : Nat := if K.big_endian then swab16 v else v

def le16_to_cpu (K : mdt_consts) (v : Nat) : Nat := if K.big_endian then swab16 v else v

def cpu_to_le32 (K : mdt_consts) (v : Nat) : Nat := if K.big_endian then swab32 v else v

def le32_to_cpu (K : mdt_consts) (v : Nat) : Nat := if K.big_endian then swab32 v else v

def cpu_to_le64 (K : mdt_consts) (v : Nat) : Nat := if K.big_endian then swab64 v else v

def le64_to_cpu (K : mdt_consts) (v : Nat) : Nat := if K.big_endian then swab64 v else v

/-- The conversion of an `int` to `__u32`. -/
def as_u32 (r : Int) : Nat := (r % 2 ^ 32).toNat

/-- The conversion of a `__u32` to `int`. -/
def as_s32 (n : Nat) : Int :=
  if n % 2 ^ 32 < 2 ^ 31 then ((n % 2 ^ 32 : Nat) : Int) else ((n % 2 ^ 32 : Nat) : Int) - 2 ^ 32

/-- The string a `char` array holds: the bytes before the first NUL. -/
def cstr (bytes : List Nat) : List Nat := bytes.takeWhile (fun b => b != 0)

/-! ## MDT: data model -/

/-- `struct mdt_client_data`, a client record of the ledger.  The numbers are the stored,
little-endian values of the fields; `mcd_uuid` holds the bytes of the identity. -/
structure mdt_client_data where
  mcd_uuid : List Nat
  mcd_last_transno : Nat
  mcd_last_xid : Nat
  mcd_last_result : Nat
  mcd_last_data : Nat
  mcd_last_close_transno : Nat
  mcd_last_close_xid : Nat
  mcd_last_close_result : Nat
  deriving DecidableEq, Repr

/-- The record `memset(mcd, 0, sizeof *mcd)` leaves. -/
def mcd_zero : mdt_client_data where
  mcd_uuid := List.replicate 40 0
  mcd_last_transno := 0
  mcd_last_xid := 0
  mcd_last_result := 0
  mcd_last_data := 0
  mcd_last_close_transno := 0
  mcd_last_close_xid := 0
  mcd_last_close_result := 0

/-- The test `mcd->mcd_uuid[0] == '\0'` of `mdt_init_clients_data` for an empty slot. -/
def mcd_empty (mcd : mdt_client_data) : Bool := mcd.mcd_uuid.headD 0 == 0

/-- Modelled from the spec: `mcd_last_transno` (mdt_internal.h is not part of the
sources), the last transaction number of a client record: the larger of its last
transno and its last-close transno. -/
def mcd_last_transno (K : mdt_consts) (mcd : mdt_client_data) : Nat :=
  max (le64_to_cpu K mcd.mcd_last_transno) (le64_to_cpu K mcd.mcd_last_close_transno)

/-- `struct mdt_server_data`, the header of the ledger, as stored. -/
structure mdt_server_data where
  msd_uuid : List Nat
  msd_last_transno : Nat
  msd_mount_count : Nat
  msd_unused : Nat
  msd_feature_compat : Nat
  msd_feature_rocompat : Nat
  msd_feature_incompat : Nat
  msd_server_size : Nat
  msd_client_start : Nat
  msd_client_size : Nat
  deriving DecidableEq, Repr

/-- The ledger file `last_rcvd`: its size, the header at offset 0 and the client record
at each byte offset.  Records are read and written whole; a transfer that does not
complete leaves the file as it was.  A write changes the record at its own offset and
no other, which is what the file does as long as the records in use share no byte with
each other or with the header (`ledger_slots_apart`). -/
structure last_rcvd_file where
  la_size : Nat
  header : mdt_server_data
  client : Nat → mdt_client_data

/-- `struct mdt_export_data`. -/
structure mdt_export_data where
  med_mcd : Option mdt_client_data
  med_lr_idx : Int
  med_lr_off : Int
  deriving DecidableEq, Repr

/-- `struct obd_export`, the connection context of a client. -/
structure obd_export where
  exp_client_uuid : List Nat
  exp_mdt_data : mdt_export_data
  exp_replay_needed : Bool
  exp_connecting : Bool
  exp_failed : Bool
  deriving DecidableEq, Repr

/-- `struct obd_device`, the fields the recovery code touches. -/
structure obd_device where
  obd_uuid : List Nat
  obd_last_committed : Nat
  obd_recoverable_clients : Int
  obd_max_recoverable_clients : Int
  obd_next_recovery_transno : Nat
  obd_recovering : Bool
  obd_exports : List obd_export
  deriving DecidableEq, Repr

/-- What the ledger code does to the bitmap and the file, and its calls of
`ptlrpc_commit_replies`, in the order of execution. -/
inductive mdt_event where
  | set_bit (idx : Nat)
  | clear_bit (idx : Nat)
  | write_client (off : Int) (mcd : mdt_client_data) (rc : Int)
  | write_header (msd : mdt_server_data) (rc : Int)
  | commit_replies
  deriving DecidableEq, Repr

/-- `struct mdt_device`: the in-memory header, the transaction sequencer, the slot
bitmap, the ledger file and the obd device, with the record `mdt_trace` of the events
so far, oldest first. -/
structure mdt_device where
  mdt_msd : mdt_server_data
  mdt_last_transno : Nat
  mdt_mount_count : Nat
  mdt_client_bitmap : Nat → Bool
  mdt_last_rcvd : last_rcvd_file
  mdt_obd : obd_device
  mdt_trace : List mdt_event

/-- The reply message of a request: the fields the recovery code sets. -/
structure lustre_msg where
  lm_transno : Nat
  lm_status : Int
  lm_last_xid : Nat
  deriving DecidableEq, Repr

/-- `struct ptlrpc_request`; `rq_opc` is the opcode of the request message, `rq_repmsg`
is `none` when no reply has been packed, `rq_export` is `none` for a NULL export. -/
structure ptlrpc_request where
  rq_xid : Nat
  rq_opc : Nat
  rq_transno : Nat
  rq_status : Int
  rq_repmsg : Option lustre_msg
  rq_export : Option obd_export
  deriving DecidableEq, Repr

/-- `struct mdt_thread_info`; `mti_mdt` tells whether the pointer `mti_mdt` is set,
`mti_req` is the request `mdt_info_req` returns. -/
structure mdt_thread_info where
  mti_mdt : Bool
  mti_transno : Nat
  mti_opdata : Nat
  mti_req : Option ptlrpc_request
  deriving DecidableEq, Repr

/-! ## MDT: ledger file access -/

/-- The offset of the slot `cl_idx`, `le32_to_cpu(msd_client_start) + cl_idx *
le16_to_cpu(msd_client_size)` in 32-bit unsigned arithmetic. -/
def slot_off (K : mdt_consts) (msd : mdt_server_data) (cl_idx : Nat) : Nat :=
  (le32_to_cpu K msd.msd_client_start + cl_idx * le16_to_cpu K msd.msd_client_size) % 2 ^ 32

/-- Modelled from the spec: `dbo_read` of the storage object (the dt layer is not part
of the sources) returns the injected error `fault` if that is negative and else the
number of bytes of the file in the range asked for. -/
def dbo_read (f : last_rcvd_file) (fault : Int) (count off : Nat) : Int :=
  if fault < 0 then fault else ((min count (f.la_size - off) : Nat) : Int)

/-- `mdt_read_record`, on the value `rc` that `dbo_read` returned. -/
def mdt_read_record (rc : Int) (count : Nat) : Int :=
  if rc = count then 0 else if 0 ≤ rc then -EFAULT else rc

/-- `mdt_write_record`, on the value `rc` that `dbo_write` returned. -/
def mdt_write_record (rc : Int) (count : Nat) : Int :=
  if rc = count then 0 else if 0 ≤ rc then -EFAULT else rc

/-- `mdt_write_last_rcvd`: write the client record `mcd` at `off`; `wr` is the value
`dbo_write` returns, the record is in the file when that is the record size.  The
`sizeof(*mcd)` bytes written, `LR_CLIENT_SIZE` of them, are those of the record at `off`;
records that begin less than `LR_CLIENT_SIZE` bytes away (`records_overlap`) are outside
the model. -/
def mdt_write_last_rcvd (K : mdt_consts) (wr : Int) (mcd : mdt_client_data) (off : Int)
    (mdt : mdt_device) : mdt_device × Int :=
  let rc := mdt_write_record wr K.LR_CLIENT_SIZE
  let f := mdt.mdt_last_rcvd
  let f' : last_rcvd_file :=
    if wr = K.LR_CLIENT_SIZE then
      { f with client := fun o => if o = off.toNat then mcd else f.client o,
               la_size := max f.la_size (off.toNat + K.LR_CLIENT_SIZE) }
    else f
  ({ mdt with mdt_last_rcvd := f',
              mdt_trace := mdt.mdt_trace ++ [mdt_event.write_client off mcd rc] }, rc)

/-- `mdt_write_last_rcvd_header`: write the header `msd` at offset 0. -/
def mdt_write_last_rcvd_header (K : mdt_consts) (wr : Int) (msd : mdt_server_data)
    (mdt : mdt_device) : mdt_device × Int :=
  let rc := mdt_write_record wr K.LR_SERVER_SIZE
  let f := mdt.mdt_last_rcvd
  let f' : last_rcvd_file :=
    if wr = K.LR_SERVER_SIZE then
      { f with header := msd, la_size := max f.la_size K.LR_SERVER_SIZE }
    else f
  ({ mdt with mdt_last_rcvd := f',
              mdt_trace := mdt.mdt_trace ++ [mdt_event.write_header msd rc] }, rc)

/-- `mdt_update_server_data`. -/
def mdt_update_server_data (K : mdt_consts) (wr : Int) (mdt : mdt_device) : mdt_device × Int :=
  let msd := { mdt.mdt_msd with msd_last_transno := cpu_to_le64 K mdt.mdt_last_transno }
  mdt_write_last_rcvd_header K wr msd { mdt with mdt_msd := msd }

/-! ## MDT: client slots -/

/-- The scan of `find_next_zero_bit`: the first clear bit among the `n` bits from `i`
on, and `i + n` if they are all set. -/
def find_zero_from (bitmap : Nat → Bool) : Nat → Nat → Nat
  | 0, i => i
  | n + 1, i => if bitmap i then find_zero_from bitmap n (i + 1) else i

/-- `find_next_zero_bit(bitmap, size, offset)`: the first clear bit from `offset` on
below `size`, and `size` if there is none. -/
def find_next_zero_bit (bitmap : Nat → Bool) (size offset : Nat) : Nat :=
  if size ≤ offset then size else find_zero_from bitmap (size - offset) offset

/-- `find_first_zero_bit(bitmap, size)`. -/
def find_first_zero_bit (bitmap : Nat → Bool) (size : Nat) : Nat :=
  find_next_zero_bit bitmap size 0

def set_bit (idx : Nat) (bitmap : Nat → Bool) : Nat → Bool :=
  fun i => if i = idx then true else bitmap i

def clear_bit (idx : Nat) (bitmap : Nat → Bool) : Nat → Bool :=
  fun i => if i = idx then false else bitmap i

/-- Results of the calls `mdt_client_add` makes out of the ledger code: whether the fault
injection point `OBD_FAIL_MDS_CLIENT_ADD` fires, and the value `dbo_write` returns. -/
structure client_add_env where
  fail_check : Bool
  wr : Int
  deriving DecidableEq, Repr

/-- The loop at the label `repeat` of `mdt_client_add`, from the candidate `cl_idx`:
`some none` for `-EOVERFLOW`, `some (some idx)` for the slot taken, whose bit
`test_and_set_bit` has set; `none` when `fuel` rounds do not end it. -/
def mdt_client_add_repeat (K : mdt_consts) (fail_check : Bool) (bitmap : Nat → Bool) :
    Nat → Nat → Option (Option Nat)
  | 0, _ => none
  | fuel + 1, cl_idx =>
    if cl_idx ≥ K.LR_MAX_CLIENTS ∨ fail_check then some none
    else if bitmap cl_idx then
      mdt_client_add_repeat K fail_check bitmap fuel
        (find_next_zero_bit bitmap K.LR_MAX_CLIENTS cl_idx)
    else some (some cl_idx)

/-- `mdt_client_add`: the device, the export data and the return code; `none` when an
assertion fails. -/
def mdt_client_add (K : mdt_consts) (e : client_add_env) (mdt : mdt_device)
    (med : mdt_export_data) (cl_idx : Int) : Option (mdt_device × mdt_export_data × Int) :=
  if cl_idx ≤ -2 then none
  else
    let new_client := decide (cl_idx = -1)
    let slot : Option (Option Nat) :=
      if new_client then
        mdt_client_add_repeat K e.fail_check mdt.mdt_client_bitmap (K.LR_MAX_CLIENTS + 1)
          (find_first_zero_bit mdt.mdt_client_bitmap K.LR_MAX_CLIENTS)
      else if mdt.mdt_client_bitmap cl_idx.toNat then none
      else some (some cl_idx.toNat)
    match slot with
    | none => none
    | some none => some (mdt, med, -EOVERFLOW)
    | some (some idx) =>
      let mdt1 := { mdt with
        mdt_client_bitmap := set_bit idx mdt.mdt_client_bitmap,
        mdt_trace := mdt.mdt_trace ++ [mdt_event.set_bit idx] }
      let med1 := { med with med_lr_idx := (idx : Int),
                             med_lr_off := (slot_off K mdt.mdt_msd idx : Int) }
      if ¬ (0 < med1.med_lr_off) then none
      else if new_client then
        match med.med_mcd with
        | none => none
        | some mcd =>
          match mdt_write_last_rcvd K e.wr mcd med1.med_lr_off mdt1 with
          | (mdt2, rc) => some (mdt2, med1, rc)
      else some (mdt1, med1, 0)

/-- `mdt_client_free`; `wr` is the value `dbo_write` returns for the zeroed record,
`wr_hdr` the one for the header. -/
def mdt_client_free (K : mdt_consts) (wr wr_hdr : Int) (mdt : mdt_device)
    (med : mdt_export_data) : Option (mdt_device × mdt_export_data × Int) :=
  match med.med_mcd with
  | none => some (mdt, med, 0)
  | some mcd =>
    if cstr mcd.mcd_uuid = cstr mdt.mdt_obd.obd_uuid then
      some (mdt, { med with med_mcd := none }, 0)
    else if med.med_lr_off ≤ 0 then
      some (mdt, { med with med_mcd := none }, 0)
    else if !mdt.mdt_client_bitmap med.med_lr_idx.toNat then none
    else
      match mdt_write_last_rcvd K wr mcd_zero med.med_lr_off mdt with
      | (mdt1, _) =>
        if !mdt1.mdt_client_bitmap med.med_lr_idx.toNat then none
        else
          let mdt2 := { mdt1 with
            mdt_client_bitmap := clear_bit med.med_lr_idx.toNat mdt1.mdt_client_bitmap,
            mdt_trace := mdt1.mdt_trace ++ [mdt_event.clear_bit med.med_lr_idx.toNat] }
          some ((mdt_update_server_data K wr_hdr mdt2).1, { med with med_mcd := none }, 0)

/-! ## MDT: transaction callbacks -/

/-- `mdt_update_last_rcvd`, for a transaction with result `th_result`; `wr` is the value
`dbo_write` returns.  `none` when an assertion fails or a NULL record is used. -/
def mdt_update_last_rcvd (K : mdt_consts) (wr : Int) (mdt : mdt_device)
    (mti : mdt_thread_info) (th_result : Int) : Option (mdt_device × mdt_thread_info × Int) :=
  match mti.mti_req with
  | none => none
  | some req =>
    match req.rq_export with
    | none => none
    | some exp =>
      if exp.exp_failed then
        some (mdt, mti, if th_result = 0 then -ENOTCONN else th_result)
      else
        match exp.exp_mdt_data.med_mcd with
        | none => none
        | some mcd =>
          let mcd1 : mdt_client_data :=
            if req.rq_opc = K.MDS_CLOSE then
              { mcd with mcd_last_close_transno := cpu_to_le64 K mti.mti_transno,
                         mcd_last_close_xid := cpu_to_le64 K req.rq_xid,
                         mcd_last_close_result := cpu_to_le32 K (as_u32 th_result) }
            else
              { mcd with mcd_last_transno := cpu_to_le64 K mti.mti_transno,
                         mcd_last_xid := cpu_to_le64 K req.rq_xid,
                         mcd_last_result := cpu_to_le32 K (as_u32 th_result),
                         mcd_last_data := cpu_to_le32 K mti.mti_opdata }
          let med1 := { exp.exp_mdt_data with med_mcd := some mcd1 }
          let req1 := { req with rq_export := some { exp with exp_mdt_data := med1 } }
          let mti1 := { mti with mti_req := some req1 }
          if med1.med_lr_off ≤ 0 then some (mdt, mti1, -EINVAL)
          else
            match mdt_write_last_rcvd K wr mcd1 med1.med_lr_off mdt with
            | (mdt1, err) => some (mdt1, mti1, err)

/-- The sequencer step of `mdt_txn_stop_cb`, under `mdt_transno_lock`: a failed
transaction loses its transno, a new one is assigned `++mdt_last_transno`, a replayed
one raises `mdt_last_transno` to its transno. -/
def txn_stop_transno (mdt : mdt_device) (mti : mdt_thread_info) (th_result : Int) :
    mdt_device × mdt_thread_info :=
  if th_result ≠ 0 then
    (mdt, if mti.mti_transno ≠ 0 then { mti with mti_transno := 0 } else mti)
  else if mti.mti_transno = 0 then
    ({ mdt with mdt_last_transno := (mdt.mdt_last_transno + 1) % 2 ^ 64 },
     { mti with mti_transno := (mdt.mdt_last_transno + 1) % 2 ^ 64 })
  else if mti.mti_transno > mdt.mdt_last_transno then
    ({ mdt with mdt_last_transno := mti.mti_transno }, mti)
  else (mdt, mti)

/-- The rest of `mdt_txn_stop_cb`: fill the reply, save the transno for the commit
callback and update the ledger.  The result carries the value left in `txi_transno`. -/
def txn_stop_reply (K : mdt_consts) (wr : Int) (mdt : mdt_device) (mti : mdt_thread_info)
    (th_result : Int) : Option (mdt_device × mdt_thread_info × Nat × Int) :=
  match mti.mti_req with
  | none => none
  | some req =>
    match req.rq_repmsg with
    | none => none
    | some rep =>
      match req.rq_export with
      | none => none
      | some exp =>
        match exp.exp_mdt_data.med_mcd with
        | none => none
        | some mcd =>
          let rep1 := { rep with lm_transno := mti.mti_transno,
                                 lm_last_xid := le64_to_cpu K mcd.mcd_last_xid }
          let req1 := { req with rq_transno := mti.mti_transno, rq_repmsg := some rep1 }
          match mdt_update_last_rcvd K wr mdt { mti with mti_req := some req1 } th_result with
          | none => none
          | some (mdt1, mti1, rc) => some (mdt1, mti1, mti.mti_transno, rc)

/-- `mdt_txn_stop_cb`: the device, the thread info, the value left in `txi_transno` and
the return code; `none` when an assertion fails.  The call of `target_committed_to_req`,
which is not in the sources and writes only the last-committed field of the reply, is
left out. -/
def mdt_txn_stop_cb (K : mdt_consts) (wr : Int) (mdt : mdt_device) (mti : mdt_thread_info)
    (th_result : Int) : Option (mdt_device × mdt_thread_info × Nat × Int) :=
  if !mti.mti_mdt then some (mdt, mti, 0, 0)
  else
    txn_stop_reply K wr (txn_stop_transno mdt mti th_result).1
      (txn_stop_transno mdt mti th_result).2 th_result

/-- `mdt_txn_commit_cb`, for the transaction number `txi_transno` saved by the stop
callback. -/
def mdt_txn_commit_cb (mdt : mdt_device) (txi_transno : Nat) : mdt_device × Int :=
  if txi_transno > mdt.mdt_obd.obd_last_committed then
    ({ mdt with mdt_obd := { mdt.mdt_obd with obd_last_committed := txi_transno },
                mdt_trace := mdt.mdt_trace ++ [mdt_event.commit_replies] }, 0)
  else (mdt, 0)

/-- `mdt_req_from_mcd`; `none` when the request has no reply message. -/
def mdt_req_from_mcd (req : ptlrpc_request) (mcd : mdt_client_data) : Option ptlrpc_request :=
  match req.rq_repmsg with
  | none => none
  | some rep =>
    some { req with
      rq_transno := mcd.mcd_last_transno,
      rq_status := as_s32 mcd.mcd_last_result,
      rq_repmsg := some { rep with lm_transno := mcd.mcd_last_transno,
                                   lm_status := as_s32 mcd.mcd_last_result } }

/-- `mdt_reconstruct_generic`. -/
def mdt_reconstruct_generic (mti : mdt_thread_info) : Option mdt_thread_info :=
  match mti.mti_req with
  | none => none
  | some req =>
    match req.rq_export with
    | none => none
    | some exp =>
      match exp.exp_mdt_data.med_mcd with
      | none => none
      | some mcd =>
        match mdt_req_from_mcd req mcd with
        | none => none
        | some req1 => some { mti with mti_req := some req1 }

/-! ## MDT: loading the ledger -/

/-- Results of the calls `mdt_init_server_data` makes out of the ledger code: the return
code of `do_attr_get`, the error injected into the read of the header and into the read
of each slot, whether `OBD_ALLOC_WAIT` of a record buffer succeeds and whether
`class_new_export` succeeds in the round of each slot, and the value `dbo_write` returns
for the header. -/
structure init_env where
  attr_rc : Int
  header_fault : Int
  slot_fault : Nat → Int
  mcd_alloc_ok : Nat → Bool
  export_ok : Nat → Bool
  header_wr : Int

/-- Modelled from the spec: `class_new_export` (obdclass is not part of the sources)
creates the connection context of a client identity, with no ledger slot yet. -/
def class_new_export (uuid : List Nat) : obd_export where
  exp_client_uuid := uuid
  exp_mdt_data := { med_mcd := none, med_lr_idx := 0, med_lr_off := 0 }
  exp_replay_needed := false
  exp_connecting := true
  exp_failed := false

/-- The loop of `mdt_init_clients_data` from the round of slot `cl_idx` on, entered with
the file position `off`; `have_mcd` tells whether a record buffer is at hand.  `none`
when an assertion fails or `fuel` rounds do not end the loop. -/
def mdt_init_clients_loop (K : mdt_consts) (e : init_env) (last_size : Nat) :
    Nat → Nat → Nat → Bool → mdt_device → Option (mdt_device × Int)
  | 0, _, _, _, _ => none
  | fuel + 1, cl_idx, off, have_mcd, mdt =>
    if ¬ (off < last_size) then some (mdt, 0)
    else if !have_mcd && !e.mcd_alloc_ok cl_idx then some (mdt, -ENOMEM)
    else
      let off1 := slot_off K mdt.mdt_msd cl_idx
      let n := dbo_read mdt.mdt_last_rcvd (e.slot_fault cl_idx) K.LR_CLIENT_SIZE off1
      let off2 := off1 + n.toNat
      if mdt_read_record n K.LR_CLIENT_SIZE ≠ 0 then some (mdt, 0)
      else
        let mcd := mdt.mdt_last_rcvd.client off1
        if mcd_empty mcd then
          mdt_init_clients_loop K e last_size fuel (cl_idx + 1) off2 true mdt
        else if !e.export_ok cl_idx then
          mdt_init_clients_loop K e last_size fuel (cl_idx + 1) off2 true mdt
        else
          let last_transno := mcd_last_transno K mcd
          let exp := class_new_export mcd.mcd_uuid
          match mdt_client_add K ⟨false, 0⟩ mdt
              { exp.exp_mdt_data with med_mcd := some mcd } (cl_idx : Int) with
          | none => none
          | some (mdt1, med1, rc) =>
            if rc ≠ 0 then none
            else
              let exp1 := { exp with exp_mdt_data := med1, exp_replay_needed := true,
                                     exp_connecting := false }
              let obd := mdt1.mdt_obd
              let obd1 := { obd with
                obd_exports := obd.obd_exports ++ [exp1],
                obd_recoverable_clients := obd.obd_recoverable_clients + 1,
                obd_max_recoverable_clients := obd.obd_max_recoverable_clients + 1 }
              let mdt2 := { mdt1 with
                mdt_obd := obd1,
                mdt_last_transno :=
                  if last_transno > mdt1.mdt_last_transno then last_transno
                  else mdt1.mdt_last_transno }
              mdt_init_clients_loop K e last_size fuel (cl_idx + 1) off2 false mdt2

/-- `mdt_init_clients_data`: every round reads a slot at a higher offset, so one round
per byte of the file is enough. -/
def mdt_init_clients_data (K : mdt_consts) (e : init_env) (mdt : mdt_device)
    (last_size : Nat) : Option (mdt_device × Int) :=
  mdt_init_clients_loop K e last_size (last_size + 1) 0
    (le32_to_cpu K mdt.mdt_msd.msd_client_start) false mdt

/-- Modelled from the spec: `class_disconnect_exports` (obdclass is not part of the
sources) drops the connection contexts of the device. -/
def class_disconnect_exports (mdt : mdt_device) : mdt_device :=
  { mdt with mdt_obd := { mdt.mdt_obd with obd_exports := [] } }

/-- The header of `mdt_init_server_data` for a new disk. -/
def msd_new_disk (K : mdt_consts) (msd : mdt_server_data) (obd_uuid : List Nat) :
    mdt_server_data :=
  { msd with
    msd_uuid := obd_uuid,
    msd_last_transno := 0,
    msd_mount_count := 0,
    msd_server_size := cpu_to_le32 K K.LR_SERVER_SIZE,
    msd_client_start := cpu_to_le32 K K.LR_CLIENT_START,
    msd_client_size := cpu_to_le16 K K.LR_CLIENT_SIZE,
    msd_feature_rocompat := cpu_to_le32 K K.OBD_ROCOMPAT_LOVOBJID,
    msd_feature_incompat := cpu_to_le32 K (K.OBD_INCOMPAT_MDT ||| K.OBD_INCOMPAT_COMMON_LR) }

/-- The bits of the 32-bit value `v` outside the mask `m`: `v & ~m`. -/
def bits_outside (v m : Nat) : Nat := (v % 2 ^ 32) &&& (2 ^ 32 - 1 - m % 2 ^ 32)

/-- The part of `mdt_init_server_data` from the check of the sizes on, with the header
in its current format in memory and the sequencer set from it. -/
def mdt_init_server_load (K : mdt_consts) (e : init_env) (mdt1 : mdt_device)
    (last_rcvd_size : Nat) : Option (mdt_device × Int) :=
  let msd2 := mdt1.mdt_msd
  if msd2.msd_server_size = 0 ∨ msd2.msd_client_start = 0 ∨ msd2.msd_client_size = 0 then
    some (mdt1, -EINVAL)
  else
    match mdt_init_clients_data K e mdt1 last_rcvd_size with
    | none => none
    | some (mdt2, rc) =>
      if rc ≠ 0 then some (class_disconnect_exports mdt2, rc)
      else
        let obd := mdt2.mdt_obd
        let obd1 := { obd with obd_last_committed := mdt2.mdt_last_transno }
        let obd2 :=
          if obd1.obd_recoverable_clients ≠ 0 then
            { obd1 with obd_next_recovery_transno := obd1.obd_last_committed + 1,
                        obd_recovering := true }
          else obd1
        let mdt3 := { mdt2 with
          mdt_obd := obd2,
          mdt_mount_count := mdt2.mdt_mount_count + 1,
          mdt_msd := { mdt2.mdt_msd with
            msd_mount_count := cpu_to_le64 K (mdt2.mdt_mount_count + 1) } }
        match mdt_update_server_data K e.header_wr mdt3 with
        | (mdt4, rc4) =>
          if rc4 ≠ 0 then some (class_disconnect_exports mdt4, rc4)
          else some (mdt4, 0)

/-- The header of `mdt_init_server_data` after the feature checks: a header of the old
format (without `OBD_INCOMPAT_COMMON_LR`) has its fields moved to their current places,
and `msd_feature_compat` is set. -/
def msd_current_format (K : mdt_consts) (msd : mdt_server_data) : mdt_server_data :=
  let msd1 :=
    if msd.msd_feature_incompat &&& cpu_to_le32 K K.OBD_INCOMPAT_COMMON_LR = 0 then
      { msd with msd_mount_count := msd.msd_last_transno,
                 msd_last_transno := msd.msd_unused }
    else msd
  { msd1 with msd_feature_compat := cpu_to_le32 K K.OBD_COMPAT_MDT }

/-- The part of `mdt_init_server_data` from the feature checks on, with the header `msd`
in memory. -/
def mdt_init_server_tail (K : mdt_consts) (e : init_env) (mdt : mdt_device)
    (last_rcvd_size : Nat) : Option (mdt_device × Int) :=
  let msd := mdt.mdt_msd
  if bits_outside msd.msd_feature_incompat (cpu_to_le32 K K.MDT_INCOMPAT_SUPP) ≠ 0 then
    some (mdt, -EINVAL)
  else if bits_outside msd.msd_feature_rocompat (cpu_to_le32 K K.MDT_ROCOMPAT_SUPP) ≠ 0 then
    some (mdt, -EINVAL)
  else
    let msd2 := msd_current_format K msd
    mdt_init_server_load K e
      { mdt with mdt_msd := msd2, mdt_last_transno := le64_to_cpu K msd2.msd_last_transno }
      last_rcvd_size

/-- `mdt_init_server_data`: the device and the return code.  The recovery clock
(`obd_recovery_start`, `obd_recovery_end`) is left out. -/
def mdt_init_server_data (K : mdt_consts) (e : init_env) (mdt : mdt_device) :
    Option (mdt_device × Int) :=
  if e.attr_rc ≠ 0 then some (mdt, e.attr_rc)
  else
    let last_rcvd_size := mdt.mdt_last_rcvd.la_size
    if last_rcvd_size = 0 then
      mdt_init_server_tail K e
        { mdt with mdt_msd := msd_new_disk K mdt.mdt_msd mdt.mdt_obd.obd_uuid } last_rcvd_size
    else
      let rc := mdt_read_record
        (dbo_read mdt.mdt_last_rcvd e.header_fault K.LR_SERVER_SIZE 0) K.LR_SERVER_SIZE
      if rc ≠ 0 then some (mdt, rc)
      else
        let mdt1 := { mdt with mdt_msd := mdt.mdt_last_rcvd.header }
        if cstr mdt1.mdt_msd.msd_uuid ≠ cstr mdt.mdt_obd.obd_uuid then some (mdt1, -EINVAL)
        else mdt_init_server_tail K e mdt1 last_rcvd_size

/-! ## MDT: sample ledger -/

/-- The 40-byte identity field holding the string `name`. -/
def uuid_field (name : List Nat) : List Nat := name ++ List.replicate (40 - name.length) 0

/-- A header in the current format: server `MDT`, last transno 41, third mount. -/
def msd_sample : mdt_server_data where
  msd_uuid := uuid_field [77, 68, 84]
  msd_last_transno := 41
  msd_mount_count := 3
  msd_unused := 0
  msd_feature_compat := 8
  msd_feature_rocompat := 1
  msd_feature_incompat := 9
  msd_server_size := 512
  msd_client_start := 8192
  msd_client_size := 128

/-- The record of the client whose identity is the one byte `c`, with last transno `t`,
last xid `x` and last result `r`. -/
def mcd_sample (c t x r : Nat) : mdt_client_data where
  mcd_uuid := uuid_field [c]
  mcd_last_transno := t
  mcd_last_xid := x
  mcd_last_result := r
  mcd_last_data := 0
  mcd_last_close_transno := 0
  mcd_last_close_xid := 0
  mcd_last_close_result := 0

/-- A ledger of three slots: client 65 in slot 0, slot 1 empty, client 66 in slot 2. -/
def last_rcvd_sample : last_rcvd_file where
  la_size := 8192 + 3 * 128
  header := msd_sample
  client := fun off =>
    if off = 8192 then mcd_sample 65 42 7 0
    else if off = 8192 + 256 then mcd_sample 66 40 9 0
    else mcd_zero

/-- The obd device of server `MDT` before setup. -/
def obd_sample : obd_device where
  obd_uuid := uuid_field [77, 68, 84]
  obd_last_committed := 0
  obd_recoverable_clients := 0
  obd_max_recoverable_clients := 0
  obd_next_recovery_transno := 0
  obd_recovering := false
  obd_exports := []

/-- The zeroed header of a device before setup. -/
def msd_zero : mdt_server_data where
  msd_uuid := List.replicate 40 0
  msd_last_transno := 0
  msd_mount_count := 0
  msd_unused := 0
  msd_feature_compat := 0
  msd_feature_rocompat := 0
  msd_feature_incompat := 0
  msd_server_size := 0
  msd_client_start := 0
  msd_client_size := 0

/-- A device before setup on the sample ledger. -/
def mdt_sample : mdt_device where
  mdt_msd := msd_zero
  mdt_last_transno := 0
  mdt_mount_count := 0
  mdt_client_bitmap := fun _ => false
  mdt_last_rcvd := last_rcvd_sample
  mdt_obd := obd_sample
  mdt_trace := []

/-- An environment in which every outside call succeeds. -/
def init_env_ok : init_env where
  attr_rc := 0
  header_fault := 0
  slot_fault := fun _ => 0
  mcd_alloc_ok := fun _ => true
  export_ok := fun _ => true
  header_wr := 512

/-- The device in service: the sample ledger loaded, with the header and slots 0 and 2
in use and the sequencer at `last_transno`. -/
def mdt_running (last_transno : Nat) : mdt_device where
  mdt_msd := msd_sample
  mdt_last_transno := last_transno
  mdt_mount_count := 1
  mdt_client_bitmap := fun i => i == 0 || i == 2
  mdt_last_rcvd := last_rcvd_sample
  mdt_obd := { obd_sample with obd_last_committed := 41 }
  mdt_trace := []

/-- The export of client 65 in slot 0 of the sample ledger. -/
def exp_sample : obd_export where
  exp_client_uuid := uuid_field [65]
  exp_mdt_data := { med_mcd := some (mcd_sample 65 42 7 0), med_lr_idx := 0, med_lr_off := 8192 }
  exp_replay_needed := false
  exp_connecting := false
  exp_failed := false

/-- A request of client 65 with xid `xid` and opcode `opc`, its reply packed. -/
def req_sample (xid opc : Nat) (exp : obd_export) : ptlrpc_request where
  rq_xid := xid
  rq_opc := opc
  rq_transno := 0
  rq_status := 0
  rq_repmsg := some { lm_transno := 0, lm_status := 0, lm_last_xid := 0 }
  rq_export := some exp

/-! ## MDT: runs of the stop callback -/

/-- One call of `mdt_txn_stop_cb`: the value `dbo_write` returns, the thread info and
the result of the transaction. -/
structure stop_call where
  wr : Int
  mti : mdt_thread_info
  th_result : Int
  deriving DecidableEq, Repr

/-- The call gets a transno from the sequencer or replays one: the thread has `mti_mdt`
and the transaction succeeded. -/
def stop_call.stamped (c : stop_call) : Bool := c.mti.mti_mdt && c.th_result == 0

/-- The call gets a freshly assigned transno: it is stamped and came without one. -/
def stop_call.fresh (c : stop_call) : Bool := c.stamped && c.mti.mti_transno == 0

/-- A sequence of calls of `mdt_txn_stop_cb`, first call first: the device after the last
call and, for each stamped call in order, its transno and whether it was freshly
assigned.  `none` when a call does not return. -/
def stop_run (K : mdt_consts) : mdt_device → List stop_call → Option (mdt_device × List (Nat × Bool))
  | mdt, [] => some (mdt, [])
  | mdt, c :: cs =>
    match mdt_txn_stop_cb K c.wr mdt c.mti c.th_result with
    | none => none
    | some (mdt1, _, txi, _) =>
      match stop_run K mdt1 cs with
      | none => none
      | some (mdt2, ts) => some (mdt2, (if c.stamped then [(txi, c.fresh)] else []) ++ ts)

/-- No fresh assignment of the run wraps the 64-bit sequencer: each one finds
`mdt_last_transno` below `2^64 - 1`. -/
def stop_run_no_wrap (K : mdt_consts) : mdt_device → List stop_call → Bool
  | _, [] => true
  | mdt, c :: cs =>
    (!c.fresh || decide (mdt.mdt_last_transno + 1 < 2 ^ 64)) &&
      match mdt_txn_stop_cb K c.wr mdt c.mti c.th_result with
      | none => true
      | some (mdt1, _, _, _) => stop_run_no_wrap K mdt1 cs

/-- A new request of client 65, a replay of transno `t` and a failed transaction. -/
def stop_call_new (xid : Nat) : stop_call :=
  ⟨128, ⟨true, 0, 0, some (req_sample xid 36 exp_sample)⟩, 0⟩

def stop_call_replay (xid t : Nat) : stop_call :=
  ⟨128, ⟨true, t, 0, some (req_sample xid 36 exp_sample)⟩, 0⟩

def stop_call_failed (xid : Nat) : stop_call :=
  ⟨128, ⟨true, 0, 0, some (req_sample xid 36 exp_sample)⟩, -22⟩

/-- The export of client 65 after the connection has failed. -/
def exp_failed_sample : obd_export := { exp_sample with exp_failed := true }

/-! ## MDT: slots and records -/

/-- The slots of the header fit 32-bit offsets and do not share an offset. -/
def ledger_layout_ok (K : mdt_consts) (msd : mdt_server_data) : Prop :=
  0 < le16_to_cpu K msd.msd_client_size ∧
    le32_to_cpu K msd.msd_client_start +
      K.LR_MAX_CLIENTS * le16_to_cpu K msd.msd_client_size ≤ 2 ^ 32

/-- The record of `LR_CLIENT_SIZE` bytes at `o` and the `LR_CLIENT_SIZE` bytes a write
of a record at `off` covers have a byte in common. -/
def records_overlap (K : mdt_consts) (off o : Nat) : Bool :=
  decide (off < o + K.LR_CLIENT_SIZE ∧ o < off + K.LR_CLIENT_SIZE)

/-- A header whose slots are 64 bytes long, half the length of a client record. -/
def msd_short_slots : mdt_server_data := { msd_sample with msd_client_size := 64 }

/-! ## MDT: occupied slots of the ledger -/

/-- The offset of slot `i` of the ledger: `client_start + i * client_size`. -/
def slot_pos (K : mdt_consts) (msd : mdt_server_data) (i : Nat) : Nat :=
  le32_to_cpu K msd.msd_client_start + i * le16_to_cpu K msd.msd_client_size

/-- Slot `i` of the file is occupied: its whole record lies in the file and has a
non-empty identity. -/
def slot_occupied (K : mdt_consts) (msd : mdt_server_data) (f : last_rcvd_file) (i : Nat) :
    Bool :=
  decide (slot_pos K msd i + K.LR_CLIENT_SIZE ≤ f.la_size) &&
    !mcd_empty (f.client (slot_pos K msd i))

/-- The last transaction number `mdt_init_server_data` takes from the header: the field
`msd_last_transno`, and for a header of the old format (without
`OBD_INCOMPAT_COMMON_LR`) the field that held it there. -/
def header_last_transno (K : mdt_consts) (msd : mdt_server_data) : Nat :=
  le64_to_cpu K
    (if msd.msd_feature_incompat &&& cpu_to_le32 K K.OBD_INCOMPAT_COMMON_LR = 0 then
      msd.msd_unused
    else msd.msd_last_transno)

/-- The offsets of the slots of a file of `last_size` bytes fit 32 bits: records and
slots have a size, and one slot beyond the end of the file is still below `2^32`. -/
def ledger_fits (K : mdt_consts) (msd : mdt_server_data) (last_size : Nat) : Prop :=
  0 < K.LR_CLIENT_SIZE ∧ 0 < le16_to_cpu K msd.msd_client_size ∧
    last_size + le16_to_cpu K msd.msd_client_size ≤ 2 ^ 32

/-- The state of the device when the slots below `n` have been loaded, `t0` being the
last transaction number before the first: the sequencer is the maximum of `t0` and the
last transno of the occupied slots below `n`, and each of these has its export. -/
def clients_loaded (K : mdt_consts) (msd : mdt_server_data) (f : last_rcvd_file) (t0 n : Nat)
    (mdt : mdt_device) : Prop :=
  t0 ≤ mdt.mdt_last_transno ∧
  (∀ j, j < n → slot_occupied K msd f j = true →
    mcd_last_transno K (f.client (slot_pos K msd j)) ≤ mdt.mdt_last_transno) ∧
  (mdt.mdt_last_transno = t0 ∨
    ∃ j, j < n ∧ slot_occupied K msd f j = true ∧
      mdt.mdt_last_transno = mcd_last_transno K (f.client (slot_pos K msd j))) ∧
  (∀ j, j < n → slot_occupied K msd f j = true →
    ∃ exp, exp ∈ mdt.mdt_obd.obd_exports ∧ exp.exp_replay_needed = true ∧
      exp.exp_client_uuid = (f.client (slot_pos K msd j)).mcd_uuid ∧
      exp.exp_mdt_data.med_mcd = some (f.client (slot_pos K msd j)) ∧
      exp.exp_mdt_data.med_lr_idx = (j : Int) ∧
      exp.exp_mdt_data.med_lr_off = (slot_pos K msd j : Int))

/-! ## MDT: headers with unsupported features -/

/-- The sample ledger with a header that has the incompat bit `0x10`, which is outside
`MDT_INCOMPAT_SUPP`. -/
def mdt_incompat_sample : mdt_device :=
  { mdt_sample with mdt_last_rcvd :=
      { last_rcvd_sample with header := { msd_sample with msd_feature_incompat := 0x19 } } }

/-- The sample ledger with a header that has the rocompat bit `0x2`, which is outside
`MDT_ROCOMPAT_SUPP`, and supported incompat bits only. -/
def mdt_rocompat_sample : mdt_device :=
  { mdt_sample with mdt_last_rcvd :=
      { last_rcvd_sample with header := { msd_sample with msd_feature_rocompat := 0x3 } } }

/-! ## MDT: the slots taken while loading -/

/-- The state of the device when the slots below `n` have been visited, `b0` being the
bitmap and `x0` the exports before the first: the bits set since are those of the
occupied slots below `n`, which were clear, and the exports created since are one for
each of these slots. -/
def slots_marked (K : mdt_consts) (msd : mdt_server_data) (f : last_rcvd_file)
    (b0 : Nat → Bool) (x0 : List obd_export) (n : Nat) (mdt : mdt_device) : Prop :=
  (∀ j, mdt.mdt_client_bitmap j = (b0 j || (decide (j < n) && slot_occupied K msd f j))) ∧
  (∀ j, j < n → slot_occupied K msd f j = true → b0 j = false) ∧
  ∃ new, mdt.mdt_obd.obd_exports = x0 ++ new ∧
    (∀ exp ∈ new, ∃ j, j < n ∧ slot_occupied K msd f j = true ∧
      exp.exp_mdt_data.med_lr_idx = (j : Int)) ∧
    (∀ j, j < n → slot_occupied K msd f j = true →
      ∃ exp ∈ new, exp.exp_mdt_data.med_lr_idx = (j : Int) ∧
        exp.exp_client_uuid = (f.client (slot_pos K msd j)).mcd_uuid)

/-- The device at the call of `mdt_init_clients_data`: the header of the sample ledger
is in memory, no bit is set and there is no export. -/
def mdt_header_read : mdt_device := { mdt_sample with mdt_msd := msd_sample }

/-- The sample ledger with a record in slot 1 whose identity field has a zero byte first
and the byte 67 behind it. -/
def last_rcvd_nul_sample : last_rcvd_file :=
  { last_rcvd_sample with
    client := fun off =>
      if off = 8192 + 128 then
        { mcd_sample 67 43 8 0 with mcd_uuid := 0 :: 67 :: List.replicate 38 0 }
      else last_rcvd_sample.client off }

/-! ## LNet: router checker -/

/-- The macros of the ping protocol and of the interface status (lnet/lib-types.h and
lnet/types.h are not part of the sources) and the module parameter
`avoid_asym_router_failure`. -/
structure lnet_ping_consts where
  LNET_PROTO_PING_MAGIC : Nat
  LNET_PROTO_PING_UNKNOWN : Nat
  LNET_PROTO_PING_VERSION_1 : Nat
  LNET_PROTO_PING_VERSION : Nat
  LNET_MAX_RTR_NIS : Nat
  LNET_NI_STATUS_UP : Nat
  LNET_NI_STATUS_DOWN : Nat
  LNET_NI_STATUS_INVALID : Nat
  PTLLND : Nat
  avoid_asym_router_failure : Bool

/-- The values of the LNet headers, with `avoid_asym_router_failure` at its default. -/
def lnet_ping_h : lnet_ping_consts where
  LNET_PROTO_PING_MAGIC := 0x70696E67
  LNET_PROTO_PING_UNKNOWN := 0
  LNET_PROTO_PING_VERSION_1 := 1
  LNET_PROTO_PING_VERSION := 2
  LNET_MAX_RTR_NIS := 16
  LNET_NI_STATUS_UP := 0x15aac0de
  LNET_NI_STATUS_DOWN := 0xdeadface
  LNET_NI_STATUS_INVALID := 0
  PTLLND := 4
  avoid_asym_router_failure := false

/-- `lnet_ni_status_t`. -/
structure lnet_ni_status where
  ns_nid : Nat
  ns_status : Nat
  deriving DecidableEq, Repr

/-- `lnet_ping_info_t`; `pi_ni` is the array of `LNET_MAX_RTR_NIS` entries of the buffer. -/
structure lnet_ping_info where
  pi_magic : Nat
  pi_version : Nat
  pi_pid : Nat
  pi_nnis : Nat
  pi_ni : List lnet_ni_status
  deriving DecidableEq, Repr

/-- `lnet_rc_data_t`.  `rcd_mdh` is `none` when the MD handle is invalid
(`LNetHandleIsInvalid`), `rcd_gateway` the NID of the gateway peer or `none` for NULL. -/
structure lnet_rc_data where
  rcd_mdh : Option Nat
  rcd_gateway : Option Nat
  rcd_pinginfo : lnet_ping_info
  deriving DecidableEq, Repr

/-- The states `ln_rc_state` of the router checker. -/
inductive lnet_rc_state where
  | LNET_RC_STATE_SHUTDOWN
  | LNET_RC_STATE_RUNNING
  | LNET_RC_STATE_STOPPING
  deriving DecidableEq, Repr

/-- The part of `the_lnet` and of the heap the router checker works on: `the_lnet` of the
route code, `ln_rc_state`, the zombie list, and the router-check-data objects by their
address.  `gwlist` gives, for the NID of a gateway, the networks of its routes in the
order of its list `lp_routes`, which `lnet_t` does not record.  `rcd_freed` and
`md_unlinked` record the objects `lnet_destroy_rc_data` has freed and the objects whose
MD `LNetMDUnlink` was called on, oldest first. -/
structure lnet_rc_t where
  lnet : lnet_t
  ln_rc_state : lnet_rc_state
  ln_rcd_zombie : List Nat
  rcds : Nat → lnet_rc_data
  gwlist : Nat → List Nat
  rcd_freed : List Nat
  md_unlinked : List Nat

/-- The event types of `lnet_event_kind_t` (lnet/types.h is not part of the sources). -/
inductive lnet_event_kind where
  | LNET_EVENT_GET
  | LNET_EVENT_PUT
  | LNET_EVENT_REPLY
  | LNET_EVENT_ACK
  | LNET_EVENT_SEND
  | LNET_EVENT_UNLINK
  deriving DecidableEq, Repr

/-- `lnet_event_t`, the fields the router checker reads; `user_ptr` is `md.user_ptr`, the
address of a router-check-data object or `none` for NULL. -/
structure lnet_event where
  type : lnet_event_kind
  status : Int
  unlinked : Bool
  user_ptr : Option Nat
  deriving DecidableEq, Repr

/-- Modelled from the spec: `cfs_time_before` (libcfs is not part of the sources): the
first time is older than the second. -/
def cfs_time_before (t1 t2 : Nat) : Bool := decide (t1 < t2)

/-- Modelled from the spec: `lnet_isrouter` (lib-lnet.h is not part of the sources): the
peer is used as a gateway, its router reference count is not zero. -/
def lnet_isrouter (lp : lnet_peer) : Bool := lp.lp_rtr_refcount != 0

/-- `lnet_notify_locked` on the peer `lp`. -/
def lnet_notify_locked (P : lnet_ping_consts) (notifylnd alive : Bool) (when : Nat)
    (lp : lnet_peer) : lnet_peer :=
  if cfs_time_before when lp.lp_timestamp then lp
  else
    let lp1 := { lp with lp_timestamp := when, lp_ping_deadline := 0 }
    if lp1.lp_alive_count ≠ 0 ∧ (!lp1.lp_alive) = (!alive) then lp1
    else
      let lp2 := { lp1 with lp_alive_count := lp1.lp_alive_count + 1, lp_alive := alive,
                            lp_notify := true, lp_notifylnd := lp1.lp_notifylnd || notifylnd }
      if lp2.lp_alive then { lp2 with lp_ping_version := P.LNET_PROTO_PING_UNKNOWN }
      else lp2

/-- `lnet_swap_pinginfo`: the header words and the first `pi_nnis` entries, at most
`LNET_MAX_RTR_NIS`, byte-swapped; `pi_nnis` is read after it has been swapped. -/
def lnet_swap_pinginfo (P : lnet_ping_consts) (info : lnet_ping_info) : lnet_ping_info :=
  let nnis := swab32 info.pi_nnis
  let n := min nnis P.LNET_MAX_RTR_NIS
  { pi_magic := swab32 info.pi_magic,
    pi_version := swab32 info.pi_version,
    pi_pid := swab32 info.pi_pid,
    pi_nnis := nnis,
    pi_ni := (info.pi_ni.take n).map
        (fun stat => { ns_nid := swab64 stat.ns_nid, ns_status := swab32 stat.ns_status }) ++
      info.pi_ni.drop n }

/-- How the walk of `lnet_parse_rc_info` over the interfaces of the payload ends for one
route: by a `return` of the whole function, with `up` set, or at the end of the entries
with the count `down` and `ptl_status`. -/
inductive rc_scan where
  | unknown
  | up
  | counted (down : Nat) (ptl_status : Nat)
  deriving DecidableEq, Repr

/-- The inner loop of `lnet_parse_rc_info` for a route to `lr_net`, over the entries still
to visit. -/
def rc_scan_nis (C : lnet_consts) (P : lnet_ping_consts) (lr_net : Nat) :
    List lnet_ni_status → Nat → Nat → rc_scan
  | [], down, ptl_status => .counted down ptl_status
  | stat :: rest, down, ptl_status =>
    let nid := stat.ns_nid
    if nid = C.LNET_NID_ANY then .unknown
    else if C.LNET_NETTYP (C.LNET_NIDNET nid) = C.LOLND then
      rc_scan_nis C P lr_net rest down ptl_status
    else if stat.ns_status = P.LNET_NI_STATUS_DOWN then
      if C.LNET_NETTYP (C.LNET_NIDNET nid) ≠ P.PTLLND then
        rc_scan_nis C P lr_net rest (down + 1) ptl_status
      else if ptl_status ≠ P.LNET_NI_STATUS_UP then
        rc_scan_nis C P lr_net rest down P.LNET_NI_STATUS_DOWN
      else rc_scan_nis C P lr_net rest down ptl_status
    else if stat.ns_status = P.LNET_NI_STATUS_UP then
      if C.LNET_NIDNET nid = lr_net then .up
      else if C.LNET_NETTYP (C.LNET_NIDNET nid) = P.PTLLND then
        rc_scan_nis C P lr_net rest down P.LNET_NI_STATUS_UP
      else rc_scan_nis C P lr_net rest down ptl_status
    else .unknown

/-- Store `downis` in `lr_downis` of the routes to `net` through `gw`. -/
def set_lr_downis (net gw downis : Nat) (nets : List lnet_remotenet) : List lnet_remotenet :=
  nets.map (fun rnet =>
    { rnet with lrn_routes := rnet.lrn_routes.map (fun route =>
        if route.lr_net = net ∧ route.lr_gateway = gw then { route with lr_downis := downis }
        else route) })

/-- The loop of `lnet_parse_rc_info` over the routes of the gateway, given by their
networks: the remote nets, and whether the function has returned from inside the loop
with the ping version unknown. -/
def rc_parse_routes (C : lnet_consts) (P : lnet_ping_consts) (info : lnet_ping_info)
    (gw : Nat) : List Nat → List lnet_remotenet → List lnet_remotenet × Bool
  | [], nets => (nets, false)
  | lr_net :: rest, nets =>
    match rc_scan_nis C P lr_net (info.pi_ni.take (min info.pi_nnis P.LNET_MAX_RTR_NIS))
        0 P.LNET_NI_STATUS_INVALID with
    | .unknown => (nets, true)
    | .up => rc_parse_routes C P info gw rest (set_lr_downis lr_net gw 0 nets)
    | .counted down ptl_status =>
      rc_parse_routes C P info gw rest
        (set_lr_downis lr_net gw
          (down + (if ptl_status = P.LNET_NI_STATUS_DOWN then 1 else 0)) nets)

/-- Replace the router-check-data object at the address `id`. -/
def set_rcd (id : Nat) (rcd : lnet_rc_data) (rcds : Nat → lnet_rc_data) :
    Nat → lnet_rc_data :=
  fun i => if i = id then rcd else rcds i

/-- Store `v` in `lp_ping_version` of the peer `gw`. -/
def set_ping_version (gw v : Nat) (w : lnet_rc_t) : lnet_rc_t :=
  { w with lnet := update_peer (fun p => { p with lp_ping_version := v }) gw w.lnet }

/-- The part of `lnet_parse_rc_info` after the payload `info` has been brought to host
byte order: the checks of magic and version and the loop over the routes of the
gateway `gw`. -/
def rc_parse_info (C : lnet_consts) (P : lnet_ping_consts) (gw : Nat) (info : lnet_ping_info)
    (w : lnet_rc_t) : lnet_rc_t :=
  if info.pi_magic ≠ P.LNET_PROTO_PING_MAGIC then
    set_ping_version gw P.LNET_PROTO_PING_UNKNOWN w
  else
    let w2 := set_ping_version gw info.pi_version w
    if info.pi_version = P.LNET_PROTO_PING_VERSION_1 then w2
    else if info.pi_version ≠ P.LNET_PROTO_PING_VERSION then
      set_ping_version gw P.LNET_PROTO_PING_UNKNOWN w2
    else
      match rc_parse_routes C P info gw (w2.gwlist gw) w2.lnet.ln_remote_nets with
      | (nets, unknown) =>
        let w3 := { w2 with lnet := { w2.lnet with ln_remote_nets := nets } }
        if unknown then set_ping_version gw P.LNET_PROTO_PING_UNKNOWN w3 else w3

/-- `lnet_parse_rc_info` for the router-check-data object at `id`, whose gateway is the
peer `gw`; a payload with the magic byte-swapped is swapped in place first. -/
def lnet_parse_rc_info (C : lnet_consts) (P : lnet_ping_consts) (id gw : Nat)
    (w : lnet_rc_t) : lnet_rc_t :=
  let rcd := w.rcds id
  match lnet_find_peer w.lnet gw with
  | none => w
  | some lp =>
    if !lp.lp_alive then w
    else
      let info :=
        if rcd.rcd_pinginfo.pi_magic = swab32 P.LNET_PROTO_PING_MAGIC then
          lnet_swap_pinginfo P rcd.rcd_pinginfo
        else rcd.rcd_pinginfo
      rc_parse_info C P gw info
        { w with rcds := set_rcd id { rcd with rcd_pinginfo := info } w.rcds }

/-- `lnet_router_checker_event` at the time `now`; `none` when an assertion fails. -/
def lnet_router_checker_event (C : lnet_consts) (P : lnet_ping_consts) (now : Nat)
    (event : lnet_event) (w : lnet_rc_t) : Option lnet_rc_t :=
  match event.user_ptr with
  | none => none
  | some id =>
    let rcd := w.rcds id
    if event.unlinked then
      some { w with rcds := set_rcd id { rcd with rcd_mdh := none } w.rcds }
    else if ¬ (event.type = .LNET_EVENT_SEND ∨ event.type = .LNET_EVENT_REPLY) then none
    else
      match rcd.rcd_gateway with
      | none => none
      | some gw =>
        match lnet_find_peer w.lnet gw with
        | none => none
        | some lp =>
          if !lnet_isrouter lp || lp.lp_rcd != some id then some w
          else
            let sent := update_peer (fun p => { p with lp_ping_notsent := false }) gw w.lnet
            let w1 := if event.type = .LNET_EVENT_SEND then { w with lnet := sent } else w
            if event.type = .LNET_EVENT_SEND ∧ event.status = 0 then some w1
            else
              let notified :=
                update_peer (lnet_notify_locked P true (decide (event.status = 0)) now)
                  gw w1.lnet
              let w2 := { w1 with lnet := notified }
              if P.avoid_asym_router_failure ∧ event.status = 0 then
                some (lnet_parse_rc_info C P id gw w2)
              else some w2

/-- `lnet_destroy_rc_data` for the object at `id`; `none` when an assertion fails: the
object is still on a list, or its MD handle is still valid. -/
def lnet_destroy_rc_data (id : Nat) (w : lnet_rc_t) : Option lnet_rc_t :=
  let rcd := w.rcds id
  if id ∈ w.lnet.ln_rcd_deathrow ∨ id ∈ w.ln_rcd_zombie then none
  else if rcd.rcd_mdh ≠ none then none
  else
    let lnet1 :=
      match rcd.rcd_gateway with
      | some gw => lnet_peer_decref_locked gw w.lnet
      | none => w.lnet
    some { w with lnet := lnet1, rcd_freed := w.rcd_freed ++ [id] }

/-- The unlink events of the objects `ids` as `lnet_router_checker_event` handles them:
the MD handle of each is invalidated. -/
def rc_deliver_unlinked (ids : List Nat) (w : lnet_rc_t) : lnet_rc_t :=
  ids.foldl (fun x id =>
    { x with rcds := set_rcd id { x.rcds id with rcd_mdh := none } x.rcds }) w

/-- The loop of `lnet_prune_rc_data` over the routers that is run when the router checker
is not running: the router-check-data of every router goes to the head of the deathrow
list. -/
def rc_prune_routers : List Nat → lnet_rc_t → Option lnet_rc_t
  | [], w => some w
  | nid :: rest, w =>
    match lnet_find_peer w.lnet nid with
    | none => none
    | some lp =>
      match lp.lp_rcd with
      | none => rc_prune_routers rest w
      | some id =>
        if id ∈ w.lnet.ln_rcd_deathrow ∨ id ∈ w.ln_rcd_zombie then none
        else
          let s1 := { w.lnet with ln_rcd_deathrow := id :: w.lnet.ln_rcd_deathrow }
          rc_prune_routers rest
            { w with lnet := update_peer (fun p => { p with lp_rcd := none }) nid s1 }

/-- The loop `while (!cfs_list_empty(&head))` of `lnet_prune_rc_data`. -/
def rc_destroy_all : List Nat → lnet_rc_t → Option lnet_rc_t
  | [], w => some w
  | id :: rest, w =>
    match lnet_destroy_rc_data id w with
    | none => none
    | some w1 => rc_destroy_all rest w1

/-- How a call of `lnet_prune_rc_data` ends in the model: it returns, an assertion fails,
or it is still in its loop when the rounds of the model are used up. -/
inductive rc_outcome where
  | returned (w : lnet_rc_t)
  | lbug
  | waiting

/-- The zombie list and the freed objects a call has returned with. -/
def rc_outcome.lists : rc_outcome → Option (List Nat × List Nat)
  | .returned w => some (w.ln_rcd_zombie, w.rcd_freed)
  | _ => none

def rc_outcome.is_lbug : rc_outcome → Bool
  | .lbug => true
  | _ => false

def rc_outcome.is_waiting : rc_outcome → Bool
  | .waiting => true
  | _ => false

/-- The loop of `lnet_prune_rc_data` over the zombie list, from its round `k` on, with at
most `fuel` rounds.  The zombies whose MD handle is not invalid are moved to `head` and
destroyed.  `unlinked_at (k + 1)` gives the objects whose unlink event arrives during the
pause after round `k`. -/
def rc_release_zombies (unlinked_at : Nat → List Nat) :
    Nat → Nat → Bool → lnet_rc_t → rc_outcome
  | 0, _, _, _ => .waiting
  | fuel + 1, k, wait_unlink, w =>
    if w.ln_rcd_zombie = [] then .returned w
    else
      let moved := w.ln_rcd_zombie.filter (fun id => !((w.rcds id).rcd_mdh == none))
      let kept := w.ln_rcd_zombie.filter (fun id => (w.rcds id).rcd_mdh == none)
      let wait1 := wait_unlink && !kept.isEmpty
      match rc_destroy_all moved.reverse { w with ln_rcd_zombie := kept } with
      | none => .lbug
      | some w1 =>
        if !wait1 then .returned w1
        else
          rc_release_zombies unlinked_at fuel (k + 1) wait1
            (rc_deliver_unlinked (unlinked_at (k + 1)) w1)

/-- `lnet_prune_rc_data(wait_unlink)`.  `unlinked_at 0` gives the objects whose unlink
event arrives while `LNetMDUnlink` is called on the deathrow objects. -/
def lnet_prune_rc_data (unlinked_at : Nat → List Nat) (fuel : Nat) (wait_unlink : Bool)
    (w : lnet_rc_t) : rc_outcome :=
  if w.ln_rc_state = .LNET_RC_STATE_RUNNING ∧ w.lnet.ln_rcd_deathrow = [] ∧
      w.ln_rcd_zombie = [] then .returned w
  else
    match (if w.ln_rc_state ≠ .LNET_RC_STATE_RUNNING
        then rc_prune_routers w.lnet.ln_routers w else some w) with
    | none => .lbug
    | some w1 =>
      let head := w1.lnet.ln_rcd_deathrow
      let w2 := { w1 with lnet := { w1.lnet with ln_rcd_deathrow := [] } }
      let unlinking := { w2 with md_unlinked := w2.md_unlinked ++ head }
      let w3 := if head ≠ [] then rc_deliver_unlinked (unlinked_at 0) unlinking else w2
      rc_release_zombies unlinked_at fuel 0 wait_unlink
        { w3 with ln_rcd_zombie := head ++ w3.ln_rcd_zombie }

/-! ## LNet: sample router checker states -/

/-- The gateway `0x20000:1` as a router with one route and a probe outstanding, before
any probe reply. -/
def gw_peer_sample : lnet_peer where
  lp_nid := 0x20000 * 2 ^ 32 + 1
  lp_ni := 0x20000 * 2 ^ 32 + 7
  lp_refcount := 4
  lp_rtr_refcount := 1
  lp_alive := false
  lp_alive_count := 0
  lp_timestamp := 0
  lp_ping_deadline := 150
  lp_notify := false
  lp_notifylnd := false
  lp_notifying := false
  lp_rcd := some 1
  lp_ping_version := 0
  lp_ping_notsent := false
  lp_ping_timestamp := 100

/-- An empty ping buffer. -/
def ping_info_sample : lnet_ping_info where
  pi_magic := 0
  pi_version := 0
  pi_pid := 0
  pi_nnis := 0
  pi_ni := []

/-- A running router checker with one router, whose router-check-data is the object 1
with a bound MD. -/
def lnet_rc_sample : lnet_rc_t where
  lnet := { lnet_boot with
    ln_peers := [gw_peer_sample],
    ln_remote_nets := [⟨0x20001, [⟨0x20001, 0x20000 * 2 ^ 32 + 1, 1, 0⟩]⟩],
    ln_routers := [0x20000 * 2 ^ 32 + 1] }
  ln_rc_state := .LNET_RC_STATE_RUNNING
  ln_rcd_zombie := []
  rcds := fun _ => ⟨some 7, some (0x20000 * 2 ^ 32 + 1), ping_info_sample⟩
  gwlist := fun _ => [0x20001]
  rcd_freed := []
  md_unlinked := []

/-- The state after the last route through the gateway has been deleted: the gateway is
no router any more and its router-check-data, the object 1 with its MD still bound, is on
the deathrow list. -/
def lnet_rc_deathrow_sample : lnet_rc_t :=
  let lp := { gw_peer_sample with lp_refcount := 2, lp_rtr_refcount := 0, lp_rcd := none }
  { lnet_rc_sample with lnet := { lnet_boot with ln_peers := [lp], ln_rcd_deathrow := [1] } }

/-- The payload as `lnet_parse_rc_info` reads it: swapped by `lnet_swap_pinginfo` when its
magic is the byte-swapped `LNET_PROTO_PING_MAGIC`, and as it is otherwise. -/
def rc_host_order (P : lnet_ping_consts) (info : lnet_ping_info) : lnet_ping_info :=
  if info.pi_magic = swab32 P.LNET_PROTO_PING_MAGIC then lnet_swap_pinginfo P info else info

/-- The image of a ping payload in the other byte order: every word of the header and
of every entry of `pi_ni` byte-swapped. -/
def ping_info_swabbed (info : lnet_ping_info) : lnet_ping_info where
  pi_magic := swab32 info.pi_magic
  pi_version := swab32 info.pi_version
  pi_pid := swab32 info.pi_pid
  pi_nnis := swab32 info.pi_nnis
  pi_ni := info.pi_ni.map
    (fun stat => { ns_nid := swab64 stat.ns_nid, ns_status := swab32 stat.ns_status })

/-- The fields of a ping payload fit their types: `__u32` for the words of the header and
the status of an entry, `__u64` for the NID of an entry. -/
def ping_info_fits (info : lnet_ping_info) : Prop :=
  info.pi_magic < 2 ^ 32 ∧ info.pi_version < 2 ^ 32 ∧ info.pi_pid < 2 ^ 32 ∧
    info.pi_nnis < 2 ^ 32 ∧
    ∀ stat ∈ info.pi_ni, stat.ns_nid < 2 ^ 64 ∧ stat.ns_status < 2 ^ 32

/-- The state in which the buffer of the router-check-data object `id` holds `info`. -/
def with_pinginfo (id : Nat) (info : lnet_ping_info) (w : lnet_rc_t) : lnet_rc_t :=
  { w with rcds := set_rcd id { w.rcds id with rcd_pinginfo := info } w.rcds }

/-- A reply of a router that speaks version 2 of the ping protocol, with its loopback
interface, one interface up on the network `0x20001` and one down. -/
def ping_reply_sample : lnet_ping_info where
  pi_magic := 0x70696E67
  pi_version := 2
  pi_pid := 12345
  pi_nnis := 3
  pi_ni := [⟨0x90000 * 2 ^ 32, 0x15aac0de⟩, ⟨0x20002 * 2 ^ 32 + 1, 0xdeadface⟩,
    ⟨0x20001 * 2 ^ 32 + 1, 0x15aac0de⟩]

/-- The sample router checker after the first reply of the gateway: the gateway is alive
and speaks version 2. -/
def lnet_rc_alive_sample : lnet_rc_t :=
  let lp := { gw_peer_sample with lp_alive := true, lp_alive_count := 1, lp_ping_version := 2 }
  { lnet_rc_sample with lnet := { lnet_rc_sample.lnet with ln_peers := [lp] } }

/-- The gateway of the sample after it has died: it has been alive and has spoken
version 2 of the ping protocol, now it is down. -/
def lnet_rc_dead_sample : lnet_rc_t :=
  let lp := { gw_peer_sample with lp_alive_count := 2, lp_ping_version := 2 }
  { lnet_rc_sample with lnet := { lnet_rc_sample.lnet with ln_peers := [lp] } }

/-! ## LNet: delivering notifications -/

/-- A call `lnet_notify_locked(lp, notifylnd, alive, when)` another thread makes on the
peer while `lnet_ni_notify_locked` has dropped the lock for a delivery. -/
structure lnet_news where
  notifylnd : Bool
  alive : Bool
  when : Nat
  deriving DecidableEq, Repr

/-- A call `(ni->ni_lnd->lnd_notify)(ni, lp->lp_nid, alive)`; `lp` is the peer as it is when
the lock is dropped for the call. -/
structure lnd_notify_call where
  ni : Nat
  nid : Nat
  alive : Bool
  lp : lnet_peer
  deriving DecidableEq, Repr

/-- The peer after the notifications `news` of other threads. -/
def apply_news (P : lnet_ping_consts) (news : List lnet_news) (lp : lnet_peer) : lnet_peer :=
  news.foldl (fun p n => lnet_notify_locked P n.notifylnd n.alive n.when p) lp

/-- The loop `while (lp->lp_notify)` of `lnet_ni_notify_locked`, with at most `fuel` tests
of its condition; `none` when the loop is still running after them.  `has_lnd_notify`
tells whether `ni->ni_lnd->lnd_notify` is not NULL, the head of `news` holds the
notifications that arrive while the lock is dropped for the next delivery, `calls` the
deliveries made so far. -/
def ni_notify_loop (P : lnet_ping_consts) (has_lnd_notify : Bool) (ni : Nat) :
    Nat → List (List lnet_news) → lnet_peer → List lnd_notify_call →
      Option (lnet_peer × List lnd_notify_call)
  | 0, _, _, _ => none
  | fuel + 1, news, lp, calls =>
    if !lp.lp_notify then some (lp, calls)
    else
      let alive := lp.lp_alive
      let notifylnd := lp.lp_notifylnd
      let lp1 := { lp with lp_notifylnd := false, lp_notify := false }
      if notifylnd && has_lnd_notify then
        ni_notify_loop P has_lnd_notify ni fuel news.tail (apply_news P (news.headD []) lp1)
          (calls ++ [⟨ni, lp1.lp_nid, alive, lp1⟩])
      else ni_notify_loop P has_lnd_notify ni fuel news lp1 calls

/-- `lnet_ni_notify_locked(ni, lp)`: the peer on return and the deliveries made, oldest
first; `none` when the loop is still running after `fuel` tests of its condition. -/
def lnet_ni_notify_locked (P : lnet_ping_consts) (has_lnd_notify : Bool) (ni fuel : Nat)
    (news : List (List lnet_news)) (lp : lnet_peer) :
    Option (lnet_peer × List lnd_notify_call) :=
  if lp.lp_notifying then some (lp, [])
  else
    match ni_notify_loop P has_lnd_notify ni fuel news { lp with lp_notifying := true } [] with
    | none => none
    | some (lp1, calls) => some ({ lp1 with lp_notifying := false }, calls)

/-- Every peer with a notification for the LND pending has a notification pending:
`lp_notifylnd` is only ever set together with `lp_notify`. -/
def notify_inv (lp : lnet_peer) : Prop := lp.lp_notifylnd = true → lp.lp_notify = true

/-- The gateway of the sample with the news that it is down pending for the LND. -/
def lp_news_sample : lnet_peer :=
  { gw_peer_sample with lp_alive_count := 1, lp_notify := true, lp_notifylnd := true }

/-! ## LNet: probing a router -/

/-- The module parameters of router.c the router checker reads and the number of ticks
of a second (`cfs_time_seconds(1)`; libcfs is not part of the sources). -/
structure rc_tunables where
  live_router_check_interval : Int
  dead_router_check_interval : Int
  router_ping_timeout : Int
  HZ : Nat
  deriving DecidableEq, Repr

/-- The defaults of router.c: no health checks, 50 seconds for a reply. -/
def rc_tunables_default : rc_tunables where
  live_router_check_interval := 0
  dead_router_check_interval := 0
  router_ping_timeout := 50
  HZ := 1

/-- Modelled from the spec: `cfs_time_after` (libcfs is not part of the sources): the
first time is later than the second. -/
def cfs_time_after (t1 t2 : Nat) : Bool := cfs_time_before t2 t1

/-- Modelled from the spec: `cfs_time_add(t, cfs_time_seconds(secs))` (libcfs is not part
of the sources): the time `secs` seconds after `t`. -/
def cfs_time_add_seconds (T : rc_tunables) (t : Nat) (secs : Int) : Nat :=
  ((t : Int) + secs * (T.HZ : Int)).toNat

/-- What the calls `lnet_ping_router_locked` makes out of the router code give: whether
the LND has a `lnd_notify`, the notifications of other threads that arrive during the
deliveries of `lnet_ni_notify_locked`, the address `LIBCFS_ALLOC` gives the new
router-check-data (`none` for NULL), whether the ping buffer is allocated, whether
`the_lnet.ln_rc_eqh` is valid, the return code of `LNetMDBind` and the handle it gives,
whether the unlink event of that MD has been handled when `LNetMDUnlink` returns, the
clock `cfs_time_shift` reads, and the return code of `LNetGet`. -/
structure ping_env where
  has_lnd_notify : Bool
  news : List (List lnet_news)
  rcd_alloc : Option Nat
  pi_alloc_ok : Bool
  rc_eqh_valid : Bool
  md_bind : Int
  md_handle : Nat
  unlink_event : Bool
  shift_now : Nat
  get_rc : Int
  deriving DecidableEq, Repr

/-- A call `LNetGet(LNET_NID_ANY, mdh, id, ...)` of the router checker: the NID pinged and
the MD handle given. -/
structure lnet_get_call where
  nid : Nat
  mdh : Option Nat
  deriving DecidableEq, Repr

/-- What a call of `lnet_ping_router_locked` that has returned leaves: the state, the
deliveries `lnet_ni_notify_locked` has made, and the `LNetGet` issued, if any. -/
structure ping_done where
  w : lnet_rc_t
  notified : List lnd_notify_call
  get : Option lnet_get_call

/-- How a call of `lnet_ping_router_locked` ends in the model: it returns, an assertion
fails, or it is still in the loop of `lnet_ni_notify_locked` when the rounds of the model
are used up. -/
inductive ping_outcome where
  | returned (r : ping_done)
  | lbug
  | notifying

/-- `lnet_router_check_interval`. -/
def lnet_router_check_interval (T : rc_tunables) (rtr : lnet_peer) : Int :=
  let secs := if rtr.lp_alive then T.live_router_check_interval
    else T.dead_router_check_interval
  if secs < 0 then 0 else secs

/-- The ping buffer `lnet_create_rc_data_locked` sets up: zeroed, with every entry
`LNET_NID_ANY` and `LNET_NI_STATUS_INVALID`. -/
def rcd_pinginfo_init (C : lnet_consts) (P : lnet_ping_consts) : lnet_ping_info where
  pi_magic := 0
  pi_version := 0
  pi_pid := 0
  pi_nnis := 0
  pi_ni := List.replicate P.LNET_MAX_RTR_NIS ⟨C.LNET_NID_ANY, P.LNET_NI_STATUS_INVALID⟩

/-- The label `out` of `lnet_create_rc_data_locked` for the object at `id`: a bound MD is
unlinked (`LNetMDUnlink` of the handle just bound returns 0, as asserted), the object is
destroyed, and `gateway->lp_rcd` is returned. -/
def create_rc_data_out (e : ping_env) (id gateway : Nat) (w : lnet_rc_t) :
    Option (lnet_rc_t × Option Nat) :=
  let rcd := w.rcds id
  let unlinking := { w with md_unlinked := w.md_unlinked ++ [id] }
  let handled := { unlinking with rcds := set_rcd id { rcd with rcd_mdh := none } w.rcds }
  let w1 := if rcd.rcd_mdh ≠ none then (if e.unlink_event then handled else unlinking) else w
  match lnet_destroy_rc_data id w1 with
  | none => none
  | some w2 =>
    match lnet_find_peer w2.lnet gateway with
    | none => none
    | some lp => some (w2, lp.lp_rcd)

/-- `lnet_create_rc_data_locked(gateway)`: the state and the router-check-data returned
(`none` for NULL); `none` when an assertion fails.  A ping buffer that is not allocated
is the empty buffer. -/
def lnet_create_rc_data_locked (C : lnet_consts) (P : lnet_ping_consts) (e : ping_env)
    (gateway : Nat) (w : lnet_rc_t) : Option (lnet_rc_t × Option Nat) :=
  match e.rcd_alloc with
  | none =>
    match lnet_find_peer w.lnet gateway with
    | none => none
    | some lp => some (w, lp.lp_rcd)
  | some id =>
    let w1 := { w with rcds := set_rcd id ⟨none, none, ping_info_sample⟩ w.rcds }
    if !e.pi_alloc_ok then create_rc_data_out e id gateway w1
    else
      let w2 := { w with rcds := set_rcd id ⟨none, none, rcd_pinginfo_init C P⟩ w.rcds }
      if !e.rc_eqh_valid then none
      else if e.md_bind < 0 then create_rc_data_out e id gateway w2
      else if e.md_bind ≠ 0 then none
      else
        let bound : lnet_rc_data := ⟨some e.md_handle, none, rcd_pinginfo_init C P⟩
        let w3 := { w with rcds := set_rcd id bound w.rcds }
        match lnet_find_peer w3.lnet gateway with
        | none => none
        | some lp =>
          if !lnet_isrouter lp || lp.lp_rcd != none then create_rc_data_out e id gateway w3
          else
            let s1 := lnet_peer_addref_locked gateway w3.lnet
            let s2 := update_peer
              (fun p => { p with lp_rcd := some id, lp_ping_notsent := false }) gateway s1
            let owned := { bound with rcd_gateway := some gateway }
            some ({ w with lnet := s2, rcds := set_rcd id owned w.rcds }, some id)

/-- The end of `lnet_ping_router_locked`, from `secs = lnet_router_check_interval(rtr)` on,
with the router-check-data `id`: a ping is sent when checks are enabled, none is
outstanding and the last one is more than `secs` seconds old; then the reference taken
on entry is dropped. -/
def ping_router_send (T : rc_tunables) (e : ping_env) (now rtr id : Nat) (w : lnet_rc_t)
    (calls : List lnd_notify_call) : ping_outcome :=
  match lnet_find_peer w.lnet rtr with
  | none => .lbug
  | some lp =>
    let secs := lnet_router_check_interval T lp
    if secs ≠ 0 ∧ lp.lp_ping_notsent = false ∧
        cfs_time_after now (cfs_time_add_seconds T lp.lp_ping_timestamp secs) = true then
      let shift := cfs_time_add_seconds T e.shift_now T.router_ping_timeout
      let s1 := update_peer (fun p =>
        { p with lp_ping_notsent := true, lp_ping_timestamp := now,
                 lp_ping_deadline := if p.lp_ping_deadline = 0 then shift
                                     else p.lp_ping_deadline }) rtr w.lnet
      let s2 := if e.get_rc ≠ 0 then
        update_peer (fun p => { p with lp_ping_notsent := false }) rtr s1 else s1
      .returned ⟨{ w with lnet := lnet_peer_decref_locked rtr s2 }, calls,
        some ⟨lp.lp_nid, (w.rcds id).rcd_mdh⟩⟩
    else .returned ⟨{ w with lnet := lnet_peer_decref_locked rtr w.lnet }, calls, none⟩

/-- `lnet_ping_router_locked(rtr)` at the time `now`, for the peer with the NID `rtr`;
`fuel` bounds the tests of the loop of `lnet_ni_notify_locked`. -/
def lnet_ping_router_locked (C : lnet_consts) (P : lnet_ping_consts) (T : rc_tunables)
    (e : ping_env) (fuel now rtr : Nat) (w : lnet_rc_t) : ping_outcome :=
  let s1 := lnet_peer_addref_locked rtr w.lnet
  match lnet_find_peer s1 rtr with
  | none => .lbug
  | some lp =>
    let lp2 :=
      if lp.lp_ping_deadline ≠ 0 ∧ cfs_time_after now lp.lp_ping_deadline = true then
        lnet_notify_locked P true false now lp
      else lp
    match lnet_ni_notify_locked P e.has_lnd_notify lp2.lp_ni fuel e.news lp2 with
    | none => .notifying
    | some (lp3, calls) =>
      let s3 := update_peer (fun _ => lp3) rtr s1
      let w3 := { w with lnet := s3 }
      if !lnet_isrouter lp3 || w.ln_rc_state != .LNET_RC_STATE_RUNNING then
        .returned ⟨{ w with lnet := lnet_peer_decref_locked rtr s3 }, calls, none⟩
      else
        let made :=
          match lp3.lp_rcd with
          | some id => some (w3, some id)
          | none => lnet_create_rc_data_locked C P e rtr w3
        match made with
        | none => .lbug
        | some (w4, none) => .returned ⟨w4, calls, none⟩
        | some (w4, some id) => ping_router_send T e now rtr id w4 calls

/-- A router checker that probes live and dead routers every 60 seconds. -/
def rc_tunables_sample : rc_tunables where
  live_router_check_interval := 60
  dead_router_check_interval := 60
  router_ping_timeout := 50
  HZ := 1

/-- An environment in which nothing fails and no other thread interferes. -/
def ping_env_sample : ping_env where
  has_lnd_notify := true
  news := []
  rcd_alloc := some 2
  pi_alloc_ok := true
  rc_eqh_valid := true
  md_bind := 0
  md_handle := 9
  unlink_event := true
  shift_now := 200
  get_rc := 0

/-! ## LNet: router buffer pools -/

/-- `lnet_rtrbufpool_t`: the free buffers by their address, the messages waiting for a
buffer, and the counters. -/
structure lnet_rtrbufpool where
  rbp_bufs : List Nat
  rbp_msgs : List Nat
  rbp_npages : Int
  rbp_nbuffers : Int
  rbp_credits : Int
  rbp_mincredits : Int
  deriving DecidableEq, Repr

/-- The part of `the_lnet` the buffer pool code works on: `ln_routing` and the three pools
`ln_rtrpools[0..2]`. -/
structure lnet_rtr_t where
  ln_routing : Bool
  ln_rtrpools_0 : lnet_rtrbufpool
  ln_rtrpools_1 : lnet_rtrbufpool
  ln_rtrpools_2 : lnet_rtrbufpool
  deriving DecidableEq, Repr

/-- The module parameters of router.c for forwarding. -/
structure rtr_tunables where
  forwarding : String
  tiny_router_buffers : Int
  small_router_buffers : Int
  large_router_buffers : Int
  deriving DecidableEq, Repr

/-- The defaults of router.c. -/
def rtr_tunables_default : rtr_tunables where
  forwarding := ""
  tiny_router_buffers := 1024
  small_router_buffers := 8192
  large_router_buffers := 512

/-- The loop of `lnet_rtrpool_free_bufs`: every buffer of the list is destroyed and
counted; `none` when the assertion `rbp_credits > 0` fails. -/
def rtrpool_free_loop (rbp_credits : Int) : List Nat → Int → Option Int
  | [], nbuffers => some nbuffers
  | _ :: rest, nbuffers =>
    if rbp_credits ≤ 0 then none else rtrpool_free_loop rbp_credits rest (nbuffers + 1)

/-- `lnet_rtrpool_free_bufs`; `none` when an assertion fails. -/
def lnet_rtrpool_free_bufs (rbp : lnet_rtrbufpool) : Option lnet_rtrbufpool :=
  if rbp.rbp_msgs ≠ [] then none
  else if rbp.rbp_credits ≠ rbp.rbp_nbuffers then none
  else
    match rtrpool_free_loop rbp.rbp_credits rbp.rbp_bufs 0 with
    | none => none
    | some nbuffers =>
      if rbp.rbp_nbuffers ≠ nbuffers then none
      else if rbp.rbp_credits ≠ nbuffers then none
      else some { rbp with rbp_bufs := [], rbp_nbuffers := 0, rbp_credits := 0 }

/-- The loop of `lnet_rtrpool_alloc_bufs` with `n` rounds to go, the next one being round
`i`: `alloc i` is the buffer `lnet_new_rtrbuf` returns in round `i`, `none` for NULL.
The result is the pool with the code `-ENOMEM`, or with 0 at the end of the loop; `none`
when the assertion `!the_lnet.ln_routing` fails. -/
def rtrpool_alloc_loop (ln_routing : Bool) (alloc : Nat → Option Nat) :
    Nat → Nat → lnet_rtrbufpool → Option (lnet_rtrbufpool × Int)
  | 0, _, rbp => some (rbp, 0)
  | n + 1, i, rbp =>
    match alloc i with
    | none => some (rbp, -ENOMEM)
    | some rb =>
      let rbp1 := { rbp with rbp_nbuffers := rbp.rbp_nbuffers + 1,
                             rbp_credits := rbp.rbp_credits + 1,
                             rbp_mincredits := rbp.rbp_mincredits + 1,
                             rbp_bufs := rb :: rbp.rbp_bufs }
      if ln_routing then none else rtrpool_alloc_loop ln_routing alloc n (i + 1) rbp1

/-- `lnet_rtrpool_alloc_bufs(rbp, nbufs)`; `none` when an assertion fails. -/
def lnet_rtrpool_alloc_bufs (ln_routing : Bool) (alloc : Nat → Option Nat) (nbufs : Int)
    (rbp : lnet_rtrbufpool) : Option (lnet_rtrbufpool × Int) :=
  if rbp.rbp_nbuffers ≠ 0 then
    if rbp.rbp_nbuffers = nbufs then some (rbp, 0) else none
  else
    match rtrpool_alloc_loop ln_routing alloc nbufs.toNat 0 rbp with
    | none => none
    | some (rbp1, rc) =>
      if rc ≠ 0 then some (rbp1, rc)
      else if rbp1.rbp_credits = nbufs then some (rbp1, 0) else none

/-- `lnet_rtrpool_init`. -/
def lnet_rtrpool_init (npages : Int) (rbp : lnet_rtrbufpool) : lnet_rtrbufpool :=
  { rbp with rbp_msgs := [], rbp_bufs := [], rbp_npages := npages, rbp_credits := 0,
             rbp_mincredits := 0 }

/-- `lnet_free_rtrpools`; `none` when an assertion fails. -/
def lnet_free_rtrpools (w : lnet_rtr_t) : Option lnet_rtr_t :=
  match lnet_rtrpool_free_bufs w.ln_rtrpools_0 with
  | none => none
  | some p0 =>
    match lnet_rtrpool_free_bufs w.ln_rtrpools_1 with
    | none => none
    | some p1 =>
      match lnet_rtrpool_free_bufs w.ln_rtrpools_2 with
      | none => none
      | some p2 => some { w with ln_rtrpools_0 := p0, ln_rtrpools_1 := p1, ln_rtrpools_2 := p2 }

/-- `lnet_init_rtrpools`; `large_pages` is `(LNET_MTU + CFS_PAGE_SIZE - 1) >> CFS_PAGE_SHIFT`,
whose macros are not part of the sources. -/
def lnet_init_rtrpools (large_pages : Int) (w : lnet_rtr_t) : lnet_rtr_t :=
  { w with ln_rtrpools_0 := lnet_rtrpool_init 0 w.ln_rtrpools_0,
           ln_rtrpools_1 := lnet_rtrpool_init 1 w.ln_rtrpools_1,
           ln_rtrpools_2 := lnet_rtrpool_init large_pages w.ln_rtrpools_2 }

/-- The test of the parameter `forwarding` at the head of `lnet_alloc_rtrpools`: the code
it returns at once, or `none` when forwarding is to be enabled. -/
def forwarding_check (T : rtr_tunables) (im_a_router : Bool) : Option Int :=
  if T.forwarding = "" then (if !im_a_router then some 0 else none)
  else if T.forwarding = "disabled" then some 0
  else if T.forwarding = "enabled" then none
  else some (-EINVAL)

/-- The label `failed` of `lnet_alloc_rtrpools`. -/
def alloc_rtrpools_failed (rc : Int) (w : lnet_rtr_t) : Option (lnet_rtr_t × Int) :=
  match lnet_free_rtrpools w with
  | none => none
  | some w1 => some (w1, rc)

/-- `lnet_alloc_rtrpools(im_a_router)`; `alloc k i` is the buffer `lnet_new_rtrbuf` returns
in round `i` for the pool `k`; `none` when an assertion fails. -/
def lnet_alloc_rtrpools (T : rtr_tunables) (alloc : Nat → Nat → Option Nat)
    (im_a_router : Bool) (w : lnet_rtr_t) : Option (lnet_rtr_t × Int) :=
  match forwarding_check T im_a_router with
  | some rc => some (w, rc)
  | none =>
    if T.tiny_router_buffers ≤ 0 then alloc_rtrpools_failed (-EINVAL) w
    else
      match lnet_rtrpool_alloc_bufs w.ln_routing (alloc 0) T.tiny_router_buffers
          w.ln_rtrpools_0 with
      | none => none
      | some (p0, rc0) =>
        let w0 := { w with ln_rtrpools_0 := p0 }
        if rc0 ≠ 0 then alloc_rtrpools_failed rc0 w0
        else if T.small_router_buffers ≤ 0 then alloc_rtrpools_failed (-EINVAL) w0
        else
          match lnet_rtrpool_alloc_bufs w0.ln_routing (alloc 1) T.small_router_buffers
              w0.ln_rtrpools_1 with
          | none => none
          | some (p1, rc1) =>
            let w1 := { w0 with ln_rtrpools_1 := p1 }
            if rc1 ≠ 0 then alloc_rtrpools_failed rc1 w1
            else if T.large_router_buffers ≤ 0 then alloc_rtrpools_failed (-EINVAL) w1
            else
              match lnet_rtrpool_alloc_bufs w1.ln_routing (alloc 2) T.large_router_buffers
                  w1.ln_rtrpools_2 with
              | none => none
              | some (p2, rc2) =>
                let w2 := { w1 with ln_rtrpools_2 := p2 }
                if rc2 ≠ 0 then alloc_rtrpools_failed rc2 w2
                else some ({ w2 with ln_routing := true }, 0)

/-- A pool without buffers: nothing on its lists, no buffers and no credits counted. -/
def rtrpool_empty (rbp : lnet_rtrbufpool) : Prop :=
  rbp.rbp_bufs = [] ∧ rbp.rbp_msgs = [] ∧ rbp.rbp_nbuffers = 0 ∧ rbp.rbp_credits = 0

/-- A pool that holds exactly `n` buffers, all of them free. -/
def rtrpool_full (n : Int) (rbp : lnet_rtrbufpool) : Prop :=
  rbp.rbp_nbuffers = n ∧ rbp.rbp_credits = rbp.rbp_nbuffers ∧
    (rbp.rbp_bufs.length : Int) = n ∧ rbp.rbp_msgs = []

/-- Forwarding is to be enabled: `forwarding` is "enabled", or it is not set and the node
is a router. -/
def forwarding_enabled (T : rtr_tunables) (im_a_router : Bool) : Prop :=
  (T.forwarding = "" ∧ im_a_router = true) ∨ T.forwarding = "enabled"

/-- The zeroed pool of `the_lnet` before `lnet_init_rtrpools`. -/
def rtrpool_zero : lnet_rtrbufpool where
  rbp_bufs := []
  rbp_msgs := []
  rbp_npages := 0
  rbp_nbuffers := 0
  rbp_credits := 0
  rbp_mincredits := 0

/-- The pools of `the_lnet` after `lnet_init_rtrpools`, with 256 pages for a large
buffer, and routing off. -/
def lnet_rtr_boot : lnet_rtr_t :=
  lnet_init_rtrpools 256 ⟨false, rtrpool_zero, rtrpool_zero, rtrpool_zero⟩

/-- Buffers at the addresses `1000 * k + i`, without a failure. -/
def rtrbuf_alloc_ok (k i : Nat) : Option Nat := some (1000 * k + i)

/-! ## LNet: checking the routes -/

/-- The local interface the gateway of a route is attached to,
`route->lr_gateway->lp_ni`; `none` when the gateway is not a peer of the peer table. -/
def route_gw_ni (s : lnet_t) (route : lnet_route) : Option Nat :=
  (lnet_find_peer s route.lr_gateway).map (fun lp => lp.lp_ni)

/-- The inner loop of `lnet_check_routes` over the routes of a remote net still to visit,
with `route2` (`none` for NULL): `some true` when the loop ends, `some false` when it finds
a route whose gateway is on another interface than the gateway of `route2`, `none` when
a gateway is not a peer. -/
def check_routes_rnet (s : lnet_t) : Option lnet_route → List lnet_route → Option Bool
  | _, [] => some true
  | none, route :: rest => check_routes_rnet s (some route) rest
  | some route2, route :: rest =>
    match route_gw_ni s route, route_gw_ni s route2 with
    | some ni, some ni2 =>
      if ni = ni2 then check_routes_rnet s (some route2) rest else some false
    | _, _ => none

/-- The outer loop of `lnet_check_routes` over the remote nets still to visit: the code
returned. -/
def check_routes_nets (s : lnet_t) : List lnet_remotenet → Option Int
  | [] => some 0
  | rnet :: rest =>
    match check_routes_rnet s none rnet.lrn_routes with
    | none => none
    | some false => some (-EINVAL)
    | some true => check_routes_nets s rest

/-- `lnet_check_routes`: `the_lnet` on return and the code; the function reads the table
only. -/
def lnet_check_routes (s : lnet_t) : Option (lnet_t × Int) :=
  match check_routes_nets s s.ln_remote_nets with
  | none => none
  | some rc => some (s, rc)

/-- Every gateway of a route of the table is a peer. -/
def gateways_known (s : lnet_t) : Prop :=
  ∀ rnet ∈ s.ln_remote_nets, ∀ r ∈ rnet.lrn_routes, (lnet_find_peer s r.lr_gateway).isSome = true

/-- All routes of every remote net have their gateways on the same local interface. -/
def routes_same_ni (s : lnet_t) : Prop :=
  ∀ rnet ∈ s.ln_remote_nets, ∀ r1 ∈ rnet.lrn_routes, ∀ r2 ∈ rnet.lrn_routes,
    route_gw_ni s r1 = route_gw_ni s r2

/-- The network `0x20001` with routes through two gateways, `0x20000:1` on the interface
`0x20000:7` and `0x20002:1` on the interface given. -/
def lnet_two_ni_sample (ni2 : Nat) : lnet_t :=
  { lnet_boot2 with
    ln_peers := [gw_peer_sample,
      { gw_peer_sample with lp_nid := 0x20002 * 2 ^ 32 + 1, lp_ni := ni2 }],
    ln_remote_nets := [⟨0x20001,
      [⟨0x20001, 0x20000 * 2 ^ 32 + 1, 1, 0⟩, ⟨0x20001, 0x20002 * 2 ^ 32 + 1, 2, 0⟩]⟩],
    ln_routers := [0x20000 * 2 ^ 32 + 1, 0x20002 * 2 ^ 32 + 1] }

/-! ## LNet: the references of a probed router -/

/-- The `lp_refcount` of the peer with the given NID when `lnet_ping_router_locked`
has returned. -/
def ping_refcount (nid : Nat) : ping_outcome → Option Int
  | .returned r => (lnet_find_peer r.w.lnet nid).map (fun lp => lp.lp_refcount)
  | _ => none

/-- The running router checker of the sample before the first probe of the gateway: the
gateway has no router-check-data yet. -/
def lnet_rc_first_sample : lnet_rc_t :=
  { lnet_rc_sample with
    lnet := { lnet_rc_sample.lnet with ln_peers := [{ gw_peer_sample with lp_rcd := none }] } }

/-! ## PtlRPC: the Portals interface -/

/-- The return codes of the Portals API the code tests (the Portals headers are not part
of the sources); `PTL_FAIL code` stands for every other code. -/
inductive ptl_err_t where
  | PTL_OK
  | PTL_NO_SPACE
  | PTL_FAIL (code : Nat)
  deriving DecidableEq, Repr

/-- The event types of Portals (the Portals headers are not part of the sources). -/
inductive ptl_event_kind where
  | PTL_EVENT_GET
  | PTL_EVENT_PUT
  | PTL_EVENT_REPLY
  | PTL_EVENT_ACK
  | PTL_EVENT_SENT
  | PTL_EVENT_UNLINK
  deriving DecidableEq, Repr

/-- `ptl_ack_req_t`. -/
inductive ptl_ack_req_t where
  | PTL_ACK_REQ
  | PTL_NOACK_REQ
  deriving DecidableEq, Repr

/-- `ptl_md_t`, the fields the code fills in; addresses and handles are numbers. -/
structure ptl_md_t where
  start : Nat
  length : Int
  threshold : Int
  options : Nat
  user_ptr : Nat
  eq_handle : Nat
  deriving DecidableEq, Repr

/-- `ptl_event_t`, the fields the callbacks of events.c read: the type, `mem_desc.start`
and `offset`. -/
structure ptl_event_t where
  type : ptl_event_kind
  mem_desc_start : Nat
  offset : Nat
  deriving DecidableEq, Repr

/-- The calls of the Portals API made by niobuf.c, with the code each returned. -/
inductive ptl_call where
  | PtlMDBind (ni_h : Nat) (md : ptl_md_t) (rc : ptl_err_t)
  | PtlPut (mdh : Nat) (ack : ptl_ack_req_t) (peer_id : Nat) (portal : Int) (xid : Nat)
      (rc : ptl_err_t)
  | PtlMDUnlink (mdh : Nat) (rc : ptl_err_t)
  | PtlGet (mdh : Nat) (peer_id : Nat) (portal : Int) (xid : Nat) (rc : ptl_err_t)
  | PtlMEAttach (ni_h : Nat) (portal : Int) (peer_id : Nat) (xid : Nat) (rc : ptl_err_t)
  | PtlMDAttach (me_h : Nat) (md : ptl_md_t) (rc : ptl_err_t)
  | PtlMEUnlink (me_h : Nat) (rc : ptl_err_t)
  deriving DecidableEq, Repr

/-! ## PtlRPC: reply events -/

/-- `struct ptlrpc_request` as events.c uses it: the location of the reply, `none` while
it is not set, and the number of times the wait queue `rq_wait_for_rep` has been woken. -/
structure ptlrpc_reply_request where
  rq_repmsg : Option Nat
  rq_wait_for_rep : Nat
  deriving DecidableEq, Repr

/-- How a callback of events.c ends: it returns a code, or it stops in `LBUG()`; both
with the request as it is at that point. -/
inductive reply_outcome where
  | returned (rpc : ptlrpc_reply_request) (rc : Int)
  | lbug (rpc : ptlrpc_reply_request)
  deriving DecidableEq, Repr

/-- `reply_in_callback` for the request `ev->mem_desc.user_ptr` points to. -/
def reply_in_callback (ev : ptl_event_t) (rpc : ptlrpc_reply_request) : reply_outcome :=
  if ev.type = .PTL_EVENT_PUT then
    .returned { rpc with rq_repmsg := some (ev.mem_desc_start + ev.offset),
                         rq_wait_for_rep := rpc.rq_wait_for_rep + 1 } 1
  else .lbug rpc

/-! ## PtlRPC: sending a buffer -/

/-- The constants of ptlrpc the model needs (lustre_net.h is not part of the sources). -/
structure ptlrpc_consts where
  PTLRPC_MD_OPTIONS : Nat
  deriving DecidableEq, Repr

/-- `struct ptlrpc_connection`, the fields `ptl_send_buf` reads: the handles of the
interface and of its event queue, and the id of the peer. -/
structure ptlrpc_connection where
  pni_ni_h : Nat
  pni_eq_h : Nat
  peer_id : Nat
  deriving DecidableEq, Repr

/-- What the calls `ptl_send_buf` makes give: whether the fault-injection check
`OBD_FAIL_CHECK(OBD_FAIL_PTLRPC_ACK | OBD_FAIL_ONCE)` fires, the code and the handle of
`PtlMDBind`, and the codes of `PtlPut` and `PtlMDUnlink`. -/
structure send_buf_env where
  fail_ack : Bool
  bind_rc : ptl_err_t
  bind_mdh : Nat
  put_rc : ptl_err_t
  unlink_rc : ptl_err_t
  deriving DecidableEq, Repr

/-- What a call of `ptl_send_buf` that has returned leaves: the code, the handle stored
in `*mdh` (`none` when none was stored), the Portals calls made, oldest first, and whether
`obd_fail_loc` has been marked as failed once. -/
structure send_buf_done where
  rc : Int
  mdh : Option Nat
  calls : List ptl_call
  failed_once : Bool
  deriving DecidableEq, Repr

/-- `ptl_send_buf`; `conn` is `none` for a NULL connection; `none` when an assertion
fails. -/
def ptl_send_buf (R : ptlrpc_consts) (e : send_buf_env) (base : Nat) (len : Int)
    (ack : ptl_ack_req_t) (cbid : Nat) (conn : Option ptlrpc_connection) (portal : Int)
    (xid : Nat) : Option send_buf_done :=
  if portal = 0 then none
  else
    match conn with
    | none => none
    | some c =>
      let md : ptl_md_t :=
        { start := base, length := len,
          threshold := if ack = .PTL_ACK_REQ then 2 else 1,
          options := R.PTLRPC_MD_OPTIONS, user_ptr := cbid, eq_handle := c.pni_eq_h }
      let failing := decide (ack = .PTL_ACK_REQ) && e.fail_ack
      let ack1 := if failing then ptl_ack_req_t.PTL_NOACK_REQ else ack
      let bind := ptl_call.PtlMDBind c.pni_ni_h md e.bind_rc
      if e.bind_rc ≠ .PTL_OK then
        if e.bind_rc = .PTL_NO_SPACE then some ⟨-ENOMEM, none, [bind], failing⟩ else none
      else
        let put := ptl_call.PtlPut e.bind_mdh ack1 c.peer_id portal xid e.put_rc
        if e.put_rc ≠ .PTL_OK then
          let unlink := ptl_call.PtlMDUnlink e.bind_mdh e.unlink_rc
          if e.unlink_rc = .PTL_OK then some ⟨0, some e.bind_mdh, [bind, put, unlink], failing⟩
          else none
        else some ⟨0, some e.bind_mdh, [bind, put], failing⟩

/-! ## PtlRPC: bulk descriptors -/

/-- The types of a bulk transfer (lustre_net.h is not part of the sources). -/
inductive bulk_type where
  | BULK_PUT_SINK
  | BULK_PUT_SOURCE
  | BULK_GET_SINK
  | BULK_GET_SOURCE
  deriving DecidableEq, Repr

/-- The completion callbacks a `struct ptlrpc_cb_id` of a bulk descriptor can name. -/
inductive bulk_cbid_fn where
  | server_bulk_callback
  | client_bulk_callback
  | other_callback (addr : Nat)
  deriving DecidableEq, Repr

/-- `struct ptlrpc_bulk_desc`, the fields niobuf.c reads or writes; `bd_req` is the
address of the request of the descriptor, `none` for NULL; `bd_cbid_fn` is
`bd_cbid.cbid_fn` and `bd_cbid_arg_self` tells whether `bd_cbid.cbid_arg` is the
descriptor itself. -/
structure ptlrpc_bulk_desc where
  bd_success : Bool
  bd_network_rw : Bool
  bd_type : bulk_type
  bd_registered : Bool
  bd_last_xid : Nat
  bd_req : Option Nat
  bd_nob : Nat
  bd_iov_count : Nat
  bd_portal : Int
  bd_md_h : Nat
  bd_cbid_fn : bulk_cbid_fn
  bd_cbid_arg_self : Bool
  deriving DecidableEq, Repr

/-- `struct ptlrpc_request` as the bulk code of niobuf.c uses it: its address, its xid,
the request set it belongs to (`none` for NULL) and its bulk descriptor. -/
structure ptlrpc_bulk_request where
  rq_addr : Nat
  rq_xid : Nat
  rq_set : Option Nat
  rq_bulk : ptlrpc_bulk_desc
  deriving DecidableEq, Repr

/-- Modelled from the spec: `ptlrpc_bulk_active` (lustre_net.h is not part of the
sources): the descriptor is in flight, `bd_network_rw` read under `bd_lock`. -/
def ptlrpc_bulk_active (desc : ptlrpc_bulk_desc) : Bool := desc.bd_network_rw

/-- How a call of `ptlrpc_abort_bulk` or `ptlrpc_unregister_bulk` ends in the model: it
returns, with the descriptor and the handles `PtlMDUnlink` was called on; an assertion
fails; or it is still waiting when the rounds of the model are used up. -/
inductive bulk_outcome where
  | returned (desc : ptlrpc_bulk_desc) (unlinked : List Nat)
  | lbug
  | waiting
  deriving DecidableEq, Repr

/-- Modelled from the spec: `l_wait_event` with a timeout and no signal handling
(lustre_lib.h is not part of the sources), on the truth of its condition when the wait
is over: 0 when the condition holds, `-ETIMEDOUT` when it does not hold in time. -/
def l_wait_event (condition : Bool) : Int := if condition then 0 else -ETIMEDOUT

/-- The loop `for (;;)` around `l_wait_event(..., !ptlrpc_bulk_active(desc), &lwi)`, from
its round `k` on, with at most `fuel` rounds, after `PtlMDUnlink` has been called on the
handles `unlinked`; the loop is left when `l_wait_event` returns 0, any other code is
asserted to be `-ETIMEDOUT`.  `rounds k` is what the completion callback and other
holders of the descriptor do to it up to the end of the wait of round `k`. -/
def bulk_wait (rounds : Nat → ptlrpc_bulk_desc → ptlrpc_bulk_desc) (unlinked : List Nat) :
    Nat → Nat → ptlrpc_bulk_desc → bulk_outcome
  | 0, _, _ => .waiting
  | fuel + 1, k, desc =>
    let desc1 := rounds k desc
    let rc := l_wait_event (!ptlrpc_bulk_active desc1)
    if rc = 0 then .returned desc1 unlinked
    else if rc ≠ -ETIMEDOUT then .lbug
    else bulk_wait rounds unlinked fuel (k + 1) desc1

/-- `ptlrpc_abort_bulk(desc)`; `in_interrupt` is the value of `in_interrupt()`. -/
def ptlrpc_abort_bulk (in_interrupt : Bool)
    (rounds : Nat → ptlrpc_bulk_desc → ptlrpc_bulk_desc) (fuel : Nat)
    (desc : ptlrpc_bulk_desc) : bulk_outcome :=
  if in_interrupt then .lbug
  else if !ptlrpc_bulk_active desc then .returned desc []
  else bulk_wait rounds [desc.bd_md_h] fuel 0 desc

/-- `ptlrpc_unregister_bulk(req)`, for the descriptor `req->rq_bulk`; the wait is on the
queue of the request set if the request has one and on `rq_reply_waitq` otherwise, which
the model does not tell apart. -/
def ptlrpc_unregister_bulk (in_interrupt : Bool)
    (rounds : Nat → ptlrpc_bulk_desc → ptlrpc_bulk_desc) (fuel : Nat)
    (req : ptlrpc_bulk_request) : bulk_outcome :=
  let desc := req.rq_bulk
  if in_interrupt then .lbug
  else if !ptlrpc_bulk_active desc then .returned desc []
  else if desc.bd_req ≠ some req.rq_addr then .lbug
  else bulk_wait rounds [desc.bd_md_h] fuel 0 desc

/-- The descriptor after the rounds `j`, ..., `j + n - 1` of the wait. -/
def bulk_after (rounds : Nat → ptlrpc_bulk_desc → ptlrpc_bulk_desc) :
    Nat → Nat → ptlrpc_bulk_desc → ptlrpc_bulk_desc
  | _, 0, desc => desc
  | j, n + 1, desc => bulk_after rounds (j + 1) n (rounds j desc)

/-- A bulk descriptor of the request at the address 500 that is in flight. -/
def bulk_desc_sample : ptlrpc_bulk_desc where
  bd_success := false
  bd_network_rw := true
  bd_type := .BULK_PUT_SINK
  bd_registered := true
  bd_last_xid := 8
  bd_req := some 500
  bd_nob := 4096
  bd_iov_count := 1
  bd_portal := 8
  bd_md_h := 77
  bd_cbid_fn := .client_bulk_callback
  bd_cbid_arg_self := true

/-- The completion callback runs during the third wait: it takes the descriptor off the
network. -/
def bulk_rounds_sample (k : Nat) (desc : ptlrpc_bulk_desc) : ptlrpc_bulk_desc :=
  if k = 2 then { desc with bd_network_rw := false, bd_success := true } else desc

/-! ## PtlRPC: bulk events -/

/-- The flags of `b_flags` the callbacks of events.c set (lustre_net.h is not part of the
sources). -/
structure bulk_flags where
  PTL_BULK_FL_SENT : Nat
  PTL_BULK_FL_RCVD : Nat
  deriving DecidableEq, Repr

/-- Sample values of the flags: two bits. -/
def bulk_flags_sample : bulk_flags where
  PTL_BULK_FL_SENT := 2
  PTL_BULK_FL_RCVD := 4

/-- `struct ptlrpc_bulk_desc` as events.c uses it (the descriptor of niobuf.c, of a later
version of the structure, is `ptlrpc_bulk_desc`): the flags, the buffer, the callback
`b_cb` (`none` for NULL), and for the model the number of times the wait queue `b_waitq`
has been woken, the calls of `b_cb` with the flags the descriptor had at the call, and
whether `ptlrpc_free_bulk` has been called on the descriptor. -/
structure ptlrpc_bulk_ev where
  b_flags : Nat
  b_buf : Nat
  b_cb : Option Nat
  b_waitq : Nat
  b_cb_calls : List Nat
  freed : Bool
  deriving DecidableEq, Repr

/-- How a bulk callback of events.c ends: it returns a code, or it stops in `LBUG()`; both
with the descriptor as it is at that point. -/
inductive bulk_ev_outcome where
  | returned (bulk : ptlrpc_bulk_ev) (rc : Int)
  | lbug (bulk : ptlrpc_bulk_ev)
  deriving DecidableEq, Repr

/-- `bulk_source_callback` for the descriptor `ev->mem_desc.user_ptr` points to. -/
def bulk_source_callback (F : bulk_flags) (ev : ptl_event_t) (bulk : ptlrpc_bulk_ev) :
    bulk_ev_outcome :=
  if ev.type = .PTL_EVENT_SENT then .returned bulk 1
  else if ev.type = .PTL_EVENT_ACK then
    .returned { bulk with b_flags := bulk.b_flags ||| F.PTL_BULK_FL_SENT,
                          b_waitq := bulk.b_waitq + 1 } 1
  else .lbug bulk

/-- `bulk_sink_callback` for the descriptor `ev->mem_desc.user_ptr` points to; `cb` is what
the function `b_cb` points to does to the descriptor. -/
def bulk_sink_callback (F : bulk_flags) (cb : ptlrpc_bulk_ev → ptlrpc_bulk_ev)
    (ev : ptl_event_t) (bulk : ptlrpc_bulk_ev) : bulk_ev_outcome :=
  if ev.type = .PTL_EVENT_PUT then
    let bulk1 := { bulk with b_flags := bulk.b_flags ||| F.PTL_BULK_FL_RCVD }
    let bulk2 :=
      if bulk1.b_cb ≠ none then
        cb { bulk1 with b_cb_calls := bulk1.b_cb_calls ++ [bulk1.b_flags] }
      else bulk1
    let bulk3 := { bulk2 with b_waitq := bulk2.b_waitq + 1 }
    .returned (if bulk3.b_cb ≠ none then { bulk3 with freed := true } else bulk3) 1
  else .lbug bulk

/-- The flag `flag` is set in `b_flags`. -/
def bulk_flag_set (flag : Nat) (bulk : ptlrpc_bulk_ev) : Bool :=
  bulk.b_flags &&& flag == flag

/-- A bulk descriptor without callback whose transfer has not completed. -/
def bulk_ev_sample : ptlrpc_bulk_ev where
  b_flags := 1
  b_buf := 4096
  b_cb := none
  b_waitq := 0
  b_cb_calls := []
  freed := false

/-! ## PtlRPC: putting a bulk descriptor on the network -/

/-- The options of a memory descriptor and the limit of a bulk transfer the code names
(the Portals headers and lustre_net.h are not part of the sources). -/
structure ptl_md_consts where
  PTL_MD_OP_PUT : Nat
  PTL_MD_OP_GET : Nat
  PTL_MD_KIOV : Nat
  PTLRPC_MAX_BRW_PAGES : Nat
  deriving DecidableEq, Repr

/-- Modelled from the spec: `ptlrpc_fill_bulk_md` (pers.c is not part of the sources)
makes the memory descriptor cover the whole scatter/gather list of the descriptor, which
starts at the address `iov`. -/
def ptlrpc_fill_bulk_md (M : ptl_md_consts) (iov : Nat) (md : ptl_md_t)
    (desc : ptlrpc_bulk_desc) : ptl_md_t :=
  { md with options := md.options ||| M.PTL_MD_KIOV, start := iov,
            length := (desc.bd_iov_count : Int) }

/-- What the calls `ptlrpc_start_bulk_transfer` makes give: whether the fault-injection
check `OBD_FAIL_CHECK_ONCE(OBD_FAIL_PTLRPC_BULK_PUT_NET)` fires, the code and the handle
of `PtlMDBind`, the code of `PtlPut` or `PtlGet`, the code of `PtlMDUnlink`, and what the
completion callback does to the descriptor if it runs before the function returns. -/
structure start_bulk_env where
  fail_check : Bool
  bind_rc : ptl_err_t
  bind_mdh : Nat
  xfer_rc : ptl_err_t
  unlink_rc : ptl_err_t
  completion : ptlrpc_bulk_desc → ptlrpc_bulk_desc

/-- What a call of `ptlrpc_start_bulk_transfer` or `ptlrpc_register_bulk` that has
returned leaves: the descriptor, the code, the Portals calls made, oldest first, and
whether the fault-injection check has fired. -/
structure bulk_done where
  desc : ptlrpc_bulk_desc
  rc : Int
  calls : List ptl_call
  failed_once : Bool
  deriving DecidableEq, Repr

/-- `ptlrpc_start_bulk_transfer(desc)`; `cbid` is the address of `desc->bd_cbid`, `conn`
the connection of the export, `xid` is `desc->bd_req->rq_xid` and `iov` the address of
the scatter/gather list; `none` when an assertion fails or `bd_req` is NULL. -/
def ptlrpc_start_bulk_transfer (R : ptlrpc_consts) (M : ptl_md_consts) (e : start_bulk_env)
    (cbid : Nat) (conn : ptlrpc_connection) (xid iov : Nat) (desc : ptlrpc_bulk_desc) :
    Option bulk_done :=
  if e.fail_check then some ⟨desc, 0, [], true⟩
  else if desc.bd_network_rw then none
  else if ¬ (desc.bd_type = .BULK_PUT_SOURCE ∨ desc.bd_type = .BULK_GET_SINK) then none
  else
    let desc1 := { desc with bd_success := false }
    let md := ptlrpc_fill_bulk_md M iov
      { start := 0, length := 0, threshold := 2, options := R.PTLRPC_MD_OPTIONS,
        user_ptr := cbid, eq_handle := conn.pni_eq_h } desc1
    if desc1.bd_cbid_fn ≠ .server_bulk_callback then none
    else if !desc1.bd_cbid_arg_self then none
    else
      let bind := ptl_call.PtlMDBind conn.pni_ni_h md e.bind_rc
      if e.bind_rc ≠ .PTL_OK then
        if e.bind_rc = .PTL_NO_SPACE then some ⟨desc1, -ENOMEM, [bind], false⟩ else none
      else
        match desc1.bd_req with
        | none => none
        | some _ =>
          let desc2 := { desc1 with bd_md_h := e.bind_mdh, bd_network_rw := true }
          let xfer :=
            if desc2.bd_type = .BULK_PUT_SOURCE then
              ptl_call.PtlPut desc2.bd_md_h .PTL_ACK_REQ conn.peer_id desc2.bd_portal xid
                e.xfer_rc
            else ptl_call.PtlGet desc2.bd_md_h conn.peer_id desc2.bd_portal xid e.xfer_rc
          if e.xfer_rc ≠ .PTL_OK then
            let unlink := ptl_call.PtlMDUnlink desc2.bd_md_h e.unlink_rc
            if e.unlink_rc = .PTL_OK then
              some ⟨e.completion desc2, 0, [bind, xfer, unlink], false⟩
            else none
          else some ⟨e.completion desc2, 0, [bind, xfer], false⟩

/-- What the calls `ptlrpc_register_bulk` makes give: whether the fault-injection check
`OBD_FAIL_CHECK_ONCE(OBD_FAIL_PTLRPC_BULK_GET_NET)` fires, the code and the handle of
`PtlMEAttach`, the code and the handle of `PtlMDAttach`, the code of `PtlMEUnlink`, and
what the completion callback does to the descriptor if it runs before the function
returns. -/
structure register_bulk_env where
  fail_check : Bool
  me_rc : ptl_err_t
  me_h : Nat
  md_rc : ptl_err_t
  md_h : Nat
  me_unlink_rc : ptl_err_t
  completion : ptlrpc_bulk_desc → ptlrpc_bulk_desc

/-- `ptlrpc_register_bulk(req)`, for the descriptor `req->rq_bulk`; `cbid` is the address
of `desc->bd_cbid`, `conn` the connection of the import and `iov` the address of the
scatter/gather list; `none` when an assertion fails. -/
def ptlrpc_register_bulk (R : ptlrpc_consts) (M : ptl_md_consts) (e : register_bulk_env)
    (cbid : Nat) (conn : ptlrpc_connection) (iov : Nat) (req : ptlrpc_bulk_request) :
    Option bulk_done :=
  let desc := req.rq_bulk
  if e.fail_check then some ⟨desc, 0, [], true⟩
  else if ¬ (desc.bd_nob > 0) then none
  else if desc.bd_network_rw then none
  else if ¬ (desc.bd_iov_count ≤ M.PTLRPC_MAX_BRW_PAGES) then none
  else if desc.bd_req = none then none
  else if ¬ (desc.bd_type = .BULK_PUT_SINK ∨ desc.bd_type = .BULK_GET_SOURCE) then none
  else
    let desc1 := { desc with bd_success := false }
    let md := ptlrpc_fill_bulk_md M iov
      { start := 0, length := 0, threshold := 1,
        options := R.PTLRPC_MD_OPTIONS |||
          (if desc1.bd_type = .BULK_GET_SOURCE then M.PTL_MD_OP_GET else M.PTL_MD_OP_PUT),
        user_ptr := cbid, eq_handle := conn.pni_eq_h } desc1
    if desc1.bd_cbid_fn ≠ .client_bulk_callback then none
    else if !desc1.bd_cbid_arg_self then none
    else if ¬ (!desc1.bd_registered || req.rq_xid != desc1.bd_last_xid) then none
    else
      let desc2 := { desc1 with bd_registered := true, bd_last_xid := req.rq_xid }
      let me := ptl_call.PtlMEAttach conn.pni_ni_h desc2.bd_portal conn.peer_id req.rq_xid
        e.me_rc
      if e.me_rc ≠ .PTL_OK then
        if e.me_rc = .PTL_NO_SPACE then some ⟨desc2, -ENOMEM, [me], false⟩ else none
      else
        let desc3 := { desc2 with bd_network_rw := true }
        let attach := ptl_call.PtlMDAttach e.me_h md e.md_rc
        if e.md_rc ≠ .PTL_OK then
          if e.md_rc ≠ .PTL_NO_SPACE then none
          else
            let desc4 := { desc3 with bd_network_rw := false }
            let unlink := ptl_call.PtlMEUnlink e.me_h e.me_unlink_rc
            if e.me_unlink_rc = .PTL_OK then
              some ⟨desc4, -ENOMEM, [me, attach, unlink], false⟩
            else none
        else
          some ⟨e.completion { desc3 with bd_md_h := e.md_h }, 0, [me, attach], false⟩

/-- The asserted state of a descriptor `ptlrpc_start_bulk_transfer` is called on: not on
the network, the source of a put or the sink of a get, with its request and with
`server_bulk_callback` as its callback. -/
def start_bulk_ready (desc : ptlrpc_bulk_desc) : Prop :=
  desc.bd_network_rw = false ∧
    (desc.bd_type = .BULK_PUT_SOURCE ∨ desc.bd_type = .BULK_GET_SINK) ∧
    desc.bd_cbid_fn = .server_bulk_callback ∧ desc.bd_cbid_arg_self = true ∧
    desc.bd_req ≠ none

/-- The asserted state of a request `ptlrpc_register_bulk` is called on: the descriptor
has data, is not on the network, is the sink of a put or the source of a get, has its
request and `client_bulk_callback` as its callback, and has not been registered with the
xid of the request. -/
def register_bulk_ready (M : ptl_md_consts) (req : ptlrpc_bulk_request) : Prop :=
  0 < req.rq_bulk.bd_nob ∧ req.rq_bulk.bd_network_rw = false ∧
    req.rq_bulk.bd_iov_count ≤ M.PTLRPC_MAX_BRW_PAGES ∧ req.rq_bulk.bd_req ≠ none ∧
    (req.rq_bulk.bd_type = .BULK_PUT_SINK ∨ req.rq_bulk.bd_type = .BULK_GET_SOURCE) ∧
    req.rq_bulk.bd_cbid_fn = .client_bulk_callback ∧ req.rq_bulk.bd_cbid_arg_self = true ∧
    (req.rq_bulk.bd_registered = true → req.rq_xid ≠ req.rq_bulk.bd_last_xid)

/-- Sample values of the options: one bit each, and 256 pages a transfer. -/
def ptl_md_consts_sample : ptl_md_consts where
  PTL_MD_OP_PUT := 1
  PTL_MD_OP_GET := 2
  PTL_MD_KIOV := 256
  PTLRPC_MAX_BRW_PAGES := 256

/-- A bulk descriptor of a server that is to send 4096 bytes to its client. -/
def bulk_source_sample : ptlrpc_bulk_desc :=
  { bulk_desc_sample with bd_network_rw := false, bd_type := .BULK_PUT_SOURCE,
                          bd_registered := false, bd_cbid_fn := .server_bulk_callback }

/-- A bulk descriptor of a client that is to receive 4096 bytes, not registered yet. -/
def bulk_sink_sample : ptlrpc_bulk_desc :=
  { bulk_desc_sample with bd_network_rw := false, bd_registered := false }

/-! ## PtlRPC: sending a request -/

/-- The message types of lustre_idl.h the code names. -/
inductive ptl_rpc_msg_type where
  | PTL_RPC_MSG_REQUEST
  | PTL_RPC_MSG_ERR
  | PTL_RPC_MSG_REPLY
  deriving DecidableEq, Repr

/-- The number of the Portals code `PTL_NO_SPACE`, as an `int` holds it (the Portals
headers are not part of the sources). -/
structure ptl_errno_h where
  PTL_NO_SPACE : Int
  deriving DecidableEq, Repr

/-- `struct obd_import`, the fields `ptl_send_rpc` reads. -/
structure obd_import where
  imp_connection : ptlrpc_connection
  imp_remote_handle : Nat
  imp_conn_cnt : Nat
  deriving DecidableEq, Repr

/-- `struct ptlrpc_request` as `ptl_send_rpc` uses it; `rq_bulk` and `rq_repbuf` are `none`
for NULL, the handles `rq_reply_md_h` and `rq_req_md_h` are `none` while nothing has been
stored in them, and the fields `reqmsg_handle`, `reqmsg_type` and `reqmsg_conn_cnt` are
those of the message `rq_reqmsg` points to. -/
structure ptlrpc_send_request where
  rq_addr : Nat
  rq_type : ptl_rpc_msg_type
  rq_xid : Nat
  rq_set : Option Nat
  rq_bulk : Option ptlrpc_bulk_desc
  rq_receiving_reply : Bool
  rq_replied : Bool
  rq_err : Bool
  rq_timedout : Bool
  rq_net_err : Bool
  rq_resend : Bool
  rq_restart : Bool
  rq_ptlrpcs_restart : Bool
  rq_ptlrpcs_err : Bool
  rq_replen : Nat
  rq_repbuf : Option Nat
  rq_repbuf_len : Int
  rq_reqbuf : Nat
  rq_reqdata_len : Int
  rq_request_portal : Int
  rq_reply_portal : Int
  rq_refcount : Int
  rq_sent : Nat
  rq_reply_md_h : Option Nat
  rq_req_md_h : Option Nat
  reqmsg_handle : Nat
  reqmsg_type : Option ptl_rpc_msg_type
  reqmsg_conn_cnt : Nat
  deriving DecidableEq, Repr

/-- The addresses `ptl_send_rpc` passes on: of `rq_bulk->bd_cbid` and of the scatter/gather
list of the bulk descriptor, of `rq_reply_cbid` and of `rq_req_cbid`. -/
structure send_rpc_addrs where
  bulk_cbid : Nat
  bulk_iov : Nat
  reply_cbid : Nat
  req_cbid : Nat
  deriving DecidableEq, Repr

/-- What the calls `ptl_send_rpc` makes give: the environment of `ptlrpc_register_bulk`;
the codes of `ptlrpcs_cli_wrap_request` and `ptlrpcs_cli_alloc_repbuf` and the buffer
and length the latter stores; the codes and handles of `PtlMEAttach` and `PtlMDAttach`;
the time; the environment of `ptl_send_buf`; the code of `PtlMEUnlink` and whether the
callback of the unlink event runs within it; and for `ptlrpc_unregister_bulk` the value
of `in_interrupt()` and what the completion callback does in each round of its wait. -/
structure send_rpc_env where
  register : register_bulk_env
  wrap_rc : Int
  alloc_rc : Int
  alloc_buf : Nat
  alloc_len : Int
  me_rc : ptl_err_t
  me_h : Nat
  md_rc : ptl_err_t
  md_h : Nat
  now : Nat
  send : send_buf_env
  me_unlink_rc : ptl_err_t
  unlink_event : Bool
  in_interrupt : Bool
  rounds : Nat → ptlrpc_bulk_desc → ptlrpc_bulk_desc

/-- How a call of `ptl_send_rpc` ends in the model: it returns, with the request, the
code, the Portals calls it made itself, oldest first, and the handles
`ptlrpc_unregister_bulk` called `PtlMDUnlink` on; an assertion fails; or it is still
waiting in `ptlrpc_unregister_bulk` when the rounds of the model are used up. -/
inductive send_rpc_outcome where
  | returned (req : ptlrpc_send_request) (rc : Int) (calls : List ptl_call)
      (unlinked : List Nat)
  | lbug
  | waiting
  deriving DecidableEq, Repr

/-- The code at the label `cleanup_bulk` of `ptl_send_rpc`. -/
def send_rpc_cleanup_bulk (e : send_rpc_env) (fuel : Nat) (req : ptlrpc_send_request)
    (rc : Int) (calls : List ptl_call) : send_rpc_outcome :=
  match req.rq_bulk with
  | none => .returned req rc calls []
  | some desc =>
    match ptlrpc_unregister_bulk e.in_interrupt e.rounds fuel
        ⟨req.rq_addr, req.rq_xid, req.rq_set, desc⟩ with
    | .returned desc1 unlinked => .returned { req with rq_bulk := some desc1 } rc calls unlinked
    | .lbug => .lbug
    | .waiting => .waiting

/-- Modelled from the spec: `ptlrpcs_cli_free_repbuf` (the security layer is not part of
the sources) releases the reply buffer of the request. -/
def ptlrpcs_cli_free_repbuf (req : ptlrpc_send_request) : ptlrpc_send_request :=
  { req with rq_repbuf := none, rq_repbuf_len := 0 }

/-- The code at the label `cleanup_repmsg` of `ptl_send_rpc`. -/
def send_rpc_cleanup_repmsg (e : send_rpc_env) (fuel : Nat) (req : ptlrpc_send_request)
    (rc : Int) (calls : List ptl_call) : send_rpc_outcome :=
  send_rpc_cleanup_bulk e fuel (ptlrpcs_cli_free_repbuf req) rc calls

/-- The code at the label `cleanup_me` of `ptl_send_rpc`. -/
def send_rpc_cleanup_me (e : send_rpc_env) (fuel : Nat) (req : ptlrpc_send_request)
    (rc : Int) (calls : List ptl_call) : send_rpc_outcome :=
  let calls1 := calls ++ [ptl_call.PtlMEUnlink e.me_h e.me_unlink_rc]
  if e.me_unlink_rc ≠ .PTL_OK then .lbug
  else
    let req1 := if e.unlink_event then { req with rq_receiving_reply := false } else req
    if req1.rq_receiving_reply then .lbug
    else send_rpc_cleanup_repmsg e fuel req1 rc calls1

/-- Modelled from the spec: `ptlrpc_request_addref` (client.c is not part of the
sources) takes a reference on the request. -/
def ptlrpc_request_addref (req : ptlrpc_send_request) : ptlrpc_send_request :=
  { req with rq_refcount := req.rq_refcount + 1 }

/-- Modelled from the spec: `ptlrpc_req_finished` (client.c is not part of the sources)
drops a reference on the request. -/
def ptlrpc_req_finished (req : ptlrpc_send_request) : ptlrpc_send_request :=
  { req with rq_refcount := req.rq_refcount - 1 }

/-- The part of `ptl_send_rpc` from the call of `PtlMEAttach` on. -/
def send_rpc_attach (R : ptlrpc_consts) (M : ptl_md_consts) (E : ptl_errno_h)
    (e : send_rpc_env) (a : send_rpc_addrs) (fuel : Nat) (connection : ptlrpc_connection)
    (req : ptlrpc_send_request) (calls : List ptl_call) : send_rpc_outcome :=
  let calls1 := calls ++ [ptl_call.PtlMEAttach connection.pni_ni_h req.rq_reply_portal
    connection.peer_id req.rq_xid e.me_rc]
  if e.me_rc ≠ .PTL_OK then
    if e.me_rc ≠ .PTL_NO_SPACE then .lbug
    else send_rpc_cleanup_repmsg e fuel req (-ENOMEM) calls1
  else
    let req1 := { req with rq_receiving_reply := true, rq_replied := false, rq_err := false,
                           rq_timedout := false, rq_net_err := false, rq_resend := false,
                           rq_restart := false, rq_ptlrpcs_restart := false,
                           rq_ptlrpcs_err := false }
    let reply_md : ptl_md_t :=
      { start := req1.rq_repbuf.getD 0, length := req1.rq_repbuf_len, threshold := 1,
        options := R.PTLRPC_MD_OPTIONS ||| M.PTL_MD_OP_PUT, user_ptr := a.reply_cbid,
        eq_handle := connection.pni_eq_h }
    let calls2 := calls1 ++ [ptl_call.PtlMDAttach e.me_h reply_md e.md_rc]
    if e.md_rc ≠ .PTL_OK then
      if e.md_rc ≠ .PTL_NO_SPACE then .lbug
      else send_rpc_cleanup_me e fuel req1 E.PTL_NO_SPACE calls2
    else
      let req2 := ptlrpc_request_addref { req1 with rq_reply_md_h := some e.md_h }
      let req3 := { req2 with rq_sent := e.now }
      match ptl_send_buf R e.send req3.rq_reqbuf req3.rq_reqdata_len .PTL_NOACK_REQ a.req_cbid
          (some connection) req3.rq_request_portal req3.rq_xid with
      | none => .lbug
      | some sent =>
        let req4 :=
          match sent.mdh with
          | some h => { req3 with rq_req_md_h := some h }
          | none => req3
        if sent.rc = 0 then .returned req4 sent.rc (calls2 ++ sent.calls) []
        else send_rpc_cleanup_me e fuel (ptlrpc_req_finished req4) sent.rc (calls2 ++ sent.calls)

/-- `ptl_send_rpc(request)`, `imp` being the import `request->rq_import`; `fuel` bounds the
rounds of the wait of `ptlrpc_unregister_bulk`. -/
def ptl_send_rpc (R : ptlrpc_consts) (M : ptl_md_consts) (E : ptl_errno_h)
    (e : send_rpc_env) (a : send_rpc_addrs) (fuel : Nat) (imp : obd_import)
    (req : ptlrpc_send_request) : send_rpc_outcome :=
  if req.rq_type ≠ .PTL_RPC_MSG_REQUEST then .lbug
  else if req.rq_receiving_reply then .lbug
  else
    let connection := imp.imp_connection
    let registered : Option (ptlrpc_send_request × List ptl_call × Int) :=
      match req.rq_bulk with
      | none => some (req, [], 0)
      | some desc =>
        match ptlrpc_register_bulk R M e.register a.bulk_cbid connection a.bulk_iov
            ⟨req.rq_addr, req.rq_xid, req.rq_set, desc⟩ with
        | none => none
        | some r => some ({ req with rq_bulk := some r.desc }, r.calls, r.rc)
    match registered with
    | none => .lbug
    | some (req1, calls1, rc1) =>
      if rc1 ≠ 0 then .returned req1 rc1 calls1 []
      else
        let req2 := { req1 with reqmsg_handle := imp.imp_remote_handle,
                                reqmsg_type := some .PTL_RPC_MSG_REQUEST,
                                reqmsg_conn_cnt := imp.imp_conn_cnt }
        if e.wrap_rc ≠ 0 then send_rpc_cleanup_bulk e fuel req2 e.wrap_rc calls1
        else if req2.rq_replen = 0 then .lbug
        else if req2.rq_repbuf = none then
          if e.alloc_rc ≠ 0 then send_rpc_cleanup_bulk e fuel req2 e.alloc_rc calls1
          else
            send_rpc_attach R M E e a fuel connection
              { req2 with rq_repbuf := some e.alloc_buf, rq_repbuf_len := e.alloc_len } calls1
        else send_rpc_attach R M E e a fuel connection req2 calls1

/-- The code of a call of `ptl_send_rpc` that has returned. -/
def send_rpc_rc : send_rpc_outcome → Option Int
  | .returned _ rc _ _ => some rc
  | _ => none

/-- Sample number of `PTL_NO_SPACE`: Portals numbers its codes upwards from `PTL_OK`,
which is 0. -/
def ptl_errno_sample : ptl_errno_h where
  PTL_NO_SPACE := 2

/-- A request without bulk that is ready to be sent and has its reply buffer. -/
def send_request_sample : ptlrpc_send_request where
  rq_addr := 500
  rq_type := .PTL_RPC_MSG_REQUEST
  rq_xid := 9
  rq_set := none
  rq_bulk := none
  rq_receiving_reply := false
  rq_replied := false
  rq_err := false
  rq_timedout := false
  rq_net_err := false
  rq_resend := false
  rq_restart := false
  rq_ptlrpcs_restart := false
  rq_ptlrpcs_err := false
  rq_replen := 128
  rq_repbuf := some 8192
  rq_repbuf_len := 128
  rq_reqbuf := 4096
  rq_reqdata_len := 64
  rq_request_portal := 12
  rq_reply_portal := 10
  rq_refcount := 1
  rq_sent := 0
  rq_reply_md_h := none
  rq_req_md_h := none
  reqmsg_handle := 0
  reqmsg_type := none
  reqmsg_conn_cnt := 0

/-- An environment in which no call fails; the callback of an unlink event runs within
`PtlMEUnlink`. -/
def send_rpc_env_ok : send_rpc_env where
  register := ⟨false, .PTL_OK, 5, .PTL_OK, 6, .PTL_OK, id⟩
  wrap_rc := 0
  alloc_rc := 0
  alloc_buf := 8192
  alloc_len := 128
  me_rc := .PTL_OK
  me_h := 7
  md_rc := .PTL_OK
  md_h := 8
  now := 1000
  send := ⟨false, .PTL_OK, 9, .PTL_OK, .PTL_OK⟩
  me_unlink_rc := .PTL_OK
  unlink_event := true
  in_interrupt := false
  rounds := fun _ desc => { desc with bd_network_rw := false }

/-- The import of the sample: the peer 4 behind the interface 2. -/
def obd_import_sample : obd_import where
  imp_connection := ⟨2, 3, 4⟩
  imp_remote_handle := 77
  imp_conn_cnt := 1

/-! ## Theorems: route table -/

section frame

@[simp] theorem update_peer_nets (f : lnet_peer → lnet_peer) (nid : Nat) (s : lnet_t) :
    (update_peer f nid s).ln_remote_nets = s.ln_remote_nets := rfl

@[simp] theorem update_peer_routers (f : lnet_peer → lnet_peer) (nid : Nat) (s : lnet_t) :
    (update_peer f nid s).ln_routers = s.ln_routers := rfl

@[simp] theorem addref_nets (nid : Nat) (s : lnet_t) :
    (lnet_peer_addref_locked nid s).ln_remote_nets = s.ln_remote_nets := rfl

@[simp] theorem addref_routers (nid : Nat) (s : lnet_t) :
    (lnet_peer_addref_locked nid s).ln_routers = s.ln_routers := rfl

@[simp] theorem decref_nets (nid : Nat) (s : lnet_t) :
    (lnet_peer_decref_locked nid s).ln_remote_nets = s.ln_remote_nets := rfl

@[simp] theorem decref_routers (nid : Nat) (s : lnet_t) :
    (lnet_peer_decref_locked nid s).ln_routers = s.ln_routers := rfl

@[simp] theorem rtr_addref_nets (nid : Nat) (s : lnet_t) :
    (lnet_rtr_addref_locked nid s).ln_remote_nets = s.ln_remote_nets := by
  unfold lnet_rtr_addref_locked
  simp only
  split
  · rfl
  · split <;> rfl

@[simp] theorem rtr_decref_nets (nid : Nat) (s : lnet_t) :
    (lnet_rtr_decref_locked nid s).ln_remote_nets = s.ln_remote_nets := by
  unfold lnet_rtr_decref_locked
  simp only
  split
  · rfl
  · split
    · split <;> rfl
    · rfl

@[simp] theorem nid2peer_nets (C : lnet_consts) (ok : Bool) (nid : Nat) (s : lnet_t) :
    (lnet_nid2peer_locked C ok nid s).1.ln_remote_nets = s.ln_remote_nets := by
  unfold lnet_nid2peer_locked
  split
  · rfl
  · split
    · rfl
    · split <;> rfl

end frame

theorem rnet_insert_route_perm (rand : Nat) (r : lnet_route) (l : List lnet_route) :
    (rnet_insert_route rand r l).Perm (r :: l) := by
  unfold rnet_insert_route
  simp only
  split
  · exact List.Perm.refl _
  · have h := @List.perm_middle _ r (l.take (rand % (l.length + 1) + 1))
      (l.drop (rand % (l.length + 1) + 1))
    rw [List.take_append_drop] at h
    exact h

theorem update_rnet_map_net (f : List lnet_route → List lnet_route) (net : Nat)
    (nets : List lnet_remotenet) :
    (update_rnet f net nets).map (fun rnet => rnet.lrn_net) =
      nets.map (fun rnet => rnet.lrn_net) := by
  induction nets with
  | nil => rfl
  | cons rnet rest ih =>
    unfold update_rnet
    split
    · simp
    · simp [ih]

theorem rnets_wf_update (f : List lnet_route → List lnet_route) (net : Nat)
    (nets : List lnet_remotenet) (hwf : rnets_wf nets)
    (hf : ∀ rnet, nets.find? (fun rnet => rnet.lrn_net == net) = some rnet →
      ((f rnet.lrn_routes).map (fun r => r.lr_gateway)).Nodup) :
    rnets_wf (update_rnet f net nets) := by
  refine ⟨by rw [update_rnet_map_net]; exact hwf.1, ?_⟩
  have hg := hwf.2
  clear hwf
  induction nets with
  | nil => intro rnet h; simp [update_rnet] at h
  | cons rnet rest ih =>
    intro rnet' hmem
    unfold update_rnet at hmem
    split at hmem
    · rename_i hnet
      rcases List.mem_cons.1 hmem with h | h
      · subst h
        exact hf rnet (by simp [List.find?, hnet])
      · exact hg rnet' (List.mem_cons_of_mem _ h)
    · rename_i hnet
      rcases List.mem_cons.1 hmem with h | h
      · subst h
        exact hg _ (List.mem_cons_self _ _)
      · refine ih (fun r hr => hf r ?_) (fun r hr => hg r (List.mem_cons_of_mem _ hr)) rnet' h
        have hb : (rnet.lrn_net == net) = false := by simp [hnet]
        simp [List.find?, hb, hr]

theorem rnets_wf_add_route_nets (rand net hops gateway : Nat) (nets : List lnet_remotenet)
    (hwf : rnets_wf nets) : rnets_wf (add_route_nets rand net hops gateway nets) := by
  unfold add_route_nets
  simp only
  have hwf2 : rnets_wf (match nets.find? (fun rnet => rnet.lrn_net == net) with
      | none => nets ++ [{ lrn_net := net, lrn_routes := [] }]
      | some _ => nets) := by
    split
    · rename_i hnone
      rw [List.find?_eq_none] at hnone
      refine ⟨?_, ?_⟩
      · rw [List.map_append, List.nodup_append]
        refine ⟨hwf.1, by simp, ?_⟩
        intro a ha hb
        simp at hb
        subst hb
        obtain ⟨rnet, hr, hrn⟩ := List.mem_map.1 ha
        exact hnone rnet hr (by simp [hrn])
      · intro rnet hr
        rcases List.mem_append.1 hr with h | h
        · exact hwf.2 rnet h
        · simp at h
          subst h
          simp
    · exact hwf
  split
  · rename_i hall
    apply rnets_wf_update _ _ _ hwf2
    intro rnet hfind
    rw [hfind] at hall
    simp only [Option.getD_some] at hall
    have hperm := (rnet_insert_route_perm rand
      { lr_net := net, lr_gateway := gateway, lr_hops := hops, lr_downis := 0 }
      rnet.lrn_routes).map (fun r => r.lr_gateway)
    rw [hperm.nodup_iff]
    simp only [List.map_cons, List.nodup_cons]
    refine ⟨?_, ?_⟩
    · intro hmem
      obtain ⟨r, hr, hrg⟩ := List.mem_map.1 hmem
      have := List.all_eq_true.1 hall r hr
      simp [hrg] at this
    · obtain ⟨_, h2⟩ := hwf2
      exact h2 rnet (List.mem_of_find?_eq_some hfind)
  · exact hwf2
theorem lnet_add_route_nets (C : lnet_consts) (e : add_route_env) (net hops gateway : Nat)
    (s : lnet_t) :
    (lnet_add_route C e net hops gateway s).1.ln_remote_nets = s.ln_remote_nets ∨
    (lnet_add_route C e net hops gateway s).1.ln_remote_nets =
      add_route_nets e.rand net hops gateway s.ln_remote_nets := by
  unfold lnet_add_route
  split
  · exact Or.inl rfl
  · split
    · exact Or.inl rfl
    · split
      · exact Or.inl rfl
      · have hn := nid2peer_nets C e.peer_alloc_ok gateway s
        generalize lnet_nid2peer_locked C e.peer_alloc_ok gateway s = res at hn
        obtain ⟨s1, rc⟩ := res
        simp only at hn
        simp only
        split
        · split <;> exact Or.inl hn
        · right
          simp only [decref_nets, lnet_find_net_locked, add_route_new_net]
          unfold add_route_nets
          simp only [hn]
          cases hfind : s.ln_remote_nets.find? (fun rnet => rnet.lrn_net == net) with
          | none =>
            simp only [hn]
            split
            · simp [lnet_add_route_to_rnet, hn]
            · simp [hn]
          | some rnet =>
            simp only [hn, hfind]
            split
            · simp [lnet_add_route_to_rnet, hn]
            · simp [hn]

theorem del_route_in_rnet_perm (C : lnet_consts) (gw_nid : Nat) (routes routes' : List lnet_route)
    (found : lnet_route) (h : del_route_in_rnet C gw_nid routes = some (routes', found)) :
    routes.Perm (found :: routes') := by
  induction routes generalizing routes' with
  | nil => simp [del_route_in_rnet] at h
  | cons r rest ih =>
    unfold del_route_in_rnet at h
    split at h
    · simp only [Option.some.injEq, Prod.mk.injEq] at h
      obtain ⟨h1, h2⟩ := h
      subst h1 h2
      exact List.Perm.refl _
    · split at h
      · rename_i rest' found' hrec
        simp only [Option.some.injEq, Prod.mk.injEq] at h
        obtain ⟨h1, h2⟩ := h
        subst h1 h2
        exact ((ih rest' hrec).cons r).trans (List.Perm.swap _ _ _)
      · simp at h

theorem del_route_in_nets_wf (C : lnet_consts) (net gw_nid : Nat)
    (nets nets' : List lnet_remotenet) (found : lnet_route)
    (h : del_route_in_nets C net gw_nid nets = some (nets', found)) (hwf : rnets_wf nets) :
    rnets_wf nets' ∧
      (nets'.map (fun rnet => rnet.lrn_net)).Sublist (nets.map (fun rnet => rnet.lrn_net)) := by
  induction nets generalizing nets' with
  | nil => simp [del_route_in_nets] at h
  | cons rnet rest ih =>
    have hrest : rnets_wf rest :=
      ⟨(List.nodup_cons.1 hwf.1).2, fun r hr => hwf.2 r (List.mem_cons_of_mem _ hr)⟩
    unfold del_route_in_nets at h
    split at h
    · rename_i routes' found' hrn
      simp only [Option.some.injEq, Prod.mk.injEq] at h
      obtain ⟨h1, h2⟩ := h
      subst h1 h2
      split
      · exact ⟨hrest, List.Sublist.cons _ (List.Sublist.refl _)⟩
      · split at hrn
        · have hp := (del_route_in_rnet_perm C gw_nid _ _ _ hrn).map (fun r => r.lr_gateway)
          have hnd := hwf.2 rnet (List.mem_cons_self _ _)
          rw [hp.nodup_iff] at hnd
          refine ⟨⟨hwf.1, ?_⟩, List.Sublist.refl _⟩
          intro r hr
          rcases List.mem_cons.1 hr with hh | hh
          · subst hh
            exact (List.nodup_cons.1 hnd).2
          · exact hwf.2 r (List.mem_cons_of_mem _ hh)
        · simp at hrn
    · split at h
      · rename_i rest' found' hrec
        simp only [Option.some.injEq, Prod.mk.injEq] at h
        obtain ⟨h1, h2⟩ := h
        subst h1 h2
        obtain ⟨hwf', hsub⟩ := ih rest' hrec hrest
        refine ⟨⟨?_, ?_⟩, ?_⟩
        · simp only [List.map_cons, List.nodup_cons]
          refine ⟨fun hmem => ?_, hwf'.1⟩
          exact (List.nodup_cons.1 hwf.1).1 (hsub.subset hmem)
        · intro r hr
          rcases List.mem_cons.1 hr with hh | hh
          · subst hh
            exact hwf.2 _ (List.mem_cons_self _ _)
          · exact hwf'.2 r hh
        · simp only [List.map_cons]
          exact hsub.cons₂ _
      · simp at h

theorem lnet_del_route_loop_wf (C : lnet_consts) (net gw_nid : Nat) (fuel : Nat) (s : lnet_t)
    (rc : Int) (hwf : rnets_wf s.ln_remote_nets) :
    rnets_wf (lnet_del_route_loop C net gw_nid fuel s rc).1.ln_remote_nets := by
  induction fuel generalizing s rc with
  | zero => exact hwf
  | succ n ih =>
    unfold lnet_del_route_loop
    split
    · exact hwf
    · rename_i s1 hpass
      apply ih
      unfold lnet_del_route_pass at hpass
      split at hpass
      · simp at hpass
      · rename_i nets' found hdel
        simp only [Option.some.injEq] at hpass
        subst hpass
        simp only [decref_nets, rtr_decref_nets]
        exact (del_route_in_nets_wf C net gw_nid _ _ _ hdel hwf).1

theorem route_step_wf (C : lnet_consts) (s : lnet_t) (op : route_op)
    (hwf : rnets_wf s.ln_remote_nets) : rnets_wf (route_step C s op).ln_remote_nets := by
  cases op with
  | add e net hops gateway =>
    simp only [route_step]
    rcases lnet_add_route_nets C e net hops gateway s with h | h
    · rw [h]; exact hwf
    · rw [h]; exact rnets_wf_add_route_nets _ _ _ _ _ hwf
  | del net gw_nid =>
    exact lnet_del_route_loop_wf C net gw_nid _ s _ hwf

theorem route_run_wf (C : lnet_consts) (ops : List route_op) (s : lnet_t)
    (hwf : rnets_wf s.ln_remote_nets) : rnets_wf (route_run C s ops).ln_remote_nets := by
  induction ops generalizing s with
  | nil => exact hwf
  | cons op rest ih => exact ih _ (route_step_wf C s op hwf)

theorem route_pairs_nodup_of_wf (s : lnet_t) (hwf : rnets_wf s.ln_remote_nets) :
    (route_pairs s).Nodup := by
  unfold route_pairs
  generalize s.ln_remote_nets = nets at hwf
  induction nets with
  | nil => simp
  | cons rnet rest ih =>
    have hrest : rnets_wf rest :=
      ⟨(List.nodup_cons.1 hwf.1).2, fun r hr => hwf.2 r (List.mem_cons_of_mem _ hr)⟩
    simp only [List.flatMap_cons, List.nodup_append]
    refine ⟨?_, ih hrest, ?_⟩
    · have := hwf.2 rnet (List.mem_cons_self _ _)
      have h2 := this.map (f := fun g => (rnet.lrn_net, g)) (fun a b hab => by simpa using hab)
      simpa [List.map_map] using h2
    · intro a ha hb
      obtain ⟨r, _, hra⟩ := List.mem_map.1 ha
      obtain ⟨rnet', hr', hmem'⟩ := List.mem_flatMap.1 hb
      obtain ⟨r', _, hra'⟩ := List.mem_map.1 hmem'
      have hne := (List.nodup_cons.1 hwf.1).1
      apply hne
      rw [← hra] at hra'
      simp only [Prod.mk.injEq] at hra'
      exact List.mem_map.2 ⟨rnet', hr', hra'.1⟩

theorem rtr_list_insert_perm (nid : Nat) (l : List Nat) :
    (rtr_list_insert nid l).Perm (nid :: l) := by
  unfold rtr_list_insert
  refine List.perm_middle.trans (List.Perm.cons _ ?_)
  have h := List.takeWhile_append_dropWhile (fun r => !decide (r < nid)) l.reverse
  have h1 : ((l.reverse.dropWhile (fun r => !decide (r < nid))).reverse ++
      (l.reverse.takeWhile (fun r => !decide (r < nid))).reverse).Perm
      (l.reverse.takeWhile (fun r => !decide (r < nid)) ++
        l.reverse.dropWhile (fun r => !decide (r < nid))) :=
    List.perm_append_comm.trans
      (List.Perm.append (List.reverse_perm _) (List.reverse_perm _))
  rw [h] at h1
  exact h1.trans (List.reverse_perm _)

theorem mem_update_peer {f : lnet_peer → lnet_peer} {nid : Nat} {s : lnet_t} {q : lnet_peer} :
    q ∈ (update_peer f nid s).ln_peers ↔
      ∃ p ∈ s.ln_peers, q = if p.lp_nid = nid then f p else p := by
  simp only [update_peer, List.mem_map]
  constructor
  · rintro ⟨p, hp, rfl⟩; exact ⟨p, hp, rfl⟩
  · rintro ⟨p, hp, rfl⟩; exact ⟨p, hp, rfl⟩

theorem update_peer_nids {f : lnet_peer → lnet_peer} (hf : ∀ p, (f p).lp_nid = p.lp_nid)
    (nid : Nat) (s : lnet_t) :
    (update_peer f nid s).ln_peers.map (fun p => p.lp_nid) =
      s.ln_peers.map (fun p => p.lp_nid) := by
  simp only [update_peer, List.map_map]
  apply List.map_congr_left
  intro p _
  simp only [Function.comp]
  split
  · exact hf p
  · rfl

theorem find_peer_mem {s : lnet_t} {nid : Nat} {p : lnet_peer}
    (h : lnet_find_peer s nid = some p) : p ∈ s.ln_peers ∧ p.lp_nid = nid := by
  unfold lnet_find_peer at h
  refine ⟨List.mem_of_find?_eq_some h, ?_⟩
  have := List.find?_some h
  simpa using this

theorem find_peer_of_mem {s : lnet_t} {p : lnet_peer} (hp : p ∈ s.ln_peers) :
    ∃ q, lnet_find_peer s p.lp_nid = some q := by
  unfold lnet_find_peer
  cases h : s.ln_peers.find? (fun q => q.lp_nid == p.lp_nid) with
  | some q => exact ⟨q, rfl⟩
  | none =>
    rw [List.find?_eq_none] at h
    exact absurd (h p hp) (by simp)

theorem find_peer_none {s : lnet_t} {nid : Nat} (h : lnet_find_peer s nid = none) :
    ∀ p ∈ s.ln_peers, p.lp_nid ≠ nid := by
  unfold lnet_find_peer at h
  rw [List.find?_eq_none] at h
  intro p hp
  simpa using h p hp

/-- A pointwise update of the peer `nid` that keeps NIDs carries the bookkeeping from
`c`, `x` to any `c'`, `x'` that agree with it away from `nid` and fit the updated peer. -/
theorem peers_ok_update (f : lnet_peer → lnet_peer) (hf : ∀ p, (f p).lp_nid = p.lp_nid)
    (nid : Nat) {s : lnet_t} {c x : Nat → Int} (c' x' : Nat → Int) (routers' : List Nat)
    (h : peers_ok s c x)
    (hc : ∀ n, n ≠ nid → c' n = c n) (hx : ∀ n, n ≠ nid → x' n = x n)
    (hp : ∀ p ∈ s.ln_peers, p.lp_nid = nid →
      (f p).lp_rtr_refcount = c' nid ∧
      1 + c' nid + (if 0 < c' nid then 1 else 0) + x' nid ≤ (f p).lp_refcount ∧
      0 ≤ c' nid ∧ 0 ≤ x' nid)
    (hex : 0 < c' nid → ∃ p ∈ s.ln_peers, p.lp_nid = nid)
    (hr : routers'.Nodup ∧ ∀ n, n ∈ routers' ↔ 0 < c' n) :
    peers_ok { update_peer f nid s with ln_routers := routers' } c' x' := by
  have key : ∀ q ∈ (update_peer f nid s).ln_peers,
      q.lp_rtr_refcount = c' q.lp_nid ∧
      1 + c' q.lp_nid + (if 0 < c' q.lp_nid then 1 else 0) + x' q.lp_nid ≤ q.lp_refcount ∧
      0 ≤ c' q.lp_nid ∧ 0 ≤ x' q.lp_nid := by
    intro q hq
    obtain ⟨p, hpm, rfl⟩ := mem_update_peer.1 hq
    by_cases hn : p.lp_nid = nid
    · rw [if_pos hn, hf p, hn]
      exact hp p hpm hn
    · rw [if_neg hn, hc _ hn, hx _ hn]
      exact ⟨h.rtr p hpm, h.ref p hpm, h.nonneg p hpm⟩
  have hnids : ∀ n, (∃ p ∈ (update_peer f nid s).ln_peers, p.lp_nid = n) ↔
      (∃ p ∈ s.ln_peers, p.lp_nid = n) := by
    intro n
    have h1 : ∀ (t : lnet_t), (∃ p ∈ t.ln_peers, p.lp_nid = n) ↔
        n ∈ t.ln_peers.map (fun p => p.lp_nid) := by
      intro t; simp [List.mem_map]
    rw [h1, h1, update_peer_nids hf]
  refine ⟨?_, fun q hq => (key q hq).1, fun q hq => (key q hq).2.1,
    fun q hq => (key q hq).2.2, ?_, hr.1, hr.2⟩
  · show ((update_peer f nid s).ln_peers.map (fun p => p.lp_nid)).Nodup
    rw [update_peer_nids hf]
    exact h.nodup
  · intro n hn
    show ∃ p ∈ (update_peer f nid s).ln_peers, p.lp_nid = n
    rw [hnids]
    by_cases hnn : n = nid
    · subst hnn; exact hex hn
    · rw [hc n hnn] at hn
      exact h.gw_peer n hn

theorem peers_ok_of_eq {s t : lnet_t} {c x : Nat → Int} (h : peers_ok s c x)
    (hp : t.ln_peers = s.ln_peers) (hr : t.ln_routers = s.ln_routers) : peers_ok t c x := by
  refine ⟨?_, ?_, ?_, ?_, ?_, ?_, ?_⟩
  · rw [hp]; exact h.nodup
  · rw [hp]; exact h.rtr
  · rw [hp]; exact h.ref
  · rw [hp]; exact h.nonneg
  · rw [hp]; exact h.gw_peer
  · rw [hr]; exact h.routers_nodup
  · rw [hr]; exact h.routers

theorem peers_ok_congr {s : lnet_t} {c x c' x' : Nat → Int} (hc : ∀ n, c' n = c n)
    (hx : ∀ n, x' n = x n) (h : peers_ok s c x) : peers_ok s c' x' := by
  have e1 : c' = c := funext hc
  have e2 : x' = x := funext hx
  rw [e1, e2]; exact h

theorem find_update_peer {f : lnet_peer → lnet_peer} (hf : ∀ p, (f p).lp_nid = p.lp_nid)
    (nid : Nat) (s : lnet_t) :
    lnet_find_peer (update_peer f nid s) nid = (lnet_find_peer s nid).map f := by
  unfold lnet_find_peer update_peer
  simp only
  induction s.ln_peers with
  | nil => rfl
  | cons p rest ih =>
    by_cases hn : p.lp_nid = nid
    · simp [List.find?, hn, hf]
    · have h1 : (p.lp_nid == nid) = false := by simp [hn]
      simp only [List.map_cons, if_neg hn, List.find?, h1]
      exact ih

theorem update_peer_comp {f g : lnet_peer → lnet_peer} (hf : ∀ p, (f p).lp_nid = p.lp_nid)
    (nid : Nat) (s : lnet_t) :
    (update_peer g nid (update_peer f nid s)).ln_peers =
      (update_peer (fun p => g (f p)) nid s).ln_peers := by
  simp only [update_peer, List.map_map]
  apply List.map_congr_left
  intro p _
  simp only [Function.comp]
  by_cases hn : p.lp_nid = nid
  · simp [hn, hf]
  · simp [hn]

theorem decref_peers_eq {nid : Nat} {s : lnet_t}
    (h : ∀ p ∈ s.ln_peers, p.lp_nid = nid → p.lp_refcount ≠ 1) :
    (lnet_peer_decref_locked nid s).ln_peers =
      (update_peer (fun p => { p with lp_refcount := p.lp_refcount - 1 }) nid s).ln_peers := by
  unfold lnet_peer_decref_locked
  simp only
  rw [List.filter_eq_self]
  intro q hq
  obtain ⟨p, hp, rfl⟩ := mem_update_peer.1 hq
  by_cases hn : p.lp_nid = nid
  · have := h p hp hn
    simp only [if_pos hn, Bool.not_eq_true', Bool.and_eq_false_iff]
    right
    simp only [beq_eq_false_iff_ne, ne_eq]
    omega
  · simp [hn]

theorem peers_ok_addref (nid : Nat) {s : lnet_t} {c x : Nat → Int} (h : peers_ok s c x) :
    peers_ok (lnet_peer_addref_locked nid s) c (bump x nid 1) := by
  have := peers_ok_update (fun p => { p with lp_refcount := p.lp_refcount + 1 })
    (fun _ => rfl) nid c (bump x nid 1) s.ln_routers h
    (fun _ _ => rfl) (fun n hn => by simp [bump, hn])
    (fun p hp hn => by
      have h1 := h.rtr p hp
      have h2 := h.ref p hp
      have h3 := h.nonneg p hp
      rw [hn] at h1 h2 h3
      simp only [bump, if_true]
      refine ⟨h1, by omega, h3.1, by omega⟩)
    (h.gw_peer nid) ⟨h.routers_nodup, h.routers⟩
  exact peers_ok_of_eq this rfl rfl

theorem peers_ok_decref (nid : Nat) {s : lnet_t} {c x : Nat → Int} (h : peers_ok s c x)
    (hx : 1 ≤ x nid) : peers_ok (lnet_peer_decref_locked nid s) c (bump x nid (-1)) := by
  have hne : ∀ p ∈ s.ln_peers, p.lp_nid = nid → p.lp_refcount ≠ 1 := by
    intro p hp hn
    have h2 := h.ref p hp
    have h3 := h.nonneg p hp
    rw [hn] at h2 h3
    split at h2 <;> omega
  have := peers_ok_update (fun p => { p with lp_refcount := p.lp_refcount - 1 })
    (fun _ => rfl) nid c (bump x nid (-1)) s.ln_routers h
    (fun _ _ => rfl) (fun n hn => by simp [bump, hn])
    (fun p hp hn => by
      have h1 := h.rtr p hp
      have h2 := h.ref p hp
      have h3 := h.nonneg p hp
      rw [hn] at h1 h2 h3
      simp only [bump, if_true]
      refine ⟨h1, by omega, h3.1, by omega⟩)
    (h.gw_peer nid) ⟨h.routers_nodup, h.routers⟩
  exact peers_ok_of_eq this (decref_peers_eq hne) rfl

theorem peers_ok_rtr_addref {nid : Nat} {s : lnet_t} {c x : Nat → Int} (h : peers_ok s c x)
    (hex : ∃ p ∈ s.ln_peers, p.lp_nid = nid) (hx : 1 ≤ x nid) :
    peers_ok (lnet_rtr_addref_locked nid s) (bump c nid 1) (bump x nid (-1)) := by
  obtain ⟨p0, hp0, hn0⟩ := hex
  obtain ⟨q, hq⟩ := find_peer_of_mem hp0
  rw [hn0] at hq
  have hqm := find_peer_mem hq
  have hqr := h.rtr q hqm.1
  rw [hqm.2] at hqr
  have hc0 := (h.nonneg q hqm.1).1
  rw [hqm.2] at hc0
  have hfind : lnet_find_peer (update_peer
      (fun p => { p with lp_rtr_refcount := p.lp_rtr_refcount + 1 }) nid s) nid =
      some { q with lp_rtr_refcount := q.lp_rtr_refcount + 1 } := by
    rw [find_update_peer (f := fun p => { p with lp_rtr_refcount := p.lp_rtr_refcount + 1 })
      (fun _ => rfl), hq]
    rfl
  unfold lnet_rtr_addref_locked
  simp only [hfind]
  by_cases h1 : q.lp_rtr_refcount + 1 = 1
  · rw [if_pos h1]
    have hc : c nid = 0 := by omega
    have hnotin : nid ∉ s.ln_routers := by
      intro hmem
      have := (h.routers nid).1 hmem
      omega
    have := peers_ok_update
      (fun p => { p with lp_rtr_refcount := p.lp_rtr_refcount + 1,
                         lp_refcount := p.lp_refcount + 1 })
      (fun _ => rfl) nid (bump c nid 1) (bump x nid (-1))
      (rtr_list_insert nid s.ln_routers) h
      (fun n hn => by simp [bump, hn]) (fun n hn => by simp [bump, hn])
      (fun p hp hn => by
        have h1 := h.rtr p hp
        have h2 := h.ref p hp
        have h3 := h.nonneg p hp
        rw [hn] at h1 h2 h3
        simp only [bump, if_true]
        refine ⟨by omega, ?_, by omega, by omega⟩
        rw [hc] at h2 ⊢
        simp at h2 ⊢
        omega)
      (fun _ => ⟨p0, hp0, hn0⟩)
      ⟨by
        rw [(rtr_list_insert_perm nid s.ln_routers).nodup_iff, List.nodup_cons]
        exact ⟨hnotin, h.routers_nodup⟩,
       by
        intro n
        rw [(rtr_list_insert_perm nid s.ln_routers).mem_iff, List.mem_cons, h.routers n]
        by_cases hn : n = nid
        · subst hn
          simp only [bump, if_true, true_or, true_iff]
          omega
        · simp [bump, hn]⟩
    refine peers_ok_of_eq this ?_ rfl
    exact update_peer_comp
      (f := fun p => { p with lp_rtr_refcount := p.lp_rtr_refcount + 1 })
      (g := fun p => { p with lp_refcount := p.lp_refcount + 1 }) (fun _ => rfl) nid s
  · rw [if_neg h1]
    have hc : 0 < c nid := by omega
    have := peers_ok_update
      (fun p => { p with lp_rtr_refcount := p.lp_rtr_refcount + 1 })
      (fun _ => rfl) nid (bump c nid 1) (bump x nid (-1))
      s.ln_routers h
      (fun n hn => by simp [bump, hn]) (fun n hn => by simp [bump, hn])
      (fun p hp hn => by
        have h1 := h.rtr p hp
        have h2 := h.ref p hp
        have h3 := h.nonneg p hp
        rw [hn] at h1 h2 h3
        simp only [bump, if_true]
        refine ⟨by omega, ?_, by omega, by omega⟩
        rw [if_pos hc] at h2
        rw [if_pos (by omega)]
        omega)
      (fun _ => ⟨p0, hp0, hn0⟩)
      ⟨h.routers_nodup, by
        intro n
        rw [h.routers n]
        by_cases hn : n = nid
        · subst hn
          simp only [bump, if_true]
          constructor
          · intro; omega
          · intro; exact hc
        · simp [bump, hn]⟩
    exact peers_ok_of_eq this rfl rfl

theorem peers_ok_rtr_decref {nid : Nat} {s : lnet_t} {c x : Nat → Int} (h : peers_ok s c x)
    (hc : 0 < c nid) :
    peers_ok (lnet_rtr_decref_locked nid s) (bump c nid (-1)) (bump x nid 1) := by
  obtain ⟨p0, hp0, hn0⟩ := h.gw_peer nid hc
  obtain ⟨q, hq⟩ := find_peer_of_mem hp0
  rw [hn0] at hq
  have hqm := find_peer_mem hq
  have hqr := h.rtr q hqm.1
  rw [hqm.2] at hqr
  have hfind : lnet_find_peer (update_peer
      (fun p => { p with lp_rtr_refcount := p.lp_rtr_refcount - 1 }) nid s) nid =
      some { q with lp_rtr_refcount := q.lp_rtr_refcount - 1 } := by
    rw [find_update_peer (f := fun p => { p with lp_rtr_refcount := p.lp_rtr_refcount - 1 })
      (fun _ => rfl), hq]
    rfl
  unfold lnet_rtr_decref_locked
  simp only [hfind]
  by_cases h1 : q.lp_rtr_refcount - 1 = 0
  · rw [if_pos h1]
    have hc1 : c nid = 1 := by omega
    -- the state before the reference of the router list is dropped
    have hmid : ∀ (g : lnet_peer → lnet_peer), (∀ p, (g p).lp_nid = p.lp_nid) →
        (∀ p, (g p).lp_rtr_refcount = p.lp_rtr_refcount - 1) →
        (∀ p, (g p).lp_refcount = p.lp_refcount) →
        peers_ok { update_peer g nid s with ln_routers := s.ln_routers.erase nid }
          (bump c nid (-1)) (bump x nid 2) := by
      intro g hg1 hg2 hg3
      refine peers_ok_update g hg1 nid (bump c nid (-1)) (bump x nid 2)
        (s.ln_routers.erase nid) h
        (fun n hn => by simp [bump, hn]) (fun n hn => by simp [bump, hn])
        (fun p hp hn => ?_) (fun hpos => ?_) ⟨h.routers_nodup.erase nid, fun n => ?_⟩
      · have h1 := h.rtr p hp
        have h2 := h.ref p hp
        have h3 := h.nonneg p hp
        rw [hn] at h1 h2 h3
        rw [hc1] at h2
        simp only [bump, if_true, hg2, hg3, hc1]
        simp at h2 ⊢
        omega
      · simp only [bump, if_true] at hpos
        omega
      · rw [h.routers_nodup.mem_erase_iff, h.routers n]
        by_cases hn : n = nid
        · subst hn
          simp only [bump, if_true, ne_eq, not_true_eq_false, false_and, false_iff]
          omega
        · simp [bump, hn]
    have hfin : ∀ (t : lnet_t), peers_ok t (bump c nid (-1)) (bump x nid 2) →
        peers_ok { lnet_peer_decref_locked nid t with
          ln_routers_version := ((lnet_peer_decref_locked nid t).ln_routers_version + 1) % 2 ^ 64 }
          (bump c nid (-1)) (bump x nid 1) := by
      intro t ht
      have hx2 : (1 : Int) ≤ bump x nid 2 nid := by
        have := (h.nonneg q hqm.1).2
        rw [hqm.2] at this
        simp only [bump, if_true]
        omega
      refine peers_ok_of_eq (peers_ok_congr (fun _ => rfl) (fun n => ?_)
        (peers_ok_decref nid ht hx2)) rfl rfl
      simp only [bump]
      split <;> omega
    cases hrcd : q.lp_rcd with
    | none =>
      simp only
      apply hfin
      exact peers_ok_of_eq
        (hmid (fun p => { p with lp_rtr_refcount := p.lp_rtr_refcount - 1 })
          (fun _ => rfl) (fun _ => rfl) (fun _ => rfl)) rfl rfl
    | some rcd =>
      simp only
      apply hfin
      refine peers_ok_of_eq
        (hmid (fun p => { p with lp_rtr_refcount := p.lp_rtr_refcount - 1, lp_rcd := none })
          (fun _ => rfl) (fun _ => rfl) (fun _ => rfl)) ?_ rfl
      exact update_peer_comp
        (f := fun p => { p with lp_rtr_refcount := p.lp_rtr_refcount - 1 })
        (g := fun p => { p with lp_rcd := none }) (fun _ => rfl) nid s
  · rw [if_neg h1]
    have := peers_ok_update
      (fun p => { p with lp_rtr_refcount := p.lp_rtr_refcount - 1 })
      (fun _ => rfl) nid (bump c nid (-1)) (bump x nid 1)
      s.ln_routers h
      (fun n hn => by simp [bump, hn]) (fun n hn => by simp [bump, hn])
      (fun p hp hn => by
        have h1 := h.rtr p hp
        have h2 := h.ref p hp
        have h3 := h.nonneg p hp
        rw [hn] at h1 h2 h3
        simp only [bump, if_true]
        refine ⟨by omega, ?_, by omega, by omega⟩
        rw [if_pos hc] at h2
        rw [if_pos (by omega)]
        omega)
      (fun _ => ⟨p0, hp0, hn0⟩)
      ⟨h.routers_nodup, by
        intro n
        rw [h.routers n]
        by_cases hn : n = nid
        · subst hn
          simp only [bump, if_true]
          constructor
          · intro; omega
          · intro; exact hc
        · simp [bump, hn]⟩
    exact peers_ok_of_eq this rfl rfl

theorem nid2peer_fail (C : lnet_consts) (ok : Bool) (nid : Nat) (s : lnet_t)
    (hrc : (lnet_nid2peer_locked C ok nid s).2 ≠ 0) :
    (lnet_nid2peer_locked C ok nid s).1 = s := by
  unfold lnet_nid2peer_locked at hrc ⊢
  split
  · rename_i hfind
    rw [hfind] at hrc
    simp at hrc
  · split
    · rfl
    · split
      · rfl
      · rename_i hfind _ _ _ hni
        rw [hfind] at hrc
        simp only at hrc
        rw [if_neg (by assumption), hni] at hrc
        simp at hrc

theorem peer_exists_iff (t : lnet_t) (n : Nat) :
    (∃ p ∈ t.ln_peers, p.lp_nid = n) ↔ n ∈ t.ln_peers.map (fun p => p.lp_nid) := by
  simp [List.mem_map]

theorem addref_nids (nid : Nat) (s : lnet_t) :
    (lnet_peer_addref_locked nid s).ln_peers.map (fun p => p.lp_nid) =
      s.ln_peers.map (fun p => p.lp_nid) :=
  update_peer_nids (f := fun p => { p with lp_refcount := p.lp_refcount + 1 })
    (fun _ => rfl) nid s

theorem peers_ok_nid2peer (C : lnet_consts) (ok : Bool) (nid : Nat) {s : lnet_t}
    {c x : Nat → Int} (h : peers_ok s c x)
    (hnew : lnet_find_peer s nid = none → x nid = 0) (hcn : 0 ≤ c nid)
    (hrc : (lnet_nid2peer_locked C ok nid s).2 = 0) :
    peers_ok (lnet_nid2peer_locked C ok nid s).1 c (bump x nid 1) ∧
      (∃ p ∈ (lnet_nid2peer_locked C ok nid s).1.ln_peers, p.lp_nid = nid) ∧
      (lnet_nid2peer_locked C ok nid s).1.ln_routers = s.ln_routers := by
  unfold lnet_nid2peer_locked at hrc ⊢
  split
  · rename_i q hfind
    have hqm := find_peer_mem hfind
    refine ⟨peers_ok_addref nid h, ?_, rfl⟩
    rw [peer_exists_iff]
    show nid ∈ (lnet_peer_addref_locked nid s).ln_peers.map (fun p => p.lp_nid)
    rw [addref_nids, ← peer_exists_iff]
    exact ⟨q, hqm.1, hqm.2⟩
  · rename_i hfind
    rw [hfind] at hrc
    simp only at hrc
    split
    · rename_i hok
      rw [if_pos hok] at hrc
      simp [ENOMEM] at hrc
    · rename_i hok
      rw [if_neg hok] at hrc
      split
      · rename_i hni
        rw [hni] at hrc
        simp [EHOSTUNREACH] at hrc
      · rename_i ni hni
        have hne := find_peer_none hfind
        have hx0 := hnew hfind
        have hc0 : ¬ 0 < c nid := by
          intro hpos
          obtain ⟨p, hp, hn⟩ := h.gw_peer nid hpos
          exact hne p hp hn
        refine ⟨⟨?_, ?_, ?_, ?_, ?_, h.routers_nodup, h.routers⟩, ⟨_, List.mem_cons_self _ _, rfl⟩, rfl⟩
        · simp only [List.map_cons, List.nodup_cons]
          refine ⟨?_, h.nodup⟩
          rw [← peer_exists_iff]
          rintro ⟨p, hp, hn⟩
          exact hne p hp hn
        · intro p hp
          rcases List.mem_cons.1 hp with hh | hh
          · subst hh
            simp only
            omega
          · exact h.rtr p hh
        · intro p hp
          rcases List.mem_cons.1 hp with hh | hh
          · subst hh
            simp only [bump, if_true]
            rw [if_neg hc0]
            omega
          · have hn : p.lp_nid ≠ nid := hne p hh
            simp only [bump, if_neg hn]
            exact h.ref p hh
        · intro p hp
          rcases List.mem_cons.1 hp with hh | hh
          · subst hh
            simp only [bump, if_true]
            omega
          · have hn : p.lp_nid ≠ nid := hne p hh
            simp only [bump, if_neg hn]
            exact h.nonneg p hh
        · intro n hn
          obtain ⟨p, hp, hpn⟩ := h.gw_peer n hn
          exact ⟨p, List.mem_cons_of_mem _ hp, hpn⟩

theorem update_rnet_routes_perm (f : List lnet_route → List lnet_route) (r : lnet_route)
    (hf : ∀ l, (f l).Perm (r :: l)) (net : Nat) (nets : List lnet_remotenet)
    (hex : ∃ rnet ∈ nets, rnet.lrn_net = net) :
    ((update_rnet f net nets).flatMap (fun rnet => rnet.lrn_routes)).Perm
      (r :: nets.flatMap (fun rnet => rnet.lrn_routes)) := by
  induction nets with
  | nil => simp at hex
  | cons rnet rest ih =>
    unfold update_rnet
    split
    · simp only [List.flatMap_cons]
      exact (hf rnet.lrn_routes).append_right _
    · rename_i hne
      simp only [List.flatMap_cons]
      have hex' : ∃ rnet ∈ rest, rnet.lrn_net = net := by
        obtain ⟨q, hq, hqn⟩ := hex
        rcases List.mem_cons.1 hq with hh | hh
        · subst hh; exact absurd hqn hne
        · exact ⟨q, hh, hqn⟩
      exact ((ih hex').append_left rnet.lrn_routes).trans List.perm_middle

theorem all_routes_congr {s t : lnet_t} (h : t.ln_remote_nets = s.ln_remote_nets) :
    all_routes t = all_routes s := by
  unfold all_routes; rw [h]

theorem rtr_count_congr {s t : lnet_t} (h : t.ln_remote_nets = s.ln_remote_nets) (n : Nat) :
    rtr_count t n = rtr_count s n := by
  unfold rtr_count lp_routes; rw [all_routes_congr h]

theorem rtr_count_nonneg (s : lnet_t) (n : Nat) : 0 ≤ rtr_count s n := by
  unfold rtr_count; omega

theorem rtr_count_pos_iff (s : lnet_t) (n : Nat) :
    0 < rtr_count s n ↔ ∃ r ∈ all_routes s, r.lr_gateway = n := by
  unfold rtr_count lp_routes
  rw [Int.natCast_pos, List.length_pos_iff_exists_mem]
  simp [List.mem_filter]

theorem rtr_count_of_perm_cons {s t : lnet_t} {r : lnet_route}
    (h : (all_routes t).Perm (r :: all_routes s)) (n : Nat) :
    rtr_count t n = bump (rtr_count s) r.lr_gateway 1 n := by
  unfold rtr_count lp_routes bump
  rw [(h.filter _).length_eq]
  by_cases hn : n = r.lr_gateway
  · subst hn
    simp [List.filter_cons]
  · have : (r.lr_gateway == n) = false := by simp [Ne.symm hn]
    simp [List.filter_cons, this, hn]

theorem rtr_count_of_perm_del {s t : lnet_t} {r : lnet_route}
    (h : (all_routes s).Perm (r :: all_routes t)) (n : Nat) :
    rtr_count t n = bump (rtr_count s) r.lr_gateway (-1) n := by
  have := rtr_count_of_perm_cons h n
  simp only [bump] at this ⊢
  split at this <;> rename_i hn
  · rw [if_pos hn]; omega
  · rw [if_neg hn]; omega

theorem add_route_nets_routes (rand net hops gateway : Nat) (nets : List lnet_remotenet) :
    ((add_route_nets rand net hops gateway nets).flatMap (fun rnet => rnet.lrn_routes)).Perm
        ({ lr_net := net, lr_gateway := gateway, lr_hops := hops, lr_downis := 0 } ::
          nets.flatMap (fun rnet => rnet.lrn_routes)) ∨
      ((add_route_nets rand net hops gateway nets).flatMap (fun rnet => rnet.lrn_routes) =
          nets.flatMap (fun rnet => rnet.lrn_routes) ∧
        ∃ r ∈ nets.flatMap (fun rnet => rnet.lrn_routes), r.lr_gateway = gateway) := by
  unfold add_route_nets
  simp only
  cases hfind : nets.find? (fun rnet => rnet.lrn_net == net) with
  | none =>
    left
    have h2 : (nets ++ [({ lrn_net := net, lrn_routes := [] } : lnet_remotenet)]).find?
        (fun rnet => rnet.lrn_net == net) = some { lrn_net := net, lrn_routes := [] } := by
      rw [List.find?_append, hfind]
      simp
    simp only [h2, Option.getD_some, List.all_nil, if_true]
    refine (update_rnet_routes_perm _ _ (rnet_insert_route_perm rand _) net _
      ⟨_, List.mem_append_right _ (List.mem_singleton_self _), rfl⟩).trans ?_
    simp
  | some rnet =>
    simp only [hfind, Option.getD_some]
    have hmem := List.mem_of_find?_eq_some hfind
    have hnet : rnet.lrn_net = net := by simpa using List.find?_some hfind
    split
    · left
      exact update_rnet_routes_perm _ _ (rnet_insert_route_perm rand _) net _ ⟨rnet, hmem, hnet⟩
    · rename_i hall
      right
      refine ⟨rfl, ?_⟩
      simp only [List.all_eq_true, bne_iff_ne, ne_eq, not_forall, Classical.not_not] at hall
      obtain ⟨r, hr, hrg⟩ := hall
      exact ⟨r, List.mem_flatMap.2 ⟨rnet, hmem, hr⟩, hrg⟩

theorem add_route_new_net_peers (net : Nat) (s : lnet_t) :
    (add_route_new_net net s).ln_peers = s.ln_peers ∧
      (add_route_new_net net s).ln_routers = s.ln_routers := by
  unfold add_route_new_net
  split <;> exact ⟨rfl, rfl⟩

theorem add_route_new_net_routes (net : Nat) (s : lnet_t) :
    all_routes (add_route_new_net net s) = all_routes s := by
  unfold add_route_new_net all_routes
  split
  · simp
  · rfl

theorem add_route_new_net_find (net : Nat) (s : lnet_t) :
    ∃ rnet, lnet_find_net_locked (add_route_new_net net s) net = some rnet ∧
      rnet ∈ (add_route_new_net net s).ln_remote_nets ∧ rnet.lrn_net = net := by
  unfold add_route_new_net
  split
  · rename_i hnone
    unfold lnet_find_net_locked at hnone ⊢
    refine ⟨{ lrn_net := net, lrn_routes := [] }, ?_, ?_, rfl⟩
    · simp only [List.find?_append, hnone]
      simp
    · simp
  · rename_i rnet hsome
    refine ⟨rnet, hsome, ?_, ?_⟩
    · exact List.mem_of_find?_eq_some hsome
    · simpa using List.find?_some hsome

theorem peers_ok_add_route (C : lnet_consts) (e : add_route_env) (net hops gateway : Nat)
    (s : lnet_t) (h : peers_ok s (rtr_count s) (fun _ => 0)) :
    peers_ok (lnet_add_route C e net hops gateway s).1
      (rtr_count (lnet_add_route C e net hops gateway s).1) (fun _ => 0) := by
  unfold lnet_add_route
  split
  · exact h
  split
  · exact h
  split
  · exact h
  have hfail := nid2peer_fail C e.peer_alloc_ok gateway s
  have hok := peers_ok_nid2peer C e.peer_alloc_ok gateway h (fun _ => rfl)
    (rtr_count_nonneg _ _)
  have hn := nid2peer_nets C e.peer_alloc_ok gateway s
  generalize lnet_nid2peer_locked C e.peer_alloc_ok gateway s = res at hfail hok hn
  obtain ⟨s1, rc⟩ := res
  simp only at hfail hok hn ⊢
  split
  · rename_i hrc
    have := hfail hrc
    subst this
    split <;> exact h
  · rename_i hrc
    have hrc0 : rc = 0 := by simpa using hrc
    obtain ⟨hp1, hex1, _⟩ := hok hrc0
    have hroutes1 : all_routes s1 = all_routes s := all_routes_congr hn
    obtain ⟨hpe2, hre2⟩ := add_route_new_net_peers net s1
    have hroutes2 := (add_route_new_net_routes net s1).trans hroutes1
    obtain ⟨rnet2, hfind2, hmem2, hnet2⟩ := add_route_new_net_find net s1
    have hp2 := peers_ok_of_eq hp1 hpe2 hre2
    generalize add_route_new_net net s1 = s2 at hroutes2 hfind2 hmem2 hp2 hpe2 ⊢
    rw [hfind2]
    simp only [Option.getD_some]
    have hex2 : ∃ p ∈ s2.ln_peers, p.lp_nid = gateway := by rw [hpe2]; exact hex1
    split
    · -- the route is new
      have hpa := peers_ok_addref gateway hp2
      have hexa : ∃ p ∈ (lnet_peer_addref_locked gateway s2).ln_peers, p.lp_nid = gateway := by
        rw [peer_exists_iff, addref_nids, ← peer_exists_iff]; exact hex2
      unfold lnet_add_route_to_rnet
      simp only
      have hpb := peers_ok_of_eq (t := { lnet_peer_addref_locked gateway s2 with
          ln_remote_nets := update_rnet (rnet_insert_route e.rand
            { lr_net := net, lr_gateway := gateway, lr_hops := hops, lr_downis := 0 }) net
            (lnet_peer_addref_locked gateway s2).ln_remote_nets,
          ln_remote_nets_version :=
            (lnet_peer_addref_locked gateway s2).ln_remote_nets_version + 1 }) hpa rfl rfl
      have hpc := peers_ok_rtr_addref hpb hexa (by simp [bump])
      have hpd := peers_ok_decref gateway hpc (by simp [bump])
      refine peers_ok_congr (fun n => ?_) (fun n => ?_) hpd
      · apply rtr_count_of_perm_cons
          (r := { lr_net := net, lr_gateway := gateway, lr_hops := hops, lr_downis := 0 })
        rw [← hroutes2]
        unfold all_routes
        simp only [decref_nets, rtr_addref_nets, addref_nets]
        exact update_rnet_routes_perm _ _ (rnet_insert_route_perm e.rand _) net _
          ⟨rnet2, hmem2, hnet2⟩
      · simp only [bump]
        split <;> omega
    · -- duplicate route
      have hpd := peers_ok_decref gateway hp2 (by simp [bump])
      refine peers_ok_congr (fun n => ?_) (fun n => ?_) hpd
      · simp only [rtr_count, lp_routes]
        rw [all_routes_congr (decref_nets gateway s2), hroutes2]
      · simp only [bump]
        split <;> omega

theorem del_route_in_nets_perm (C : lnet_consts) (net gw_nid : Nat)
    (nets nets' : List lnet_remotenet) (found : lnet_route)
    (h : del_route_in_nets C net gw_nid nets = some (nets', found)) :
    (nets.flatMap (fun rnet => rnet.lrn_routes)).Perm
      (found :: nets'.flatMap (fun rnet => rnet.lrn_routes)) := by
  induction nets generalizing nets' with
  | nil => simp [del_route_in_nets] at h
  | cons rnet rest ih =>
    unfold del_route_in_nets at h
    split at h
    · rename_i routes' found' hrn
      simp only [Option.some.injEq, Prod.mk.injEq] at h
      obtain ⟨h1, h2⟩ := h
      subst h1 h2
      split at hrn
      · have hp := del_route_in_rnet_perm C gw_nid _ _ _ hrn
        simp only [List.flatMap_cons]
        split
        · rename_i hemp
          have : routes' = [] := by simpa using hemp
          subst this
          exact hp.append_right _
        · simp only [List.flatMap_cons]
          exact hp.append_right _
      · simp at hrn
    · split at h
      · rename_i rest' found' hrec
        simp only [Option.some.injEq, Prod.mk.injEq] at h
        obtain ⟨h1, h2⟩ := h
        subst h1 h2
        simp only [List.flatMap_cons]
        exact ((ih rest' hrec).append_left rnet.lrn_routes).trans List.perm_middle
      · simp at h

theorem lnet_del_route_pass_routes (C : lnet_consts) (net gw_nid : Nat) (s s1 : lnet_t)
    (h : lnet_del_route_pass C net gw_nid s = some s1) :
    ∃ found, (all_routes s).Perm (found :: all_routes s1) := by
  unfold lnet_del_route_pass at h
  split at h
  · simp at h
  · rename_i nets' found hdel
    simp only [Option.some.injEq] at h
    subst h
    refine ⟨found, ?_⟩
    unfold all_routes
    simp only [decref_nets, rtr_decref_nets]
    exact del_route_in_nets_perm C net gw_nid _ _ _ hdel

theorem route_inv_del_route_pass (C : lnet_consts) (net gw_nid : Nat) (s s1 : lnet_t)
    (h : lnet_del_route_pass C net gw_nid s = some s1) (hinv : route_inv s) :
    route_inv s1 := by
  obtain ⟨found', hperm'⟩ := lnet_del_route_pass_routes C net gw_nid s s1 h
  unfold lnet_del_route_pass at h
  split at h
  · simp at h
  · rename_i nets' found hdel
    simp only [Option.some.injEq] at h
    have hperm := del_route_in_nets_perm C net gw_nid _ _ _ hdel
    have hpos : 0 < rtr_count s found.lr_gateway := by
      rw [rtr_count_pos_iff]
      exact ⟨found, by unfold all_routes; exact hperm.mem_iff.2 (List.mem_cons_self _ _), rfl⟩
    have hp1 : peers_ok (lnet_t.mk s.ln_nis s.ln_peers nets' s.ln_routers s.ln_rcd_deathrow
        (s.ln_remote_nets_version + 1) s.ln_routers_version) (rtr_count s) (fun _ => 0) :=
      peers_ok_of_eq hinv.peers rfl rfl
    have hp2 := peers_ok_rtr_decref hp1 hpos
    have hp3 := peers_ok_decref found.lr_gateway hp2 (by simp [bump])
    rw [h] at hp3
    refine ⟨?_, peers_ok_congr (fun n => ?_) (fun n => ?_) hp3⟩
    · rw [← h]
      simp only [decref_nets, rtr_decref_nets]
      exact (del_route_in_nets_wf C net gw_nid _ _ _ hdel hinv.wf).1
    · apply rtr_count_of_perm_del
      rw [← h]
      unfold all_routes
      simp only [decref_nets, rtr_decref_nets]
      exact hperm
    · simp only [bump]
      split <;> omega

theorem route_inv_del_route_loop (C : lnet_consts) (net gw_nid : Nat) (fuel : Nat) (s : lnet_t)
    (rc : Int) (hinv : route_inv s) :
    route_inv (lnet_del_route_loop C net gw_nid fuel s rc).1 := by
  induction fuel generalizing s rc with
  | zero => exact hinv
  | succ n ih =>
    unfold lnet_del_route_loop
    split
    · exact hinv
    · rename_i s1 hpass
      exact ih _ _ (route_inv_del_route_pass C net gw_nid s s1 hpass hinv)

/-- The fuel of `lnet_del_route` is enough: the loop stops because a pass reaches the end
of the table without a match, not because the fuel runs out. -/
theorem lnet_del_route_loop_done (C : lnet_consts) (net gw_nid : Nat) (fuel : Nat) (s : lnet_t)
    (rc : Int) (hfuel : (all_routes s).length < fuel) :
    lnet_del_route_pass C net gw_nid (lnet_del_route_loop C net gw_nid fuel s rc).1 = none := by
  induction fuel generalizing s rc with
  | zero => omega
  | succ n ih =>
    unfold lnet_del_route_loop
    split
    · assumption
    · rename_i s1 hpass
      obtain ⟨found, hperm⟩ := lnet_del_route_pass_routes C net gw_nid s s1 hpass
      have := hperm.length_eq
      simp only [List.length_cons] at this
      exact ih _ _ (by omega)

theorem lnet_del_route_done (C : lnet_consts) (net gw_nid : Nat) (s : lnet_t) :
    lnet_del_route_pass C net gw_nid (lnet_del_route C net gw_nid s).1 = none :=
  lnet_del_route_loop_done C net gw_nid _ s _ (Nat.lt_succ_self _)

theorem route_inv_step (C : lnet_consts) (s : lnet_t) (op : route_op) (hinv : route_inv s) :
    route_inv (route_step C s op) := by
  cases op with
  | add e net hops gateway =>
    exact ⟨route_step_wf C s (.add e net hops gateway) hinv.wf,
      peers_ok_add_route C e net hops gateway s hinv.peers⟩
  | del net gw_nid => exact route_inv_del_route_loop C net gw_nid _ s _ hinv

theorem route_inv_run (C : lnet_consts) (ops : List route_op) (s : lnet_t)
    (hinv : route_inv s) : route_inv (route_run C s ops) := by
  induction ops generalizing s with
  | nil => exact hinv
  | cons op rest ih => exact ih _ (route_inv_step C s op hinv)

theorem route_inv_of_empty (s : lnet_t) (h : route_table_empty s) : route_inv s := by
  obtain ⟨hn, hr, hnd, hp⟩ := h
  have hc : ∀ n, rtr_count s n = 0 := by
    intro n
    simp [rtr_count, lp_routes, all_routes, hn]
  refine ⟨by rw [hn]; exact ⟨List.nodup_nil, by simp⟩, hnd, ?_, ?_, ?_, ?_, ?_, ?_⟩
  · intro p hpm
    rw [hc]; exact (hp p hpm).1
  · intro p hpm
    rw [hc]
    have := (hp p hpm).2
    simp
    omega
  · intro p _
    rw [hc]; simp
  · intro n hpos
    rw [hc] at hpos; omega
  · rw [hr]; exact List.nodup_nil
  · intro n
    rw [hr, hc]; simp

/-! ### The route table holds one route per network and gateway -/

/-- C1: starting from an empty route table, after every sequence of `lnet_add_route` and
`lnet_del_route` calls no two routes of the table have the same destination network and
the same gateway peer: the (network, gateway) pairs of the routes are pairwise
different. -/
theorem route_table_no_duplicate_route (C : lnet_consts) (s0 : lnet_t)
    (h0 : s0.ln_remote_nets = []) (ops : List route_op) :
    (route_pairs (route_run C s0 ops)).Nodup := by
  apply route_pairs_nodup_of_wf
  apply route_run_wf
  rw [h0]
  exact ⟨List.nodup_nil, by simp⟩

theorem route_table_no_duplicate_route_witness :
    lnet_boot.ln_remote_nets = [] ∧
      (route_pairs (route_run lnet_types_h lnet_boot route_ops_sample)).Nodup :=
  ⟨rfl, route_table_no_duplicate_route lnet_types_h lnet_boot rfl route_ops_sample⟩

/-! ### Router references count routes -/

/-- C2: starting from a state without routes, after every sequence of `lnet_add_route`
and `lnet_del_route` calls each peer's `lp_rtr_refcount` is the number of routes of the
table whose gateway is that peer, and the peer is on `the_lnet.ln_routers` exactly when
that count is positive; so a peer whose count a call has brought to zero is off the
router list when the call returns.  The router list holds only peers of the peer table,
each once, and every route's gateway is a peer of the peer table. -/
theorem rtr_refcount_counts_routes (C : lnet_consts) (s0 : lnet_t)
    (h0 : route_table_empty s0) (ops : List route_op) :
    (∀ p ∈ (route_run C s0 ops).ln_peers,
        p.lp_rtr_refcount = ((lp_routes (route_run C s0 ops) p.lp_nid).length : Int) ∧
        (p.lp_nid ∈ (route_run C s0 ops).ln_routers ↔ 0 < p.lp_rtr_refcount) ∧
        (p.lp_rtr_refcount = 0 → p.lp_nid ∉ (route_run C s0 ops).ln_routers)) ∧
      (∀ nid ∈ (route_run C s0 ops).ln_routers,
        ∃ p ∈ (route_run C s0 ops).ln_peers, p.lp_nid = nid) ∧
      (route_run C s0 ops).ln_routers.Nodup ∧
      (∀ r ∈ all_routes (route_run C s0 ops),
        ∃ p ∈ (route_run C s0 ops).ln_peers, p.lp_nid = r.lr_gateway) := by
  have hinv := (route_inv_run C ops s0 (route_inv_of_empty s0 h0)).peers
  generalize route_run C s0 ops = s at hinv
  refine ⟨fun p hp => ?_, fun nid hn => ?_, hinv.routers_nodup, fun r hr => ?_⟩
  · have h1 := hinv.rtr p hp
    have h2 := hinv.routers p.lp_nid
    rw [← h1] at h2
    refine ⟨h1, h2, fun h0 hmem => ?_⟩
    have := h2.1 hmem
    omega
  · exact hinv.gw_peer nid ((hinv.routers nid).1 hn)
  · exact hinv.gw_peer _ ((rtr_count_pos_iff s _).2 ⟨r, hr, rfl⟩)

theorem rtr_refcount_counts_routes_witness :
    route_table_empty lnet_boot ∧
      ∀ p ∈ (route_run lnet_types_h lnet_boot route_ops_sample).ln_peers,
        p.lp_rtr_refcount =
          ((lp_routes (route_run lnet_types_h lnet_boot route_ops_sample) p.lp_nid).length : Int) :=
  ⟨⟨rfl, rfl, List.nodup_nil, by simp [lnet_boot]⟩,
    fun p hp => ((rtr_refcount_counts_routes lnet_types_h lnet_boot
      ⟨rfl, rfl, List.nodup_nil, by simp [lnet_boot]⟩ route_ops_sample).1 p hp).1⟩

/-! ### Parameter checks of `lnet_add_route` -/

/-- C14: `lnet_add_route` with a hop count below 1 or above 255, or with a gateway whose
own network is the destination network, returns `-EINVAL` and leaves `the_lnet` as it
was: the route table, the router list and every peer with its reference counts. -/
theorem add_route_einval (C : lnet_consts) (e : add_route_env) (net hops gateway : Nat)
    (s : lnet_t) (h : hops < 1 ∨ hops > 255 ∨ C.LNET_NIDNET gateway = net) :
    lnet_add_route C e net hops gateway s = (s, -EINVAL) := by
  unfold lnet_add_route
  rw [if_pos]
  rcases h with h | h | h
  · exact Or.inr (Or.inr (Or.inr (Or.inr (Or.inr (Or.inl h)))))
  · exact Or.inr (Or.inr (Or.inr (Or.inr (Or.inr (Or.inr h)))))
  · exact Or.inr (Or.inr (Or.inr (Or.inr (Or.inl h))))

theorem add_route_einval_witness :
    lnet_add_route lnet_types_h ⟨true, true, 0⟩ 0x20001 256 (0x20000 * 2 ^ 32 + 1) lnet_boot =
        (lnet_boot, -EINVAL) ∧
      lnet_add_route lnet_types_h ⟨true, true, 0⟩ 0x20000 1 (0x20000 * 2 ^ 32 + 1) lnet_boot =
        (lnet_boot, -EINVAL) :=
  ⟨add_route_einval lnet_types_h ⟨true, true, 0⟩ 0x20001 256 (0x20000 * 2 ^ 32 + 1) lnet_boot
      (Or.inr (Or.inl (by decide))),
    add_route_einval lnet_types_h ⟨true, true, 0⟩ 0x20000 1 (0x20000 * 2 ^ 32 + 1) lnet_boot
      (Or.inr (Or.inr (by decide)))⟩

/-- C16: `lnet_add_route` for a destination network that is the network of a local
interface, with parameters that pass the checks (gateway not `LNET_NID_ANY` and not on a
loopback network, destination not the wildcard network and not a loopback network, the
gateway's network not the destination, hops in 1..255), returns 0 and leaves `the_lnet`
as it was: the route table, the router list and every peer with its reference counts. -/
theorem add_route_local_net (C : lnet_consts) (e : add_route_env) (net hops gateway : Nat)
    (s : lnet_t)
    (hgw : gateway ≠ C.LNET_NID_ANY) (hgwlo : C.LNET_NETTYP (C.LNET_NIDNET gateway) ≠ C.LOLND)
    (hnet : net ≠ C.LNET_NIDNET C.LNET_NID_ANY) (hnetlo : C.LNET_NETTYP net ≠ C.LOLND)
    (hself : C.LNET_NIDNET gateway ≠ net) (hlo : 1 ≤ hops) (hhi : hops ≤ 255)
    (hlocal : lnet_islocalnet C s net = true) :
    lnet_add_route C e net hops gateway s = (s, 0) := by
  unfold lnet_add_route
  rw [if_neg, if_pos hlocal]
  rintro (h | h | h | h | h | h | h)
  · exact hgw h
  · exact hgwlo h
  · exact hnet h
  · exact hnetlo h
  · exact hself h
  · omega
  · omega

theorem add_route_local_net_witness :
    lnet_add_route lnet_types_h ⟨true, true, 0⟩ 0x20000 1 (0x20002 * 2 ^ 32 + 1) lnet_boot =
      (lnet_boot, 0) :=
  add_route_local_net lnet_types_h ⟨true, true, 0⟩ 0x20000 1 (0x20002 * 2 ^ 32 + 1) lnet_boot
    (by decide) (by decide) (by decide) (by decide) (by decide) (by decide) (by decide)
    (by decide)

/-! ### Remote nets own a route -/

theorem rnet_insert_route_ne_nil (rand : Nat) (r : lnet_route) (l : List lnet_route) :
    rnet_insert_route rand r l ≠ [] := by
  unfold rnet_insert_route
  dsimp only
  split
  · exact List.cons_ne_nil _ _
  · intro h
    have := congrArg List.length h
    simp at this

theorem rnets_nonempty_update (f : List lnet_route → List lnet_route)
    (hf : ∀ l, f l ≠ []) (net : Nat) (nets : List lnet_remotenet)
    (h : rnets_nonempty nets) : rnets_nonempty (update_rnet f net nets) := by
  induction nets with
  | nil => intro rnet hm; simp [update_rnet] at hm
  | cons a rest ih =>
    unfold update_rnet
    split
    · intro rnet hm
      rcases List.mem_cons.mp hm with hm | hm
      · subst hm; exact hf _
      · exact h rnet (List.mem_cons_of_mem _ hm)
    · intro rnet hm
      rcases List.mem_cons.mp hm with hm | hm
      · subst hm; exact h _ (List.mem_cons_self _ _)
      · exact ih (fun r hr => h r (List.mem_cons_of_mem _ hr)) rnet hm

theorem rnets_nonempty_update_new (f : List lnet_route → List lnet_route)
    (hf : ∀ l, f l ≠ []) (net : Nat) (nets : List lnet_remotenet)
    (h : rnets_nonempty nets)
    (hfind : nets.find? (fun rnet => rnet.lrn_net == net) = none) :
    rnets_nonempty (update_rnet f net (nets ++ [{ lrn_net := net, lrn_routes := [] }])) := by
  induction nets with
  | nil =>
    intro rnet hm
    simp [update_rnet] at hm
    subst hm
    exact hf _
  | cons a rest ih =>
    have ha : a.lrn_net ≠ net := by
      intro hc
      simp [List.find?, hc] at hfind
    have hrest : rest.find? (fun rnet => rnet.lrn_net == net) = none := by
      have hb : (a.lrn_net == net) = false := by simpa using ha
      simpa [List.find?, hb] using hfind
    simp only [List.cons_append, update_rnet, if_neg ha]
    intro rnet hm
    rcases List.mem_cons.mp hm with hm | hm
    · subst hm; exact h _ (List.mem_cons_self _ _)
    · exact ih (fun r hr => h r (List.mem_cons_of_mem _ hr)) hrest rnet hm

theorem rnets_nonempty_add_route_nets (rand net hops gateway : Nat)
    (nets : List lnet_remotenet) (h : rnets_nonempty nets) :
    rnets_nonempty (add_route_nets rand net hops gateway nets) := by
  unfold add_route_nets
  cases hfind : nets.find? (fun rnet => rnet.lrn_net == net) with
  | none =>
    dsimp only
    split
    · exact rnets_nonempty_update_new _ (rnet_insert_route_ne_nil rand _) net nets h hfind
    · rename_i hall
      exfalso
      apply hall
      have hnew : (nets ++ [({ lrn_net := net, lrn_routes := [] } : lnet_remotenet)]).find?
          (fun rnet => rnet.lrn_net == net) = some { lrn_net := net, lrn_routes := [] } := by
        rw [List.find?_append, hfind]
        simp
      rw [hnew]
      simp
  | some rnet =>
    dsimp only
    split
    · exact rnets_nonempty_update _ (rnet_insert_route_ne_nil rand _) net nets h
    · exact h

theorem rnets_nonempty_del_route_in_nets (C : lnet_consts) (net gw_nid : Nat)
    (nets nets' : List lnet_remotenet) (found : lnet_route)
    (hdel : del_route_in_nets C net gw_nid nets = some (nets', found))
    (h : rnets_nonempty nets) : rnets_nonempty nets' := by
  induction nets generalizing nets' with
  | nil => simp [del_route_in_nets] at hdel
  | cons a rest ih =>
    unfold del_route_in_nets at hdel
    split at hdel
    · rename_i routes' found' _
      simp only [Option.some.injEq, Prod.mk.injEq] at hdel
      obtain ⟨hn, _⟩ := hdel
      subst hn
      by_cases hemp : routes'.isEmpty = true
      · rw [if_pos hemp]
        exact fun r hr => h r (List.mem_cons_of_mem _ hr)
      · rw [if_neg hemp]
        intro r hr
        rcases List.mem_cons.mp hr with hr | hr
        · subst hr
          intro hc
          apply hemp
          simp only at hc
          simp [hc]
        · exact h r (List.mem_cons_of_mem _ hr)
    · split at hdel
      · rename_i rest' found' hrec
        simp only [Option.some.injEq, Prod.mk.injEq] at hdel
        obtain ⟨hn, hf⟩ := hdel
        subst hn
        subst hf
        intro r hr
        rcases List.mem_cons.mp hr with hr | hr
        · subst hr; exact h _ (List.mem_cons_self _ _)
        · exact ih rest' hrec (fun r hr => h r (List.mem_cons_of_mem _ hr)) r hr
      · simp at hdel

theorem rnets_nonempty_del_route_loop (C : lnet_consts) (net gw_nid : Nat) (fuel : Nat)
    (s : lnet_t) (rc : Int) (h : rnets_nonempty s.ln_remote_nets) :
    rnets_nonempty (lnet_del_route_loop C net gw_nid fuel s rc).1.ln_remote_nets := by
  induction fuel generalizing s rc with
  | zero => exact h
  | succ n ih =>
    unfold lnet_del_route_loop
    split
    · exact h
    · rename_i s1 hpass
      apply ih
      unfold lnet_del_route_pass at hpass
      split at hpass
      · simp at hpass
      · rename_i nets' found hdel
        simp only [Option.some.injEq] at hpass
        subst hpass
        simp only [decref_nets, rtr_decref_nets]
        exact rnets_nonempty_del_route_in_nets C net gw_nid _ _ _ hdel h

theorem rnets_nonempty_step (C : lnet_consts) (s : lnet_t) (op : route_op)
    (h : rnets_nonempty s.ln_remote_nets) :
    rnets_nonempty (route_step C s op).ln_remote_nets := by
  cases op with
  | add e net hops gateway =>
    rcases lnet_add_route_nets C e net hops gateway s with hn | hn
    · simp only [route_step, hn]; exact h
    · simp only [route_step, hn]
      exact rnets_nonempty_add_route_nets _ _ _ _ _ h
  | del net gw_nid => exact rnets_nonempty_del_route_loop C net gw_nid _ s _ h

theorem rnets_nonempty_run (C : lnet_consts) (ops : List route_op) (s : lnet_t)
    (h : rnets_nonempty s.ln_remote_nets) :
    rnets_nonempty (route_run C s ops).ln_remote_nets := by
  induction ops generalizing s with
  | nil => exact h
  | cons op rest ih => exact ih _ (rnets_nonempty_step C s op h)

/-- C17: starting from an empty route table, after every sequence of `lnet_add_route` and
`lnet_del_route` calls every remote net of `the_lnet.ln_remote_nets` owns at least one
route and no two remote nets have the same network: no call leaves a remote net behind
without a route, neither `lnet_add_route`, which links a new remote net and its first
route in the same call, nor `lnet_del_route`, which unlinks the remote net with its last
route. -/
theorem remote_nets_own_routes (C : lnet_consts) (s0 : lnet_t)
    (h0 : s0.ln_remote_nets = []) (ops : List route_op) :
    (∀ rnet ∈ (route_run C s0 ops).ln_remote_nets, rnet.lrn_routes ≠ []) ∧
      ((route_run C s0 ops).ln_remote_nets.map (fun rnet => rnet.lrn_net)).Nodup := by
  constructor
  · apply rnets_nonempty_run
    rw [h0]
    intro rnet hm
    cases hm
  · refine (route_run_wf C ops s0 ?_).1
    rw [h0]
    exact ⟨List.nodup_nil, by simp⟩

theorem remote_nets_own_routes_witness :
    (∀ rnet ∈ (route_run lnet_types_h lnet_boot route_ops_sample).ln_remote_nets,
        rnet.lrn_routes ≠ []) ∧
      ((route_run lnet_types_h lnet_boot route_ops_sample).ln_remote_nets.map
        (fun rnet => rnet.lrn_net)).Nodup :=
  remote_nets_own_routes lnet_types_h lnet_boot rfl route_ops_sample

/-! ### A duplicate route is not added -/

theorem rtr_addref_nis (nid : Nat) (s : lnet_t) :
    (lnet_rtr_addref_locked nid s).ln_nis = s.ln_nis := by
  unfold lnet_rtr_addref_locked
  simp only
  split
  · rfl
  · split <;> rfl

theorem rtr_decref_nis (nid : Nat) (s : lnet_t) :
    (lnet_rtr_decref_locked nid s).ln_nis = s.ln_nis := by
  unfold lnet_rtr_decref_locked
  simp only
  split
  · rfl
  · split
    · split <;> rfl
    · rfl

theorem nid2peer_nis (C : lnet_consts) (ok : Bool) (nid : Nat) (s : lnet_t) :
    (lnet_nid2peer_locked C ok nid s).1.ln_nis = s.ln_nis := by
  unfold lnet_nid2peer_locked
  split
  · rfl
  · split
    · rfl
    · split <;> rfl

theorem add_route_nis (C : lnet_consts) (e : add_route_env) (net hops gateway : Nat)
    (s : lnet_t) : (lnet_add_route C e net hops gateway s).1.ln_nis = s.ln_nis := by
  unfold lnet_add_route
  split
  · rfl
  · split
    · rfl
    · split
      · rfl
      · have hn := nid2peer_nis C e.peer_alloc_ok gateway s
        generalize lnet_nid2peer_locked C e.peer_alloc_ok gateway s = res at hn
        obtain ⟨s1, rc⟩ := res
        simp only at hn
        simp only
        split
        · split <;> exact hn
        · have h2 : (add_route_new_net net s1).ln_nis = s1.ln_nis := by
            unfold add_route_new_net
            split <;> rfl
          split
          · show (lnet_rtr_addref_locked _ _).ln_nis = _
            rw [rtr_addref_nis]
            exact h2.trans hn
          · exact h2.trans hn

theorem del_route_loop_nis (C : lnet_consts) (net gw_nid : Nat) (fuel : Nat) (s : lnet_t)
    (rc : Int) : (lnet_del_route_loop C net gw_nid fuel s rc).1.ln_nis = s.ln_nis := by
  induction fuel generalizing s rc with
  | zero => rfl
  | succ n ih =>
    unfold lnet_del_route_loop
    split
    · rfl
    · rename_i s1 hpass
      rw [ih]
      unfold lnet_del_route_pass at hpass
      split at hpass
      · simp at hpass
      · simp only [Option.some.injEq] at hpass
        subst hpass
        show (lnet_rtr_decref_locked _ _).ln_nis = _
        rw [rtr_decref_nis]

theorem route_step_nis (C : lnet_consts) (s : lnet_t) (op : route_op) :
    (route_step C s op).ln_nis = s.ln_nis := by
  cases op with
  | add e net hops gateway => exact add_route_nis C e net hops gateway s
  | del net gw_nid => exact del_route_loop_nis C net gw_nid _ s _

theorem islocalnet_congr (C : lnet_consts) {s t : lnet_t} (h : t.ln_nis = s.ln_nis)
    (net : Nat) : lnet_islocalnet C t net = lnet_islocalnet C s net := by
  unfold lnet_islocalnet
  rw [h]

/-- What `lnet_add_route` does to the table: nothing, or, with the parameter test passed
and the network not a local one, what `add_route_nets` says. -/
theorem lnet_add_route_cases (C : lnet_consts) (e : add_route_env) (net hops gateway : Nat)
    (s : lnet_t) :
    (lnet_add_route C e net hops gateway s).1.ln_remote_nets = s.ln_remote_nets ∨
    (route_params_ok C net gateway ∧ lnet_islocalnet C s net = false ∧
      (lnet_add_route C e net hops gateway s).1.ln_remote_nets =
        add_route_nets e.rand net hops gateway s.ln_remote_nets) := by
  by_cases hc : gateway = C.LNET_NID_ANY ∨
      C.LNET_NETTYP (C.LNET_NIDNET gateway) = C.LOLND ∨
      net = C.LNET_NIDNET C.LNET_NID_ANY ∨
      C.LNET_NETTYP net = C.LOLND ∨
      C.LNET_NIDNET gateway = net ∨
      hops < 1 ∨ hops > 255
  · left
    unfold lnet_add_route
    rw [if_pos hc]
  · by_cases hl : lnet_islocalnet C s net = true
    · left
      unfold lnet_add_route
      rw [if_neg hc, if_pos hl]
    · rcases lnet_add_route_nets C e net hops gateway s with h | h
      · exact Or.inl h
      · right
        simp only [not_or] at hc
        exact ⟨⟨hc.1, hc.2.1, hc.2.2.1, hc.2.2.2.1, hc.2.2.2.2.1⟩, by simpa using hl, h⟩

theorem mem_pairs_update_rnet (rand : Nat) (route : lnet_route) (net : Nat)
    (nets : List lnet_remotenet) (p : Nat × Nat)
    (hp : p ∈ (update_rnet (rnet_insert_route rand route) net nets).flatMap
      (fun rnet => rnet.lrn_routes.map (fun r => (rnet.lrn_net, r.lr_gateway)))) :
    p = (net, route.lr_gateway) ∨
      p ∈ nets.flatMap (fun rnet => rnet.lrn_routes.map (fun r => (rnet.lrn_net, r.lr_gateway))) := by
  induction nets with
  | nil => simp [update_rnet] at hp
  | cons a rest ih =>
    unfold update_rnet at hp
    split at hp
    · rename_i ha
      simp only [List.flatMap_cons, List.mem_append, List.mem_map] at hp ⊢
      rcases hp with ⟨r, hr, hpr⟩ | hp
      · rcases List.mem_cons.mp ((rnet_insert_route_perm rand route a.lrn_routes).mem_iff.mp hr)
          with hr | hr
        · left
          rw [← hpr, hr, ha]
        · exact Or.inr (Or.inl ⟨r, hr, hpr⟩)
      · exact Or.inr (Or.inr hp)
    · simp only [List.flatMap_cons, List.mem_append] at hp ⊢
      rcases hp with hp | hp
      · exact Or.inr (Or.inl hp)
      · rcases ih hp with h | h
        · exact Or.inl h
        · exact Or.inr (Or.inr h)

theorem mem_pairs_add_route_nets (rand net hops gateway : Nat) (nets : List lnet_remotenet)
    (p : Nat × Nat)
    (hp : p ∈ (add_route_nets rand net hops gateway nets).flatMap
      (fun rnet => rnet.lrn_routes.map (fun r => (rnet.lrn_net, r.lr_gateway)))) :
    p = (net, gateway) ∨
      p ∈ nets.flatMap (fun rnet => rnet.lrn_routes.map (fun r => (rnet.lrn_net, r.lr_gateway))) := by
  have hnew : ∀ q : Nat × Nat,
      q ∈ (nets ++ [({ lrn_net := net, lrn_routes := [] } : lnet_remotenet)]).flatMap
        (fun rnet => rnet.lrn_routes.map (fun r => (rnet.lrn_net, r.lr_gateway))) →
      q ∈ nets.flatMap (fun rnet => rnet.lrn_routes.map (fun r => (rnet.lrn_net, r.lr_gateway))) := by
    intro q hq
    simpa using hq
  unfold add_route_nets at hp
  dsimp only at hp
  split at hp
  · rcases mem_pairs_update_rnet rand _ net _ p hp with h | h
    · exact Or.inl h
    · right
      split at h
      · exact hnew p h
      · exact h
  · right
    split at hp
    · exact hnew p hp
    · exact hp

theorem mem_pairs_del_route_in_nets (C : lnet_consts) (net gw_nid : Nat)
    (nets nets' : List lnet_remotenet) (found : lnet_route)
    (hdel : del_route_in_nets C net gw_nid nets = some (nets', found)) (p : Nat × Nat)
    (hp : p ∈ nets'.flatMap
      (fun rnet => rnet.lrn_routes.map (fun r => (rnet.lrn_net, r.lr_gateway)))) :
    p ∈ nets.flatMap (fun rnet => rnet.lrn_routes.map (fun r => (rnet.lrn_net, r.lr_gateway))) := by
  induction nets generalizing nets' with
  | nil => simp [del_route_in_nets] at hdel
  | cons a rest ih =>
    unfold del_route_in_nets at hdel
    split at hdel
    · rename_i routes' found' hin
      simp only [Option.some.injEq, Prod.mk.injEq] at hdel
      obtain ⟨hn, _⟩ := hdel
      subst hn
      have hperm : a.lrn_routes.Perm (found' :: routes') := by
        split at hin
        · exact del_route_in_rnet_perm C gw_nid _ _ _ hin
        · simp at hin
      simp only [List.flatMap_cons, List.mem_append, List.mem_map]
      split at hp
      · exact Or.inr hp
      · simp only [List.flatMap_cons, List.mem_append, List.mem_map] at hp
        rcases hp with ⟨r, hr, hpr⟩ | hp
        · exact Or.inl ⟨r, hperm.mem_iff.mpr (List.mem_cons_of_mem _ hr), hpr⟩
        · exact Or.inr hp
    · split at hdel
      · rename_i rest' found' hrec
        simp only [Option.some.injEq, Prod.mk.injEq] at hdel
        obtain ⟨hn, hf⟩ := hdel
        subst hn
        subst hf
        simp only [List.flatMap_cons, List.mem_append] at hp ⊢
        rcases hp with hp | hp
        · exact Or.inl hp
        · exact Or.inr (ih rest' hrec hp)
      · simp at hdel

theorem routes_valid_del_route_loop (C : lnet_consts) (net gw_nid : Nat) (fuel : Nat)
    (s : lnet_t) (rc : Int) (h : routes_valid C s) :
    routes_valid C (lnet_del_route_loop C net gw_nid fuel s rc).1 := by
  induction fuel generalizing s rc with
  | zero => exact h
  | succ n ih =>
    unfold lnet_del_route_loop
    split
    · exact h
    · rename_i s1 hpass
      apply ih
      have hnis : s1.ln_nis = s.ln_nis := by
        have := del_route_loop_nis C net gw_nid 1 s rc
        unfold lnet_del_route_loop at this
        simp only [hpass] at this
        exact this
      unfold lnet_del_route_pass at hpass
      split at hpass
      · simp at hpass
      · rename_i nets' found hdel
        simp only [Option.some.injEq] at hpass
        intro p hp
        have hp' : p ∈ route_pairs s := by
          apply mem_pairs_del_route_in_nets C net gw_nid _ _ _ hdel
          rw [← hpass] at hp
          simpa only [route_pairs, decref_nets, rtr_decref_nets] using hp
        rw [islocalnet_congr C hnis]
        exact h p hp'

theorem routes_valid_step (C : lnet_consts) (s : lnet_t) (op : route_op)
    (h : routes_valid C s) : routes_valid C (route_step C s op) := by
  cases op with
  | add e net hops gateway =>
    intro p hp
    rw [islocalnet_congr C (route_step_nis C s (.add e net hops gateway))]
    rcases lnet_add_route_cases C e net hops gateway s with hn | ⟨hv, hl, hn⟩
    · apply h
      simpa only [route_pairs, route_step, hn] using hp
    · have hp2 : p ∈ (add_route_nets e.rand net hops gateway s.ln_remote_nets).flatMap
          (fun rnet => rnet.lrn_routes.map (fun r => (rnet.lrn_net, r.lr_gateway))) := by
        simpa only [route_pairs, route_step, hn] using hp
      rcases mem_pairs_add_route_nets _ _ _ _ _ p hp2 with hp3 | hp3
      · subst hp3
        exact ⟨hv, hl⟩
      · exact h p hp3
  | del net gw_nid => exact routes_valid_del_route_loop C net gw_nid _ s _ h

theorem routes_valid_run (C : lnet_consts) (ops : List route_op) (s : lnet_t)
    (h : routes_valid C s) : routes_valid C (route_run C s ops) := by
  induction ops generalizing s with
  | nil => exact h
  | cons op rest ih => exact ih _ (routes_valid_step C s op h)

theorem decref_addref (nid : Nat) (s : lnet_t)
    (h : ∀ p ∈ s.ln_peers, p.lp_nid = nid → p.lp_refcount ≠ 0) :
    lnet_peer_decref_locked nid (lnet_peer_addref_locked nid s) = s := by
  unfold lnet_peer_decref_locked lnet_peer_addref_locked update_peer
  simp only [List.map_map]
  have hmap : s.ln_peers.map
      ((fun p => if p.lp_nid = nid then { p with lp_refcount := p.lp_refcount - 1 } else p) ∘
        (fun p => if p.lp_nid = nid then { p with lp_refcount := p.lp_refcount + 1 } else p)) =
      s.ln_peers := by
    conv_rhs => rw [← List.map_id s.ln_peers]
    apply List.map_congr_left
    intro p _
    simp only [Function.comp, id]
    by_cases hp : p.lp_nid = nid
    · subst hp
      cases p
      simp
    · simp only [hp, if_false]
  rw [hmap]
  have hfilter : s.ln_peers.filter (fun p => !(p.lp_nid == nid && p.lp_refcount == 0)) =
      s.ln_peers := by
    apply List.filter_eq_self.mpr
    intro p hp
    by_cases hn : p.lp_nid = nid
    · have := h p hp hn
      simp [hn, this]
    · simp [hn]
  rw [hfilter]

/-- A second `lnet_add_route` for a network and gateway that have a route: the gateway
peer is resolved, the duplicate is found in the remote net, the reference is dropped. -/
theorem add_route_duplicate (C : lnet_consts) (e : add_route_env) (net hops gateway : Nat)
    (s : lnet_t) (hinv : route_inv s) (hv : route_params_ok C net gateway)
    (hloc : lnet_islocalnet C s net = false) (hpair : (net, gateway) ∈ route_pairs s)
    (hlo : 1 ≤ hops) (hhi : hops ≤ 255) (halloc : e.alloc_ok = true) :
    lnet_add_route C e net hops gateway s = (s, 0) := by
  obtain ⟨hv1, hv2, hv3, hv4, hv5⟩ := hv
  simp only [route_pairs, List.mem_flatMap, List.mem_map, Prod.mk.injEq] at hpair
  obtain ⟨rnet, hrnet, r, hr, hrn, hrg⟩ := hpair
  -- the gateway is a peer
  have hroute : r ∈ all_routes s := by
    simp only [all_routes, List.mem_flatMap]
    exact ⟨rnet, hrnet, hr⟩
  obtain ⟨q, hq, hqn⟩ := hinv.peers.gw_peer gateway
    ((rtr_count_pos_iff s gateway).2 ⟨r, hroute, hrg⟩)
  obtain ⟨q', hfind⟩ := find_peer_of_mem hq
  rw [hqn] at hfind
  -- the remote net found is the one of the route
  have hfindnet : s.ln_remote_nets.find? (fun x => x.lrn_net == net) = some rnet := by
    cases hf : s.ln_remote_nets.find? (fun x => x.lrn_net == net) with
    | none =>
      have := List.find?_eq_none.mp hf rnet hrnet
      simp [hrn] at this
    | some x =>
      have hx := List.find?_some hf
      have hxm := List.mem_of_find?_eq_some hf
      simp only [beq_iff_eq] at hx
      have := List.inj_on_of_nodup_map hinv.wf.1 hxm hrnet (hx.trans hrn.symm)
      rw [this]
  have hall : (rnet.lrn_routes.all (fun route2 => route2.lr_gateway != gateway)) = false := by
    rw [List.all_eq_false]
    exact ⟨r, hr, by simp [hrg]⟩
  have href : ∀ p ∈ s.ln_peers, p.lp_nid = gateway → p.lp_refcount ≠ 0 := by
    intro p hp _
    have h1 := hinv.peers.ref p hp
    have h2 := (hinv.peers.nonneg p hp).1
    simp only at h1
    split at h1 <;> omega
  unfold lnet_add_route
  rw [if_neg (by
    rintro (h | h | h | h | h | h | h)
    · exact hv1 h
    · exact hv2 h
    · exact hv3 h
    · exact hv4 h
    · exact hv5 h
    · omega
    · omega)]
  simp only [hloc, Bool.false_eq_true, if_false, halloc, Bool.not_true, lnet_nid2peer_locked,
    hfind, ne_eq, not_true_eq_false]
  have hnew : add_route_new_net net (lnet_peer_addref_locked gateway s) =
      lnet_peer_addref_locked gateway s := by
    unfold add_route_new_net lnet_find_net_locked
    simp only [addref_nets, hfindnet]
  simp only [hnew, lnet_find_net_locked, addref_nets, hfindnet, Option.getD_some, hall,
    Bool.false_eq_true, if_false]
  rw [decref_addref gateway s href]


/-- C15: in every state reached from an empty route table by `lnet_add_route` and
`lnet_del_route` calls, `lnet_add_route` for a network and gateway that already have a
route leaves `the_lnet` exactly as it was, whatever the hop count: the route table with
the existing route and its hop count, the router list, and every peer with its
`lp_refcount` and `lp_rtr_refcount`.  It returns 0 when the hop count is one the
parameter test accepts (1..255) and the buffers for the route and the remote net are
allocated. -/
theorem add_route_duplicate_noop (C : lnet_consts) (s0 : lnet_t) (h0 : route_table_empty s0)
    (ops : List route_op) (e : add_route_env) (net hops gateway : Nat)
    (hpair : (net, gateway) ∈ route_pairs (route_run C s0 ops)) :
    (lnet_add_route C e net hops gateway (route_run C s0 ops)).1 = route_run C s0 ops ∧
      (1 ≤ hops → hops ≤ 255 → e.alloc_ok = true →
        (lnet_add_route C e net hops gateway (route_run C s0 ops)).2 = 0) := by
  have hinv := route_inv_run C ops s0 (route_inv_of_empty s0 h0)
  have hval : routes_valid C (route_run C s0 ops) := by
    apply routes_valid_run
    intro p hp
    simp [route_pairs, h0.1] at hp
  obtain ⟨hv, hloc⟩ := hval _ hpair
  generalize route_run C s0 ops = s at hinv hpair hloc
  have hdup : 1 ≤ hops → hops ≤ 255 → e.alloc_ok = true →
      lnet_add_route C e net hops gateway s = (s, 0) :=
    fun hlo hhi halloc => add_route_duplicate C e net hops gateway s hinv hv hloc hpair hlo hhi halloc
  refine ⟨?_, fun hlo hhi halloc => by rw [hdup hlo hhi halloc]⟩
  by_cases hh : hops < 1 ∨ hops > 255
  · rw [add_route_einval C e net hops gateway s (by tauto)]
  · by_cases halloc : e.alloc_ok = true
    · rw [hdup (by omega) (by omega) halloc]
    · obtain ⟨hv1, hv2, hv3, hv4, hv5⟩ := hv
      unfold lnet_add_route
      rw [if_neg (by
        rintro (h | h | h | h | h | h | h)
        · exact hv1 h
        · exact hv2 h
        · exact hv3 h
        · exact hv4 h
        · exact hv5 h
        · exact hh (Or.inl h)
        · exact hh (Or.inr h))]
      simp only [hloc, Bool.false_eq_true, if_false, halloc, Bool.not_false, if_true]

theorem add_route_duplicate_noop_witness :
    lnet_add_route lnet_types_h ⟨true, true, 3⟩ 0x20001 4 (0x20000 * 2 ^ 32 + 1)
        (route_run lnet_types_h lnet_boot
          [.add ⟨true, true, 0⟩ 0x20001 1 (0x20000 * 2 ^ 32 + 1)]) =
      (route_run lnet_types_h lnet_boot
        [.add ⟨true, true, 0⟩ 0x20001 1 (0x20000 * 2 ^ 32 + 1)], 0) := by
  have h := add_route_duplicate_noop lnet_types_h lnet_boot
    ⟨rfl, rfl, List.nodup_nil, by simp [lnet_boot]⟩
    [.add ⟨true, true, 0⟩ 0x20001 1 (0x20000 * 2 ^ 32 + 1)] ⟨true, true, 3⟩ 0x20001 4
    (0x20000 * 2 ^ 32 + 1) (by decide)
  exact Prod.ext h.1 (h.2 (by decide) (by decide) rfl)

/-! ### Deleting a route and adding it again -/

theorem del_route_in_rnet_none (C : lnet_consts) (gw_nid : Nat) (routes : List lnet_route)
    (h : del_route_in_rnet C gw_nid routes = none) :
    ∀ r ∈ routes, r.lr_gateway ≠ gw_nid := by
  induction routes with
  | nil => intro r hr; cases hr
  | cons a rest ih =>
    unfold del_route_in_rnet at h
    split at h
    · simp at h
    · rename_i hm
      split at h
      · simp at h
      · rename_i hrest
        intro r hr
        rcases List.mem_cons.mp hr with hr | hr
        · subst hr
          intro hc
          apply hm
          simp [del_route_gw_match, hc]
        · exact ih hrest r hr

theorem del_route_in_nets_none (C : lnet_consts) (net gw_nid : Nat)
    (nets : List lnet_remotenet) (h : del_route_in_nets C net gw_nid nets = none) :
    ∀ rnet ∈ nets, rnet.lrn_net = net → ∀ r ∈ rnet.lrn_routes, r.lr_gateway ≠ gw_nid := by
  induction nets with
  | nil => intro rnet hr; cases hr
  | cons a rest ih =>
    unfold del_route_in_nets at h
    split at h
    · simp at h
    · rename_i hin
      split at h
      · simp at h
      · rename_i hrest
        intro rnet hr hn
        rcases List.mem_cons.mp hr with hr | hr
        · subst hr
          have hmatch : del_route_net_match C net rnet = true := by
            simp [del_route_net_match, hn]
          rw [if_pos hmatch] at hin
          exact del_route_in_rnet_none C gw_nid _ hin
        · exact ih hrest rnet hr hn

/-- After `lnet_del_route(net, gw)` no remote net of `net` has a route through `gw`. -/
theorem lnet_del_route_gone (C : lnet_consts) (net gw_nid : Nat) (s : lnet_t) :
    ∀ rnet ∈ (lnet_del_route C net gw_nid s).1.ln_remote_nets, rnet.lrn_net = net →
      ∀ r ∈ rnet.lrn_routes, r.lr_gateway ≠ gw_nid := by
  have h := lnet_del_route_done C net gw_nid s
  unfold lnet_del_route_pass at h
  split at h
  · rename_i hnone
    exact del_route_in_nets_none C net gw_nid _ hnone
  · simp at h

theorem nid2peer_ok (C : lnet_consts) (nid : Nat) (s : lnet_t)
    (hlocal : lnet_islocalnet C s (C.LNET_NIDNET nid) = true) :
    (lnet_nid2peer_locked C true nid s).2 = 0 := by
  unfold lnet_nid2peer_locked
  split
  · rfl
  · simp only [Bool.not_true, Bool.false_eq_true, if_false]
    split
    · rename_i hnone
      exfalso
      unfold lnet_islocalnet at hlocal
      rw [List.any_eq_true] at hlocal
      obtain ⟨ni, hni, hnet⟩ := hlocal
      have := List.find?_eq_none.mp hnone ni hni
      exact this hnet
    · rfl

/-- A call of `lnet_add_route` that passes the checks and gets its memory and the
gateway peer returns 0 and leaves the remote nets `add_route_nets` says. -/
theorem lnet_add_route_ok (C : lnet_consts) (e : add_route_env) (net hops gateway : Nat)
    (s : lnet_t) (hv : route_params_ok C net gateway)
    (hloc : lnet_islocalnet C s net = false)
    (hgw : lnet_islocalnet C s (C.LNET_NIDNET gateway) = true)
    (hlo : 1 ≤ hops) (hhi : hops ≤ 255)
    (halloc : e.alloc_ok = true) (hpalloc : e.peer_alloc_ok = true) :
    (lnet_add_route C e net hops gateway s).2 = 0 ∧
      (lnet_add_route C e net hops gateway s).1.ln_remote_nets =
        add_route_nets e.rand net hops gateway s.ln_remote_nets := by
  obtain ⟨hv1, hv2, hv3, hv4, hv5⟩ := hv
  have hrc := nid2peer_ok C gateway s hgw
  have hcond : ¬ (gateway = C.LNET_NID_ANY ∨
      C.LNET_NETTYP (C.LNET_NIDNET gateway) = C.LOLND ∨
      net = C.LNET_NIDNET C.LNET_NID_ANY ∨
      C.LNET_NETTYP net = C.LOLND ∨
      C.LNET_NIDNET gateway = net ∨
      hops < 1 ∨ hops > 255) := by
    rintro (h | h | h | h | h | h | h)
    · exact hv1 h
    · exact hv2 h
    · exact hv3 h
    · exact hv4 h
    · exact hv5 h
    · omega
    · omega
  constructor
  · unfold lnet_add_route
    rw [if_neg hcond]
    simp only [hloc, Bool.false_eq_true, if_false, halloc, Bool.not_true, hpalloc]
    generalize lnet_nid2peer_locked C true gateway s = res at hrc
    obtain ⟨s1, rc⟩ := res
    simp only at hrc
    subst hrc
    simp
  · unfold lnet_add_route
    rw [if_neg hcond]
    simp only [hloc, Bool.false_eq_true, if_false, halloc, Bool.not_true, hpalloc]
    have hn := nid2peer_nets C true gateway s
    generalize lnet_nid2peer_locked C true gateway s = res at hrc hn
    obtain ⟨s1, rc⟩ := res
    simp only at hrc hn
    subst hrc
    simp only [ne_eq, not_true_eq_false, if_false, decref_nets, lnet_find_net_locked,
      add_route_new_net]
    unfold add_route_nets
    simp only [hn]
    cases hfind : s.ln_remote_nets.find? (fun rnet => rnet.lrn_net == net) with
    | none =>
      simp only [hn]
      split
      · simp [lnet_add_route_to_rnet, hn]
      · simp [hn]
    | some rnet =>
      simp only [hn, hfind]
      split
      · simp [lnet_add_route_to_rnet, hn]
      · simp [hn]

theorem routes_of_none (nets : List lnet_remotenet) (net gw : Nat)
    (h : ∀ rnet ∈ nets, rnet.lrn_net = net → ∀ r ∈ rnet.lrn_routes, r.lr_gateway ≠ gw) :
    routes_of nets net gw = [] := by
  unfold routes_of
  rw [List.flatMap_eq_nil_iff]
  intro rnet hr
  split
  · rename_i hn
    rw [List.filter_eq_nil_iff]
    intro r hrr
    simpa using h rnet hr hn r hrr
  · rfl

theorem routes_of_update_rnet (rand : Nat) (route : lnet_route)
    (nets : List lnet_remotenet)
    (h : ∀ rnet ∈ nets, rnet.lrn_net = route.lr_net →
      ∀ r ∈ rnet.lrn_routes, r.lr_gateway ≠ route.lr_gateway)
    (hex : ∃ rnet ∈ nets, rnet.lrn_net = route.lr_net) :
    routes_of (update_rnet (rnet_insert_route rand route) route.lr_net nets)
      route.lr_net route.lr_gateway = [route] := by
  induction nets with
  | nil => obtain ⟨_, hm, _⟩ := hex; cases hm
  | cons a rest ih =>
    unfold update_rnet
    split
    · rename_i ha
      have hrest : routes_of rest route.lr_net route.lr_gateway = [] :=
        routes_of_none rest _ _ (fun rnet hr => h rnet (List.mem_cons_of_mem _ hr))
      have hfil : (rnet_insert_route rand route a.lrn_routes).filter
          (fun r => r.lr_gateway == route.lr_gateway) = [route] := by
        apply List.perm_singleton.mp
        refine ((rnet_insert_route_perm rand route a.lrn_routes).filter _).trans ?_
        have hnone : a.lrn_routes.filter (fun r => r.lr_gateway == route.lr_gateway) = [] := by
          rw [List.filter_eq_nil_iff]
          intro r hr
          simpa using h a (List.mem_cons_self _ _) ha r hr
        simp [List.filter_cons, hnone]
      unfold routes_of at hrest ⊢
      simp only [List.flatMap_cons, ha, if_true, hfil, hrest, List.append_nil]
    · rename_i ha
      have hex' : ∃ rnet ∈ rest, rnet.lrn_net = route.lr_net := by
        obtain ⟨rnet, hm, hn⟩ := hex
        rcases List.mem_cons.mp hm with hm | hm
        · subst hm; exact absurd hn ha
        · exact ⟨rnet, hm, hn⟩
      have := ih (fun rnet hr => h rnet (List.mem_cons_of_mem _ hr)) hex'
      unfold routes_of at this ⊢
      simp only [List.flatMap_cons, ha, if_false, List.nil_append]
      exact this

theorem routes_of_add_route_nets (rand net hops gateway : Nat) (nets : List lnet_remotenet)
    (h : ∀ rnet ∈ nets, rnet.lrn_net = net → ∀ r ∈ rnet.lrn_routes, r.lr_gateway ≠ gateway) :
    routes_of (add_route_nets rand net hops gateway nets) net gateway =
      [{ lr_net := net, lr_gateway := gateway, lr_hops := hops, lr_downis := 0 }] := by
  unfold add_route_nets
  cases hfind : nets.find? (fun rnet => rnet.lrn_net == net) with
  | none =>
    dsimp only
    have hnew : (nets ++ [({ lrn_net := net, lrn_routes := [] } : lnet_remotenet)]).find?
        (fun rnet => rnet.lrn_net == net) = some { lrn_net := net, lrn_routes := [] } := by
      rw [List.find?_append, hfind]
      simp
    rw [hnew]
    simp only [Option.getD_some, List.all_nil, if_true]
    refine routes_of_update_rnet rand
      { lr_net := net, lr_gateway := gateway, lr_hops := hops, lr_downis := 0 } _ ?_ ?_
    · intro rnet hr hn r hrr
      rcases List.mem_append.mp hr with hr | hr
      · exact h rnet hr hn r hrr
      · simp only [List.mem_singleton] at hr
        subst hr
        cases hrr
    · exact ⟨_, List.mem_append_right _ (List.mem_singleton.mpr rfl), rfl⟩
  | some rnet =>
    dsimp only
    have hm := List.mem_of_find?_eq_some hfind
    have hn : rnet.lrn_net = net := by simpa using List.find?_some hfind
    have hall : rnet.lrn_routes.all (fun route2 => route2.lr_gateway != gateway) = true := by
      rw [List.all_eq_true]
      intro r hr
      simpa using h rnet hm hn r hr
    simp only [hfind, Option.getD_some, hall, if_true]
    exact routes_of_update_rnet rand
      { lr_net := net, lr_gateway := gateway, lr_hops := hops, lr_downis := 0 } _ h
      ⟨rnet, hm, hn⟩

/-- C18: for every state of `the_lnet`, `lnet_del_route(N, G)` followed by
`lnet_add_route(N, h, G)`, for a network `N` and gateway `G` that pass the parameter
test, `N` not a local network, `G` on a local network, `h` in 1..255 and the memory for
the route, the remote net and the gateway peer at hand, returns 0 and leaves exactly one
route entry of network `N` through `G`, with hop count `h`. -/
theorem del_then_add_single_route (C : lnet_consts) (e : add_route_env) (net hops gateway : Nat)
    (s : lnet_t) (hv : route_params_ok C net gateway)
    (hloc : lnet_islocalnet C s net = false)
    (hgw : lnet_islocalnet C s (C.LNET_NIDNET gateway) = true)
    (hlo : 1 ≤ hops) (hhi : hops ≤ 255)
    (halloc : e.alloc_ok = true) (hpalloc : e.peer_alloc_ok = true) :
    (lnet_add_route C e net hops gateway (lnet_del_route C net gateway s).1).2 = 0 ∧
      routes_of (lnet_add_route C e net hops gateway
          (lnet_del_route C net gateway s).1).1.ln_remote_nets net gateway =
        [{ lr_net := net, lr_gateway := gateway, lr_hops := hops, lr_downis := 0 }] := by
  have hnis : (lnet_del_route C net gateway s).1.ln_nis = s.ln_nis :=
    del_route_loop_nis C net gateway _ s _
  have hgone := lnet_del_route_gone C net gateway s
  generalize (lnet_del_route C net gateway s).1 = s1 at hnis hgone
  obtain ⟨hrc, hnets⟩ := lnet_add_route_ok C e net hops gateway s1 hv
    ((islocalnet_congr C hnis net).trans hloc) ((islocalnet_congr C hnis _).trans hgw)
    hlo hhi halloc hpalloc
  refine ⟨hrc, ?_⟩
  rw [hnets]
  exact routes_of_add_route_nets e.rand net hops gateway _ hgone

theorem del_then_add_single_route_witness :
    routes_of (lnet_add_route lnet_types_h ⟨true, true, 1⟩ 0x20001 4 (0x20000 * 2 ^ 32 + 1)
        (lnet_del_route lnet_types_h 0x20001 (0x20000 * 2 ^ 32 + 1)
          (route_run lnet_types_h lnet_boot
            [.add ⟨true, true, 0⟩ 0x20001 1 (0x20000 * 2 ^ 32 + 1)])).1).1.ln_remote_nets
        0x20001 (0x20000 * 2 ^ 32 + 1) =
      [{ lr_net := 0x20001, lr_gateway := 0x20000 * 2 ^ 32 + 1, lr_hops := 4, lr_downis := 0 }] :=
  (del_then_add_single_route lnet_types_h ⟨true, true, 1⟩ 0x20001 4 (0x20000 * 2 ^ 32 + 1)
    (route_run lnet_types_h lnet_boot [.add ⟨true, true, 0⟩ 0x20001 1 (0x20000 * 2 ^ 32 + 1)])
    ⟨by decide, by decide, by decide, by decide, by decide⟩ (by decide) (by decide)
    (by decide) (by decide) rfl rfl).2

/-! ### Listing the routes -/

theorem forall_peers_update (P : lnet_peer → Prop) {f : lnet_peer → lnet_peer} (nid : Nat)
    {s : lnet_t} (hf : ∀ p, P p → P (f p)) (h : ∀ p ∈ s.ln_peers, P p) :
    ∀ p ∈ (update_peer f nid s).ln_peers, P p := by
  intro q hq
  obtain ⟨p, hp, rfl⟩ := mem_update_peer.mp hq
  split
  · exact hf p (h p hp)
  · exact h p hp

theorem forall_peers_addref (P : lnet_peer → Prop) (hP : peer_frame P) (nid : Nat)
    {s : lnet_t} (h : ∀ p ∈ s.ln_peers, P p) :
    ∀ p ∈ (lnet_peer_addref_locked nid s).ln_peers, P p :=
  forall_peers_update P nid (fun p hp => hP p (p.lp_refcount + 1) p.lp_rtr_refcount p.lp_rcd hp) h

theorem forall_peers_decref (P : lnet_peer → Prop) (hP : peer_frame P) (nid : Nat)
    {s : lnet_t} (h : ∀ p ∈ s.ln_peers, P p) :
    ∀ p ∈ (lnet_peer_decref_locked nid s).ln_peers, P p := by
  intro q hq
  unfold lnet_peer_decref_locked at hq
  simp only at hq
  exact forall_peers_update P nid
    (fun p hp => hP p (p.lp_refcount - 1) p.lp_rtr_refcount p.lp_rcd hp) h q
    (List.mem_of_mem_filter hq)

theorem forall_peers_rtr_addref (P : lnet_peer → Prop) (hP : peer_frame P) (nid : Nat)
    {s : lnet_t} (h : ∀ p ∈ s.ln_peers, P p) :
    ∀ p ∈ (lnet_rtr_addref_locked nid s).ln_peers, P p := by
  have h1 : ∀ p ∈ (update_peer
      (fun p => { p with lp_rtr_refcount := p.lp_rtr_refcount + 1 }) nid s).ln_peers, P p :=
    forall_peers_update P nid
      (fun p hp => hP p p.lp_refcount (p.lp_rtr_refcount + 1) p.lp_rcd hp) h
  unfold lnet_rtr_addref_locked
  simp only
  split
  · exact h1
  · split
    · exact forall_peers_addref P hP nid (s := { update_peer
        (fun p => { p with lp_rtr_refcount := p.lp_rtr_refcount + 1 }) nid s with
        ln_routers := _ }) h1
    · exact h1

theorem forall_peers_nid2peer (C : lnet_consts) (ok : Bool) (P : lnet_peer → Prop)
    (hP : peer_frame P) (nid : Nat) {s : lnet_t}
    (hnew : ∀ p : lnet_peer, p.lp_nid = nid → p.lp_alive = !lnet_peers_start_down C →
      p.lp_alive_count = 0 → P p)
    (h : ∀ p ∈ s.ln_peers, P p) :
    ∀ p ∈ (lnet_nid2peer_locked C ok nid s).1.ln_peers, P p := by
  unfold lnet_nid2peer_locked
  split
  · exact forall_peers_addref P hP nid h
  · split
    · exact h
    · split
      · exact h
      · intro p hp
        rcases List.mem_cons.mp hp with hp | hp
        · subst hp
          exact hnew _ rfl rfl rfl
        · exact h p hp

theorem forall_peers_add_route (C : lnet_consts) (e : add_route_env) (net hops gateway : Nat)
    (P : lnet_peer → Prop) (hP : peer_frame P) {s : lnet_t}
    (hnew : ∀ p : lnet_peer, p.lp_nid = gateway → p.lp_alive = !lnet_peers_start_down C →
      p.lp_alive_count = 0 → P p)
    (h : ∀ p ∈ s.ln_peers, P p) :
    ∀ p ∈ (lnet_add_route C e net hops gateway s).1.ln_peers, P p := by
  unfold lnet_add_route
  split
  · exact h
  · split
    · exact h
    · split
      · exact h
      · have h1 := forall_peers_nid2peer C e.peer_alloc_ok P hP gateway hnew h
        generalize lnet_nid2peer_locked C e.peer_alloc_ok gateway s = res at h1
        obtain ⟨s1, rc⟩ := res
        simp only at h1
        simp only
        split
        · split <;> exact h1
        · have h2 : ∀ p ∈ (add_route_new_net net s1).ln_peers, P p := by
            rw [(add_route_new_net_peers net s1).1]; exact h1
          apply forall_peers_decref P hP
          split
          · unfold lnet_add_route_to_rnet
            apply forall_peers_rtr_addref P hP
            exact forall_peers_addref P hP gateway h2
          · exact h2


theorem rnet_insert_route_pair (rand : Nat) (r2 r1 : lnet_route) :
    rnet_insert_route rand r2 [r1] = [r2, r1] ∨ rnet_insert_route rand r2 [r1] = [r1, r2] := by
  unfold rnet_insert_route
  simp only [List.length_singleton]
  split
  · exact Or.inl rfl
  · rename_i h
    right
    have h0 : rand % (1 + 1) = 0 := by omega
    rw [h0]
    rfl

/-- The state after the two calls: one remote net with the two routes in one of the two
orders, and both gateways in the peer table with the state new peers start with. -/
theorem two_gateway_state (C : lnet_consts) (e1 e2 : add_route_env) (net g1 g2 : Nat)
    (s0 : lnet_t)
    (hnets : s0.ln_remote_nets = []) (hrtr : s0.ln_routers = []) (hpeers : s0.ln_peers = [])
    (hv1 : route_params_ok C net g1) (hv2 : route_params_ok C net g2) (hne : g1 ≠ g2)
    (hloc : lnet_islocalnet C s0 net = false)
    (hg1 : lnet_islocalnet C s0 (C.LNET_NIDNET g1) = true)
    (hg2 : lnet_islocalnet C s0 (C.LNET_NIDNET g2) = true)
    (ha1 : e1.alloc_ok = true) (hp1 : e1.peer_alloc_ok = true)
    (ha2 : e2.alloc_ok = true) (hp2 : e2.peer_alloc_ok = true) :
    ((route_run C s0 (two_gateway_ops e1 e2 net g1 g2)).ln_remote_nets =
        [{ lrn_net := net, lrn_routes :=
            [{ lr_net := net, lr_gateway := g1, lr_hops := 1, lr_downis := 0 },
             { lr_net := net, lr_gateway := g2, lr_hops := 2, lr_downis := 0 }] }] ∨
      (route_run C s0 (two_gateway_ops e1 e2 net g1 g2)).ln_remote_nets =
        [{ lrn_net := net, lrn_routes :=
            [{ lr_net := net, lr_gateway := g2, lr_hops := 2, lr_downis := 0 },
             { lr_net := net, lr_gateway := g1, lr_hops := 1, lr_downis := 0 }] }]) ∧
    ∀ g, g = g1 ∨ g = g2 →
      ∃ lp, lnet_find_peer (route_run C s0 (two_gateway_ops e1 e2 net g1 g2)) g = some lp ∧
        lp.lp_nid = g ∧ lp.lp_alive = (!lnet_peers_start_down C) ∧ lp.lp_alive_count = 0 := by
  have hrun : route_run C s0 (two_gateway_ops e1 e2 net g1 g2) =
      (lnet_add_route C e2 net 2 g2 (lnet_add_route C e1 net 1 g1 s0).1).1 := rfl
  have hempty : route_table_empty s0 :=
    ⟨hnets, hrtr, by rw [hpeers]; exact List.nodup_nil, by rw [hpeers]; intro p hp; cases hp⟩
  have hinv := route_inv_run C (two_gateway_ops e1 e2 net g1 g2) s0 (route_inv_of_empty s0 hempty)
  have hfresh : ∀ p ∈ (route_run C s0 (two_gateway_ops e1 e2 net g1 g2)).ln_peers,
      p.lp_alive = (!lnet_peers_start_down C) ∧ p.lp_alive_count = 0 := by
    rw [hrun]
    have hP : peer_frame (fun p : lnet_peer =>
        p.lp_alive = (!lnet_peers_start_down C) ∧ p.lp_alive_count = 0) :=
      fun p r k d hp => hp
    apply forall_peers_add_route C e2 net 2 g2 _ hP (fun p _ h1 h2 => ⟨h1, h2⟩)
    apply forall_peers_add_route C e1 net 1 g1 _ hP (fun p _ h1 h2 => ⟨h1, h2⟩)
    rw [hpeers]
    intro p hp
    cases hp
  rw [hrun] at hinv hfresh ⊢
  obtain ⟨_, hn1⟩ := lnet_add_route_ok C e1 net 1 g1 s0 hv1 hloc hg1 (by omega) (by omega)
    ha1 hp1
  have hnis := add_route_nis C e1 net 1 g1 s0
  generalize (lnet_add_route C e1 net 1 g1 s0).1 = s1 at hn1 hnis hinv hfresh ⊢
  obtain ⟨_, hn2⟩ := lnet_add_route_ok C e2 net 2 g2 s1 hv2
    ((islocalnet_congr C hnis net).trans hloc) ((islocalnet_congr C hnis _).trans hg2)
    (by omega) (by omega) ha2 hp2
  generalize (lnet_add_route C e2 net 2 g2 s1).1 = s2 at hn2 hinv hfresh ⊢
  have hnets1 : s1.ln_remote_nets =
      [{ lrn_net := net, lrn_routes :=
        [{ lr_net := net, lr_gateway := g1, lr_hops := 1, lr_downis := 0 }] }] := by
    rw [hn1, hnets]
    simp [add_route_nets, update_rnet, rnet_insert_route]
  have hnets2 : s2.ln_remote_nets =
      [(⟨net, rnet_insert_route e2.rand (⟨net, g2, 2, 0⟩ : lnet_route)
        [(⟨net, g1, 1, 0⟩ : lnet_route)]⟩ : lnet_remotenet)] := by
    rw [hn2, hnets1]
    simp [add_route_nets, update_rnet, hne]
  have horder := rnet_insert_route_pair e2.rand (⟨net, g2, 2, 0⟩ : lnet_route)
    (⟨net, g1, 1, 0⟩ : lnet_route)
  constructor
  · rcases horder with ho | ho
    · right; rw [hnets2, ho]
    · left; rw [hnets2, ho]
  · intro g hg
    have hcount : 0 < rtr_count s2 g := by
      rw [rtr_count_pos_iff]
      simp only [all_routes, hnets2, List.flatMap_cons, List.flatMap_nil, List.append_nil]
      rcases horder with ho | ho <;> rw [ho] <;> rcases hg with hg | hg <;> subst hg <;> simp
    obtain ⟨q, hq, hqn⟩ := hinv.peers.gw_peer g hcount
    obtain ⟨lp, hfind⟩ := find_peer_of_mem hq
    rw [hqn] at hfind
    obtain ⟨hm, hn⟩ := find_peer_mem hfind
    exact ⟨lp, hfind, hn, hfresh lp hm⟩


/-- C19 (amended): after `lnet_add_route(N, 1, G1)` and `lnet_add_route(N, 2, G2)` on a
node without routes, routers and peers (`N` not a local network, `G1` and `G2` different
gateways on local networks, the parameters passing the test, the memory at hand),
`lnet_get_route` enumerates exactly two entries, (`N`, `G1`, 1 hop) and (`N`, `G2`,
2 hops) in either order, and returns `-ENOENT` for every other index.  Before any probe
reply each entry reports the state a new peer starts with: alive is 0 when peers start
down (`check_routers_before_use` set) and 1 otherwise. -/
theorem get_route_two_gateways (C : lnet_consts) (e1 e2 : add_route_env) (net g1 g2 : Nat)
    (s0 : lnet_t)
    (hnets : s0.ln_remote_nets = []) (hrtr : s0.ln_routers = []) (hpeers : s0.ln_peers = [])
    (hv1 : route_params_ok C net g1) (hv2 : route_params_ok C net g2) (hne : g1 ≠ g2)
    (hloc : lnet_islocalnet C s0 net = false)
    (hg1 : lnet_islocalnet C s0 (C.LNET_NIDNET g1) = true)
    (hg2 : lnet_islocalnet C s0 (C.LNET_NIDNET g2) = true)
    (ha1 : e1.alloc_ok = true) (hp1 : e1.peer_alloc_ok = true)
    (ha2 : e2.alloc_ok = true) (hp2 : e2.peer_alloc_ok = true) :
    ((lnet_get_route (route_run C s0 (two_gateway_ops e1 e2 net g1 g2)) 0 =
          some (0, some ⟨net, 1, g1, !lnet_peers_start_down C⟩) ∧
        lnet_get_route (route_run C s0 (two_gateway_ops e1 e2 net g1 g2)) 1 =
          some (0, some ⟨net, 2, g2, !lnet_peers_start_down C⟩)) ∨
      (lnet_get_route (route_run C s0 (two_gateway_ops e1 e2 net g1 g2)) 0 =
          some (0, some ⟨net, 2, g2, !lnet_peers_start_down C⟩) ∧
        lnet_get_route (route_run C s0 (two_gateway_ops e1 e2 net g1 g2)) 1 =
          some (0, some ⟨net, 1, g1, !lnet_peers_start_down C⟩))) ∧
    ∀ idx : Int, idx < 0 ∨ 2 ≤ idx →
      lnet_get_route (route_run C s0 (two_gateway_ops e1 e2 net g1 g2)) idx =
        some (-ENOENT, none) := by
  obtain ⟨hn, hp⟩ := two_gateway_state C e1 e2 net g1 g2 s0 hnets hrtr hpeers hv1 hv2 hne
    hloc hg1 hg2 ha1 hp1 ha2 hp2
  generalize route_run C s0 (two_gateway_ops e1 e2 net g1 g2) = s2 at hn hp
  obtain ⟨lp1, hf1, hl1, hal1, _⟩ := hp g1 (Or.inl rfl)
  obtain ⟨lp2, hf2, hl2, hal2, _⟩ := hp g2 (Or.inr rfl)
  have hout : ∀ idx : Int, idx < 0 ∨ 2 ≤ idx → (route_entries s2).length = 2 →
      lnet_get_route s2 idx = some (-ENOENT, none) := by
    intro idx hidx hlen
    unfold lnet_get_route
    by_cases hneg : idx < 0
    · rw [if_pos hneg]
    · rw [if_neg hneg]
      have hge : (route_entries s2).length ≤ idx.toNat := by
        rw [hlen]; omega
      rw [List.getElem?_eq_none hge]
  constructor
  · rcases hn with hn | hn
    · left
      constructor
      · simp [lnet_get_route, route_entries, hn, hf1, hl1, hal1]
      · simp [lnet_get_route, route_entries, hn, hf2, hl2, hal2]
    · right
      constructor
      · simp [lnet_get_route, route_entries, hn, hf2, hl2, hal2]
      · simp [lnet_get_route, route_entries, hn, hf1, hl1, hal1]
  · intro idx hidx
    apply hout idx hidx
    rcases hn with hn | hn <;> simp [route_entries, hn]

theorem get_route_two_gateways_witness :
    lnet_get_route (route_run lnet_types_h lnet_boot2
        (two_gateway_ops ⟨true, true, 0⟩ ⟨true, true, 0⟩ 0x20001
          (0x20000 * 2 ^ 32 + 1) (0x20002 * 2 ^ 32 + 2))) 2 = some (-ENOENT, none) :=
  (get_route_two_gateways lnet_types_h ⟨true, true, 0⟩ ⟨true, true, 0⟩ 0x20001
    (0x20000 * 2 ^ 32 + 1) (0x20002 * 2 ^ 32 + 2) lnet_boot2 rfl rfl rfl
    ⟨by decide, by decide, by decide, by decide, by decide⟩
    ⟨by decide, by decide, by decide, by decide, by decide⟩ (by decide) (by decide)
    (by decide) (by decide) rfl rfl rfl rfl).2 2 (Or.inr (by decide))

/-- C19, as stated, fails with the module parameter `check_routers_before_use` at its
default 0: after the two calls on a node without routes and peers, with no probe reply
processed, the two entries enumerated are (`G1`, 1 hop) and (`G2`, 2 hops), and each
reports alive = 1. -/
theorem get_route_alive_counterexample :
    lnet_peers_start_down lnet_types_h = false ∧
      lnet_get_route (route_run lnet_types_h lnet_boot2
        (two_gateway_ops ⟨true, true, 0⟩ ⟨true, true, 0⟩ 0x20001
          (0x20000 * 2 ^ 32 + 1) (0x20002 * 2 ^ 32 + 2))) 0 =
        some (0, some ⟨0x20001, 1, 0x20000 * 2 ^ 32 + 1, true⟩) ∧
      lnet_get_route (route_run lnet_types_h lnet_boot2
        (two_gateway_ops ⟨true, true, 0⟩ ⟨true, true, 0⟩ 0x20001
          (0x20000 * 2 ^ 32 + 1) (0x20002 * 2 ^ 32 + 2))) 1 =
        some (0, some ⟨0x20001, 2, 0x20002 * 2 ^ 32 + 2, true⟩) := by
  exact ⟨rfl, by decide, by decide⟩

/-! ### Reclaiming router-check-data -/

theorem rc_deliver_unlinked_freed (ids : List Nat) (w : lnet_rc_t) :
    (rc_deliver_unlinked ids w).rcd_freed = w.rcd_freed := by
  unfold rc_deliver_unlinked
  induction ids generalizing w with
  | nil => rfl
  | cons id rest ih =>
    simp only [List.foldl_cons]
    rw [ih]

theorem rc_prune_routers_freed (routers : List Nat) (w w1 : lnet_rc_t)
    (h : rc_prune_routers routers w = some w1) : w1.rcd_freed = w.rcd_freed := by
  induction routers generalizing w with
  | nil =>
    simp only [rc_prune_routers, Option.some.injEq] at h
    rw [← h]
  | cons nid rest ih =>
    unfold rc_prune_routers at h
    split at h
    · cases h
    · split at h
      · exact ih w h
      · simp only at h
        split at h
        · cases h
        · have := ih _ h
          rw [this]

/-- `lnet_destroy_rc_data` on objects whose MD handle is valid: the first call fails its
assertion. -/
theorem rc_destroy_all_valid (head : List Nat) (w w1 : lnet_rc_t)
    (hvalid : ∀ id ∈ head, (w.rcds id).rcd_mdh ≠ none)
    (h : rc_destroy_all head w = some w1) : head = [] ∧ w1 = w := by
  cases head with
  | nil =>
    simp only [rc_destroy_all, Option.some.injEq] at h
    exact ⟨rfl, h.symm⟩
  | cons id rest =>
    exfalso
    unfold rc_destroy_all at h
    have hid := hvalid id (List.mem_cons_self _ _)
    have hnone : lnet_destroy_rc_data id w = none := by
      unfold lnet_destroy_rc_data
      simp only
      split
      · rfl
      · simp only [ne_eq, hid, not_false_eq_true, if_true]
    rw [hnone] at h
    cases h

theorem rc_release_zombies_freed (unlinked_at : Nat → List Nat) (fuel k : Nat)
    (wait_unlink : Bool) (w w' : lnet_rc_t)
    (h : rc_release_zombies unlinked_at fuel k wait_unlink w = .returned w') :
    w'.rcd_freed = w.rcd_freed := by
  induction fuel generalizing k wait_unlink w with
  | zero => simp [rc_release_zombies] at h
  | succ fuel ih =>
    unfold rc_release_zombies at h
    split at h
    · simp only [rc_outcome.returned.injEq] at h
      rw [← h]
    · simp only at h
      split at h
      · cases h
      · rename_i w1 hd
        have hvalid : ∀ id ∈ (w.ln_rcd_zombie.filter
            (fun id => !((w.rcds id).rcd_mdh == none))).reverse,
            (w.rcds id).rcd_mdh ≠ none := by
          intro id hid
          have := (List.mem_filter.mp (List.mem_reverse.mp hid)).2
          simpa using this
        have hdv := fun hv => rc_destroy_all_valid _ _ w1 hv hd
        obtain ⟨_, hw1⟩ := hdv hvalid
        split at h
        · simp only [rc_outcome.returned.injEq] at h
          rw [← h, hw1]
        · have := ih _ _ _ h
          rw [this, rc_deliver_unlinked_freed, hw1]

/-- Every call of `lnet_prune_rc_data` that returns has freed no router-check-data: the
objects it hands to `lnet_destroy_rc_data` are those with a valid MD handle, on which the
assertion of `lnet_destroy_rc_data` fails. -/
theorem prune_rc_data_frees_nothing (unlinked_at : Nat → List Nat) (fuel : Nat)
    (wait_unlink : Bool) (w w' : lnet_rc_t)
    (h : lnet_prune_rc_data unlinked_at fuel wait_unlink w = .returned w') :
    w'.rcd_freed = w.rcd_freed := by
  unfold lnet_prune_rc_data at h
  split at h
  · simp only [rc_outcome.returned.injEq] at h
    rw [← h]
  · split at h
    · cases h
    · rename_i w1 hw1
      have hf1 : w1.rcd_freed = w.rcd_freed := by
        split at hw1
        · exact rc_prune_routers_freed _ _ _ hw1
        · simp only [Option.some.injEq] at hw1
          rw [← hw1]
      have := rc_release_zombies_freed _ _ _ _ _ _ h
      rw [this]
      simp only
      split
      · rw [rc_deliver_unlinked_freed]
        exact hf1
      · exact hf1

/-- C13: `lnet_prune_rc_data` on a deathrow object whose MD is still bound.  When no
unlink event has arrived by the time the zombie list is scanned, the handle is valid and
the object is handed to `lnet_destroy_rc_data`, whose assertion fails.  When the unlink
event has arrived, the handle is invalid and the object stays on the zombie list and is
not freed; with `wait_unlink` the loop then does not end. -/
theorem prune_rc_data_destroys_bound_md :
    (lnet_rc_deathrow_sample.rcds 1).rcd_mdh = some 7 ∧
      (lnet_prune_rc_data (fun _ => []) 5 false lnet_rc_deathrow_sample).is_lbug = true ∧
      (lnet_prune_rc_data (fun k => if k = 0 then [1] else []) 5 false
        lnet_rc_deathrow_sample).lists = some ([1], []) ∧
      (lnet_prune_rc_data (fun k => if k = 0 then [1] else []) 5 true
        lnet_rc_deathrow_sample).is_waiting = true := by
  refine ⟨rfl, ?_, ?_, ?_⟩ <;> decide

/-! ### Probe replies -/

theorem notify_locked_nid (P : lnet_ping_consts) (notifylnd alive : Bool) (when : Nat)
    (lp : lnet_peer) : (lnet_notify_locked P notifylnd alive when lp).lp_nid = lp.lp_nid := by
  unfold lnet_notify_locked
  split
  · rfl
  · simp only
    split
    · rfl
    · split <;> rfl

/-- The first news of a peer is never old news: with `lp_alive_count == 0` and a
timestamp that is not ahead of `when`, `lnet_notify_locked` sets `lp_alive` and counts
once. -/
theorem notify_locked_first (P : lnet_ping_consts) (notifylnd alive : Bool) (when : Nat)
    (lp : lnet_peer) (hcount : lp.lp_alive_count = 0) (htime : lp.lp_timestamp ≤ when) :
    (lnet_notify_locked P notifylnd alive when lp).lp_alive = alive ∧
      (lnet_notify_locked P notifylnd alive when lp).lp_alive_count = lp.lp_alive_count + 1 := by
  unfold lnet_notify_locked
  have ht : cfs_time_before when lp.lp_timestamp = false := by
    unfold cfs_time_before
    simp only [decide_eq_false_iff_not]
    omega
  simp only [ht, Bool.false_eq_true, if_false, hcount, ne_eq, not_true_eq_false, false_and]
  split <;> exact ⟨rfl, rfl⟩

theorem find_map_update_peer {α : Type} (g : lnet_peer → α) {f : lnet_peer → lnet_peer}
    (hf : ∀ p, (f p).lp_nid = p.lp_nid) (hg : ∀ p, g (f p) = g p) (nid : Nat) (s : lnet_t) :
    (lnet_find_peer (update_peer f nid s) nid).map g = (lnet_find_peer s nid).map g := by
  rw [find_update_peer hf]
  cases lnet_find_peer s nid with
  | none => rfl
  | some p => simp [hg]

theorem set_ping_version_peer {α : Type} (g : lnet_peer → α)
    (hg : ∀ p v, g { p with lp_ping_version := v } = g p) (gw v : Nat) (w : lnet_rc_t) :
    (lnet_find_peer (set_ping_version gw v w).lnet gw).map g =
      (lnet_find_peer w.lnet gw).map g :=
  find_map_update_peer g (f := fun p => { p with lp_ping_version := v }) (fun _ => rfl)
    (fun p => hg p v) gw w.lnet

theorem rc_parse_info_peer {α : Type} (g : lnet_peer → α)
    (hg : ∀ p v, g { p with lp_ping_version := v } = g p)
    (C : lnet_consts) (P : lnet_ping_consts) (gw : Nat) (info : lnet_ping_info)
    (w : lnet_rc_t) :
    (lnet_find_peer (rc_parse_info C P gw info w).lnet gw).map g =
      (lnet_find_peer w.lnet gw).map g := by
  have hset := set_ping_version_peer g hg gw
  unfold rc_parse_info
  split
  · rw [hset]
  · simp only
    split
    · rw [hset]
    · split
      · rw [hset, hset]
      · split
        · rw [hset]
          show (lnet_find_peer (set_ping_version gw info.pi_version w).lnet gw).map g = _
          rw [hset]
        · show (lnet_find_peer (set_ping_version gw info.pi_version w).lnet gw).map g = _
          rw [hset]

/-- `lnet_parse_rc_info` leaves everything of the gateway peer but `lp_ping_version`. -/
theorem parse_rc_info_peer {α : Type} (g : lnet_peer → α)
    (hg : ∀ p v, g { p with lp_ping_version := v } = g p)
    (C : lnet_consts) (P : lnet_ping_consts) (id gw : Nat) (w : lnet_rc_t) :
    (lnet_find_peer (lnet_parse_rc_info C P id gw w).lnet gw).map g =
      (lnet_find_peer w.lnet gw).map g := by
  unfold lnet_parse_rc_info
  simp only
  split
  · rfl
  · split
    · rfl
    · rw [rc_parse_info_peer g hg]

/-- A peer that `lnet_notify_locked` leaves with `lp_alive_count == 0` has been left as it
was: while the count is 0 the timestamp is the one the peer was created with. -/
theorem notify_locked_count_zero (P : lnet_ping_consts) (notifylnd alive : Bool) (when : Nat)
    (lp : lnet_peer) (h : (lnet_notify_locked P notifylnd alive when lp).lp_alive_count = 0) :
    lnet_notify_locked P notifylnd alive when lp = lp := by
  by_cases ht : cfs_time_before when lp.lp_timestamp = true
  · simp only [lnet_notify_locked, ht, if_true]
  · exfalso
    by_cases hold : lp.lp_alive_count ≠ 0 ∧ (!lp.lp_alive) = (!alive)
    · have hc : (lnet_notify_locked P notifylnd alive when lp).lp_alive_count =
          lp.lp_alive_count := by
        unfold lnet_notify_locked
        rw [if_neg ht]
        dsimp only
        rw [if_pos hold]
      rw [hc] at h
      exact hold.1 h
    · have hc : (lnet_notify_locked P notifylnd alive when lp).lp_alive_count =
          lp.lp_alive_count + 1 := by
        unfold lnet_notify_locked
        rw [if_neg ht]
        dsimp only
        rw [if_neg hold]
        split <;> rfl
      rw [hc] at h
      omega

/-- C20: `lnet_router_checker_event` for a REPLY event with status 0 that is not an unlink
event, on the router-check-data the gateway peer points to with `lp_rcd`, the peer being
a router with `lp_alive_count == 0` and a timestamp that is not ahead of the clock (for
such a peer it is the one it was created with): the handler returns, and the gateway's
`lp_alive` is 1 and its `lp_alive_count` is one more than before, whether or not
`avoid_asym_router_failure` makes it parse the payload. -/
theorem router_checker_reply_alive (C : lnet_consts) (P : lnet_ping_consts) (now : Nat)
    (event : lnet_event) (w : lnet_rc_t) (id gw : Nat) (lp : lnet_peer)
    (hptr : event.user_ptr = some id) (hunl : event.unlinked = false)
    (htype : event.type = .LNET_EVENT_REPLY) (hstatus : event.status = 0)
    (hgw : (w.rcds id).rcd_gateway = some gw) (hfind : lnet_find_peer w.lnet gw = some lp)
    (hrouter : lnet_isrouter lp = true) (hrcd : lp.lp_rcd = some id)
    (hcount : lp.lp_alive_count = 0) (htime : lp.lp_timestamp ≤ now) :
    ∃ w' lp', lnet_router_checker_event C P now event w = some w' ∧
      lnet_find_peer w'.lnet gw = some lp' ∧
      lp'.lp_alive = true ∧ lp'.lp_alive_count = lp.lp_alive_count + 1 := by
  obtain ⟨hal, hcnt⟩ := notify_locked_first P true true now lp hcount htime
  have hfind2 : lnet_find_peer
      (update_peer (lnet_notify_locked P true true now) gw w.lnet) gw =
      some (lnet_notify_locked P true true now lp) := by
    rw [find_update_peer (notify_locked_nid P true true now), hfind]
    rfl
  have hev : lnet_router_checker_event C P now event w =
      if P.avoid_asym_router_failure = true then
        some (lnet_parse_rc_info C P id gw
          { w with lnet := update_peer (lnet_notify_locked P true true now) gw w.lnet })
      else some { w with lnet := update_peer (lnet_notify_locked P true true now) gw w.lnet } := by
    unfold lnet_router_checker_event
    simp only [hptr, hunl, Bool.false_eq_true, if_false, htype, hgw, hfind, hrouter, hrcd,
      hstatus, reduceCtorEq, false_or, not_true_eq_false, Bool.not_true, bne_self_eq_false,
      Bool.or_self, false_and, decide_True, and_true]
  rw [hev]
  by_cases hav : P.avoid_asym_router_failure = true
  · rw [if_pos hav]
    have hframe := parse_rc_info_peer (fun p => (p.lp_alive, p.lp_alive_count))
      (fun _ _ => rfl) C P id gw
      { w with lnet := update_peer (lnet_notify_locked P true true now) gw w.lnet }
    rw [hfind2] at hframe
    cases hres : lnet_find_peer (lnet_parse_rc_info C P id gw
        { w with lnet := update_peer (lnet_notify_locked P true true now) gw w.lnet }).lnet gw with
    | none => rw [hres] at hframe; cases hframe
    | some lp' =>
      rw [hres] at hframe
      simp only [Option.map_some', Option.some.injEq, Prod.mk.injEq] at hframe
      exact ⟨_, lp', rfl, hres, hframe.1.trans hal, hframe.2.trans hcnt⟩
  · rw [if_neg hav]
    exact ⟨_, _, rfl, hfind2, hal, hcnt⟩

theorem router_checker_reply_alive_witness :
    ∃ w' lp', lnet_router_checker_event lnet_types_h lnet_ping_h 120
        ⟨.LNET_EVENT_REPLY, 0, false, some 1⟩ lnet_rc_sample = some w' ∧
      lnet_find_peer w'.lnet (0x20000 * 2 ^ 32 + 1) = some lp' ∧
      lp'.lp_alive = true ∧ lp'.lp_alive_count = 1 :=
  router_checker_reply_alive lnet_types_h lnet_ping_h 120 ⟨.LNET_EVENT_REPLY, 0, false, some 1⟩
    lnet_rc_sample 1 (0x20000 * 2 ^ 32 + 1) gw_peer_sample rfl rfl rfl rfl rfl (by decide)
    (by decide) rfl rfl (by decide)

/-! ### Stale notifications -/

/-- C21: `lnet_notify_locked` called with a timestamp that `cfs_time_before` finds earlier
than the peer's `lp_timestamp` discards the notification: the peer is returned as it
was, so its alive flag, alive count, timestamp, ping deadline, ping version and
pending-notification flags are all unchanged. -/
theorem notify_locked_out_of_date (P : lnet_ping_consts) (notifylnd alive : Bool)
    (when : Nat) (lp : lnet_peer) (hstale : cfs_time_before when lp.lp_timestamp = true) :
    lnet_notify_locked P notifylnd alive when lp = lp ∧
      (lnet_notify_locked P notifylnd alive when lp).lp_alive = lp.lp_alive ∧
      (lnet_notify_locked P notifylnd alive when lp).lp_alive_count = lp.lp_alive_count ∧
      (lnet_notify_locked P notifylnd alive when lp).lp_timestamp = lp.lp_timestamp ∧
      (lnet_notify_locked P notifylnd alive when lp).lp_ping_deadline = lp.lp_ping_deadline ∧
      (lnet_notify_locked P notifylnd alive when lp).lp_ping_version = lp.lp_ping_version ∧
      (lnet_notify_locked P notifylnd alive when lp).lp_notify = lp.lp_notify ∧
      (lnet_notify_locked P notifylnd alive when lp).lp_notifylnd = lp.lp_notifylnd := by
  have h : lnet_notify_locked P notifylnd alive when lp = lp := by
    unfold lnet_notify_locked
    rw [if_pos hstale]
  rw [h]
  exact ⟨rfl, rfl, rfl, rfl, rfl, rfl, rfl, rfl⟩

/-- A notification that the gateway `gw_peer_sample`, whose state dates from time 200, is
alive, stamped 100: nothing changes. -/
theorem notify_locked_out_of_date_witness :
    lnet_notify_locked lnet_ping_h true true 100 { gw_peer_sample with lp_timestamp := 200 } =
        { gw_peer_sample with lp_timestamp := 200 } ∧
      (lnet_notify_locked lnet_ping_h true true 100
        { gw_peer_sample with lp_timestamp := 200 }).lp_alive = false :=
  have h := notify_locked_out_of_date lnet_ping_h true true 100
    { gw_peer_sample with lp_timestamp := 200 } (by decide)
  ⟨h.1, h.2.1⟩

/-! ### Byte swapping twice -/

theorem swab_halves (m lo hi : Nat) (hm : 0 < m) (hlo : lo < m) (hhi : hi < m) :
    (lo * m + hi) % m = hi ∧ (lo * m + hi) / m % m = lo := by
  have h1 : (lo * m + hi) % m = hi := by
    rw [Nat.add_comm, Nat.add_mul_mod_self_right, Nat.mod_eq_of_lt hhi]
  have h2 : (lo * m + hi) / m = lo := by
    rw [Nat.add_comm, Nat.add_mul_div_right _ _ hm, Nat.div_eq_of_lt hhi, Nat.zero_add]
  rw [h1, h2, Nat.mod_eq_of_lt hlo]
  exact ⟨rfl, rfl⟩

theorem swab16_lt (v : Nat) : swab16 v < 2 ^ 16 := by
  unfold swab16
  omega

theorem swab16_swab16 (v : Nat) (h : v < 2 ^ 16) : swab16 (swab16 v) = v := by
  unfold swab16
  have hb : v / 256 % 256 = v / 256 := by omega
  obtain ⟨a1, a2⟩ := swab_halves 256 (v % 256) (v / 256 % 256) (by omega) (by omega) (by omega)
  rw [a1, a2]
  omega

theorem swab32_lt (v : Nat) : swab32 v < 2 ^ 32 := by
  have h1 := swab16_lt (v % 65536)
  have h2 := swab16_lt ((v / 65536) % 65536)
  unfold swab32
  omega

theorem swab32_swab32 (v : Nat) (h : v < 2 ^ 32) : swab32 (swab32 v) = v := by
  have h1 := swab16_lt (v % 65536)
  have h2 := swab16_lt ((v / 65536) % 65536)
  have e1 := swab16_swab16 (v % 65536) (by omega)
  have e2 := swab16_swab16 ((v / 65536) % 65536) (by omega)
  unfold swab32
  obtain ⟨a1, a2⟩ := swab_halves 65536 (swab16 (v % 65536)) (swab16 (v / 65536 % 65536))
    (by omega) (by omega) (by omega)
  rw [a1, a2, e1, e2]
  omega

theorem swab64_swab64 (v : Nat) (h : v < 2 ^ 64) : swab64 (swab64 v) = v := by
  have h1 := swab32_lt (v % 2 ^ 32)
  have h2 := swab32_lt ((v / 2 ^ 32) % 2 ^ 32)
  have e1 := swab32_swab32 (v % 2 ^ 32) (by omega)
  have e2 := swab32_swab32 ((v / 2 ^ 32) % 2 ^ 32) (by omega)
  unfold swab64
  obtain ⟨a1, a2⟩ := swab_halves (2 ^ 32) (swab32 (v % 2 ^ 32)) (swab32 (v / 2 ^ 32 % 2 ^ 32))
    (by omega) h1 h2
  rw [a1, a2, e1, e2]
  omega

theorem rc_parse_routes_congr (C : lnet_consts) (P : lnet_ping_consts)
    (info1 info2 : lnet_ping_info) (gw : Nat)
    (hni : info1.pi_ni.take (min info1.pi_nnis P.LNET_MAX_RTR_NIS) =
      info2.pi_ni.take (min info2.pi_nnis P.LNET_MAX_RTR_NIS)) :
    ∀ (l : List Nat) (nets : List lnet_remotenet),
      rc_parse_routes C P info1 gw l nets = rc_parse_routes C P info2 gw l nets := by
  intro l
  induction l with
  | nil => intro nets; rfl
  | cons lr_net rest ih =>
    intro nets
    unfold rc_parse_routes
    rw [hni]
    split
    · rfl
    · exact ih _
    · exact ih _

/-- What `rc_parse_info` does to `the_lnet` depends on the magic and the version of the
payload, on the entries the loop visits, and on the routes of the gateway only. -/
theorem rc_parse_info_congr (C : lnet_consts) (P : lnet_ping_consts) (gw : Nat)
    (info1 info2 : lnet_ping_info) (w1 w2 : lnet_rc_t)
    (hm : info1.pi_magic = info2.pi_magic) (hv : info1.pi_version = info2.pi_version)
    (hni : info1.pi_ni.take (min info1.pi_nnis P.LNET_MAX_RTR_NIS) =
      info2.pi_ni.take (min info2.pi_nnis P.LNET_MAX_RTR_NIS))
    (hl : w1.lnet = w2.lnet) (hg : w1.gwlist = w2.gwlist) :
    (rc_parse_info C P gw info1 w1).lnet = (rc_parse_info C P gw info2 w2).lnet := by
  unfold rc_parse_info
  rw [← hm, ← hv]
  by_cases h1 : info1.pi_magic ≠ P.LNET_PROTO_PING_MAGIC
  · rw [if_pos h1, if_pos h1]
    simp only [set_ping_version, hl]
  · rw [if_neg h1, if_neg h1]
    simp only
    by_cases h2 : info1.pi_version = P.LNET_PROTO_PING_VERSION_1
    · rw [if_pos h2, if_pos h2]
      simp only [set_ping_version, hl]
    · rw [if_neg h2, if_neg h2]
      by_cases h3 : info1.pi_version ≠ P.LNET_PROTO_PING_VERSION
      · rw [if_pos h3, if_pos h3]
        simp only [set_ping_version, hl]
      · rw [if_neg h3, if_neg h3]
        simp only [set_ping_version, hl, hg, rc_parse_routes_congr C P info1 info2 gw hni]
        split <;> rfl

theorem find_set_ping_version (gw v : Nat) (w : lnet_rc_t) :
    lnet_find_peer (set_ping_version gw v w).lnet gw =
      (lnet_find_peer w.lnet gw).map (fun p => { p with lp_ping_version := v }) :=
  find_update_peer (f := fun p => { p with lp_ping_version := v }) (fun _ => rfl) gw w.lnet

theorem set_ping_version_nets (gw v : Nat) (w : lnet_rc_t) :
    (set_ping_version gw v w).lnet.ln_remote_nets = w.lnet.ln_remote_nets := rfl

theorem parse_rc_info_host_order (C : lnet_consts) (P : lnet_ping_consts) (id gw : Nat)
    (w : lnet_rc_t) (lp : lnet_peer) (hlp : lnet_find_peer w.lnet gw = some lp)
    (halive : lp.lp_alive = true) :
    lnet_parse_rc_info C P id gw w =
      rc_parse_info C P gw (rc_host_order P (w.rcds id).rcd_pinginfo)
        (with_pinginfo id (rc_host_order P (w.rcds id).rcd_pinginfo) w) := by
  unfold lnet_parse_rc_info
  simp only [hlp, halive]
  rfl

theorem parse_rc_info_dead (C : lnet_consts) (P : lnet_ping_consts) (id gw : Nat)
    (w : lnet_rc_t) (lp : lnet_peer) (hlp : lnet_find_peer w.lnet gw = some lp)
    (hdead : lp.lp_alive = false) : lnet_parse_rc_info C P id gw w = w := by
  unfold lnet_parse_rc_info
  simp only [hlp, hdead]
  rfl

/-- A payload with a wrong magic or an unknown version: the ping version becomes unknown
and the routes are not touched. -/
theorem rc_parse_info_malformed (C : lnet_consts) (P : lnet_ping_consts) (gw : Nat)
    (info : lnet_ping_info) (w : lnet_rc_t) (lp : lnet_peer)
    (hlp : lnet_find_peer w.lnet gw = some lp)
    (hbad : info.pi_magic ≠ P.LNET_PROTO_PING_MAGIC ∨
      (info.pi_version ≠ P.LNET_PROTO_PING_VERSION ∧
        info.pi_version ≠ P.LNET_PROTO_PING_VERSION_1)) :
    (lnet_find_peer (rc_parse_info C P gw info w).lnet gw).map (fun p => p.lp_ping_version) =
        some P.LNET_PROTO_PING_UNKNOWN ∧
      (rc_parse_info C P gw info w).lnet.ln_remote_nets = w.lnet.ln_remote_nets := by
  unfold rc_parse_info
  by_cases hm : info.pi_magic ≠ P.LNET_PROTO_PING_MAGIC
  · rw [if_pos hm, find_set_ping_version, hlp]
    exact ⟨rfl, rfl⟩
  · rcases hbad with h | ⟨hv, hv1⟩
    · exact absurd h hm
    · rw [if_neg hm]
      simp only
      rw [if_neg hv1, if_pos hv, find_set_ping_version, find_set_ping_version, hlp]
      exact ⟨rfl, rfl⟩

/-! ### Malformed probe replies -/

/-- C23 (as amended): `lnet_parse_rc_info` never changes the gateway's `lp_alive` or
`lp_alive_count`.  For a gateway that is not alive it returns at once and changes
nothing, so the ping version stays what it was.  For a gateway that is alive, when the
magic of the payload is not `LNET_PROTO_PING_MAGIC` even after byte-swapping, or its
version is neither `LNET_PROTO_PING_VERSION` nor `LNET_PROTO_PING_VERSION_1`, it sets
`lp_ping_version` to `LNET_PROTO_PING_UNKNOWN` and leaves the routes, and so every
`lr_downis`, unchanged. -/
theorem parse_rc_info_malformed (C : lnet_consts) (P : lnet_ping_consts) (id gw : Nat)
    (w : lnet_rc_t) (lp : lnet_peer) (hlp : lnet_find_peer w.lnet gw = some lp) :
    (lnet_find_peer (lnet_parse_rc_info C P id gw w).lnet gw).map
        (fun p => (p.lp_alive, p.lp_alive_count)) = some (lp.lp_alive, lp.lp_alive_count) ∧
      (lp.lp_alive = false → lnet_parse_rc_info C P id gw w = w) ∧
      (lp.lp_alive = true →
        ((rc_host_order P (w.rcds id).rcd_pinginfo).pi_magic ≠ P.LNET_PROTO_PING_MAGIC ∨
          ((rc_host_order P (w.rcds id).rcd_pinginfo).pi_version ≠ P.LNET_PROTO_PING_VERSION ∧
            (rc_host_order P (w.rcds id).rcd_pinginfo).pi_version ≠
              P.LNET_PROTO_PING_VERSION_1)) →
        (lnet_find_peer (lnet_parse_rc_info C P id gw w).lnet gw).map
            (fun p => p.lp_ping_version) = some P.LNET_PROTO_PING_UNKNOWN ∧
          (lnet_parse_rc_info C P id gw w).lnet.ln_remote_nets = w.lnet.ln_remote_nets) := by
  refine ⟨?_, ?_, ?_⟩
  · rw [parse_rc_info_peer (fun p => (p.lp_alive, p.lp_alive_count)) (fun _ _ => rfl), hlp]
    rfl
  · exact parse_rc_info_dead C P id gw w lp hlp
  · intro halive hbad
    rw [parse_rc_info_host_order C P id gw w lp hlp halive]
    exact rc_parse_info_malformed C P gw _ _ lp hlp hbad

/-- The alive gateway of the sample gets a reply whose buffer does not carry the magic:
its ping version, 2 before, becomes unknown, it stays alive with its count, and its
route keeps `lr_downis`. -/
theorem parse_rc_info_malformed_witness :
    (lnet_find_peer (lnet_parse_rc_info lnet_types_h lnet_ping_h 1 (0x20000 * 2 ^ 32 + 1)
        lnet_rc_alive_sample).lnet (0x20000 * 2 ^ 32 + 1)).map
        (fun p => (p.lp_alive, p.lp_alive_count)) = some (true, 1) ∧
      (lnet_find_peer (lnet_parse_rc_info lnet_types_h lnet_ping_h 1 (0x20000 * 2 ^ 32 + 1)
        lnet_rc_alive_sample).lnet (0x20000 * 2 ^ 32 + 1)).map
        (fun p => p.lp_ping_version) = some 0 ∧
      (lnet_parse_rc_info lnet_types_h lnet_ping_h 1 (0x20000 * 2 ^ 32 + 1)
        lnet_rc_alive_sample).lnet.ln_remote_nets =
        [⟨0x20001, [⟨0x20001, 0x20000 * 2 ^ 32 + 1, 1, 0⟩]⟩] :=
  have h := parse_rc_info_malformed lnet_types_h lnet_ping_h 1 (0x20000 * 2 ^ 32 + 1)
    lnet_rc_alive_sample
    { gw_peer_sample with lp_alive := true, lp_alive_count := 1, lp_ping_version := 2 }
    (by decide)
  ⟨h.1, (h.2.2 rfl (Or.inl (by decide))).1, (h.2.2 rfl (Or.inl (by decide))).2⟩

/-- The claim C23 as stated fails for a gateway that is down: the payload of the sample
does not carry the magic, also after byte-swapping, and `lnet_parse_rc_info` leaves the
ping version 2 where the claim has `LNET_PROTO_PING_UNKNOWN`, which is 0. -/
theorem parse_rc_info_dead_gateway_counterexample :
    (rc_host_order lnet_ping_h (lnet_rc_dead_sample.rcds 1).rcd_pinginfo).pi_magic ≠
        lnet_ping_h.LNET_PROTO_PING_MAGIC ∧
      (lnet_find_peer (lnet_parse_rc_info lnet_types_h lnet_ping_h 1 (0x20000 * 2 ^ 32 + 1)
        lnet_rc_dead_sample).lnet (0x20000 * 2 ^ 32 + 1)).map
        (fun p => p.lp_ping_version) = some 2 ∧
      lnet_ping_h.LNET_PROTO_PING_UNKNOWN = 0 := by
  refine ⟨by decide, ?_, rfl⟩
  rfl

theorem take_map_take_append_drop {α : Type} (f : α → α) :
    ∀ (k : Nat) (l : List α), ((l.take k).map f ++ l.drop k).take k = (l.take k).map f := by
  intro k
  induction k with
  | zero => intro l; simp
  | succ k ih =>
    intro l
    cases l with
    | nil => simp
    | cons a t =>
      simp only [List.take_succ_cons, List.map_cons, List.drop_succ_cons, List.cons_append, ih]

theorem swap_pinginfo_take (P : lnet_ping_consts) (info : lnet_ping_info) :
    (lnet_swap_pinginfo P info).pi_ni.take
        (min (lnet_swap_pinginfo P info).pi_nnis P.LNET_MAX_RTR_NIS) =
      (info.pi_ni.take (min (swab32 info.pi_nnis) P.LNET_MAX_RTR_NIS)).map
        (fun stat => { ns_nid := swab64 stat.ns_nid, ns_status := swab32 stat.ns_status }) := by
  unfold lnet_swap_pinginfo
  simp only
  exact take_map_take_append_drop _ _ _

theorem parse_rc_info_no_peer (C : lnet_consts) (P : lnet_ping_consts) (id gw : Nat)
    (w : lnet_rc_t) (hlp : lnet_find_peer w.lnet gw = none) :
    lnet_parse_rc_info C P id gw w = w := by
  unfold lnet_parse_rc_info
  simp only [hlp]

theorem rc_parse_info_bad_magic (C : lnet_consts) (P : lnet_ping_consts) (gw : Nat)
    (info : lnet_ping_info) (w : lnet_rc_t) (h : info.pi_magic ≠ P.LNET_PROTO_PING_MAGIC) :
    rc_parse_info C P gw info w = set_ping_version gw P.LNET_PROTO_PING_UNKNOWN w := by
  unfold rc_parse_info
  rw [if_pos h]

theorem with_pinginfo_rcd (id : Nat) (info : lnet_ping_info) (w : lnet_rc_t) :
    ((with_pinginfo id info w).rcds id).rcd_pinginfo = info := by
  simp [with_pinginfo, set_rcd]

/-- The entries of the two images of a payload agree once both are in host order. -/
theorem host_order_swabbed (P : lnet_ping_consts) (info : lnet_ping_info)
    (hfit : ping_info_fits info) (hM : P.LNET_PROTO_PING_MAGIC < 2 ^ 32)
    (hpal : swab32 P.LNET_PROTO_PING_MAGIC ≠ P.LNET_PROTO_PING_MAGIC) :
    ((rc_host_order P info).pi_magic ≠ P.LNET_PROTO_PING_MAGIC ∧
        (rc_host_order P (ping_info_swabbed info)).pi_magic ≠ P.LNET_PROTO_PING_MAGIC) ∨
      ((rc_host_order P info).pi_magic = (rc_host_order P (ping_info_swabbed info)).pi_magic ∧
        (rc_host_order P info).pi_version =
          (rc_host_order P (ping_info_swabbed info)).pi_version ∧
        (rc_host_order P info).pi_ni.take
            (min (rc_host_order P info).pi_nnis P.LNET_MAX_RTR_NIS) =
          (rc_host_order P (ping_info_swabbed info)).pi_ni.take
            (min (rc_host_order P (ping_info_swabbed info)).pi_nnis P.LNET_MAX_RTR_NIS)) := by
  obtain ⟨hmag, hver, _, hnnis, hni⟩ := hfit
  have hMM := swab32_swab32 _ hM
  have hmm := swab32_swab32 _ hmag
  by_cases hA : info.pi_magic = P.LNET_PROTO_PING_MAGIC
  · -- the payload is in host order, its image is swapped back
    right
    have h1 : rc_host_order P info = info := by
      unfold rc_host_order
      rw [if_neg (by rw [hA]; exact fun h => hpal h.symm)]
    have h2 : rc_host_order P (ping_info_swabbed info) =
        lnet_swap_pinginfo P (ping_info_swabbed info) := by
      unfold rc_host_order
      rw [if_pos (by simp only [ping_info_swabbed, hA])]
    rw [h1, h2, swap_pinginfo_take]
    refine ⟨?_, ?_, ?_⟩
    · simp only [lnet_swap_pinginfo, ping_info_swabbed, hmm]
    · simp only [lnet_swap_pinginfo, ping_info_swabbed, swab32_swab32 _ hver]
    · simp only [ping_info_swabbed, swab32_swab32 _ hnnis, ← List.map_take, List.map_map]
      symm
      conv => rhs; rw [← List.map_id (List.take (min info.pi_nnis P.LNET_MAX_RTR_NIS) info.pi_ni)]
      apply List.map_congr_left
      intro stat hstat
      have hs := hni stat (List.mem_of_mem_take hstat)
      simp only [Function.comp, swab64_swab64 _ hs.1, swab32_swab32 _ hs.2, id]
  · by_cases hB : info.pi_magic = swab32 P.LNET_PROTO_PING_MAGIC
    · -- the payload is swapped, its image is in host order
      right
      have h1 : rc_host_order P info = lnet_swap_pinginfo P info := by
        unfold rc_host_order
        rw [if_pos hB]
      have h2 : rc_host_order P (ping_info_swabbed info) = ping_info_swabbed info := by
        unfold rc_host_order
        rw [if_neg (by simp only [ping_info_swabbed, hB, hMM]; exact fun h => hpal h.symm)]
      rw [h1, h2, swap_pinginfo_take]
      refine ⟨rfl, rfl, ?_⟩
      simp only [ping_info_swabbed, List.map_take]
    · -- neither image carries the magic
      left
      have h1 : rc_host_order P info = info := by
        unfold rc_host_order
        rw [if_neg hB]
      have hne : swab32 info.pi_magic ≠ swab32 P.LNET_PROTO_PING_MAGIC := by
        intro h
        apply hA
        rw [← hmm, h, hMM]
      have h2 : rc_host_order P (ping_info_swabbed info) = ping_info_swabbed info := by
        unfold rc_host_order
        rw [if_neg (by simp only [ping_info_swabbed]; exact hne)]
      rw [h1, h2]
      refine ⟨hA, ?_⟩
      simp only [ping_info_swabbed]
      intro h
      apply hB
      rw [← hmm, h]

/-! ### Byte order of probe replies -/

/-- C24: byte order is transparent to probe-reply parsing.  For every ping payload whose
fields fit their types and its fully byte-swapped image, `lnet_parse_rc_info` leaves the
same `the_lnet`, so the same `lp_ping_version` of the gateway and the same `lr_downis` of
every route, whether the buffer holds the payload or the image; the magic is a 32-bit
number that is not its own byte-swapped image. -/
theorem parse_rc_info_byte_order (C : lnet_consts) (P : lnet_ping_consts) (id gw : Nat)
    (w : lnet_rc_t) (info : lnet_ping_info) (hfit : ping_info_fits info)
    (hM : P.LNET_PROTO_PING_MAGIC < 2 ^ 32)
    (hpal : swab32 P.LNET_PROTO_PING_MAGIC ≠ P.LNET_PROTO_PING_MAGIC) :
    (lnet_parse_rc_info C P id gw (with_pinginfo id info w)).lnet =
        (lnet_parse_rc_info C P id gw (with_pinginfo id (ping_info_swabbed info) w)).lnet ∧
      (lnet_find_peer (lnet_parse_rc_info C P id gw (with_pinginfo id info w)).lnet gw).map
          (fun p => p.lp_ping_version) =
        (lnet_find_peer (lnet_parse_rc_info C P id gw
          (with_pinginfo id (ping_info_swabbed info) w)).lnet gw).map
          (fun p => p.lp_ping_version) ∧
      (lnet_parse_rc_info C P id gw (with_pinginfo id info w)).lnet.ln_remote_nets =
        (lnet_parse_rc_info C P id gw
          (with_pinginfo id (ping_info_swabbed info) w)).lnet.ln_remote_nets := by
  have key : (lnet_parse_rc_info C P id gw (with_pinginfo id info w)).lnet =
      (lnet_parse_rc_info C P id gw (with_pinginfo id (ping_info_swabbed info) w)).lnet := by
    cases hfind : lnet_find_peer w.lnet gw with
    | none =>
      rw [parse_rc_info_no_peer C P id gw (with_pinginfo id info w) hfind,
        parse_rc_info_no_peer C P id gw (with_pinginfo id (ping_info_swabbed info) w) hfind]
      rfl
    | some lp =>
      by_cases halive : lp.lp_alive = true
      · rw [parse_rc_info_host_order C P id gw (with_pinginfo id info w) lp hfind halive,
          parse_rc_info_host_order C P id gw (with_pinginfo id (ping_info_swabbed info) w) lp
            hfind halive,
          with_pinginfo_rcd, with_pinginfo_rcd]
        rcases host_order_swabbed P info hfit hM hpal with ⟨h1, h2⟩ | ⟨hm, hv, hni⟩
        · rw [rc_parse_info_bad_magic C P gw _ _ h1, rc_parse_info_bad_magic C P gw _ _ h2]
          rfl
        · exact rc_parse_info_congr C P gw _ _ _ _ hm hv hni rfl rfl
      · have hdead : lp.lp_alive = false := by simpa using halive
        rw [parse_rc_info_dead C P id gw (with_pinginfo id info w) lp hfind hdead,
          parse_rc_info_dead C P id gw (with_pinginfo id (ping_info_swabbed info) w) lp hfind
            hdead]
        rfl
  exact ⟨key, by rw [key], by rw [key]⟩

/-- The reply of the sample and its byte-swapped image give the gateway of the sample
version 2 and its route to `0x20001` no interface down. -/
theorem parse_rc_info_byte_order_witness :
    (lnet_parse_rc_info lnet_types_h lnet_ping_h 1 (0x20000 * 2 ^ 32 + 1)
        (with_pinginfo 1 ping_reply_sample lnet_rc_alive_sample)).lnet =
      (lnet_parse_rc_info lnet_types_h lnet_ping_h 1 (0x20000 * 2 ^ 32 + 1)
        (with_pinginfo 1 (ping_info_swabbed ping_reply_sample) lnet_rc_alive_sample)).lnet ∧
      (ping_info_swabbed ping_reply_sample).pi_magic = 0x676E6970 :=
  ⟨(parse_rc_info_byte_order lnet_types_h lnet_ping_h 1 (0x20000 * 2 ^ 32 + 1)
    lnet_rc_alive_sample ping_reply_sample
    ⟨by decide, by decide, by decide, by decide, by decide⟩ (by decide) (by decide)).1,
    by decide⟩

/-! ### Delivering notifications -/

theorem notify_locked_inv (P : lnet_ping_consts) (notifylnd alive : Bool) (when : Nat)
    (lp : lnet_peer) (h : notify_inv lp) :
    notify_inv (lnet_notify_locked P notifylnd alive when lp) := by
  unfold lnet_notify_locked
  split
  · exact h
  · simp only
    split
    · exact h
    · split <;> exact fun _ => rfl

theorem notify_locked_notifying (P : lnet_ping_consts) (notifylnd alive : Bool) (when : Nat)
    (lp : lnet_peer) :
    (lnet_notify_locked P notifylnd alive when lp).lp_notifying = lp.lp_notifying := by
  unfold lnet_notify_locked
  split
  · rfl
  · simp only
    split
    · rfl
    · split <;> rfl

theorem apply_news_keeps (P : lnet_ping_consts) (news : List lnet_news) :
    ∀ lp : lnet_peer, (notify_inv lp → notify_inv (apply_news P news lp)) ∧
      (apply_news P news lp).lp_notifying = lp.lp_notifying ∧
      (apply_news P news lp).lp_nid = lp.lp_nid := by
  induction news with
  | nil => intro lp; exact ⟨fun h => h, rfl, rfl⟩
  | cons n rest ih =>
    intro lp
    obtain ⟨h1, h2, h3⟩ := ih (lnet_notify_locked P n.notifylnd n.alive n.when lp)
    refine ⟨fun h => h1 (notify_locked_inv P _ _ _ lp h), ?_, ?_⟩
    · exact h2.trans (notify_locked_notifying P _ _ _ lp)
    · exact h3.trans (notify_locked_nid P _ _ _ lp)

/-- With nothing pending the loop ends at its first test. -/
theorem ni_notify_loop_idle (P : lnet_ping_consts) (has_lnd_notify : Bool) (ni fuel : Nat)
    (news : List (List lnet_news)) (lp : lnet_peer) (calls : List lnd_notify_call)
    (hn : lp.lp_notify = false) :
    ni_notify_loop P has_lnd_notify ni (fuel + 1) news lp calls = some (lp, calls) := by
  unfold ni_notify_loop
  simp [hn]

/-- The loop of `lnet_ni_notify_locked` ends within one test per batch of news and two
more, with nothing pending, and every delivery carries `lp_alive` as it is when the lock
is dropped, while `lp_notifying` is set. -/
theorem ni_notify_loop_spec (P : lnet_ping_consts) (has_lnd_notify : Bool) (ni nid : Nat) :
    ∀ (fuel : Nat) (news : List (List lnet_news)) (lp : lnet_peer)
      (calls : List lnd_notify_call),
      news.length + 2 ≤ fuel → notify_inv lp → lp.lp_notifying = true → lp.lp_nid = nid →
      (∀ c ∈ calls, c.nid = nid ∧ c.alive = c.lp.lp_alive ∧ c.lp.lp_notifying = true) →
      ∃ lp1 calls1, ni_notify_loop P has_lnd_notify ni fuel news lp calls = some (lp1, calls1) ∧
        lp1.lp_notify = false ∧ lp1.lp_notifylnd = false ∧ lp1.lp_nid = nid ∧
        ∀ c ∈ calls1, c.nid = nid ∧ c.alive = c.lp.lp_alive ∧ c.lp.lp_notifying = true := by
  intro fuel
  induction fuel with
  | zero => intro news lp calls hf; omega
  | succ fuel ih =>
    intro news lp calls hf hinv hing hnid hcalls
    by_cases hn : lp.lp_notify = true
    · unfold ni_notify_loop
      simp only [hn, Bool.not_true, Bool.false_eq_true, if_false]
      have hcalls1 : ∀ c ∈ calls ++ [(⟨ni, lp.lp_nid, lp.lp_alive,
          { lp with lp_notifylnd := false, lp_notify := false }⟩ : lnd_notify_call)],
          c.nid = nid ∧ c.alive = c.lp.lp_alive ∧ c.lp.lp_notifying = true := by
        intro c hc
        rcases List.mem_append.1 hc with h | h
        · exact hcalls c h
        · rw [List.mem_singleton.1 h]
          exact ⟨hnid, rfl, hing⟩
      split
      · -- a delivery, with the lock dropped
        obtain ⟨k1, k2, k3⟩ := apply_news_keeps P (news.headD [])
          { lp with lp_notifylnd := false, lp_notify := false }
        cases news with
        | nil =>
          obtain ⟨fuel1, rfl⟩ : ∃ f, fuel = f + 1 := ⟨fuel - 1, by simp at hf; omega⟩
          refine ⟨_, _, ni_notify_loop_idle P has_lnd_notify ni fuel1 _ _ _ rfl, rfl, rfl,
            hnid, hcalls1⟩
        | cons n rest =>
          exact ih rest _ _ (by simp at hf ⊢; omega) (k1 (fun h => by simp at h))
            (k2.trans hing) (k3.trans hnid) hcalls1
      · -- nothing for the LND
        obtain ⟨fuel1, rfl⟩ : ∃ f, fuel = f + 1 := ⟨fuel - 1, by omega⟩
        exact ⟨_, _, ni_notify_loop_idle P has_lnd_notify ni fuel1 _ _ _ rfl, rfl, rfl, hnid,
          hcalls⟩
    · have hn0 : lp.lp_notify = false := by simpa using hn
      have hl0 : lp.lp_notifylnd = false := by
        cases h : lp.lp_notifylnd with
        | false => rfl
        | true => exact absurd (hinv h) hn
      exact ⟨lp, calls, ni_notify_loop_idle P has_lnd_notify ni fuel news lp calls hn0, hn0,
        hl0, hnid, hcalls⟩

/-- C22: `lnet_ni_notify_locked` never has more than one notification delivery in flight
for a peer.  When `lp_notifying` is already set it returns without a call of `lnd_notify`
and without changing the peer.  Otherwise, for a peer whose `lp_notifylnd` is set only
with `lp_notify` and with the notifications of other threads arriving in finitely many
deliveries, it returns; every delivery it has made is for this peer, was made with
`lp_notifying` set, and carries the value `lp_alive` had when the lock was dropped for
it; and on return `lp_notify`, `lp_notifylnd` and `lp_notifying` are all 0. -/
theorem ni_notify_locked_one_in_flight (P : lnet_ping_consts) (has_lnd_notify : Bool)
    (ni : Nat) (news : List (List lnet_news)) (lp : lnet_peer) :
    (lp.lp_notifying = true →
        ∀ fuel, lnet_ni_notify_locked P has_lnd_notify ni fuel news lp = some (lp, [])) ∧
      (lp.lp_notifying = false → notify_inv lp → ∀ fuel, news.length + 2 ≤ fuel →
        ∃ lp1 calls,
          lnet_ni_notify_locked P has_lnd_notify ni fuel news lp = some (lp1, calls) ∧
          lp1.lp_notify = false ∧ lp1.lp_notifylnd = false ∧ lp1.lp_notifying = false ∧
          ∀ c ∈ calls, c.nid = lp.lp_nid ∧ c.alive = c.lp.lp_alive ∧
            c.lp.lp_notifying = true) := by
  constructor
  · intro h fuel
    unfold lnet_ni_notify_locked
    rw [if_pos h]
  · intro h hinv fuel hf
    obtain ⟨lp1, calls, hloop, h1, h2, _, h4⟩ :=
      ni_notify_loop_spec P has_lnd_notify ni lp.lp_nid fuel news
        { lp with lp_notifying := true } [] hf hinv rfl rfl (fun c hc => by simp at hc)
    refine ⟨{ lp1 with lp_notifying := false }, calls, ?_, h1, h2, rfl, h4⟩
    unfold lnet_ni_notify_locked
    simp only [h, Bool.false_eq_true, if_false, hloop]

/-- The news that the gateway of the sample is down is being delivered when the news
that it is alive arrives: a second delivery follows, with the new state, and nothing is
left pending; a call made while `lp_notifying` is set does nothing. -/
theorem ni_notify_locked_one_in_flight_witness :
    lnet_ni_notify_locked lnet_ping_h true 7 3 [[⟨true, true, 130⟩]]
        { lp_news_sample with lp_notifying := true } =
        some ({ lp_news_sample with lp_notifying := true }, []) ∧
      (∃ lp1 calls,
        lnet_ni_notify_locked lnet_ping_h true 7 3 [[⟨true, true, 130⟩]] lp_news_sample =
          some (lp1, calls) ∧
        lp1.lp_notify = false ∧ lp1.lp_notifylnd = false ∧ lp1.lp_notifying = false ∧
        ∀ c ∈ calls, c.nid = lp_news_sample.lp_nid ∧ c.alive = c.lp.lp_alive ∧
          c.lp.lp_notifying = true) ∧
      (lnet_ni_notify_locked lnet_ping_h true 7 3 [[⟨true, true, 130⟩]] lp_news_sample).map
        (fun r => r.2.map (fun c => c.alive)) = some [false, true] :=
  ⟨(ni_notify_locked_one_in_flight lnet_ping_h true 7 [[⟨true, true, 130⟩]]
      { lp_news_sample with lp_notifying := true }).1 rfl 3,
    (ni_notify_locked_one_in_flight lnet_ping_h true 7 [[⟨true, true, 130⟩]]
      lp_news_sample).2 rfl (fun _ => rfl) 3 (by decide),
    by decide⟩

/-! ### Probing a router -/

theorem find_update_peer_at {f : lnet_peer → lnet_peer} (nid : Nat)
    (hf : ∀ p, p.lp_nid = nid → (f p).lp_nid = nid) (s : lnet_t) :
    lnet_find_peer (update_peer f nid s) nid = (lnet_find_peer s nid).map f := by
  unfold lnet_find_peer update_peer
  simp only
  induction s.ln_peers with
  | nil => rfl
  | cons p rest ih =>
    by_cases hn : p.lp_nid = nid
    · simp [List.find?, hn, hf p hn]
    · have h1 : (p.lp_nid == nid) = false := by simp [hn]
      simp only [List.map_cons, if_neg hn, List.find?, h1]
      exact ih

theorem find_addref (nid : Nat) (s : lnet_t) :
    lnet_find_peer (lnet_peer_addref_locked nid s) nid =
      (lnet_find_peer s nid).map (fun p => { p with lp_refcount := p.lp_refcount + 1 }) :=
  find_update_peer (f := fun p => { p with lp_refcount := p.lp_refcount + 1 })
    (fun _ => rfl) nid s

theorem find_decref_list (nid : Nat) (p : lnet_peer) (hlast : p.lp_refcount ≠ 1) :
    ∀ l : List lnet_peer, l.find? (fun q => q.lp_nid == nid) = some p →
      ((l.map (fun q => if q.lp_nid = nid then { q with lp_refcount := q.lp_refcount - 1 }
          else q)).filter (fun q => !(q.lp_nid == nid && q.lp_refcount == 0))).find?
        (fun q => q.lp_nid == nid) = some { p with lp_refcount := p.lp_refcount - 1 } := by
  intro l
  induction l with
  | nil => intro hfind; simp at hfind
  | cons q rest ih =>
    intro hfind
    by_cases hn : q.lp_nid = nid
    · have hq : q = p := by simpa [List.find?, hn] using hfind
      subst hq
      have h0 : ¬ (q.lp_refcount - 1 = 0) := by omega
      have h1 : (q.lp_refcount - 1 == 0) = false := by simpa using h0
      simp [List.filter, List.find?, hn, h1]
    · have h1 : (q.lp_nid == nid) = false := by simp [hn]
      have hrest : List.find? (fun p => p.lp_nid == nid) rest = some p := by
        simpa [List.find?, h1] using hfind
      simp only [List.map_cons, if_neg hn, List.filter, h1, Bool.false_and, Bool.not_false,
        List.find?]
      exact ih hrest

/-- Dropping a reference that is not the last one keeps the peer. -/
theorem find_decref (nid : Nat) (s : lnet_t) (p : lnet_peer)
    (hfind : lnet_find_peer s nid = some p) (hlast : p.lp_refcount ≠ 1) :
    lnet_find_peer (lnet_peer_decref_locked nid s) nid =
      some { p with lp_refcount := p.lp_refcount - 1 } :=
  find_decref_list nid p hlast s.ln_peers hfind

/-- Without news from other threads the loop of `lnet_ni_notify_locked` ends within two
tests and touches the two notification flags only. -/
theorem ni_notify_loop_quiet (P : lnet_ping_consts) (has_lnd_notify : Bool) (ni fuel : Nat)
    (lp : lnet_peer) (calls : List lnd_notify_call) (hf : 2 ≤ fuel) :
    ∃ b calls1, ni_notify_loop P has_lnd_notify ni fuel [] lp calls =
      some ({ lp with lp_notifylnd := b, lp_notify := false }, calls1) := by
  obtain ⟨fuel1, rfl⟩ : ∃ f, fuel = f + 2 := ⟨fuel - 2, by omega⟩
  by_cases hn : lp.lp_notify = true
  · unfold ni_notify_loop
    simp only [hn, Bool.not_true, Bool.false_eq_true, if_false]
    split
    · exact ⟨false, _, ni_notify_loop_idle P has_lnd_notify ni fuel1 _ _ _ rfl⟩
    · exact ⟨false, _, ni_notify_loop_idle P has_lnd_notify ni fuel1 _ _ _ rfl⟩
  · have hn0 : lp.lp_notify = false := by simpa using hn
    refine ⟨lp.lp_notifylnd, calls, ?_⟩
    rw [ni_notify_loop_idle P has_lnd_notify ni (fuel1 + 1) [] lp calls hn0]
    cases lp
    simp_all

theorem ni_notify_locked_quiet (P : lnet_ping_consts) (has_lnd_notify : Bool) (ni fuel : Nat)
    (lp : lnet_peer) (hf : 2 ≤ fuel) :
    ∃ b n calls, lnet_ni_notify_locked P has_lnd_notify ni fuel [] lp =
      some ({ lp with lp_notifylnd := b, lp_notify := n }, calls) := by
  unfold lnet_ni_notify_locked
  by_cases hing : lp.lp_notifying = true
  · rw [if_pos hing]
    exact ⟨lp.lp_notifylnd, lp.lp_notify, [], rfl⟩
  · have hing0 : lp.lp_notifying = false := by simpa using hing
    rw [if_neg hing]
    obtain ⟨b, calls1, hloop⟩ := ni_notify_loop_quiet P has_lnd_notify ni fuel
      { lp with lp_notifying := true } [] hf
    rw [hloop]
    refine ⟨b, false, calls1, ?_⟩
    cases lp
    simp_all

/-- The end of `lnet_ping_router_locked` drops one reference of the router and leaves its
alive state alone. -/
theorem ping_router_send_spec (T : rc_tunables) (e : ping_env) (now rtr id : Nat)
    (w : lnet_rc_t) (calls : List lnd_notify_call) (lp : lnet_peer)
    (hfind : lnet_find_peer w.lnet rtr = some lp) (href : lp.lp_refcount ≠ 1) :
    ∃ r lp1, ping_router_send T e now rtr id w calls = .returned r ∧
      lnet_find_peer r.w.lnet rtr = some lp1 ∧ lp1.lp_alive = lp.lp_alive ∧
      lp1.lp_alive_count = lp.lp_alive_count ∧ lp1.lp_refcount = lp.lp_refcount - 1 := by
  unfold ping_router_send
  simp only [hfind]
  split
  · have h1 := find_update_peer (f := fun p =>
        { p with lp_ping_notsent := true, lp_ping_timestamp := now,
                 lp_ping_deadline := if p.lp_ping_deadline = 0 then
                   cfs_time_add_seconds T e.shift_now T.router_ping_timeout
                   else p.lp_ping_deadline }) (fun _ => rfl) rtr w.lnet
    rw [hfind] at h1
    by_cases hget : e.get_rc ≠ 0
    · simp only [if_pos hget]
      have h2 := find_update_peer (f := fun p => { p with lp_ping_notsent := false })
        (fun _ => rfl) rtr (update_peer (fun p =>
          { p with lp_ping_notsent := true, lp_ping_timestamp := now,
                   lp_ping_deadline := if p.lp_ping_deadline = 0 then
                     cfs_time_add_seconds T e.shift_now T.router_ping_timeout
                     else p.lp_ping_deadline }) rtr w.lnet)
      rw [h1] at h2
      exact ⟨_, _, rfl, find_decref rtr _ _ h2 href, rfl, rfl, rfl⟩
    · simp only [if_neg hget]
      exact ⟨_, _, rfl, find_decref rtr _ _ h1 href, rfl, rfl, rfl⟩
  · exact ⟨_, _, rfl, find_decref rtr _ _ hfind href, rfl, rfl, rfl⟩

/-- The label `out` of `lnet_create_rc_data_locked` for an object without MD and without
gateway: the object is freed and `the_lnet` is as before. -/
theorem create_rc_data_out_unbound (e : ping_env) (id gateway : Nat) (w : lnet_rc_t)
    (lp : lnet_peer) (hfind : lnet_find_peer w.lnet gateway = some lp)
    (hmdh : (w.rcds id).rcd_mdh = none) (hgw : (w.rcds id).rcd_gateway = none)
    (hfresh : id ∉ w.lnet.ln_rcd_deathrow ∧ id ∉ w.ln_rcd_zombie) :
    ∃ w1, create_rc_data_out e id gateway w = some (w1, lp.lp_rcd) ∧ w1.lnet = w.lnet := by
  unfold create_rc_data_out lnet_destroy_rc_data
  simp only [hmdh, ne_eq, not_true_eq_false, if_false, hfresh.1, hfresh.2, or_self, hgw, hfind]
  exact ⟨_, rfl, rfl⟩

/-- `lnet_create_rc_data_locked` for a router without router-check-data, when the event
queue is valid, `LNetMDBind` does not return a positive code and the memory allocated is
not on a list: it returns NULL with `the_lnet` unchanged, or the new object, with one
more reference on the router. -/
theorem create_rc_data_spec (C : lnet_consts) (P : lnet_ping_consts) (e : ping_env)
    (gateway : Nat) (w : lnet_rc_t) (lp : lnet_peer)
    (hfind : lnet_find_peer w.lnet gateway = some lp) (hrouter : lnet_isrouter lp = true)
    (hrcd : lp.lp_rcd = none)
    (hfresh : ∀ id, e.rcd_alloc = some id → id ∉ w.lnet.ln_rcd_deathrow ∧ id ∉ w.ln_rcd_zombie)
    (heq : e.rc_eqh_valid = true) (hbind : e.md_bind ≤ 0) :
    ∃ w1 r, lnet_create_rc_data_locked C P e gateway w = some (w1, r) ∧
      ((r = none ∧ w1.lnet = w.lnet) ∨
        (∃ id, r = some id ∧ lnet_find_peer w1.lnet gateway =
          some { lp with lp_refcount := lp.lp_refcount + 1, lp_rcd := some id,
                         lp_ping_notsent := false })) := by
  unfold lnet_create_rc_data_locked
  cases halloc : e.rcd_alloc with
  | none =>
    simp only [hfind]
    exact ⟨w, lp.lp_rcd, rfl, Or.inl ⟨hrcd, rfl⟩⟩
  | some id =>
    have hf := hfresh id halloc
    simp only
    by_cases hpi : e.pi_alloc_ok = true
    · simp only [hpi, Bool.not_true, Bool.false_eq_true, if_false, heq]
      by_cases hb : e.md_bind < 0
      · rw [if_pos hb]
        obtain ⟨w1, h1, h2⟩ := create_rc_data_out_unbound e id gateway
          { w with rcds := set_rcd id ⟨none, none, rcd_pinginfo_init C P⟩ w.rcds } lp hfind
          (by simp [set_rcd]) (by simp [set_rcd]) hf
        exact ⟨w1, lp.lp_rcd, h1, Or.inl ⟨hrcd, h2⟩⟩
      · have hb0 : e.md_bind = 0 := by omega
        rw [if_neg hb, if_neg (by simp [hb0])]
        simp only [hfind, hrouter, hrcd, Bool.not_true, bne_self_eq_false, Bool.or_self,
          Bool.false_eq_true, if_false]
        refine ⟨_, _, rfl, Or.inr ⟨id, rfl, ?_⟩⟩
        have h1 := find_update_peer
          (f := fun p => { p with lp_rcd := some id, lp_ping_notsent := false })
          (fun _ => rfl) gateway (lnet_peer_addref_locked gateway w.lnet)
        rw [find_addref, hfind] at h1
        exact h1
    · have hpi0 : e.pi_alloc_ok = false := by simpa using hpi
      simp only [hpi0, Bool.not_false, if_true]
      obtain ⟨w1, h1, h2⟩ := create_rc_data_out_unbound e id gateway
        { w with rcds := set_rcd id ⟨none, none, ping_info_sample⟩ w.rcds } lp hfind
        (by simp [set_rcd]) (by simp [set_rcd]) hf
      exact ⟨w1, lp.lp_rcd, h1, Or.inl ⟨hrcd, h2⟩⟩

/-- The news that a peer is down, when it is not out of date: the peer is down
afterwards, and the news is counted if the peer was alive. -/
theorem notify_locked_down (P : lnet_ping_consts) (notifylnd : Bool) (when : Nat)
    (lp : lnet_peer) (htime : cfs_time_before when lp.lp_timestamp = false) :
    (lnet_notify_locked P notifylnd false when lp).lp_alive = false ∧
      (lp.lp_alive = true →
        (lnet_notify_locked P notifylnd false when lp).lp_alive_count =
          lp.lp_alive_count + 1) ∧
      (lnet_notify_locked P notifylnd false when lp).lp_refcount = lp.lp_refcount ∧
      (lnet_notify_locked P notifylnd false when lp).lp_nid = lp.lp_nid := by
  unfold lnet_notify_locked
  rw [if_neg (by simp [htime])]
  simp only
  by_cases hold : lp.lp_alive_count ≠ 0 ∧ (!lp.lp_alive) = (!false)
  · rw [if_pos hold]
    refine ⟨by simpa using hold.2, ?_, rfl, rfl⟩
    intro h
    rw [h] at hold
    simp at hold
  · rw [if_neg hold]
    split <;> exact ⟨rfl, fun _ => rfl, rfl, rfl⟩

/-- C30: `lnet_ping_router_locked` called on a gateway whose ping deadline is not zero and
already past, and whose `lp_timestamp` is not later than `now`, marks the gateway down.
With no notification of another thread arriving during the call, and with the
assertions of `lnet_create_rc_data_locked` on its environment holding (the event queue is
valid, `LNetMDBind` returns no positive code, the memory allocated is not on a list), the
call returns; on return `lp_alive` is 0, and if the gateway was alive before the call its
`lp_alive_count` has increased by exactly 1. -/
theorem ping_router_deadline_down (C : lnet_consts) (P : lnet_ping_consts) (T : rc_tunables)
    (e : ping_env) (fuel now rtr : Nat) (w : lnet_rc_t) (lp : lnet_peer)
    (hlp : lnet_find_peer w.lnet rtr = some lp) (href : 0 < lp.lp_refcount)
    (hdeadline : lp.lp_ping_deadline ≠ 0)
    (hpast : cfs_time_after now lp.lp_ping_deadline = true)
    (htime : cfs_time_before now lp.lp_timestamp = false)
    (hnews : e.news = []) (hfuel : 2 ≤ fuel)
    (hfresh : ∀ id, e.rcd_alloc = some id → id ∉ w.lnet.ln_rcd_deathrow ∧ id ∉ w.ln_rcd_zombie)
    (heq : e.rc_eqh_valid = true) (hbind : e.md_bind ≤ 0) :
    ∃ r lp1, lnet_ping_router_locked C P T e fuel now rtr w = .returned r ∧
      lnet_find_peer r.w.lnet rtr = some lp1 ∧ lp1.lp_alive = false ∧
      (lp.lp_alive = true → lp1.lp_alive_count = lp.lp_alive_count + 1) := by
  have hnid : lp.lp_nid = rtr := by
    have := List.find?_some hlp
    simpa using this
  have hq : ∃ lp3 calls, lnet_ni_notify_locked P e.has_lnd_notify
      (lnet_notify_locked P true false now { lp with lp_refcount := lp.lp_refcount + 1 }).lp_ni
      fuel [] (lnet_notify_locked P true false now
        { lp with lp_refcount := lp.lp_refcount + 1 }) = some (lp3, calls) ∧
      lp3.lp_alive = false ∧ (lp.lp_alive = true → lp3.lp_alive_count = lp.lp_alive_count + 1) ∧
      lp3.lp_refcount = lp.lp_refcount + 1 ∧ lp3.lp_nid = rtr := by
    obtain ⟨d1, d2, d3, d4⟩ := notify_locked_down P true now
      { lp with lp_refcount := lp.lp_refcount + 1 } htime
    obtain ⟨b, n, calls, hq⟩ := ni_notify_locked_quiet P e.has_lnd_notify
      (lnet_notify_locked P true false now { lp with lp_refcount := lp.lp_refcount + 1 }).lp_ni
      fuel (lnet_notify_locked P true false now { lp with lp_refcount := lp.lp_refcount + 1 })
      hfuel
    exact ⟨_, calls, hq, d1, d2, d3, d4.trans hnid⟩
  obtain ⟨lp3, calls, hq, d1, d2, d3, d4⟩ := hq
  have hfind3 : lnet_find_peer
      (update_peer (fun _ => lp3) rtr (lnet_peer_addref_locked rtr w.lnet)) rtr = some lp3 := by
    rw [find_update_peer_at (f := fun _ => lp3) rtr (fun _ _ => d4), find_addref, hlp]
    rfl
  unfold lnet_ping_router_locked
  simp only [find_addref, hlp, Option.map_some', hdeadline, ne_eq, not_false_eq_true, hpast,
    and_self, if_true, hnews, hq]
  have hrow : (update_peer (fun _ => lp3) rtr
      (lnet_peer_addref_locked rtr w.lnet)).ln_rcd_deathrow = w.lnet.ln_rcd_deathrow := rfl
  generalize update_peer (fun _ => lp3) rtr (lnet_peer_addref_locked rtr w.lnet) = s3
    at hfind3 hrow ⊢
  split
  · -- no router any more, or the checker is stopping
    exact ⟨_, _, rfl, find_decref rtr _ _ hfind3 (by omega), d1, d2⟩
  · cases hrcd : lp3.lp_rcd with
    | some id =>
      simp only []
      obtain ⟨r, lp1, h1, h2, h3, h4, _⟩ := ping_router_send_spec T e now rtr id
        { w with lnet := s3 } calls _ hfind3 (by omega)
      exact ⟨r, lp1, h1, h2, h3.trans d1, fun h => h4.trans (d2 h)⟩
    | none =>
      simp only []
      rename_i hcond
      have hrouter : lnet_isrouter lp3 = true := by
        cases hr : lnet_isrouter lp3 with
        | true => rfl
        | false => simp [hr] at hcond
      obtain ⟨w1, r, hc, hres⟩ := create_rc_data_spec C P e rtr { w with lnet := s3 } _ hfind3
        hrouter hrcd (fun id h => by rw [hrow]; exact hfresh id h) heq hbind
      rw [hc]
      rcases hres with ⟨hr, hl⟩ | ⟨id, hr, hl⟩
      · subst hr
        simp only []
        refine ⟨_, _, rfl, ?_, d1, d2⟩
        simp only []
        rw [hl]
        exact hfind3
      · subst hr
        simp only []
        obtain ⟨r, lp1, h1, h2, h3, h4, _⟩ := ping_router_send_spec T e now rtr id w1 calls _ hl
          (by simp only []; omega)
        exact ⟨r, lp1, h1, h2, h3.trans d1, fun h => h4.trans (d2 h)⟩

/-- The alive gateway of the sample, whose probe of time 100 had the deadline 150, is
probed again at time 200: it is down afterwards and the news is counted. -/
theorem ping_router_deadline_down_witness :
    ∃ r lp1, lnet_ping_router_locked lnet_types_h lnet_ping_h rc_tunables_sample
        ping_env_sample 2 200 (0x20000 * 2 ^ 32 + 1) lnet_rc_alive_sample = .returned r ∧
      lnet_find_peer r.w.lnet (0x20000 * 2 ^ 32 + 1) = some lp1 ∧ lp1.lp_alive = false ∧
      lp1.lp_alive_count = 2 :=
  have h := ping_router_deadline_down lnet_types_h lnet_ping_h rc_tunables_sample
    ping_env_sample 2 200 (0x20000 * 2 ^ 32 + 1) lnet_rc_alive_sample
    { gw_peer_sample with lp_alive := true, lp_alive_count := 1, lp_ping_version := 2 }
    (by decide) (by decide) (by decide) (by decide) (by decide) rfl (by decide)
    (fun _ _ => ⟨List.not_mem_nil _, List.not_mem_nil _⟩) rfl (by decide)
  match h with
  | ⟨r, lp1, h1, h2, h3, h4⟩ => ⟨r, lp1, h1, h2, h3, h4 rfl⟩

/-! ### Router buffer pools -/

/-- The counters of a pool agree with its free list and nothing waits for a buffer. -/
theorem rtrpool_free_loop_count (credits : Int) :
    ∀ (bufs : List Nat) (n : Int), (bufs ≠ [] → 0 < credits) →
      rtrpool_free_loop credits bufs n = some (n + bufs.length) := by
  intro bufs
  induction bufs with
  | nil => intro n _; simp [rtrpool_free_loop]
  | cons b rest ih =>
    intro n h
    have hc : 0 < credits := h (by simp)
    unfold rtrpool_free_loop
    rw [if_neg (by omega), ih (n + 1) (fun _ => hc)]
    simp only [List.length_cons, Nat.cast_add, Nat.cast_one]
    congr 1
    omega

/-- A pool whose counters agree with its free list is emptied by `lnet_rtrpool_free_bufs`. -/
theorem rtrpool_free_bufs_full (n : Int) (rbp : lnet_rtrbufpool) (h : rtrpool_full n rbp) :
    ∃ rbp1, lnet_rtrpool_free_bufs rbp = some rbp1 ∧ rtrpool_empty rbp1 := by
  obtain ⟨h1, h2, h3, h4⟩ := h
  have hloop := rtrpool_free_loop_count rbp.rbp_credits rbp.rbp_bufs 0 (by
    intro hne
    have : 0 < rbp.rbp_bufs.length := List.length_pos.2 hne
    omega)
  unfold lnet_rtrpool_free_bufs
  rw [if_neg (by simp [h4]), if_neg (by simp [h2]), hloop]
  simp only
  rw [if_neg (by simp only [ne_eq, not_not]; omega), if_neg (by simp only [ne_eq, not_not]; omega)]
  exact ⟨_, rfl, rfl, h4, rfl, rfl⟩

theorem rtrpool_empty_full (rbp : lnet_rtrbufpool) (h : rtrpool_empty rbp) :
    rtrpool_full 0 rbp := by
  obtain ⟨h1, h2, h3, h4⟩ := h
  exact ⟨h3, h4.trans h3.symm, by simp [h1], h2⟩

/-- The loop of `lnet_rtrpool_alloc_bufs` while routing is off: it ends with the `n`
buffers added, or with `-ENOMEM` and the buffers got so far; it ends with 0 when no
allocation fails. -/
theorem rtrpool_alloc_loop_spec (alloc : Nat → Option Nat) :
    ∀ (n i : Nat) (k : Int) (rbp : lnet_rtrbufpool), rtrpool_full k rbp →
      ∃ rbp1 rc, rtrpool_alloc_loop false alloc n i rbp = some (rbp1, rc) ∧
        ((rc = 0 ∧ rtrpool_full (k + n) rbp1) ∨ (rc = -ENOMEM ∧ ∃ j, rtrpool_full j rbp1)) ∧
        ((∀ j, (alloc j).isSome = true) → rc = 0) := by
  intro n
  induction n with
  | zero =>
    intro i k rbp h
    exact ⟨rbp, 0, rfl, Or.inl ⟨rfl, by simpa using h⟩, fun _ => rfl⟩
  | succ n ih =>
    intro i k rbp h
    unfold rtrpool_alloc_loop
    cases ha : alloc i with
    | none =>
      refine ⟨rbp, -ENOMEM, rfl, Or.inr ⟨rfl, k, h⟩, ?_⟩
      intro hall
      have := hall i
      simp [ha] at this
    | some rb =>
      simp only [Bool.false_eq_true, if_false]
      obtain ⟨h1, h2, h3, h4⟩ := h
      have hfull : rtrpool_full (k + 1)
          { rbp with rbp_nbuffers := rbp.rbp_nbuffers + 1, rbp_credits := rbp.rbp_credits + 1,
                     rbp_mincredits := rbp.rbp_mincredits + 1,
                     rbp_bufs := rb :: rbp.rbp_bufs } := by
        refine ⟨by simp only []; omega, by simp only []; omega, ?_, h4⟩
        simp only [List.length_cons, Nat.cast_add, Nat.cast_one]
        omega
      obtain ⟨rbp1, rc, hl, hres, hall⟩ := ih (i + 1) (k + 1) _ hfull
      refine ⟨rbp1, rc, hl, ?_, hall⟩
      rcases hres with ⟨hrc, hf⟩ | hr
      · left
        refine ⟨hrc, ?_⟩
        have e : k + 1 + (n : Int) = k + ((n + 1 : Nat) : Int) := by push_cast; omega
        rw [← e]
        exact hf
      · exact Or.inr hr

/-- `lnet_rtrpool_alloc_bufs` on a pool without buffers, for a positive number of
buffers, while routing is off. -/
theorem rtrpool_alloc_bufs_spec (alloc : Nat → Option Nat) (nbufs : Int) (hpos : 0 < nbufs)
    (rbp : lnet_rtrbufpool) (h : rtrpool_empty rbp) :
    ∃ rbp1 rc, lnet_rtrpool_alloc_bufs false alloc nbufs rbp = some (rbp1, rc) ∧
      ((rc = 0 ∧ rtrpool_full nbufs rbp1) ∨ (rc = -ENOMEM ∧ ∃ j, rtrpool_full j rbp1)) ∧
      ((∀ j, (alloc j).isSome = true) → rc = 0) := by
  obtain ⟨rbp1, rc, hl, hres, hall⟩ :=
    rtrpool_alloc_loop_spec alloc nbufs.toNat 0 0 rbp (rtrpool_empty_full rbp h)
  have hn : (0 : Int) + (nbufs.toNat : Int) = nbufs := by
    rw [Int.toNat_of_nonneg (by omega)]
    omega
  rw [hn] at hres
  unfold lnet_rtrpool_alloc_bufs
  rw [if_neg (by simp [h.2.2.1]), hl]
  simp only
  rcases hres with ⟨hrc, hf⟩ | ⟨hrc, hf⟩
  · subst hrc
    rw [if_neg (by simp), if_pos (hf.2.1.trans hf.1)]
    exact ⟨rbp1, 0, rfl, Or.inl ⟨rfl, hf⟩, fun _ => rfl⟩
  · rw [if_pos (by rw [hrc]; decide)]
    exact ⟨rbp1, rc, rfl, Or.inr ⟨hrc, hf⟩, hall⟩

/-- The label `failed` of `lnet_alloc_rtrpools` empties pools whose counters agree with
their free lists. -/
theorem alloc_rtrpools_failed_spec (rc : Int) (w : lnet_rtr_t) (n0 n1 n2 : Int)
    (h0 : rtrpool_full n0 w.ln_rtrpools_0) (h1 : rtrpool_full n1 w.ln_rtrpools_1)
    (h2 : rtrpool_full n2 w.ln_rtrpools_2) :
    ∃ w1, alloc_rtrpools_failed rc w = some (w1, rc) ∧ w1.ln_routing = w.ln_routing ∧
      rtrpool_empty w1.ln_rtrpools_0 ∧ rtrpool_empty w1.ln_rtrpools_1 ∧
      rtrpool_empty w1.ln_rtrpools_2 := by
  obtain ⟨p0, e0, f0⟩ := rtrpool_free_bufs_full n0 _ h0
  obtain ⟨p1, e1, f1⟩ := rtrpool_free_bufs_full n1 _ h1
  obtain ⟨p2, e2, f2⟩ := rtrpool_free_bufs_full n2 _ h2
  unfold alloc_rtrpools_failed lnet_free_rtrpools
  simp only [e0, e1, e2]
  exact ⟨_, rfl, rfl, f0, f1, f2⟩

theorem forwarding_check_enabled (T : rtr_tunables) (im_a_router : Bool)
    (h : forwarding_enabled T im_a_router) : forwarding_check T im_a_router = none := by
  unfold forwarding_check
  rcases h with ⟨h1, h2⟩ | h1
  · simp [h1, h2]
  · simp [h1]

/-- `lnet_alloc_rtrpools` when forwarding is to be enabled, on pools without buffers and
with routing off: either all three pools are filled and routing is on, or the pools are
empty again, routing is off and the code is `-EINVAL`, for a count that is not positive,
or `-ENOMEM`, for an allocation that failed. -/
theorem alloc_rtrpools_cases (T : rtr_tunables) (alloc : Nat → Nat → Option Nat)
    (im_a_router : Bool) (w : lnet_rtr_t) (hfw : forwarding_check T im_a_router = none)
    (hoff : w.ln_routing = false) (h0 : rtrpool_empty w.ln_rtrpools_0)
    (h1 : rtrpool_empty w.ln_rtrpools_1) (h2 : rtrpool_empty w.ln_rtrpools_2) :
    ∃ w1 rc, lnet_alloc_rtrpools T alloc im_a_router w = some (w1, rc) ∧
      ((rc = 0 ∧ w1.ln_routing = true ∧ 0 < T.tiny_router_buffers ∧
          0 < T.small_router_buffers ∧ 0 < T.large_router_buffers ∧
          rtrpool_full T.tiny_router_buffers w1.ln_rtrpools_0 ∧
          rtrpool_full T.small_router_buffers w1.ln_rtrpools_1 ∧
          rtrpool_full T.large_router_buffers w1.ln_rtrpools_2) ∨
        (w1.ln_routing = false ∧ rtrpool_empty w1.ln_rtrpools_0 ∧
          rtrpool_empty w1.ln_rtrpools_1 ∧ rtrpool_empty w1.ln_rtrpools_2 ∧
          ((rc = -EINVAL ∧ (T.tiny_router_buffers ≤ 0 ∨ T.small_router_buffers ≤ 0 ∨
              T.large_router_buffers ≤ 0)) ∨
            (rc = -ENOMEM ∧ ¬ ∀ k j, (alloc k j).isSome = true)))) := by
  have e0 := rtrpool_empty_full _ h0
  have e1 := rtrpool_empty_full _ h1
  have e2 := rtrpool_empty_full _ h2
  unfold lnet_alloc_rtrpools
  simp only [hfw, hoff]
  by_cases ht : T.tiny_router_buffers ≤ 0
  · rw [if_pos ht]
    obtain ⟨w1, hf, hr, f0, f1, f2⟩ := alloc_rtrpools_failed_spec (-EINVAL) w 0 0 0 e0 e1 e2
    exact ⟨w1, _, hf, Or.inr ⟨hr.trans hoff, f0, f1, f2, Or.inl ⟨rfl, Or.inl ht⟩⟩⟩
  · rw [if_neg ht]
    obtain ⟨p0, rc0, ha0, hres0, hall0⟩ :=
      rtrpool_alloc_bufs_spec (alloc 0) T.tiny_router_buffers (by omega) _ h0
    simp only [ha0]
    rcases hres0 with ⟨hrc0, hp0⟩ | ⟨hrc0, j0, hp0⟩
    swap
    · rw [if_pos (by rw [hrc0]; decide)]
      obtain ⟨w1, hf, hr, f0, f1, f2⟩ := alloc_rtrpools_failed_spec rc0
        ⟨false, p0, w.ln_rtrpools_1, w.ln_rtrpools_2⟩ j0 0 0 hp0 e1 e2
      refine ⟨w1, _, hf, Or.inr ⟨hr, f0, f1, f2, Or.inr ⟨hrc0, ?_⟩⟩⟩
      intro hall
      have := hall0 (hall 0)
      rw [hrc0] at this
      exact absurd this (by decide)
    rw [if_neg (by simp [hrc0])]
    by_cases hs : T.small_router_buffers ≤ 0
    · rw [if_pos hs]
      obtain ⟨w1, hf, hr, f0, f1, f2⟩ := alloc_rtrpools_failed_spec (-EINVAL)
        ⟨false, p0, w.ln_rtrpools_1, w.ln_rtrpools_2⟩ _ 0 0 hp0 e1 e2
      exact ⟨w1, _, hf, Or.inr ⟨hr, f0, f1, f2, Or.inl ⟨rfl, Or.inr (Or.inl hs)⟩⟩⟩
    · rw [if_neg hs]
      obtain ⟨p1, rc1, ha1, hres1, hall1⟩ :=
        rtrpool_alloc_bufs_spec (alloc 1) T.small_router_buffers (by omega) _ h1
      simp only [ha1]
      rcases hres1 with ⟨hrc1, hp1⟩ | ⟨hrc1, j1, hp1⟩
      swap
      · rw [if_pos (by rw [hrc1]; decide)]
        obtain ⟨w1, hf, hr, f0, f1, f2⟩ := alloc_rtrpools_failed_spec rc1
          ⟨false, p0, p1, w.ln_rtrpools_2⟩ _ j1 0 hp0 hp1 e2
        refine ⟨w1, _, hf, Or.inr ⟨hr, f0, f1, f2, Or.inr ⟨hrc1, ?_⟩⟩⟩
        intro hall
        have := hall1 (hall 1)
        rw [hrc1] at this
        exact absurd this (by decide)
      rw [if_neg (by simp [hrc1])]
      by_cases hl : T.large_router_buffers ≤ 0
      · rw [if_pos hl]
        obtain ⟨w1, hf, hr, f0, f1, f2⟩ := alloc_rtrpools_failed_spec (-EINVAL)
          ⟨false, p0, p1, w.ln_rtrpools_2⟩ _ _ 0 hp0 hp1 e2
        exact ⟨w1, _, hf,
          Or.inr ⟨hr, f0, f1, f2, Or.inl ⟨rfl, Or.inr (Or.inr hl)⟩⟩⟩
      · rw [if_neg hl]
        obtain ⟨p2, rc2, ha2, hres2, hall2⟩ :=
          rtrpool_alloc_bufs_spec (alloc 2) T.large_router_buffers (by omega) _ h2
        simp only [ha2]
        rcases hres2 with ⟨hrc2, hp2⟩ | ⟨hrc2, j2, hp2⟩
        swap
        · rw [if_pos (by rw [hrc2]; decide)]
          obtain ⟨w1, hf, hr, f0, f1, f2⟩ := alloc_rtrpools_failed_spec rc2
            ⟨false, p0, p1, p2⟩ _ _ j2
            hp0 hp1 hp2
          refine ⟨w1, _, hf, Or.inr ⟨hr, f0, f1, f2, Or.inr ⟨hrc2, ?_⟩⟩⟩
          intro hall
          have := hall2 (hall 2)
          rw [hrc2] at this
          exact absurd this (by decide)
        rw [if_neg (by simp [hrc2])]
        exact ⟨_, 0, rfl, Or.inl ⟨rfl, rfl, by omega, by omega, by omega, hp0, hp1, hp2⟩⟩

/-- C25: `lnet_alloc_rtrpools`, called with routing off on pools that hold no buffers,
returns, and `the_lnet.ln_routing` is 1 afterwards only if it returns 0 and each of the
three pools holds exactly its configured number of buffers with
`rbp_credits == rbp_nbuffers`.  If forwarding is to be enabled and any of
`tiny_router_buffers`, `small_router_buffers` or `large_router_buffers` is `<= 0` it
fails, leaves `ln_routing` at 0 and leaves every pool with zero buffers and zero credits;
the code is `-EINVAL` unless the allocation of a buffer for a pool before the one with
the bad count has failed, which gives `-ENOMEM`.  With positive counts and no allocation
failing, forwarding to be enabled gives 0 and `ln_routing` 1. -/
theorem alloc_rtrpools_sized (T : rtr_tunables) (alloc : Nat → Nat → Option Nat)
    (im_a_router : Bool) (w : lnet_rtr_t) (hoff : w.ln_routing = false)
    (h0 : rtrpool_empty w.ln_rtrpools_0) (h1 : rtrpool_empty w.ln_rtrpools_1)
    (h2 : rtrpool_empty w.ln_rtrpools_2) :
    ∃ w1 rc, lnet_alloc_rtrpools T alloc im_a_router w = some (w1, rc) ∧
      (w1.ln_routing = true → rc = 0 ∧
        rtrpool_full T.tiny_router_buffers w1.ln_rtrpools_0 ∧
        rtrpool_full T.small_router_buffers w1.ln_rtrpools_1 ∧
        rtrpool_full T.large_router_buffers w1.ln_rtrpools_2) ∧
      (forwarding_enabled T im_a_router →
        (T.tiny_router_buffers ≤ 0 ∨ T.small_router_buffers ≤ 0 ∨
          T.large_router_buffers ≤ 0) →
        (rc = -EINVAL ∨ rc = -ENOMEM) ∧ w1.ln_routing = false ∧
          rtrpool_empty w1.ln_rtrpools_0 ∧ rtrpool_empty w1.ln_rtrpools_1 ∧
          rtrpool_empty w1.ln_rtrpools_2 ∧
          ((∀ k j, (alloc k j).isSome = true) → rc = -EINVAL)) ∧
      (forwarding_enabled T im_a_router → 0 < T.tiny_router_buffers →
        0 < T.small_router_buffers → 0 < T.large_router_buffers →
        (∀ k j, (alloc k j).isSome = true) → rc = 0 ∧ w1.ln_routing = true) := by
  cases hfw : forwarding_check T im_a_router with
  | some rc =>
    refine ⟨w, rc, ?_, ?_, ?_, ?_⟩
    · unfold lnet_alloc_rtrpools
      simp only [hfw]
    · intro h
      rw [hoff] at h
      exact absurd h (by decide)
    · intro h
      rw [forwarding_check_enabled T im_a_router h] at hfw
      exact absurd hfw (by simp)
    · intro h
      rw [forwarding_check_enabled T im_a_router h] at hfw
      exact absurd hfw (by simp)
  | none =>
    obtain ⟨w1, rc, hres, hcase⟩ := alloc_rtrpools_cases T alloc im_a_router w hfw hoff h0 h1 h2
    refine ⟨w1, rc, hres, ?_, ?_, ?_⟩
    · intro hr
      rcases hcase with ⟨c1, _, _, _, _, c6, c7, c8⟩ | ⟨c1, _⟩
      · exact ⟨c1, c6, c7, c8⟩
      · rw [c1] at hr
        exact absurd hr (by decide)
    · intro _ hbad
      rcases hcase with ⟨_, _, c3, c4, c5, _⟩ | ⟨c1, c2, c3, c4, c5⟩
      · omega
      · refine ⟨?_, c1, c2, c3, c4, ?_⟩
        · rcases c5 with ⟨c, _⟩ | ⟨c, _⟩
          · exact Or.inl c
          · exact Or.inr c
        · intro hall
          rcases c5 with ⟨c, _⟩ | ⟨_, c⟩
          · exact c
          · exact absurd hall c
    · intro _ ht hs hl hall
      rcases hcase with ⟨c1, c2, _⟩ | ⟨_, _, _, _, c5⟩
      · exact ⟨c1, c2⟩
      · rcases c5 with ⟨_, c⟩ | ⟨_, c⟩
        · omega
        · exact absurd hall c

/-- A router with `small_router_buffers=0`: the tiny pool is filled with its two buffers,
then the call fails with `-EINVAL`, routing stays off and the pools are empty again. -/
theorem alloc_rtrpools_sized_witness :
    ∃ w1 rc, lnet_alloc_rtrpools ⟨"enabled", 2, 0, 1⟩ rtrbuf_alloc_ok false lnet_rtr_boot =
        some (w1, rc) ∧
      rc = -EINVAL ∧ w1.ln_routing = false ∧ rtrpool_empty w1.ln_rtrpools_0 ∧
      rtrpool_empty w1.ln_rtrpools_1 ∧ rtrpool_empty w1.ln_rtrpools_2 :=
  match alloc_rtrpools_sized ⟨"enabled", 2, 0, 1⟩ rtrbuf_alloc_ok false lnet_rtr_boot rfl
    ⟨rfl, rfl, rfl, rfl⟩ ⟨rfl, rfl, rfl, rfl⟩ ⟨rfl, rfl, rfl, rfl⟩ with
  | ⟨w1, rc, h, _, hbad, _⟩ =>
    have hb := hbad (Or.inr rfl) (Or.inr (Or.inl (by decide)))
    ⟨w1, rc, h, hb.2.2.2.2.2 (fun _ _ => rfl), hb.2.1, hb.2.2.1, hb.2.2.2.1, hb.2.2.2.2.1⟩

/-! ### Credits of a pool -/

/-- A loop of `lnet_rtrpool_alloc_bufs` that ends with 0 has added its `n` buffers. -/
theorem rtrpool_alloc_loop_zero (ln_routing : Bool) (alloc : Nat → Option Nat) :
    ∀ (n i : Nat) (k : Int) (rbp rbp1 : lnet_rtrbufpool), rtrpool_full k rbp →
      rtrpool_alloc_loop ln_routing alloc n i rbp = some (rbp1, 0) →
      rtrpool_full (k + n) rbp1 := by
  intro n
  induction n with
  | zero =>
    intro i k rbp rbp1 h hl
    simp only [rtrpool_alloc_loop, Option.some.injEq, Prod.mk.injEq, and_true] at hl
    subst hl
    simpa using h
  | succ n ih =>
    intro i k rbp rbp1 h hl
    unfold rtrpool_alloc_loop at hl
    cases ha : alloc i with
    | none =>
      simp only [ha, Option.some.injEq, Prod.mk.injEq] at hl
      exact absurd hl.2 (by decide)
    | some rb =>
      simp only [ha] at hl
      split at hl
      · cases hl
      · obtain ⟨h1, h2, h3, h4⟩ := h
        have hfull : rtrpool_full (k + 1)
            { rbp with rbp_nbuffers := rbp.rbp_nbuffers + 1, rbp_credits := rbp.rbp_credits + 1,
                       rbp_mincredits := rbp.rbp_mincredits + 1,
                       rbp_bufs := rb :: rbp.rbp_bufs } := by
          refine ⟨by simp only []; omega, by simp only []; omega, ?_, h4⟩
          simp only [List.length_cons, Nat.cast_add, Nat.cast_one]
          omega
        have e : k + 1 + (n : Int) = k + ((n + 1 : Nat) : Int) := by push_cast; omega
        rw [← e]
        exact ih (i + 1) (k + 1) _ rbp1 hfull hl

/-- C32: after `lnet_rtrpool_init`, a call `lnet_rtrpool_alloc_bufs(rbp, n)` on a pool that
holds no buffers (`rbp_nbuffers == 0`) that returns 0 leaves `rbp_credits == rbp_nbuffers
== n` and exactly `n` buffers on the free list `rbp_bufs`; and the call does return 0 when
routing is off, `n` is not negative and no allocation of a buffer fails. -/
theorem rtrpool_alloc_credits (ln_routing : Bool) (alloc : Nat → Option Nat) (n npages : Int)
    (rbp : lnet_rtrbufpool) (hnone : rbp.rbp_nbuffers = 0) :
    (∀ rbp1, lnet_rtrpool_alloc_bufs ln_routing alloc n (lnet_rtrpool_init npages rbp) =
          some (rbp1, 0) →
        rbp1.rbp_credits = n ∧ rbp1.rbp_nbuffers = n ∧ (rbp1.rbp_bufs.length : Int) = n) ∧
      (ln_routing = false → 0 ≤ n → (∀ j, (alloc j).isSome = true) →
        ∃ rbp1, lnet_rtrpool_alloc_bufs ln_routing alloc n (lnet_rtrpool_init npages rbp) =
          some (rbp1, 0)) := by
  have hempty : rtrpool_empty (lnet_rtrpool_init npages rbp) := ⟨rfl, rfl, hnone, rfl⟩
  have hfull := rtrpool_empty_full _ hempty
  constructor
  · intro rbp1 h
    unfold lnet_rtrpool_alloc_bufs at h
    rw [if_neg (by simp [hempty.2.2.1])] at h
    split at h
    · cases h
    · rename_i p rc hl
      split at h
      · simp only [Option.some.injEq, Prod.mk.injEq] at h
        rename_i hrc
        exact absurd h.2 hrc
      · rename_i hrc
        have hrc0 : rc = 0 := by simpa using hrc
        subst hrc0
        split at h
        · rename_i hcred
          simp only [Option.some.injEq, Prod.mk.injEq, and_true] at h
          subst h
          obtain ⟨f1, f2, f3, _⟩ := rtrpool_alloc_loop_zero ln_routing alloc n.toNat 0 0 _ p hfull hl
          refine ⟨hcred, by omega, by omega⟩
        · cases h
  · intro hoff hn hall
    subst hoff
    obtain ⟨p, rc, hl, hres, hok⟩ :=
      rtrpool_alloc_loop_spec alloc n.toNat 0 0 _ hfull
    have hrc := hok hall
    subst hrc
    have hp : rtrpool_full (0 + (n.toNat : Int)) p := by
      rcases hres with ⟨_, hp⟩ | ⟨h, _⟩
      · exact hp
      · exact absurd h (by decide)
    unfold lnet_rtrpool_alloc_bufs
    rw [if_neg (by simp [hempty.2.2.1]), hl]
    simp only [ne_eq, not_true_eq_false, if_false]
    have hc : p.rbp_credits = n := by
      obtain ⟨f1, f2, _, _⟩ := hp
      rw [f2, f1, Int.toNat_of_nonneg hn]
      omega
    rw [if_pos hc]
    exact ⟨p, rfl⟩

/-- The small pool of a router is given three buffers: three credits, three buffers
counted, three buffers on the list. -/
theorem rtrpool_alloc_credits_witness :
    ∃ rbp1, lnet_rtrpool_alloc_bufs false (rtrbuf_alloc_ok 1) 3
        (lnet_rtrpool_init 1 rtrpool_zero) = some (rbp1, 0) ∧
      rbp1.rbp_credits = 3 ∧ rbp1.rbp_nbuffers = 3 ∧ (rbp1.rbp_bufs.length : Int) = 3 :=
  have h := rtrpool_alloc_credits false (rtrbuf_alloc_ok 1) 3 1 rtrpool_zero rfl
  match h.2 rfl (by decide) (fun _ => rfl) with
  | ⟨rbp1, h1⟩ => ⟨rbp1, h1, h.1 rbp1 h1⟩

/-! ### The version of the router list -/

/-- What `lnet_rtr_addref_locked` does to the router list and its version: either both
are as before, or the version has been incremented. -/
theorem rtr_addref_version (nid : Nat) (s : lnet_t) :
    ((lnet_rtr_addref_locked nid s).ln_routers = s.ln_routers ∧
        (lnet_rtr_addref_locked nid s).ln_routers_version = s.ln_routers_version) ∨
      (lnet_rtr_addref_locked nid s).ln_routers_version =
        (s.ln_routers_version + 1) % 2 ^ 64 := by
  unfold lnet_rtr_addref_locked
  simp only
  split
  · exact Or.inl ⟨rfl, rfl⟩
  · split
    · exact Or.inr rfl
    · exact Or.inl ⟨rfl, rfl⟩

theorem rtr_decref_version (nid : Nat) (s : lnet_t) :
    ((lnet_rtr_decref_locked nid s).ln_routers = s.ln_routers ∧
        (lnet_rtr_decref_locked nid s).ln_routers_version = s.ln_routers_version) ∨
      (lnet_rtr_decref_locked nid s).ln_routers_version =
        (s.ln_routers_version + 1) % 2 ^ 64 := by
  unfold lnet_rtr_decref_locked
  simp only
  split
  · exact Or.inl ⟨rfl, rfl⟩
  · split
    · right
      split <;> rfl
    · exact Or.inl ⟨rfl, rfl⟩

/-- C34: `the_lnet.ln_routers_version` never decreases, and it strictly increases whenever
`lnet_rtr_addref_locked` or `lnet_rtr_decref_locked`, the two functions that write it,
change which peers are on the router list (a first route added, a last route removed),
as long as the 64-bit counter is not at its last value; and at every value of the counter
such a change leaves a version different from the one recorded before. -/
theorem routers_version_increases (nid : Nat) (s : lnet_t)
    (hv : s.ln_routers_version < 2 ^ 64) :
    (s.ln_routers_version + 1 < 2 ^ 64 →
        s.ln_routers_version ≤ (lnet_rtr_addref_locked nid s).ln_routers_version ∧
        s.ln_routers_version ≤ (lnet_rtr_decref_locked nid s).ln_routers_version ∧
        ((lnet_rtr_addref_locked nid s).ln_routers ≠ s.ln_routers →
          s.ln_routers_version < (lnet_rtr_addref_locked nid s).ln_routers_version) ∧
        ((lnet_rtr_decref_locked nid s).ln_routers ≠ s.ln_routers →
          s.ln_routers_version < (lnet_rtr_decref_locked nid s).ln_routers_version)) ∧
      ((lnet_rtr_addref_locked nid s).ln_routers ≠ s.ln_routers →
        (lnet_rtr_addref_locked nid s).ln_routers_version ≠ s.ln_routers_version) ∧
      ((lnet_rtr_decref_locked nid s).ln_routers ≠ s.ln_routers →
        (lnet_rtr_decref_locked nid s).ln_routers_version ≠ s.ln_routers_version) := by
  have ha := rtr_addref_version nid s
  have hd := rtr_decref_version nid s
  refine ⟨fun hw => ⟨?_, ?_, ?_, ?_⟩, ?_, ?_⟩
  · rcases ha with ⟨_, h⟩ | h <;> omega
  · rcases hd with ⟨_, h⟩ | h <;> omega
  · intro hne
    rcases ha with ⟨h, _⟩ | h
    · exact absurd h hne
    · rw [h]; omega
  · intro hne
    rcases hd with ⟨h, _⟩ | h
    · exact absurd h hne
    · rw [h]; omega
  · intro hne
    rcases ha with ⟨h, _⟩ | h
    · exact absurd h hne
    · rw [h]; omega
  · intro hne
    rcases hd with ⟨h, _⟩ | h
    · exact absurd h hne
    · rw [h]; omega

/-- The gateway of the sample, no router any more, gets a first route again: it is put on
the router list and the version goes from 0 to 1. -/
theorem routers_version_increases_witness :
    lnet_rc_deathrow_sample.lnet.ln_routers_version <
        (lnet_rtr_addref_locked (0x20000 * 2 ^ 32 + 1)
          lnet_rc_deathrow_sample.lnet).ln_routers_version ∧
      (lnet_rtr_addref_locked (0x20000 * 2 ^ 32 + 1) lnet_rc_deathrow_sample.lnet).ln_routers =
        [0x20000 * 2 ^ 32 + 1] :=
  ⟨((routers_version_increases (0x20000 * 2 ^ 32 + 1) lnet_rc_deathrow_sample.lnet
      (by decide)).1 (by decide)).2.2.1 (by decide), by decide⟩

/-! ### Checking the routes -/

/-- The inner loop of `lnet_check_routes` once `route2` is set: it ends well exactly when
every route still to visit has its gateway on the interface of the gateway of `route2`. -/
theorem check_routes_rnet_some (s : lnet_t) (route2 : lnet_route) (ni2 : Nat)
    (h2 : route_gw_ni s route2 = some ni2) :
    ∀ routes : List lnet_route, (∀ r ∈ routes, (route_gw_ni s r).isSome = true) →
      ∃ b, check_routes_rnet s (some route2) routes = some b ∧
        (b = true ↔ ∀ r ∈ routes, route_gw_ni s r = some ni2) := by
  intro routes
  induction routes with
  | nil => intro _; exact ⟨true, rfl, by simp⟩
  | cons r rest ih =>
    intro hk
    obtain ⟨b, hb, hiff⟩ := ih (fun x hx => hk x (List.mem_cons_of_mem _ hx))
    have hr := hk r (List.mem_cons_self _ _)
    obtain ⟨ni, hni⟩ := Option.isSome_iff_exists.1 hr
    unfold check_routes_rnet
    simp only [hni, h2]
    by_cases he : ni = ni2
    · rw [if_pos he]
      refine ⟨b, hb, ?_⟩
      rw [hiff]
      simp [hni, he]
    · rw [if_neg he]
      refine ⟨false, rfl, ?_⟩
      simp [hni, he]

/-- The inner loop of `lnet_check_routes` for a remote net: it ends well exactly when all
routes of the net have their gateways on one interface. -/
theorem check_routes_rnet_none (s : lnet_t) (routes : List lnet_route)
    (hk : ∀ r ∈ routes, (route_gw_ni s r).isSome = true) :
    ∃ b, check_routes_rnet s none routes = some b ∧
      (b = true ↔ ∀ r1 ∈ routes, ∀ r2 ∈ routes, route_gw_ni s r1 = route_gw_ni s r2) := by
  cases routes with
  | nil => exact ⟨true, rfl, by simp⟩
  | cons r0 rest =>
    obtain ⟨ni0, h0⟩ := Option.isSome_iff_exists.1 (hk r0 (List.mem_cons_self _ _))
    obtain ⟨b, hb, hiff⟩ := check_routes_rnet_some s r0 ni0 h0 rest
      (fun x hx => hk x (List.mem_cons_of_mem _ hx))
    refine ⟨b, ?_, ?_⟩
    · unfold check_routes_rnet
      exact hb
    · rw [hiff]
      constructor
      · intro h r1 hr1 r2 hr2
        have e1 : route_gw_ni s r1 = some ni0 := by
          rcases List.mem_cons.1 hr1 with e | e
          · rw [e]; exact h0
          · exact h r1 e
        have e2 : route_gw_ni s r2 = some ni0 := by
          rcases List.mem_cons.1 hr2 with e | e
          · rw [e]; exact h0
          · exact h r2 e
        rw [e1, e2]
      · intro h r hr
        rw [h r (List.mem_cons_of_mem _ hr) r0 (List.mem_cons_self _ _)]
        exact h0

theorem check_routes_nets_spec (s : lnet_t) :
    ∀ nets : List lnet_remotenet,
      (∀ rnet ∈ nets, ∀ r ∈ rnet.lrn_routes, (route_gw_ni s r).isSome = true) →
      ∃ rc, check_routes_nets s nets = some rc ∧ (rc = 0 ∨ rc = -EINVAL) ∧
        (rc = 0 ↔ ∀ rnet ∈ nets, ∀ r1 ∈ rnet.lrn_routes, ∀ r2 ∈ rnet.lrn_routes,
          route_gw_ni s r1 = route_gw_ni s r2) := by
  intro nets
  induction nets with
  | nil => intro _; exact ⟨0, rfl, Or.inl rfl, by simp⟩
  | cons rnet rest ih =>
    intro hk
    obtain ⟨rc, hrc, hcode, hiff⟩ := ih (fun x hx => hk x (List.mem_cons_of_mem _ hx))
    obtain ⟨b, hb, hbiff⟩ := check_routes_rnet_none s rnet.lrn_routes
      (hk rnet (List.mem_cons_self _ _))
    unfold check_routes_nets
    rw [hb]
    cases b with
    | false =>
      refine ⟨-EINVAL, rfl, Or.inr rfl, ?_⟩
      constructor
      · intro h; exact absurd h (by decide)
      · intro h
        have := hbiff.2 (h rnet (List.mem_cons_self _ _))
        exact absurd this (by decide)
    | true =>
      refine ⟨rc, hrc, hcode, ?_⟩
      rw [hiff]
      constructor
      · intro h x hx
        rcases List.mem_cons.1 hx with e | e
        · rw [e]; exact hbiff.1 rfl
        · exact h x e
      · intro h x hx
        exact h x (List.mem_cons_of_mem _ hx)

/-- C40: `lnet_check_routes`, on a table whose gateways are peers, returns 0 if and only
if, for every remote network, all routes of the network have their gateways attached to
the same local interface; otherwise it returns `-EINVAL`.  It leaves `the_lnet`, and so
the route table, as it was. -/
theorem check_routes_same_ni (s : lnet_t) (hk : gateways_known s) :
    ∃ rc, lnet_check_routes s = some (s, rc) ∧ (rc = 0 ∨ rc = -EINVAL) ∧
      (rc = 0 ↔ routes_same_ni s) := by
  obtain ⟨rc, hrc, hcode, hiff⟩ := check_routes_nets_spec s s.ln_remote_nets (by
    intro rnet hrnet r hr
    have := hk rnet hrnet r hr
    unfold route_gw_ni
    simpa using this)
  refine ⟨rc, ?_, hcode, hiff⟩
  unfold lnet_check_routes
  rw [hrc]

/-- Two routes to `0x20001` through gateways on the interfaces `0x20000:7` and `0x20002:7`
are refused with `-EINVAL`; with both gateways on one interface the check returns 0. -/
theorem check_routes_same_ni_witness :
    lnet_check_routes (lnet_two_ni_sample (0x20002 * 2 ^ 32 + 7)) =
        some (lnet_two_ni_sample (0x20002 * 2 ^ 32 + 7), -EINVAL) ∧
      (∃ rc, lnet_check_routes (lnet_two_ni_sample (0x20000 * 2 ^ 32 + 7)) =
          some (lnet_two_ni_sample (0x20000 * 2 ^ 32 + 7), rc) ∧
        (rc = 0 ∨ rc = -EINVAL) ∧
        (rc = 0 ↔ routes_same_ni (lnet_two_ni_sample (0x20000 * 2 ^ 32 + 7)))) ∧
      (lnet_check_routes (lnet_two_ni_sample (0x20000 * 2 ^ 32 + 7))).map (fun r => r.2) =
        some 0 :=
  ⟨by decide,
    check_routes_same_ni (lnet_two_ni_sample (0x20000 * 2 ^ 32 + 7))
      (by unfold gateways_known; decide),
    by decide⟩

/-! ### Deleting the matching routes -/

theorem del_route_in_rnet_filter (C : lnet_consts) (gw_nid : Nat) (p : lnet_route → Bool)
    (hp : ∀ r, del_route_gw_match C gw_nid r = true → p r = false) :
    ∀ routes : List lnet_route,
      match del_route_in_rnet C gw_nid routes with
      | none => ∀ r ∈ routes, del_route_gw_match C gw_nid r = false
      | some (routes1, found) =>
        routes1.filter p = routes.filter p ∧ routes1.length + 1 = routes.length ∧
          found ∈ routes ∧ del_route_gw_match C gw_nid found = true := by
  intro routes
  induction routes with
  | nil => simp [del_route_in_rnet]
  | cons a rest ih =>
    unfold del_route_in_rnet
    by_cases hm : del_route_gw_match C gw_nid a = true
    · rw [if_pos hm]
      simp only
      refine ⟨?_, rfl, List.mem_cons_self _ _, hm⟩
      rw [List.filter_cons, hp a hm]
      simp
    · rw [if_neg hm]
      cases hrest : del_route_in_rnet C gw_nid rest with
      | none =>
        rw [hrest] at ih
        simp only
        intro r hr
        rcases List.mem_cons.1 hr with e | e
        · rw [e]; simpa using hm
        · exact ih r e
      | some pr =>
        obtain ⟨routes1, found⟩ := pr
        rw [hrest] at ih
        simp only at ih ⊢
        obtain ⟨h1, h2, h3, h4⟩ := ih
        refine ⟨?_, ?_, List.mem_cons_of_mem _ h3, h4⟩
        · simp only [List.filter_cons, h1]
        · simp only [List.length_cons, h2]

theorem net_routes_cons (rnet : lnet_remotenet) (rest : List lnet_remotenet) :
    net_routes (rnet :: rest) =
      rnet.lrn_routes.map (fun route => (rnet.lrn_net, route)) ++ net_routes rest := by
  simp [net_routes]

theorem del_route_in_nets_filter (C : lnet_consts) (net gw_nid : Nat) :
    ∀ nets : List lnet_remotenet,
      match del_route_in_nets C net gw_nid nets with
      | none => ∀ e ∈ net_routes nets, del_route_match C net gw_nid e = false
      | some (nets1, _) =>
        (net_routes nets1).filter (fun e => !del_route_match C net gw_nid e) =
            (net_routes nets).filter (fun e => !del_route_match C net gw_nid e) ∧
          (net_routes nets1).length + 1 = (net_routes nets).length ∧
          ∃ e ∈ net_routes nets, del_route_match C net gw_nid e = true := by
  intro nets
  induction nets with
  | nil => simp [del_route_in_nets, net_routes]
  | cons rnet rest ih =>
    unfold del_route_in_nets
    by_cases hn : del_route_net_match C net rnet = true
    · rw [if_pos hn]
      have hin := del_route_in_rnet_filter C gw_nid
        (fun r => !del_route_match C net gw_nid (rnet.lrn_net, r))
        (by
          intro r hr
          have hn1 : (net == C.LNET_NIDNET C.LNET_NID_ANY || net == rnet.lrn_net) = true := hn
          have hr1 : (gw_nid == C.LNET_NID_ANY || gw_nid == r.lr_gateway) = true := hr
          simp only [del_route_match, hn1, hr1, Bool.and_self, Bool.not_true])
        rnet.lrn_routes
      cases hdel : del_route_in_rnet C gw_nid rnet.lrn_routes with
      | none =>
        rw [hdel] at hin
        simp only at hin ⊢
        cases hrest : del_route_in_nets C net gw_nid rest with
        | none =>
          rw [hrest] at ih
          simp only at ih ⊢
          intro e he
          rw [net_routes_cons] at he
          rcases List.mem_append.1 he with he | he
          · obtain ⟨r, hr, hre⟩ := List.mem_map.1 he
            subst hre
            have := hin r hr
            have hr1 : (gw_nid == C.LNET_NID_ANY || gw_nid == r.lr_gateway) = false := this
            simp only [del_route_match, hr1, Bool.and_false]
          · exact ih e he
        | some pr =>
          obtain ⟨nets1, found⟩ := pr
          rw [hrest] at ih
          simp only at ih ⊢
          obtain ⟨h1, h2, e, he, hm⟩ := ih
          refine ⟨?_, ?_, e, ?_, hm⟩
          · rw [net_routes_cons, net_routes_cons, List.filter_append, List.filter_append, h1]
          · rw [net_routes_cons, net_routes_cons, List.length_append, List.length_append]
            omega
          · rw [net_routes_cons]
            exact List.mem_append_right _ he
      | some pr =>
        obtain ⟨routes1, found⟩ := pr
        rw [hdel] at hin
        simp only at hin ⊢
        obtain ⟨h1, h2, h3, h4⟩ := hin
        have hmap : (routes1.map (fun route => (rnet.lrn_net, route))).filter
              (fun e => !del_route_match C net gw_nid e) =
            (rnet.lrn_routes.map (fun route => (rnet.lrn_net, route))).filter
              (fun e => !del_route_match C net gw_nid e) := by
          rw [List.filter_map, List.filter_map]
          exact congrArg _ h1
        have hnets : net_routes (if routes1.isEmpty = true then rest
              else { rnet with lrn_routes := routes1 } :: rest) =
            routes1.map (fun route => (rnet.lrn_net, route)) ++ net_routes rest := by
          by_cases he : routes1.isEmpty = true
          · rw [if_pos he]
            have : routes1 = [] := List.isEmpty_iff.1 he
            rw [this]
            rfl
          · rw [if_neg he, net_routes_cons]
        rw [hnets]
        refine ⟨?_, ?_, (rnet.lrn_net, found), ?_, ?_⟩
        · rw [net_routes_cons, List.filter_append, List.filter_append, hmap]
        · rw [net_routes_cons, List.length_append, List.length_append, List.length_map,
            List.length_map]
          omega
        · rw [net_routes_cons]
          exact List.mem_append_left _ (List.mem_map.2 ⟨found, h3, rfl⟩)
        · have hn1 : (net == C.LNET_NIDNET C.LNET_NID_ANY || net == rnet.lrn_net) = true := hn
          have hr1 : (gw_nid == C.LNET_NID_ANY || gw_nid == found.lr_gateway) = true := h4
          simp only [del_route_match, hn1, hr1, Bool.and_self]
    · rw [if_neg hn]
      have hn1 : (net == C.LNET_NIDNET C.LNET_NID_ANY || net == rnet.lrn_net) = false := by
        simpa [del_route_net_match] using hn
      have hall : ∀ e ∈ rnet.lrn_routes.map (fun route => (rnet.lrn_net, route)),
          del_route_match C net gw_nid e = false := by
        intro e he
        obtain ⟨r, _, hre⟩ := List.mem_map.1 he
        subst hre
        simp only [del_route_match, hn1, Bool.false_and]
      cases hrest : del_route_in_nets C net gw_nid rest with
      | none =>
        rw [hrest] at ih
        simp only at ih ⊢
        intro e he
        rw [net_routes_cons] at he
        rcases List.mem_append.1 he with he | he
        · exact hall e he
        · exact ih e he
      | some pr =>
        obtain ⟨nets1, found⟩ := pr
        rw [hrest] at ih
        simp only at ih ⊢
        obtain ⟨h1, h2, e, he, hm⟩ := ih
        refine ⟨?_, ?_, e, ?_, hm⟩
        · rw [net_routes_cons, net_routes_cons, List.filter_append, List.filter_append, h1]
        · rw [net_routes_cons, net_routes_cons, List.length_append, List.length_append]
          omega
        · rw [net_routes_cons]
          exact List.mem_append_right _ he

/-- The loop of `lnet_del_route` with a pass for every route and one more: the routes
left are the ones that do not match, in their order, and the code is 0 when a route
matched and the code the loop started with otherwise. -/
theorem lnet_del_route_loop_filter (C : lnet_consts) (net gw_nid : Nat) :
    ∀ (fuel : Nat) (s : lnet_t) (rc : Int), (net_routes s.ln_remote_nets).length < fuel →
      net_routes (lnet_del_route_loop C net gw_nid fuel s rc).1.ln_remote_nets =
          (net_routes s.ln_remote_nets).filter (fun e => !del_route_match C net gw_nid e) ∧
        (lnet_del_route_loop C net gw_nid fuel s rc).2 =
          (if (net_routes s.ln_remote_nets).any (del_route_match C net gw_nid) = true then 0
           else rc) := by
  intro fuel
  induction fuel with
  | zero => intro s rc h; omega
  | succ n ih =>
    intro s rc hfuel
    have hnets := del_route_in_nets_filter C net gw_nid s.ln_remote_nets
    unfold lnet_del_route_loop lnet_del_route_pass
    cases hdel : del_route_in_nets C net gw_nid s.ln_remote_nets with
    | none =>
      rw [hdel] at hnets
      simp only at hnets ⊢
      constructor
      · symm
        apply List.filter_eq_self.2
        intro e he
        rw [hnets e he]
        rfl
      · rw [if_neg]
        rw [List.any_eq_true]
        rintro ⟨e, he, hm⟩
        rw [hnets e he] at hm
        exact absurd hm (by decide)
    | some pr =>
      obtain ⟨nets1, found⟩ := pr
      rw [hdel] at hnets
      simp only at hnets ⊢
      obtain ⟨h1, h2, e, he, hm⟩ := hnets
      have hs1 : (lnet_peer_decref_locked found.lr_gateway
          (lnet_rtr_decref_locked found.lr_gateway
            { s with ln_remote_nets := nets1,
                     ln_remote_nets_version := s.ln_remote_nets_version + 1 })).ln_remote_nets =
          nets1 := by
        simp only [decref_nets, rtr_decref_nets]
      obtain ⟨i1, i2⟩ := ih _ 0 (by rw [hs1]; omega)
      rw [hs1] at i1 i2
      refine ⟨by rw [i1, h1], ?_⟩
      rw [i2, if_pos (List.any_eq_true.2 ⟨e, he, hm⟩)]
      split <;> rfl

theorem net_routes_length (nets : List lnet_remotenet) :
    (net_routes nets).length = (nets.flatMap (fun rnet => rnet.lrn_routes)).length := by
  induction nets with
  | nil => rfl
  | cons a rest ih =>
    rw [net_routes_cons, List.length_append, List.length_map, ih]
    simp

/-- C39: `lnet_del_route(net, gw)` terminates: within one pass per route of the table and
one more it reaches a pass that finds no matching route and returns.  It returns 0 if
at least one route of the table matched (the network and the gateway each being the
wildcard or the route's own) and `-ENOENT` otherwise.  On return the routes of the table
are the routes of before that do not match, each in the remote net of its network with
its hop count and gateway, and in their order: no matching route remains and every
route that does not match is still there. -/
theorem del_route_matching (C : lnet_consts) (net gw_nid : Nat) (s : lnet_t) :
    lnet_del_route_pass C net gw_nid (lnet_del_route C net gw_nid s).1 = none ∧
      (lnet_del_route C net gw_nid s).2 =
        (if (net_routes s.ln_remote_nets).any (del_route_match C net gw_nid) = true then 0
         else -ENOENT) ∧
      net_routes (lnet_del_route C net gw_nid s).1.ln_remote_nets =
        (net_routes s.ln_remote_nets).filter (fun e => !del_route_match C net gw_nid e) ∧
      (∀ e ∈ net_routes (lnet_del_route C net gw_nid s).1.ln_remote_nets,
        del_route_match C net gw_nid e = false) ∧
      (∀ e ∈ net_routes s.ln_remote_nets, del_route_match C net gw_nid e = false →
        e ∈ net_routes (lnet_del_route C net gw_nid s).1.ln_remote_nets) := by
  have h := lnet_del_route_loop_filter C net gw_nid ((all_routes s).length + 1) s (-ENOENT)
    (by rw [net_routes_length]; exact Nat.lt_succ_self _)
  refine ⟨lnet_del_route_done C net gw_nid s, h.2, h.1, ?_, ?_⟩
  · intro e he
    have he1 : e ∈ (net_routes s.ln_remote_nets).filter
        (fun e => !del_route_match C net gw_nid e) := by
      rw [← h.1]; exact he
    simpa using (List.mem_filter.1 he1).2
  · intro e he hm
    have : e ∈ (net_routes s.ln_remote_nets).filter
        (fun e => !del_route_match C net gw_nid e) :=
      List.mem_filter.2 ⟨he, by simp [hm]⟩
    rw [← h.1] at this
    exact this

/-- `lnet_destroy_routes` leaves no route in the table. -/
theorem destroy_routes_empty (C : lnet_consts) (s : lnet_t) :
    net_routes (lnet_destroy_routes C s).ln_remote_nets = [] := by
  have h := lnet_del_route_loop_filter C (C.LNET_NIDNET C.LNET_NID_ANY) C.LNET_NID_ANY
    ((all_routes s).length + 1) s (-ENOENT)
    (by rw [net_routes_length]; exact Nat.lt_succ_self _)
  unfold lnet_destroy_routes lnet_del_route
  rw [h.1]
  apply List.filter_eq_nil_iff.2
  intro e _
  simp [del_route_match]

/-! ### The references of a probed router -/

/-- C37: `lnet_ping_router_locked` on the gateway of the sample, which has four references
and no router-check-data, with the router checker running.  When
`lnet_create_rc_data_locked` cannot allocate the router-check-data, the function returns
through `if (rcd == NULL) return;` and the gateway has five references: the one taken on
entry is not dropped.  The same holds when the ping buffer cannot be allocated and when
`LNetMDBind` fails.  On the other early return (the router checker is stopping) and on
the path to the end of the function (the gateway has its router-check-data already) the
gateway has its four references again. -/
theorem ping_router_leaks_reference :
    (lnet_find_peer lnet_rc_first_sample.lnet (0x20000 * 2 ^ 32 + 1)).map
        (fun lp => lp.lp_refcount) = some 4 ∧
      ping_refcount (0x20000 * 2 ^ 32 + 1)
        (lnet_ping_router_locked lnet_types_h lnet_ping_h rc_tunables_sample
          { ping_env_sample with rcd_alloc := none } 2 120 (0x20000 * 2 ^ 32 + 1)
          lnet_rc_first_sample) = some 5 ∧
      ping_refcount (0x20000 * 2 ^ 32 + 1)
        (lnet_ping_router_locked lnet_types_h lnet_ping_h rc_tunables_sample
          { ping_env_sample with pi_alloc_ok := false } 2 120 (0x20000 * 2 ^ 32 + 1)
          lnet_rc_first_sample) = some 5 ∧
      ping_refcount (0x20000 * 2 ^ 32 + 1)
        (lnet_ping_router_locked lnet_types_h lnet_ping_h rc_tunables_sample
          { ping_env_sample with md_bind := -ENOMEM } 2 120 (0x20000 * 2 ^ 32 + 1)
          lnet_rc_first_sample) = some 5 ∧
      ping_refcount (0x20000 * 2 ^ 32 + 1)
        (lnet_ping_router_locked lnet_types_h lnet_ping_h rc_tunables_sample
          { ping_env_sample with rcd_alloc := none } 2 120 (0x20000 * 2 ^ 32 + 1)
          { lnet_rc_first_sample with ln_rc_state := .LNET_RC_STATE_STOPPING }) = some 4 ∧
      (lnet_find_peer lnet_rc_sample.lnet (0x20000 * 2 ^ 32 + 1)).map
        (fun lp => lp.lp_refcount) = some 4 ∧
      ping_refcount (0x20000 * 2 ^ 32 + 1)
        (lnet_ping_router_locked lnet_types_h lnet_ping_h rc_tunables_sample
          ping_env_sample 2 120 (0x20000 * 2 ^ 32 + 1) lnet_rc_sample) = some 4 := by
  refine ⟨?_, ?_, ?_, ?_, ?_, ?_, ?_⟩ <;> decide

/-! ## Theorems: recovery ledger -/

/-! ### The transaction sequencer -/

/-- What `mdt_update_last_rcvd` returns when the request, its export and the export's
record are there: the thread info keeps its transno and its request keeps everything but
the export, and the sequencer is not touched. -/
theorem mdt_update_last_rcvd_some (K : mdt_consts) (wr : Int) (mdt : mdt_device)
    (mti : mdt_thread_info) (th_result : Int) (req : ptlrpc_request) (exp : obd_export)
    (mcd : mdt_client_data) (hreq : mti.mti_req = some req) (hexp : req.rq_export = some exp)
    (hmcd : exp.exp_mdt_data.med_mcd = some mcd) :
    ∃ mdt' mti' rc req', mdt_update_last_rcvd K wr mdt mti th_result = some (mdt', mti', rc) ∧
      mti'.mti_transno = mti.mti_transno ∧ mti'.mti_req = some req' ∧
      req'.rq_transno = req.rq_transno ∧ req'.rq_repmsg = req.rq_repmsg ∧
      mdt'.mdt_last_transno = mdt.mdt_last_transno := by
  unfold mdt_update_last_rcvd
  simp only [hreq, hexp, hmcd]
  split
  · exact ⟨_, _, _, req, rfl, rfl, hreq, rfl, rfl, rfl⟩
  · split
    · exact ⟨_, _, _, _, rfl, rfl, rfl, rfl, rfl, rfl⟩
    · exact ⟨_, _, _, _, rfl, rfl, rfl, rfl, rfl, rfl⟩

/-- The reply part of `mdt_txn_stop_cb` returns when the request has a packed reply and an
export with a client record; it copies the transno of the thread to the request, the
reply and `txi_transno` and leaves the sequencer alone. -/
theorem txn_stop_reply_some (K : mdt_consts) (wr : Int) (mdt : mdt_device)
    (mti : mdt_thread_info) (th_result : Int) (req : ptlrpc_request) (rep : lustre_msg)
    (exp : obd_export) (mcd : mdt_client_data) (hreq : mti.mti_req = some req)
    (hrep : req.rq_repmsg = some rep) (hexp : req.rq_export = some exp)
    (hmcd : exp.exp_mdt_data.med_mcd = some mcd) :
    ∃ mdt' mti' rc req' rep',
      txn_stop_reply K wr mdt mti th_result = some (mdt', mti', mti.mti_transno, rc) ∧
      mti'.mti_req = some req' ∧ req'.rq_repmsg = some rep' ∧
      mti'.mti_transno = mti.mti_transno ∧ req'.rq_transno = mti.mti_transno ∧
      rep'.lm_transno = mti.mti_transno ∧
      mdt'.mdt_last_transno = mdt.mdt_last_transno := by
  unfold txn_stop_reply
  simp only [hreq, hrep, hexp, hmcd]
  unfold mdt_update_last_rcvd
  simp only [hmcd]
  by_cases hf : exp.exp_failed = true
  · simp only [hf, if_true]
    exact ⟨_, _, _, _, _, rfl, rfl, rfl, rfl, rfl, rfl, rfl⟩
  · by_cases hoff : exp.exp_mdt_data.med_lr_off ≤ 0
    · simp only [hf, hoff, if_true, if_false]
      exact ⟨_, _, _, _, _, rfl, rfl, rfl, rfl, rfl, rfl, rfl⟩
    · simp only [hf, hoff, if_false]
      exact ⟨_, _, _, _, _, rfl, rfl, rfl, rfl, rfl, rfl, rfl⟩

theorem txn_stop_transno_req (mdt : mdt_device) (mti : mdt_thread_info) (th_result : Int) :
    (txn_stop_transno mdt mti th_result).2.mti_req = mti.mti_req := by
  unfold txn_stop_transno
  split
  · split <;> rfl
  · split
    · rfl
    · split <;> rfl

theorem txn_stop_transno_new (mdt : mdt_device) (mti : mdt_thread_info)
    (h0 : mti.mti_transno = 0) :
    (txn_stop_transno mdt mti 0).2.mti_transno = (mdt.mdt_last_transno + 1) % 2 ^ 64 ∧
      (txn_stop_transno mdt mti 0).1.mdt_last_transno = (mdt.mdt_last_transno + 1) % 2 ^ 64 := by
  simp [txn_stop_transno, h0]

theorem txn_stop_transno_replay (mdt : mdt_device) (mti : mdt_thread_info)
    (h0 : mti.mti_transno ≠ 0) :
    (txn_stop_transno mdt mti 0).2.mti_transno = mti.mti_transno ∧
      (txn_stop_transno mdt mti 0).1.mdt_last_transno =
        max mdt.mdt_last_transno mti.mti_transno := by
  unfold txn_stop_transno
  simp only [ne_eq, not_true_eq_false, if_false, h0]
  split
  · rename_i hgt
    exact ⟨rfl, (Nat.max_eq_right (Nat.le_of_lt hgt)).symm⟩
  · rename_i hgt
    exact ⟨rfl, (Nat.max_eq_left (Nat.le_of_not_lt hgt)).symm⟩

/-- C3 (amended): `mdt_txn_stop_cb` for a transaction with `th_result == 0`, on a thread
whose `mti_mdt` is set and whose request has a packed reply and an export with a client
record, returns; a request without transno (`mti_transno == 0`) is assigned the old
`mdt_last_transno` plus one, in 64-bit arithmetic, which also becomes `mdt_last_transno`;
a replayed request keeps its transno and `mdt_last_transno` becomes the larger of its old
value and the replayed one, so a replay at or below the sequencer leaves it unchanged.
The transno is copied to `rq_transno`, to the reply and to `txi_transno`. -/
theorem txn_stop_cb_transno (K : mdt_consts) (wr : Int) (mdt : mdt_device)
    (mti : mdt_thread_info) (req : ptlrpc_request) (rep : lustre_msg) (exp : obd_export)
    (mcd : mdt_client_data) (hmdt : mti.mti_mdt = true) (hreq : mti.mti_req = some req)
    (hrep : req.rq_repmsg = some rep) (hexp : req.rq_export = some exp)
    (hmcd : exp.exp_mdt_data.med_mcd = some mcd) :
    ∃ mdt' mti' txi rc req' rep',
      mdt_txn_stop_cb K wr mdt mti 0 = some (mdt', mti', txi, rc) ∧
      mti'.mti_req = some req' ∧ req'.rq_repmsg = some rep' ∧
      mti'.mti_transno = txi ∧ req'.rq_transno = txi ∧ rep'.lm_transno = txi ∧
      (mti.mti_transno = 0 →
        txi = (mdt.mdt_last_transno + 1) % 2 ^ 64 ∧
        mdt'.mdt_last_transno = (mdt.mdt_last_transno + 1) % 2 ^ 64 ∧
        (mdt.mdt_last_transno + 1 < 2 ^ 64 → txi = mdt.mdt_last_transno + 1)) ∧
      (mti.mti_transno ≠ 0 →
        txi = mti.mti_transno ∧
        mdt'.mdt_last_transno = max mdt.mdt_last_transno mti.mti_transno ∧
        (mti.mti_transno ≤ mdt.mdt_last_transno →
          mdt'.mdt_last_transno = mdt.mdt_last_transno)) := by
  unfold mdt_txn_stop_cb
  simp only [hmdt, Bool.not_true, Bool.false_eq_true, if_false]
  obtain ⟨mdt', mti', rc, req', rep', hr, h1, h2, h3, h4, h5, h6⟩ :=
    txn_stop_reply_some K wr (txn_stop_transno mdt mti 0).1 (txn_stop_transno mdt mti 0).2 0
      req rep exp mcd (by rw [txn_stop_transno_req]; exact hreq) hrep hexp hmcd
  refine ⟨mdt', mti', _, rc, req', rep', hr, h1, h2, h3, h4, h5, ?_, ?_⟩
  · intro h0
    rw [h6, (txn_stop_transno_new mdt mti h0).1, (txn_stop_transno_new mdt mti h0).2]
    exact ⟨rfl, rfl, fun hlt => Nat.mod_eq_of_lt hlt⟩
  · intro h0
    rw [h6, (txn_stop_transno_replay mdt mti h0).1, (txn_stop_transno_replay mdt mti h0).2]
    exact ⟨rfl, rfl, fun hle => Nat.max_eq_left hle⟩

theorem txn_stop_cb_transno_witness :
    ∃ mdt' mti' txi rc req' rep',
      mdt_txn_stop_cb lustre_disk_h 128 (mdt_running 42)
        ⟨true, 42, 0, some (req_sample 7 36 exp_sample)⟩ 0 = some (mdt', mti', txi, rc) ∧
      mti'.mti_req = some req' ∧ req'.rq_repmsg = some rep' ∧
      txi = 42 ∧ req'.rq_transno = 42 ∧ rep'.lm_transno = 42 ∧ mdt'.mdt_last_transno = 42 := by
  obtain ⟨mdt', mti', txi, rc, req', rep', h, h1, h2, _, h4, h5, _, h7⟩ :=
    txn_stop_cb_transno lustre_disk_h 128 (mdt_running 42)
      ⟨true, 42, 0, some (req_sample 7 36 exp_sample)⟩ (req_sample 7 36 exp_sample)
      { lm_transno := 0, lm_status := 0, lm_last_xid := 0 } exp_sample (mcd_sample 65 42 7 0)
      rfl rfl rfl rfl rfl
  have h8 := h7 (by decide)
  refine ⟨mdt', mti', txi, rc, req', rep', h, h1, h2, h8.1, ?_, ?_, ?_⟩
  · rw [h4]; exact h8.1
  · rw [h5]; exact h8.1
  · exact h8.2.2 (by decide)

/-- C3, as stated, fails on a thread without `mti_mdt` (a request from SEQ/FLD): the
transaction has `th_result == 0` and no transno, the sequencer is at 42, and the callback
returns with the transno still 0, `txi_transno` 0 and the sequencer still at 42. -/
theorem txn_stop_cb_no_mdt_counterexample :
    (mdt_txn_stop_cb lustre_disk_h 128 (mdt_running 42)
        ⟨false, 0, 0, some (req_sample 8 36 exp_sample)⟩ 0).map
      (fun r => (r.1.mdt_last_transno, r.2.1.mti_transno, r.2.2.1)) = some (42, 0, 0) := by
  rfl

theorem mdt_update_last_rcvd_last_transno (K : mdt_consts) (wr : Int) (mdt mdt' : mdt_device)
    (mti mti' : mdt_thread_info) (th_result rc : Int)
    (h : mdt_update_last_rcvd K wr mdt mti th_result = some (mdt', mti', rc)) :
    mdt'.mdt_last_transno = mdt.mdt_last_transno := by
  unfold mdt_update_last_rcvd at h
  split at h
  · simp at h
  · split at h
    · simp at h
    · rename_i exp _
      split at h
      · simp only [Option.some.injEq, Prod.mk.injEq] at h
        rw [← h.1]
      · split at h
        · simp at h
        · by_cases hoff : exp.exp_mdt_data.med_lr_off ≤ 0
          · simp only [hoff, if_true, Option.some.injEq, Prod.mk.injEq] at h
            rw [← h.1]
          · simp only [hoff, if_false, Option.some.injEq, Prod.mk.injEq] at h
            rw [← h.1]
            rfl

theorem txn_stop_reply_last_transno (K : mdt_consts) (wr : Int) (mdt mdt' : mdt_device)
    (mti mti' : mdt_thread_info) (th_result rc : Int) (txi : Nat)
    (h : txn_stop_reply K wr mdt mti th_result = some (mdt', mti', txi, rc)) :
    txi = mti.mti_transno ∧ mdt'.mdt_last_transno = mdt.mdt_last_transno := by
  unfold txn_stop_reply at h
  split at h
  · simp at h
  · split at h
    · simp at h
    · split at h
      · simp at h
      · split at h
        · simp at h
        · dsimp only at h
          split at h
          · simp at h
          · rename_i mdt1 mti1 rc1 hu
            simp only [Option.some.injEq, Prod.mk.injEq] at h
            obtain ⟨h1, _, h3, _⟩ := h
            subst h1
            exact ⟨h3.symm, mdt_update_last_rcvd_last_transno K wr _ _ _ _ _ _ hu⟩

/-- One call of the stop callback: without a wrap of the counter the sequencer does not
go back, a stamped transno is at most the new sequencer value, and a freshly assigned
one is above the old value. -/
theorem txn_stop_cb_step (K : mdt_consts) (c : stop_call) (mdt mdt' : mdt_device)
    (mti' : mdt_thread_info) (txi : Nat) (rc : Int)
    (h : mdt_txn_stop_cb K c.wr mdt c.mti c.th_result = some (mdt', mti', txi, rc))
    (hw : c.fresh = true → mdt.mdt_last_transno + 1 < 2 ^ 64) :
    mdt.mdt_last_transno ≤ mdt'.mdt_last_transno ∧
      (c.stamped = true → txi ≤ mdt'.mdt_last_transno) ∧
      (c.fresh = true → mdt.mdt_last_transno < txi) := by
  unfold mdt_txn_stop_cb at h
  by_cases hm : c.mti.mti_mdt = true
  · simp only [hm, Bool.not_true, Bool.false_eq_true, if_false] at h
    obtain ⟨h1, h2⟩ := txn_stop_reply_last_transno K c.wr _ _ _ _ _ _ _ h
    rw [h1, h2]
    by_cases hr : c.th_result = 0
    · by_cases h0 : c.mti.mti_transno = 0
      · have hf : c.fresh = true := by simp [stop_call.fresh, stop_call.stamped, hm, hr, h0]
        have hlt := hw hf
        have e1 := txn_stop_transno_new mdt c.mti h0
        rw [hr, e1.1, e1.2, Nat.mod_eq_of_lt hlt]
        exact ⟨by omega, fun _ => le_refl _, fun _ => by omega⟩
      · have hf : c.fresh = false := by simp [stop_call.fresh, h0]
        have e1 := txn_stop_transno_replay mdt c.mti h0
        rw [hr, e1.1, e1.2]
        refine ⟨le_max_left _ _, fun _ => le_max_right _ _, fun hh => ?_⟩
        rw [hf] at hh
        exact absurd hh (by decide)
    · have hs : c.stamped = false := by simp [stop_call.stamped, hr]
      have hf : c.fresh = false := by simp [stop_call.fresh, hs]
      have e1 : (txn_stop_transno mdt c.mti c.th_result).1 = mdt := by
        simp [txn_stop_transno, hr]
      rw [e1]
      refine ⟨le_refl _, fun hh => ?_, fun hh => ?_⟩
      · rw [hs] at hh; exact absurd hh (by decide)
      · rw [hf] at hh; exact absurd hh (by decide)
  · have hs : c.stamped = false := by simp [stop_call.stamped, hm]
    have hf : c.fresh = false := by simp [stop_call.fresh, hs]
    simp only [hm, Bool.not_false, if_true, Option.some.injEq, Prod.mk.injEq] at h
    rw [← h.1]
    refine ⟨le_refl _, fun hh => ?_, fun hh => ?_⟩
    · rw [hs] at hh; exact absurd hh (by decide)
    · rw [hf] at hh; exact absurd hh (by decide)

/-- The run invariant behind C5: the sequencer does not go back, every stamped transno is
at most the final sequencer value, every freshly assigned one is above the initial
value, and a freshly assigned transno is above every transno stamped before it. -/
theorem stop_run_monotone (K : mdt_consts) (cs : List stop_call) (mdt mdt' : mdt_device)
    (ts : List (Nat × Bool)) (h : stop_run K mdt cs = some (mdt', ts))
    (hw : stop_run_no_wrap K mdt cs = true) :
    mdt.mdt_last_transno ≤ mdt'.mdt_last_transno ∧
      (∀ b ∈ ts, b.1 ≤ mdt'.mdt_last_transno) ∧
      (∀ b ∈ ts, b.2 = true → mdt.mdt_last_transno < b.1) ∧
      ts.Pairwise (fun a b => b.2 = true → a.1 < b.1) := by
  induction cs generalizing mdt ts with
  | nil =>
    simp only [stop_run, Option.some.injEq, Prod.mk.injEq] at h
    obtain ⟨h1, h2⟩ := h
    subst h1 h2
    simp
  | cons c cs ih =>
    unfold stop_run at h
    unfold stop_run_no_wrap at hw
    rw [Bool.and_eq_true] at hw
    obtain ⟨hw0, hw2⟩ := hw
    have hw1 : c.fresh = true → mdt.mdt_last_transno + 1 < 2 ^ 64 := by
      intro hf
      rw [hf] at hw0
      simpa using hw0
    split at h
    · simp at h
    · rename_i mdt1 mti1 txi rc hcb
      rw [hcb] at hw2
      split at h
      · simp at h
      · rename_i mdt2 ts2 hrun
        simp only [Option.some.injEq, Prod.mk.injEq] at h
        obtain ⟨h1, h2⟩ := h
        subst h1 h2
        obtain ⟨s1, s2, s3⟩ := txn_stop_cb_step K c mdt mdt1 mti1 txi rc hcb hw1
        obtain ⟨r1, r2, r3, r4⟩ := ih mdt1 ts2 hrun hw2
        refine ⟨le_trans s1 r1, ?_, ?_, ?_⟩
        · intro b hb
          rcases List.mem_append.1 hb with hh | hh
          · split at hh
            · rename_i hst
              simp only [List.mem_singleton] at hh
              subst hh
              exact le_trans (s2 hst) r1
            · simp at hh
          · exact r2 b hh
        · intro b hb hfresh
          rcases List.mem_append.1 hb with hh | hh
          · split at hh
            · simp only [List.mem_singleton] at hh
              subst hh
              exact s3 hfresh
            · simp at hh
          · exact lt_of_le_of_lt s1 (r3 b hh hfresh)
        · rw [List.pairwise_append]
          refine ⟨?_, r4, ?_⟩
          · split
            · exact List.pairwise_singleton _ _
            · exact List.Pairwise.nil
          · intro a ha b hb hfresh
            split at ha
            · rename_i hst
              simp only [List.mem_singleton] at ha
              subst ha
              exact lt_of_le_of_lt (s2 hst) (r3 b hb hfresh)
            · simp at ha

/-- C5 (amended): across a sequence of `mdt_txn_stop_cb` calls in which no fresh
assignment wraps the 64-bit counter, `mdt_last_transno` never decreases, and each freshly
assigned transno is strictly greater than every transno assigned or replayed before
it. -/
theorem txn_stop_cb_monotone (K : mdt_consts) (cs : List stop_call) (mdt mdt' : mdt_device)
    (ts : List (Nat × Bool)) (h : stop_run K mdt cs = some (mdt', ts))
    (hw : stop_run_no_wrap K mdt cs = true) :
    mdt.mdt_last_transno ≤ mdt'.mdt_last_transno ∧
      ts.Pairwise (fun a b => b.2 = true → a.1 < b.1) :=
  ⟨(stop_run_monotone K cs mdt mdt' ts h hw).1, (stop_run_monotone K cs mdt mdt' ts h hw).2.2.2⟩

theorem stop_run_sample :
    (stop_run lustre_disk_h (mdt_running 41)
        [stop_call_new 8, stop_call_replay 5 40, stop_call_failed 9, stop_call_replay 6 50,
         stop_call_new 10]).map (fun r => (r.1.mdt_last_transno, r.2)) =
      some (51, [(42, true), (40, false), (50, false), (51, true)]) := by
  rfl

theorem txn_stop_cb_monotone_witness :
    ∃ mdt' ts,
      stop_run lustre_disk_h (mdt_running 41)
        [stop_call_new 8, stop_call_replay 5 40, stop_call_new 10] = some (mdt', ts) ∧
      41 ≤ mdt'.mdt_last_transno ∧ ts.Pairwise (fun a b => b.2 = true → a.1 < b.1) := by
  cases hrun : stop_run lustre_disk_h (mdt_running 41)
      [stop_call_new 8, stop_call_replay 5 40, stop_call_new 10] with
  | none => exact absurd (congrArg Option.isSome hrun) (by decide)
  | some r =>
    obtain ⟨mdt', ts⟩ := r
    exact ⟨mdt', ts, rfl, txn_stop_cb_monotone lustre_disk_h _ (mdt_running 41) mdt' ts hrun
      (by rfl)⟩

/-- C5, as stated, fails when the 64-bit counter wraps: from the sequencer at 42, a
replay of transno `2^64 - 1` followed by a new transaction leaves `mdt_last_transno` at
0, and the freshly assigned transno 0 is below the transno replayed before it. -/
theorem txn_stop_cb_wrap_counterexample :
    (stop_run lustre_disk_h (mdt_running 42)
        [stop_call_replay 5 (2 ^ 64 - 1), stop_call_new 8]).map
      (fun r => (r.1.mdt_last_transno, r.2)) =
      some (0, [(2 ^ 64 - 1, false), (0, true)]) := by
  rfl

/-! ### The committed watermark -/

/-- C6: `mdt_txn_commit_cb` sets `obd_last_committed` to the larger of its old value and
`txi_transno`, so the watermark never decreases, and it calls `ptlrpc_commit_replies`,
once, exactly when the watermark strictly advances; nothing else changes. -/
theorem txn_commit_cb_watermark (mdt : mdt_device) (txi_transno : Nat) :
    (mdt_txn_commit_cb mdt txi_transno).1.mdt_obd.obd_last_committed =
        max mdt.mdt_obd.obd_last_committed txi_transno ∧
      mdt.mdt_obd.obd_last_committed ≤
        (mdt_txn_commit_cb mdt txi_transno).1.mdt_obd.obd_last_committed ∧
      (mdt_txn_commit_cb mdt txi_transno).1.mdt_trace =
        mdt.mdt_trace ++
          (if mdt.mdt_obd.obd_last_committed <
              (mdt_txn_commit_cb mdt txi_transno).1.mdt_obd.obd_last_committed
           then [mdt_event.commit_replies] else []) ∧
      (mdt_txn_commit_cb mdt txi_transno).1.mdt_last_transno = mdt.mdt_last_transno ∧
      (mdt_txn_commit_cb mdt txi_transno).2 = 0 := by
  unfold mdt_txn_commit_cb
  split
  · rename_i hgt
    refine ⟨?_, ?_, ?_, rfl, rfl⟩
    · exact (Nat.max_eq_right (Nat.le_of_lt hgt)).symm
    · exact Nat.le_of_lt hgt
    · simp only [if_pos hgt]
  · rename_i hgt
    refine ⟨?_, le_refl _, ?_, rfl, rfl⟩
    · exact (Nat.max_eq_left (Nat.le_of_not_lt hgt)).symm
    · simp

/-! ### Replay returns the stored result -/

theorem as_s32_as_u32 (r : Int) (h1 : -(2 ^ 31) ≤ r) (h2 : r < 2 ^ 31) :
    as_s32 (as_u32 r) = r := by
  unfold as_s32 as_u32
  have hnn : 0 ≤ r % 2 ^ 32 := Int.emod_nonneg _ (by norm_num)
  have hlt : r % 2 ^ 32 < 2 ^ 32 := Int.emod_lt_of_pos _ (by norm_num)
  have hcast : (((r % 2 ^ 32).toNat : Nat) : Int) = r % 2 ^ 32 := Int.toNat_of_nonneg hnn
  have hmod : (r % 2 ^ 32).toNat % 2 ^ 32 = (r % 2 ^ 32).toNat := by
    apply Nat.mod_eq_of_lt
    have : (((r % 2 ^ 32).toNat : Nat) : Int) < 2 ^ 32 := by rw [hcast]; exact hlt
    exact_mod_cast this
  rw [hmod, hcast]
  by_cases hr : 0 ≤ r
  · have e : r % 2 ^ 32 = r := Int.emod_eq_of_lt hr (by omega)
    have hlt' : (r % 2 ^ 32).toNat < 2 ^ 31 := by
      have : (((r % 2 ^ 32).toNat : Nat) : Int) < 2 ^ 31 := by rw [hcast, e]; exact h2
      exact_mod_cast this
    rw [if_pos hlt', e]
  · have e : r % 2 ^ 32 = r + 2 ^ 32 := by
      have := Int.emod_emod_of_dvd r (dvd_refl (2 ^ 32 : Int))
      have h3 : (r + 2 ^ 32) % 2 ^ 32 = r % 2 ^ 32 := by simp
      rw [← h3]
      exact Int.emod_eq_of_lt (by omega) (by omega)
    have hge : ¬ (r % 2 ^ 32).toNat < 2 ^ 31 := by
      intro hcon
      have : (((r % 2 ^ 32).toNat : Nat) : Int) < 2 ^ 31 := by exact_mod_cast hcon
      rw [hcast, e] at this
      omega
    rw [if_neg hge, e]
    omega

/-- C4 (amended): on a little-endian host, for a non-close request of an export that has
not failed, committed with transno `t = mti_transno`, xid `x = rq_xid` and result `r`,
`mdt_update_last_rcvd` stores `(t, x, r)` in the client's record, keeps the identity of
the record and does not touch the sequencer; with a slot offset and a completed write the
record is in the ledger file; and `mdt_req_from_mcd` on that record, for any request with
a reply packed, sets `rq_transno` to `t` and `rq_status` to `r` and copies both into the
reply. -/
theorem last_rcvd_replay_verbatim (K : mdt_consts) (wr : Int) (mdt : mdt_device)
    (mti : mdt_thread_info) (r : Int) (req : ptlrpc_request) (exp : obd_export)
    (mcd : mdt_client_data) (hle : K.big_endian = false)
    (hreq : mti.mti_req = some req) (hexp : req.rq_export = some exp)
    (hmcd : exp.exp_mdt_data.med_mcd = some mcd) (hnf : exp.exp_failed = false)
    (hop : req.rq_opc ≠ K.MDS_CLOSE) (hr1 : -(2 ^ 31) ≤ r) (hr2 : r < 2 ^ 31) :
    ∃ mdt' mti' rc req' exp' mcd',
      mdt_update_last_rcvd K wr mdt mti r = some (mdt', mti', rc) ∧
      mti'.mti_req = some req' ∧ req'.rq_export = some exp' ∧
      exp'.exp_mdt_data.med_mcd = some mcd' ∧
      mcd'.mcd_last_transno = mti.mti_transno ∧ mcd'.mcd_last_xid = req.rq_xid ∧
      mcd'.mcd_last_result = as_u32 r ∧ mcd'.mcd_uuid = mcd.mcd_uuid ∧
      mdt'.mdt_last_transno = mdt.mdt_last_transno ∧
      (0 < exp.exp_mdt_data.med_lr_off → wr = K.LR_CLIENT_SIZE →
        rc = 0 ∧ mdt'.mdt_last_rcvd.client exp.exp_mdt_data.med_lr_off.toNat = mcd') ∧
      ∀ (q : ptlrpc_request) (rep : lustre_msg), q.rq_repmsg = some rep →
        ∃ q' rep', mdt_req_from_mcd q mcd' = some q' ∧ q'.rq_repmsg = some rep' ∧
          q'.rq_transno = mti.mti_transno ∧ q'.rq_status = r ∧
          rep'.lm_transno = mti.mti_transno ∧ rep'.lm_status = r := by
  have hreplay : ∀ (m : mdt_client_data), m.mcd_last_transno = mti.mti_transno →
      m.mcd_last_result = as_u32 r →
      ∀ (q : ptlrpc_request) (rep : lustre_msg), q.rq_repmsg = some rep →
        ∃ q' rep', mdt_req_from_mcd q m = some q' ∧ q'.rq_repmsg = some rep' ∧
          q'.rq_transno = mti.mti_transno ∧ q'.rq_status = r ∧
          rep'.lm_transno = mti.mti_transno ∧ rep'.lm_status = r := by
    intro m hm1 hm2 q rep hq
    unfold mdt_req_from_mcd
    simp only [hq, hm1, hm2, as_s32_as_u32 r hr1 hr2]
    exact ⟨_, _, rfl, rfl, rfl, rfl, rfl, rfl⟩
  unfold mdt_update_last_rcvd
  simp only [hreq, hexp, hmcd, hnf, Bool.false_eq_true, if_false, hop]
  by_cases hoff : exp.exp_mdt_data.med_lr_off ≤ 0
  · simp only [hoff, if_true]
    refine ⟨_, _, _, _, _, _, rfl, rfl, rfl, rfl, ?_, ?_, ?_, rfl, rfl, ?_, ?_⟩
    · simp [cpu_to_le64, hle]
    · simp [cpu_to_le64, hle]
    · simp [cpu_to_le32, hle]
    · intro hpos; omega
    · exact hreplay _ (by simp [cpu_to_le64, hle]) (by simp [cpu_to_le32, hle])
  · simp only [hoff, if_false]
    refine ⟨_, _, _, _, _, _, rfl, rfl, rfl, rfl, ?_, ?_, ?_, rfl, rfl, ?_, ?_⟩
    · simp [cpu_to_le64, hle]
    · simp [cpu_to_le64, hle]
    · simp [cpu_to_le32, hle]
    · intro _ hwr
      simp [mdt_write_last_rcvd, mdt_write_record, hwr]
    · exact hreplay _ (by simp [cpu_to_le64, hle]) (by simp [cpu_to_le32, hle])

theorem last_rcvd_replay_verbatim_witness :
    ∃ mdt' mti' rc req' exp' mcd',
      mdt_update_last_rcvd lustre_disk_h 128 (mdt_running 43)
        ⟨true, 43, 0, some (req_sample 8 36 exp_sample)⟩ (-22) = some (mdt', mti', rc) ∧
      mti'.mti_req = some req' ∧ req'.rq_export = some exp' ∧
      exp'.exp_mdt_data.med_mcd = some mcd' ∧
      mcd'.mcd_last_transno = 43 ∧ mcd'.mcd_last_xid = 8 ∧
      ∃ q' rep', mdt_req_from_mcd (req_sample 8 36 exp') mcd' = some q' ∧
        q'.rq_repmsg = some rep' ∧ q'.rq_transno = 43 ∧ q'.rq_status = -22 ∧
        rep'.lm_transno = 43 ∧ rep'.lm_status = -22 := by
  obtain ⟨mdt', mti', rc, req', exp', mcd', h, h1, h2, h3, h4, h5, _, _, _, _, h10⟩ :=
    last_rcvd_replay_verbatim lustre_disk_h 128 (mdt_running 43)
      ⟨true, 43, 0, some (req_sample 8 36 exp_sample)⟩ (-22) (req_sample 8 36 exp_sample)
      exp_sample (mcd_sample 65 42 7 0) rfl rfl rfl rfl rfl (by decide) (by decide) (by decide)
  exact ⟨mdt', mti', rc, req', exp', mcd', h, h1, h2, h3, h4, h5,
    h10 (req_sample 8 36 exp') _ rfl⟩

/-- C4, as stated, fails for an export that has failed: the request is committed with
transno 43, xid 8 and result 0, `mdt_update_last_rcvd` returns `-ENOTCONN` without
touching the record, and the reconstruction from the record restores transno 42, the
one stored before. -/
theorem last_rcvd_failed_export_counterexample :
    ((mdt_update_last_rcvd lustre_disk_h 128 (mdt_running 43)
        ⟨true, 43, 0, some (req_sample 8 36 exp_failed_sample)⟩ 0).bind
      (fun r => (mdt_reconstruct_generic r.2.1).map
        (fun mti => (r.2.2, mti.mti_req.map (fun q => q.rq_transno))))) =
      some (-107, some 42) := by
  rfl

/-- On a big-endian host `mdt_req_from_mcd` returns the stored little-endian image: the
request committed with transno 43 is reconstructed with transno `swab64 43`. -/
theorem req_from_mcd_big_endian :
    ((mdt_update_last_rcvd lustre_disk_be 128 (mdt_running 43)
        ⟨true, 43, 0, some (req_sample 8 36 exp_sample)⟩ 0).bind
      (fun r => (mdt_reconstruct_generic r.2.1).map
        (fun mti => mti.mti_req.map (fun q => q.rq_transno)))) =
      some (some 3098476543630901248) := by
  rfl

/-! ### Slot allocation -/

theorem find_zero_from_spec (bitmap : Nat → Bool) (n i : Nat) :
    i ≤ find_zero_from bitmap n i ∧ find_zero_from bitmap n i ≤ i + n ∧
      (∀ j, i ≤ j → j < find_zero_from bitmap n i → bitmap j = true) ∧
      (find_zero_from bitmap n i < i + n → bitmap (find_zero_from bitmap n i) = false) := by
  induction n generalizing i with
  | zero =>
    simp only [find_zero_from]
    exact ⟨le_refl _, le_refl _, fun j h1 h2 => by omega, fun h => by omega⟩
  | succ n ih =>
    unfold find_zero_from
    by_cases hb : bitmap i = true
    · rw [if_pos hb]
      obtain ⟨h1, h2, h3, h4⟩ := ih (i + 1)
      refine ⟨by omega, by omega, fun j hj1 hj2 => ?_, fun h => h4 (by omega)⟩
      by_cases hji : j = i
      · rw [hji]; exact hb
      · exact h3 j (by omega) hj2
    · rw [if_neg hb]
      exact ⟨le_refl _, by omega, fun j h1 h2 => by omega, fun _ => by simpa using hb⟩

/-- `find_first_zero_bit` returns the lowest clear bit below `size`, and `size` when all
bits below `size` are set. -/
theorem find_first_zero_bit_spec (bitmap : Nat → Bool) (size : Nat) :
    find_first_zero_bit bitmap size ≤ size ∧
      (∀ j, j < find_first_zero_bit bitmap size → bitmap j = true) ∧
      (find_first_zero_bit bitmap size < size →
        bitmap (find_first_zero_bit bitmap size) = false) := by
  unfold find_first_zero_bit find_next_zero_bit
  by_cases h0 : size ≤ 0
  · have : size = 0 := by omega
    subst this
    simp
  · rw [if_neg h0]
    obtain ⟨_, h2, h3, h4⟩ := find_zero_from_spec bitmap (size - 0) 0
    simp only [Nat.sub_zero, Nat.zero_add] at h2 h3 h4 ⊢
    exact ⟨h2, fun j hj => h3 j (Nat.zero_le _) hj, h4⟩

theorem find_first_zero_bit_full (bitmap : Nat → Bool) (size : Nat)
    (h : ∀ j, j < size → bitmap j = true) : find_first_zero_bit bitmap size = size := by
  obtain ⟨h1, _, h3⟩ := find_first_zero_bit_spec bitmap size
  by_contra hne
  have hlt : find_first_zero_bit bitmap size < size := by omega
  have := h3 hlt
  rw [h _ hlt] at this
  exact absurd this (by decide)

/-- The loop at `repeat` ends in its first round when it starts from the result of
`find_first_zero_bit`: the fuel is never used up. -/
theorem mdt_client_add_repeat_first (K : mdt_consts) (fail_check : Bool)
    (bitmap : Nat → Bool) (fuel : Nat) :
    mdt_client_add_repeat K fail_check bitmap (fuel + 1)
        (find_first_zero_bit bitmap K.LR_MAX_CLIENTS) =
      if find_first_zero_bit bitmap K.LR_MAX_CLIENTS ≥ K.LR_MAX_CLIENTS ∨ fail_check = true
      then some none else some (some (find_first_zero_bit bitmap K.LR_MAX_CLIENTS)) := by
  unfold mdt_client_add_repeat
  split
  · rfl
  · rename_i hc
    have hlt : find_first_zero_bit bitmap K.LR_MAX_CLIENTS < K.LR_MAX_CLIENTS := by
      by_contra hcon
      exact hc (Or.inl (by omega))
    have hclear := (find_first_zero_bit_spec bitmap K.LR_MAX_CLIENTS).2.2 hlt
    simp [hclear]

/-- C8 (amended): `mdt_client_add` for a new client (`cl_idx == -1`), with the fault
injection point `OBD_FAIL_MDS_CLIENT_ADD` not armed, takes the lowest index below
`LR_MAX_CLIENTS` whose bit is clear; when the 32-bit offset of that slot is not 0 and the
export has its record, it returns with exactly that bit set in addition, `med_lr_idx` the
index and `med_lr_off` the offset `client_start + index * client_size` in 32-bit
arithmetic, which is the plain sum when that fits 32 bits.  When every bit below
`LR_MAX_CLIENTS` is set it returns `-EOVERFLOW` and leaves the device, and so the
bitmap, unchanged. -/
theorem client_add_lowest_free_slot (K : mdt_consts) (e : client_add_env) (mdt : mdt_device)
    (med : mdt_export_data) (hfail : e.fail_check = false) :
    ((∀ j, j < K.LR_MAX_CLIENTS → mdt.mdt_client_bitmap j = true) →
        mdt_client_add K e mdt med (-1) = some (mdt, med, -EOVERFLOW)) ∧
      ((∃ j, j < K.LR_MAX_CLIENTS ∧ mdt.mdt_client_bitmap j = false) →
        ∃ idx, idx < K.LR_MAX_CLIENTS ∧ mdt.mdt_client_bitmap idx = false ∧
          (∀ j, j < idx → mdt.mdt_client_bitmap j = true) ∧
          (le32_to_cpu K mdt.mdt_msd.msd_client_start +
              idx * le16_to_cpu K mdt.mdt_msd.msd_client_size < 2 ^ 32 →
            slot_off K mdt.mdt_msd idx = le32_to_cpu K mdt.mdt_msd.msd_client_start +
              idx * le16_to_cpu K mdt.mdt_msd.msd_client_size) ∧
          ∀ mcd, med.med_mcd = some mcd → 0 < slot_off K mdt.mdt_msd idx →
            ∃ mdt' rc, mdt_client_add K e mdt med (-1) =
                some (mdt', { med with med_lr_idx := (idx : Int),
                                       med_lr_off := (slot_off K mdt.mdt_msd idx : Int) }, rc) ∧
              mdt'.mdt_client_bitmap = set_bit idx mdt.mdt_client_bitmap ∧
              rc = mdt_write_record e.wr K.LR_CLIENT_SIZE) := by
  obtain ⟨h1, h2, h3⟩ := find_first_zero_bit_spec mdt.mdt_client_bitmap K.LR_MAX_CLIENTS
  constructor
  · intro hfull
    have hff := find_first_zero_bit_full _ _ hfull
    unfold mdt_client_add
    simp only [show ¬ ((-1 : Int) ≤ -2) by decide, if_false, decide_True, if_true,
      mdt_client_add_repeat_first]
    simp only [hff, ge_iff_le, le_refl, true_or, if_true]
  · rintro ⟨j, hj, hjb⟩
    have hlt : find_first_zero_bit mdt.mdt_client_bitmap K.LR_MAX_CLIENTS <
        K.LR_MAX_CLIENTS := by
      by_contra hcon
      have heq : find_first_zero_bit mdt.mdt_client_bitmap K.LR_MAX_CLIENTS =
          K.LR_MAX_CLIENTS := by omega
      have := h2 j (by omega)
      rw [hjb] at this
      exact absurd this (by decide)
    refine ⟨_, hlt, h3 hlt, h2, fun hfit => ?_, fun mcd hmcd hoff => ?_⟩
    · unfold slot_off
      exact Nat.mod_eq_of_lt hfit
    · unfold mdt_client_add
      have hnot : ¬ (find_first_zero_bit mdt.mdt_client_bitmap K.LR_MAX_CLIENTS ≥
          K.LR_MAX_CLIENTS ∨ e.fail_check = true) := by
        rw [hfail]
        simp only [Bool.false_eq_true, or_false, ge_iff_le, not_le]
        exact hlt
      have hoff' : (0 : Int) <
          ((slot_off K mdt.mdt_msd
            (find_first_zero_bit mdt.mdt_client_bitmap K.LR_MAX_CLIENTS) : Nat) : Int) := by
        exact_mod_cast hoff
      simp only [show ¬ ((-1 : Int) ≤ -2) by decide, if_false, decide_True, if_true,
        mdt_client_add_repeat_first]
      simp only [hnot, hoff', not_true_eq_false, hmcd, if_false]
      exact ⟨_, _, rfl, rfl, rfl⟩

theorem client_add_lowest_free_slot_witness :
    ∃ idx, idx < 4 ∧ (mdt_running 42).mdt_client_bitmap idx = false ∧
      ∃ mdt' rc, mdt_client_add lustre_disk_small ⟨false, 128⟩ (mdt_running 42)
          ⟨some (mcd_sample 67 0 0 0), 0, 0⟩ (-1) =
            some (mdt', ⟨some (mcd_sample 67 0 0 0), (idx : Int),
              (slot_off lustre_disk_small msd_sample idx : Int)⟩, rc) ∧
        mdt'.mdt_client_bitmap = set_bit idx (mdt_running 42).mdt_client_bitmap := by
  obtain ⟨idx, h1, h2, _, _, h5⟩ :=
    (client_add_lowest_free_slot lustre_disk_small ⟨false, 128⟩ (mdt_running 42)
      ⟨some (mcd_sample 67 0 0 0), 0, 0⟩ rfl).2 ⟨1, by decide, rfl⟩
  refine ⟨idx, h1, h2, ?_⟩
  have hpos : 0 < slot_off lustre_disk_small (mdt_running 42).mdt_msd idx := by
    have : idx < 4 := h1
    interval_cases idx <;> decide
  obtain ⟨mdt', rc, h6, h7, _⟩ := h5 (mcd_sample 67 0 0 0) rfl hpos
  exact ⟨mdt', rc, h6, h7⟩

/-- C8, as stated, fails when the fault injection point `OBD_FAIL_MDS_CLIENT_ADD` fires:
slot 1 is free, and the call returns `-EOVERFLOW` with bit 1 still clear and
`med_lr_idx` not set. -/
theorem client_add_fail_check_counterexample :
    (mdt_running 42).mdt_client_bitmap 1 = false ∧
      (mdt_client_add lustre_disk_small ⟨true, 128⟩ (mdt_running 42)
          ⟨some (mcd_sample 67 0 0 0), -1, 0⟩ (-1)).map
        (fun r => (r.2.2, r.1.mdt_client_bitmap 1, r.2.1.med_lr_idx)) =
        some (-75, false, -1) := by
  exact ⟨rfl, rfl⟩

/-! ### Bitmap and records -/

theorem mdt_write_last_rcvd_bitmap (K : mdt_consts) (wr : Int) (mcd : mdt_client_data)
    (off : Int) (mdt : mdt_device) :
    (mdt_write_last_rcvd K wr mcd off mdt).1.mdt_client_bitmap = mdt.mdt_client_bitmap := rfl

theorem mdt_write_last_rcvd_trace (K : mdt_consts) (wr : Int) (mcd : mdt_client_data)
    (off : Int) (mdt : mdt_device) :
    (mdt_write_last_rcvd K wr mcd off mdt).1.mdt_trace =
      mdt.mdt_trace ++ [mdt_event.write_client off mcd (mdt_write_record wr K.LR_CLIENT_SIZE)] :=
  rfl

theorem mdt_update_server_data_bitmap (K : mdt_consts) (wr : Int) (mdt : mdt_device) :
    (mdt_update_server_data K wr mdt).1.mdt_client_bitmap = mdt.mdt_client_bitmap := rfl

theorem mdt_update_server_data_client (K : mdt_consts) (wr : Int) (mdt : mdt_device) :
    (mdt_update_server_data K wr mdt).1.mdt_last_rcvd.client = mdt.mdt_last_rcvd.client := by
  simp only [mdt_update_server_data, mdt_write_last_rcvd_header]
  split <;> rfl

/-- The path of `mdt_client_free` that reaches the slot: the record is zeroed on disk,
then the bit is cleared, then the header is written. -/
theorem mdt_client_free_zeroing (K : mdt_consts) (wr wr_hdr : Int) (mdt : mdt_device)
    (med : mdt_export_data) (mcd : mdt_client_data) (hmcd : med.med_mcd = some mcd)
    (huuid : cstr mcd.mcd_uuid ≠ cstr mdt.mdt_obd.obd_uuid) (hoff : 0 < med.med_lr_off)
    (hbit : mdt.mdt_client_bitmap med.med_lr_idx.toNat = true) :
    mdt_client_free K wr wr_hdr mdt med =
      some ((mdt_update_server_data K wr_hdr
        { (mdt_write_last_rcvd K wr mcd_zero med.med_lr_off mdt).1 with
          mdt_client_bitmap := clear_bit med.med_lr_idx.toNat mdt.mdt_client_bitmap,
          mdt_trace := (mdt_write_last_rcvd K wr mcd_zero med.med_lr_off mdt).1.mdt_trace ++
            [mdt_event.clear_bit med.med_lr_idx.toNat] }).1,
        { med with med_mcd := none }, 0) := by
  have hoff' : ¬ med.med_lr_off ≤ 0 := by omega
  unfold mdt_client_free
  simp only [hmcd, huuid, if_false, hoff', hbit, Bool.not_true, Bool.false_eq_true,
    mdt_write_last_rcvd_bitmap]

/-- With slots of 64 bytes the write of the record of slot 0 covers the first half of the
record of slot 1, its identity included: for such a header the records of the file are
not apart as the records of the model are. -/
theorem short_slots_overlap :
    ledger_layout_ok lustre_disk_small msd_short_slots ∧
      records_overlap lustre_disk_small (slot_off lustre_disk_small msd_short_slots 0)
        (slot_off lustre_disk_small msd_short_slots 1) = true := by
  exact ⟨⟨by decide, by decide⟩, by decide⟩

/-- C10 (amended): when `mdt_client_free` reaches the slot of an export (it has a record
that is not the server's own, and `med_lr_off > 0`) the bit of the slot must be set, or
the call does not return (`LBUG`); with the bit set the call returns 0 after three
steps in this order: the write of the zeroed record at `med_lr_off`, the clearing of
the bit, the write of the header.  The bit is cleared whatever the zeroing write
returned: when it completed the record of the slot is zero in the file, when it failed
the records of the file are as before and the bit is cleared all the same. -/
theorem client_free_clears_after_zeroing (K : mdt_consts) (wr wr_hdr : Int)
    (mdt : mdt_device) (med : mdt_export_data) (mcd : mdt_client_data)
    (hmcd : med.med_mcd = some mcd)
    (huuid : cstr mcd.mcd_uuid ≠ cstr mdt.mdt_obd.obd_uuid) (hoff : 0 < med.med_lr_off) :
    (mdt.mdt_client_bitmap med.med_lr_idx.toNat = false →
      mdt_client_free K wr wr_hdr mdt med = none) ∧
    (mdt.mdt_client_bitmap med.med_lr_idx.toNat = true →
      ∃ mdt', mdt_client_free K wr wr_hdr mdt med =
          some (mdt', { med with med_mcd := none }, 0) ∧
        mdt'.mdt_client_bitmap = clear_bit med.med_lr_idx.toNat mdt.mdt_client_bitmap ∧
        mdt'.mdt_client_bitmap med.med_lr_idx.toNat = false ∧
        mdt'.mdt_trace = mdt.mdt_trace ++
          [mdt_event.write_client med.med_lr_off mcd_zero
              (mdt_write_record wr K.LR_CLIENT_SIZE),
            mdt_event.clear_bit med.med_lr_idx.toNat,
            mdt_event.write_header
              { mdt.mdt_msd with msd_last_transno := cpu_to_le64 K mdt.mdt_last_transno }
              (mdt_write_record wr_hdr K.LR_SERVER_SIZE)] ∧
        (wr = K.LR_CLIENT_SIZE →
          mdt'.mdt_last_rcvd.client med.med_lr_off.toNat = mcd_zero) ∧
        (wr ≠ K.LR_CLIENT_SIZE → mdt'.mdt_last_rcvd.client = mdt.mdt_last_rcvd.client)) := by
  have hoff' : ¬ med.med_lr_off ≤ 0 := by omega
  constructor
  · intro hbit
    unfold mdt_client_free
    simp only [hmcd, huuid, if_false, hoff', hbit, Bool.not_false, if_true]
  · intro hbit
    refine ⟨_, mdt_client_free_zeroing K wr wr_hdr mdt med mcd hmcd huuid hoff hbit, ?_, ?_,
      ?_, ?_, ?_⟩
    · rw [mdt_update_server_data_bitmap]
    · rw [mdt_update_server_data_bitmap]
      simp only [clear_bit, if_true]
    · simp only [mdt_update_server_data, mdt_write_last_rcvd_header, mdt_write_last_rcvd,
        List.append_assoc, List.singleton_append, List.cons_append, List.nil_append]
    · intro hwr
      rw [mdt_update_server_data_client]
      simp only [mdt_write_last_rcvd, hwr, if_true]
    · intro hwr
      rw [mdt_update_server_data_client]
      simp only [mdt_write_last_rcvd, hwr, if_false]

theorem client_free_clears_after_zeroing_witness :
    ∃ mdt', mdt_client_free lustre_disk_small 128 512 (mdt_running 42)
        exp_sample.exp_mdt_data = some (mdt', ⟨none, 0, 8192⟩, 0) ∧
      mdt'.mdt_client_bitmap 0 = false ∧
      mdt'.mdt_last_rcvd.client 8192 = mcd_zero := by
  obtain ⟨mdt', h1, _, h3, _, h5, _⟩ :=
    (client_free_clears_after_zeroing lustre_disk_small 128 512 (mdt_running 42)
      exp_sample.exp_mdt_data (mcd_sample 65 42 7 0) rfl (by decide) (by decide)).2 rfl
  exact ⟨mdt', h1, h3, h5 rfl⟩

/-- C10, as stated, fails when the zeroing write fails: the write of the zeroed record
of slot 0 returns `-5`, and `mdt_client_free` clears bit 0 all the same and returns 0;
the record of client 65 is still in the file at offset 8192. -/
theorem client_free_failed_write_counterexample :
    (mdt_running 42).mdt_client_bitmap 0 = true ∧
      (mdt_client_free lustre_disk_small (-5) 512 (mdt_running 42)
          exp_sample.exp_mdt_data).map
        (fun r => (r.2.2, r.1.mdt_client_bitmap 0,
          mcd_empty (r.1.mdt_last_rcvd.client 8192), r.1.mdt_trace.take 2)) =
        some (0, false, false,
          [mdt_event.write_client 8192 mcd_zero (-5), mdt_event.clear_bit 0]) := by
  exact ⟨rfl, rfl⟩

/-! ### Loading the ledger -/

/-- What a returning `mdt_client_add` for the client of slot `i` has done. -/
theorem mdt_client_add_known (K : mdt_consts) (e : client_add_env) (mdt mdt1 : mdt_device)
    (med med1 : mdt_export_data) (i : Nat) (rc : Int)
    (h : mdt_client_add K e mdt med (i : Int) = some (mdt1, med1, rc)) :
    mdt1.mdt_msd = mdt.mdt_msd ∧ mdt1.mdt_last_rcvd = mdt.mdt_last_rcvd ∧
      mdt1.mdt_last_transno = mdt.mdt_last_transno ∧ mdt1.mdt_obd = mdt.mdt_obd ∧
      med1 = { med with med_lr_idx := (i : Int),
                        med_lr_off := (slot_off K mdt.mdt_msd i : Int) } ∧
      rc = 0 := by
  unfold mdt_client_add at h
  have hnn : ¬ ((i : Int) ≤ -2) := by omega
  have hnew : ¬ ((i : Int) = -1) := by omega
  simp only [hnn, if_false, hnew, decide_False, Bool.false_eq_true, Int.toNat_ofNat] at h
  split at h
  · simp at h
  · rename_i hslot
    split at hslot <;> simp at hslot
  · rename_i idx hslot
    split at hslot
    · simp at hslot
    · simp only [Option.some.injEq] at hslot
      subst hslot
      split at h
      · simp at h
      · simp only [Option.some.injEq, Prod.mk.injEq] at h
        obtain ⟨h1, h2, h3⟩ := h
        subst h1
        subst h2
        exact ⟨rfl, rfl, rfl, rfl, rfl, h3.symm⟩

theorem init_clients_loop_spec (K : mdt_consts) (e : init_env) (f : last_rcvd_file)
    (msd : mdt_server_data) (t0 : Nat)
    (hfits : ledger_fits K msd f.la_size)
    (hfault : ∀ i, 0 ≤ e.slot_fault i) (hexp : ∀ i, e.export_ok i = true) :
    ∀ (fuel i off : Nat) (have_mcd : Bool) (mdt r : mdt_device),
      mdt.mdt_msd = msd → mdt.mdt_last_rcvd = f →
      ((i = 0 ∧ off = slot_pos K msd 0) ∨
        (0 < i ∧ off = slot_pos K msd (i - 1) + K.LR_CLIENT_SIZE ∧
          slot_pos K msd (i - 1) + K.LR_CLIENT_SIZE ≤ f.la_size)) →
      clients_loaded K msd f t0 i mdt →
      mdt_init_clients_loop K e f.la_size fuel i off have_mcd mdt = some (r, 0) →
      ∃ n, clients_loaded K msd f t0 n r ∧
        ∀ j, n ≤ j → ¬ (slot_pos K msd j + K.LR_CLIENT_SIZE ≤ f.la_size) := by
  obtain ⟨hC, hD, hW⟩ := hfits
  have hmono : ∀ a b, a ≤ b → slot_pos K msd a ≤ slot_pos K msd b := by
    intro a b hab
    unfold slot_pos
    have := Nat.mul_le_mul_right (le16_to_cpu K msd.msd_client_size) hab
    omega
  have hsucc : ∀ a, slot_pos K msd (a + 1) =
      slot_pos K msd a + le16_to_cpu K msd.msd_client_size := by
    intro a
    unfold slot_pos
    rw [Nat.add_mul]
    omega
  intro fuel
  induction fuel with
  | zero =>
    intro i off have_mcd mdt r _ _ _ _ h
    simp [mdt_init_clients_loop] at h
  | succ fuel ih =>
    intro i off have_mcd mdt r hmsd hfile hoff hinv h
    unfold mdt_init_clients_loop at h
    by_cases hlt : off < f.la_size
    · -- the slot is visited
      have hpos : slot_off K mdt.mdt_msd i = slot_pos K msd i := by
        rw [hmsd]
        unfold slot_off
        apply Nat.mod_eq_of_lt
        change slot_pos K msd i < 2 ^ 32
        rcases hoff with ⟨hi, ho⟩ | ⟨hi, ho, _⟩
        · subst hi; omega
        · have := hsucc (i - 1)
          rw [Nat.sub_add_cancel hi] at this
          omega
      simp only [hlt, not_true_eq_false, if_false] at h
      split at h
      · simp [ENOMEM] at h
      · rw [hpos, hfile] at h
        have hrd : dbo_read f (e.slot_fault i) K.LR_CLIENT_SIZE (slot_pos K msd i) =
            ((min K.LR_CLIENT_SIZE (f.la_size - slot_pos K msd i) : Nat) : Int) := by
          unfold dbo_read
          have := hfault i
          rw [if_neg (by omega)]
        rw [hrd] at h
        by_cases hread : mdt_read_record
            ((min K.LR_CLIENT_SIZE (f.la_size - slot_pos K msd i) : Nat) : Int)
            K.LR_CLIENT_SIZE = 0
        · -- the record is read
          have hmin : min K.LR_CLIENT_SIZE (f.la_size - slot_pos K msd i) =
              K.LR_CLIENT_SIZE := by
            unfold mdt_read_record at hread
            by_cases hmin : min K.LR_CLIENT_SIZE (f.la_size - slot_pos K msd i) =
              K.LR_CLIENT_SIZE
            · exact hmin
            · exfalso
              have h1 : ¬ (((min K.LR_CLIENT_SIZE (f.la_size - slot_pos K msd i) : Nat) : Int)
                  = (K.LR_CLIENT_SIZE : Int)) := by
                intro hc
                exact hmin (by exact_mod_cast hc)
              rw [if_neg h1, if_pos (by omega)] at hread
              simp [EFAULT] at hread
          have hin : slot_pos K msd i + K.LR_CLIENT_SIZE ≤ f.la_size := by
            have : K.LR_CLIENT_SIZE ≤ f.la_size - slot_pos K msd i := by
              rw [← hmin]; exact Nat.min_le_right _ _
            omega
          have hoff' : (0 < i + 1 ∧
              slot_pos K msd i + (min K.LR_CLIENT_SIZE (f.la_size - slot_pos K msd i) : Nat) =
                slot_pos K msd (i + 1 - 1) + K.LR_CLIENT_SIZE ∧
              slot_pos K msd (i + 1 - 1) + K.LR_CLIENT_SIZE ≤ f.la_size) := by
            rw [hmin]
            exact ⟨Nat.succ_pos i, rfl, hin⟩
          simp only [hread, ne_eq, not_true_eq_false, if_false, Int.toNat_ofNat] at h
          by_cases hemp : mcd_empty (f.client (slot_pos K msd i)) = true
          · simp only [hemp, if_true] at h
            refine ih (i + 1) _ true mdt r hmsd hfile (Or.inr hoff') ?_ h
            obtain ⟨h1, h2, h3, h4⟩ := hinv
            have hnocc : slot_occupied K msd f i = false := by
              simp [slot_occupied, hemp]
            refine ⟨h1, ?_, ?_, ?_⟩
            · intro j hj hocc
              rcases Nat.lt_succ_iff_lt_or_eq.mp hj with hj | hj
              · exact h2 j hj hocc
              · subst hj; rw [hnocc] at hocc; cases hocc
            · rcases h3 with h3 | ⟨j, hj, hocc, h3⟩
              · exact Or.inl h3
              · exact Or.inr ⟨j, Nat.lt_succ_of_lt hj, hocc, h3⟩
            · intro j hj hocc
              rcases Nat.lt_succ_iff_lt_or_eq.mp hj with hj | hj
              · exact h4 j hj hocc
              · subst hj; rw [hnocc] at hocc; cases hocc
          · simp only [hemp, Bool.false_eq_true, if_false, hexp i, Bool.not_true] at h
            split at h
            · cases h
            · rename_i mdt1 med1 rc hadd
              obtain ⟨a1, a2, a3, a4, a5, a6⟩ := mdt_client_add_known K _ mdt mdt1 _ med1 i rc hadd
              subst a6
              simp only [ne_eq, not_true_eq_false, if_false] at h
              refine ih (i + 1) _ false _ r (by simp only [a1, hmsd]) (by simp only [a2, hfile])
                (Or.inr hoff') ?_ h
              obtain ⟨h1, h2, h3, h4⟩ := hinv
              have hocc_i : slot_occupied K msd f i = true := by
                simp [slot_occupied, hemp, hin]
              simp only [clients_loaded, a3, a4]
              refine ⟨?_, ?_, ?_, ?_⟩
              · split <;> omega
              · intro j hj hocc
                rcases Nat.lt_succ_iff_lt_or_eq.mp hj with hj | hj
                · have := h2 j hj hocc
                  split <;> omega
                · subst hj
                  split <;> omega
              · by_cases hgt : mcd_last_transno K (f.client (slot_pos K msd i)) >
                    mdt.mdt_last_transno
                · rw [if_pos hgt]
                  exact Or.inr ⟨i, Nat.lt_succ_self i, hocc_i, rfl⟩
                · rw [if_neg hgt]
                  rcases h3 with h3 | ⟨j, hj, hocc, h3⟩
                  · exact Or.inl h3
                  · exact Or.inr ⟨j, Nat.lt_succ_of_lt hj, hocc, h3⟩
              · intro j hj hocc
                rcases Nat.lt_succ_iff_lt_or_eq.mp hj with hj | hj
                · obtain ⟨exp, hm, hrest⟩ := h4 j hj hocc
                  exact ⟨exp, List.mem_append_left _ hm, hrest⟩
                · subst hj
                  refine ⟨_, List.mem_append_right _ (List.mem_singleton.mpr rfl), rfl, ?_, ?_,
                    ?_, ?_⟩
                  · rfl
                  · rw [a5]
                  · rw [a5]
                  · rw [a5, hpos]
        · -- the record is not in the file: the loop ends
          simp only [hread, ne_eq, not_false_eq_true, if_true, Option.some.injEq,
            Prod.mk.injEq, and_true] at h
          subst h
          refine ⟨i, hinv, ?_⟩
          intro j hj hcon
          apply hread
          have := hmono i j hj
          have hmin : min K.LR_CLIENT_SIZE (f.la_size - slot_pos K msd i) =
              K.LR_CLIENT_SIZE := Nat.min_eq_left (by omega)
          rw [hmin]
          simp [mdt_read_record]
    · -- the end of the file
      simp only [hlt, not_false_eq_true, if_true, Option.some.injEq, Prod.mk.injEq,
        and_true] at h
      subst h
      refine ⟨i, hinv, ?_⟩
      intro j hj hcon
      rcases hoff with ⟨hi, ho⟩ | ⟨hi, ho, _⟩
      · have := hmono 0 j (Nat.zero_le j)
        omega
      · have h1 := hmono i j hj
        have h2 := hsucc (i - 1)
        rw [Nat.sub_add_cancel hi] at h2
        omega

theorem slot_pos_congr (K : mdt_consts) (a b : mdt_server_data)
    (h1 : a.msd_client_start = b.msd_client_start)
    (h2 : a.msd_client_size = b.msd_client_size) : slot_pos K a = slot_pos K b := by
  funext i
  simp only [slot_pos, h1, h2]

theorem clients_loaded_congr (K : mdt_consts) (a b : mdt_server_data) (f : last_rcvd_file)
    (t0 n : Nat) (mdt : mdt_device) (h : slot_pos K a = slot_pos K b)
    (hl : clients_loaded K a f t0 n mdt) : clients_loaded K b f t0 n mdt := by
  have hocc : slot_occupied K a f = slot_occupied K b f := by
    funext i
    simp only [slot_occupied, h]
  simpa only [clients_loaded, h, hocc] using hl

/-- The part of `mdt_init_server_data` that loads the slots: on success the slots in the
file have been loaded, starting from the sequencer as the header set it. -/
theorem init_server_load_spec (K : mdt_consts) (e : init_env) (mdt1 mdt' : mdt_device)
    (hfits : ledger_fits K mdt1.mdt_msd mdt1.mdt_last_rcvd.la_size)
    (hfault : ∀ i, 0 ≤ e.slot_fault i) (hexp : ∀ i, e.export_ok i = true)
    (h : mdt_init_server_load K e mdt1 mdt1.mdt_last_rcvd.la_size = some (mdt', 0)) :
    ∃ n, clients_loaded K mdt1.mdt_msd mdt1.mdt_last_rcvd mdt1.mdt_last_transno n mdt' ∧
      ∀ j, n ≤ j →
        ¬ (slot_pos K mdt1.mdt_msd j + K.LR_CLIENT_SIZE ≤ mdt1.mdt_last_rcvd.la_size) := by
  unfold mdt_init_server_load at h
  dsimp only at h
  split at h
  · simp [EINVAL] at h
  · split at h
    · cases h
    · rename_i mdt2 rc hload
      split at h
      · rename_i hrc
        simp only [Option.some.injEq, Prod.mk.injEq] at h
        exact absurd h.2 hrc
      · rename_i hrc
        have hrc0 : rc = 0 := by
          by_contra hcon
          exact hrc hcon
        subst hrc0
        obtain ⟨n, hn, hend⟩ := init_clients_loop_spec K e mdt1.mdt_last_rcvd mdt1.mdt_msd
          mdt1.mdt_last_transno hfits hfault hexp _ 0 _ false mdt1 mdt2 rfl rfl
          (Or.inl ⟨rfl, by simp [slot_pos]⟩)
          ⟨Nat.le_refl _, fun j hj => absurd hj (Nat.not_lt_zero j), Or.inl rfl,
            fun j hj => absurd hj (Nat.not_lt_zero j)⟩ hload
        refine ⟨n, ?_, hend⟩
        have key : ∀ x : mdt_device × Int,
            (if x.2 ≠ 0 then some (class_disconnect_exports x.1, x.2) else some (x.1, 0)) =
              some (mdt', (0 : Int)) → mdt' = x.1 := by
          intro x hx
          split at hx
          · rename_i hrc4
            simp only [Option.some.injEq, Prod.mk.injEq] at hx
            exact absurd hx.2 hrc4
          · simp only [Option.some.injEq, Prod.mk.injEq, and_true] at hx
            exact hx.symm
        have hm := key _ h
        have hT : mdt'.mdt_last_transno = mdt2.mdt_last_transno := by rw [hm]; rfl
        have hE : mdt'.mdt_obd.obd_exports = mdt2.mdt_obd.obd_exports := by
          rw [hm]
          simp only [mdt_update_server_data, mdt_write_last_rcvd_header]
          split <;> rfl
        simp only [clients_loaded, hT, hE]
        exact hn

theorem msd_current_format_start (K : mdt_consts) (msd : mdt_server_data) :
    (msd_current_format K msd).msd_client_start = msd.msd_client_start := by
  unfold msd_current_format
  dsimp only
  split <;> rfl

theorem msd_current_format_size (K : mdt_consts) (msd : mdt_server_data) :
    (msd_current_format K msd).msd_client_size = msd.msd_client_size := by
  unfold msd_current_format
  dsimp only
  split <;> rfl

theorem msd_current_format_last_transno (K : mdt_consts) (msd : mdt_server_data) :
    le64_to_cpu K (msd_current_format K msd).msd_last_transno = header_last_transno K msd := by
  unfold msd_current_format header_last_transno
  dsimp only
  split <;> rfl

/-- C7 (amended): when `mdt_init_server_data` returns 0 on an existing ledger file, with
no error in the reads of the client slots, every export creation succeeding and the slot
offsets fitting 32 bits, then `mdt_last_transno` is the maximum of the last transaction
number of the header and the last transno of every occupied slot of the file (it is at
least each of them and equal to one of them), and every occupied slot has an export
flagged `exp_replay_needed` that carries the identity, the record, the index and the
offset of the slot. -/
theorem init_server_data_last_transno (K : mdt_consts) (e : init_env)
    (mdt mdt' : mdt_device)
    (hfile : mdt.mdt_last_rcvd.la_size ≠ 0)
    (hfits : ledger_fits K mdt.mdt_last_rcvd.header mdt.mdt_last_rcvd.la_size)
    (hfault : ∀ i, 0 ≤ e.slot_fault i) (hexp : ∀ i, e.export_ok i = true)
    (h : mdt_init_server_data K e mdt = some (mdt', 0)) :
    header_last_transno K mdt.mdt_last_rcvd.header ≤ mdt'.mdt_last_transno ∧
    (∀ i, slot_occupied K mdt.mdt_last_rcvd.header mdt.mdt_last_rcvd i = true →
      mcd_last_transno K
          (mdt.mdt_last_rcvd.client (slot_pos K mdt.mdt_last_rcvd.header i)) ≤
        mdt'.mdt_last_transno) ∧
    (mdt'.mdt_last_transno = header_last_transno K mdt.mdt_last_rcvd.header ∨
      ∃ i, slot_occupied K mdt.mdt_last_rcvd.header mdt.mdt_last_rcvd i = true ∧
        mdt'.mdt_last_transno = mcd_last_transno K
          (mdt.mdt_last_rcvd.client (slot_pos K mdt.mdt_last_rcvd.header i))) ∧
    (∀ i, slot_occupied K mdt.mdt_last_rcvd.header mdt.mdt_last_rcvd i = true →
      ∃ exp, exp ∈ mdt'.mdt_obd.obd_exports ∧ exp.exp_replay_needed = true ∧
        exp.exp_client_uuid =
          (mdt.mdt_last_rcvd.client (slot_pos K mdt.mdt_last_rcvd.header i)).mcd_uuid ∧
        exp.exp_mdt_data.med_mcd =
          some (mdt.mdt_last_rcvd.client (slot_pos K mdt.mdt_last_rcvd.header i)) ∧
        exp.exp_mdt_data.med_lr_idx = (i : Int) ∧
        exp.exp_mdt_data.med_lr_off = (slot_pos K mdt.mdt_last_rcvd.header i : Int)) := by
  unfold mdt_init_server_data at h
  split at h
  · rename_i hattr
    simp only [Option.some.injEq, Prod.mk.injEq] at h
    exact absurd h.2 hattr
  · dsimp only at h
    rw [if_neg hfile] at h
    split at h
    · rename_i hrc
      simp only [Option.some.injEq, Prod.mk.injEq] at h
      exact absurd h.2 hrc
    · split at h
      · simp [EINVAL] at h
      · unfold mdt_init_server_tail at h
        dsimp only at h
        split at h
        · simp [EINVAL] at h
        · split at h
          · simp [EINVAL] at h
          · have hpos : slot_pos K (msd_current_format K mdt.mdt_last_rcvd.header) =
                slot_pos K mdt.mdt_last_rcvd.header :=
              slot_pos_congr K _ _ (msd_current_format_start K _)
                (msd_current_format_size K _)
            have hfits2 : ledger_fits K (msd_current_format K mdt.mdt_last_rcvd.header)
                mdt.mdt_last_rcvd.la_size := by
              simpa only [ledger_fits, msd_current_format_size] using hfits
            have hspec := fun hf => init_server_load_spec K e _ mdt' hf hfault hexp h
            obtain ⟨n, hn, hend⟩ := hspec hfits2
            have hn2 := clients_loaded_congr K _ mdt.mdt_last_rcvd.header _ _ _ _ hpos hn
            rw [msd_current_format_last_transno] at hn2
            dsimp only at hend
            rw [hpos] at hend
            obtain ⟨h1, h2, h3, h4⟩ := hn2
            have hlt : ∀ i, slot_occupied K mdt.mdt_last_rcvd.header mdt.mdt_last_rcvd i = true →
                i < n := by
              intro i hocc
              by_contra hcon
              apply hend i (by omega)
              simp only [slot_occupied, Bool.and_eq_true, decide_eq_true_eq] at hocc
              exact hocc.1
            refine ⟨h1, fun i hocc => h2 i (hlt i hocc) hocc, ?_,
              fun i hocc => h4 i (hlt i hocc) hocc⟩
            rcases h3 with h3 | ⟨j, _, hocc, h3⟩
            · exact Or.inl h3
            · exact Or.inr ⟨j, hocc, h3⟩

theorem init_server_data_last_transno_witness :
    ∃ mdt', mdt_init_server_data lustre_disk_small init_env_ok mdt_sample = some (mdt', 0) ∧
      42 ≤ mdt'.mdt_last_transno ∧
      ∃ exp, exp ∈ mdt'.mdt_obd.obd_exports ∧ exp.exp_replay_needed = true ∧
        exp.exp_client_uuid = uuid_field [65] := by
  cases hs : mdt_init_server_data lustre_disk_small init_env_ok mdt_sample with
  | none =>
    have hsome : (mdt_init_server_data lustre_disk_small init_env_ok mdt_sample).isSome =
      true := rfl
    rw [hs] at hsome
    cases hsome
  | some r =>
    obtain ⟨mdt', rc⟩ := r
    have hrc : (mdt_init_server_data lustre_disk_small init_env_ok mdt_sample).map
      (fun r => r.2) = some 0 := rfl
    rw [hs] at hrc
    simp only [Option.map_some', Option.some.injEq] at hrc
    subst hrc
    obtain ⟨_, h2, _, h4⟩ := init_server_data_last_transno lustre_disk_small init_env_ok
      mdt_sample mdt' (by decide) ⟨by decide, by decide, by decide⟩ (fun _ => Int.le_refl 0)
      (fun _ => rfl) hs
    obtain ⟨exp, hm, hr, hu, _⟩ := h4 0 (by decide)
    exact ⟨mdt', rfl, h2 0 (by decide), exp, hm, hr, hu⟩

/-- C7, as stated, fails in two ways, each with `mdt_init_server_data` returning 0 on the
sample ledger, whose slot 0 is occupied by a client with last transno 42 while the header
has 41.  When the read of slot 0 returns `-5` the loop ends there (`rc = 0; break`);
when the export of slot 0 cannot be created the slot is skipped (`rc = 0; continue`).
Both times `mdt_last_transno` stays 41 and slot 0 has no export. -/
theorem init_server_data_skipped_slot_counterexample :
    slot_occupied lustre_disk_small last_rcvd_sample.header last_rcvd_sample 0 = true ∧
    mcd_last_transno lustre_disk_small
      (last_rcvd_sample.client (slot_pos lustre_disk_small last_rcvd_sample.header 0)) = 42 ∧
    (mdt_init_server_data lustre_disk_small
        { init_env_ok with slot_fault := fun i => if i = 0 then -5 else 0 } mdt_sample).map
      (fun r => (r.2, r.1.mdt_last_transno, r.1.mdt_obd.obd_exports.map
        (fun x => x.exp_mdt_data.med_lr_idx))) = some (0, 41, []) ∧
    (mdt_init_server_data lustre_disk_small
        { init_env_ok with export_ok := fun i => i != 0 } mdt_sample).map
      (fun r => (r.2, r.1.mdt_last_transno, r.1.mdt_obd.obd_exports.map
        (fun x => x.exp_mdt_data.med_lr_idx))) = some (0, 41, [2]) := by
  exact ⟨rfl, rfl, rfl, rfl⟩

/-- The rounds the model allows are enough: every round of the loop of
`mdt_init_clients_data` moves the file position up, so with one round per byte left in
the file more rounds do not change the result. -/
theorem init_clients_loop_fuel (K : mdt_consts) (e : init_env) (f : last_rcvd_file)
    (msd : mdt_server_data) (hfits : ledger_fits K msd f.la_size)
    (hfault : ∀ i, 0 ≤ e.slot_fault i) :
    ∀ (fuel k i off : Nat) (have_mcd : Bool) (mdt : mdt_device),
      mdt.mdt_msd = msd → mdt.mdt_last_rcvd = f →
      ((i = 0 ∧ off = slot_pos K msd 0) ∨
        (0 < i ∧ off = slot_pos K msd (i - 1) + K.LR_CLIENT_SIZE)) →
      f.la_size ≤ off + fuel →
      mdt_init_clients_loop K e f.la_size (fuel + 1 + k) i off have_mcd mdt =
        mdt_init_clients_loop K e f.la_size (fuel + 1) i off have_mcd mdt := by
  obtain ⟨hC, hD, hW⟩ := hfits
  have hsucc : ∀ a, slot_pos K msd (a + 1) =
      slot_pos K msd a + le16_to_cpu K msd.msd_client_size := by
    intro a
    unfold slot_pos
    rw [Nat.add_mul]
    omega
  intro fuel
  induction fuel with
  | zero =>
    intro k i off have_mcd mdt _ _ _ hle
    have hlt : ¬ off < f.la_size := by omega
    rw [show 0 + 1 + k = k + 1 by omega]
    rw [mdt_init_clients_loop, mdt_init_clients_loop]
    simp only [hlt, not_false_eq_true, if_true]
  | succ fuel ih =>
    intro k i off have_mcd mdt hmsd hfile hoff hle
    rw [show fuel + 1 + 1 + k = (fuel + 1 + k) + 1 by omega]
    rw [mdt_init_clients_loop, mdt_init_clients_loop]
    by_cases hlt : off < f.la_size
    · have hadv : off + 1 ≤ slot_pos K msd i + K.LR_CLIENT_SIZE := by
        rcases hoff with ⟨hi, ho⟩ | ⟨hi, ho⟩
        · subst hi; omega
        · have := hsucc (i - 1)
          rw [Nat.sub_add_cancel hi] at this
          omega
      have hpos : slot_off K mdt.mdt_msd i = slot_pos K msd i := by
        rw [hmsd]
        unfold slot_off
        apply Nat.mod_eq_of_lt
        change slot_pos K msd i < 2 ^ 32
        rcases hoff with ⟨hi, ho⟩ | ⟨hi, ho⟩
        · subst hi; omega
        · have := hsucc (i - 1)
          rw [Nat.sub_add_cancel hi] at this
          omega
      have hrd : dbo_read f (e.slot_fault i) K.LR_CLIENT_SIZE (slot_pos K msd i) =
          ((min K.LR_CLIENT_SIZE (f.la_size - slot_pos K msd i) : Nat) : Int) := by
        unfold dbo_read
        have := hfault i
        rw [if_neg (by omega)]
      simp only [hlt, not_true_eq_false, if_false, hpos, hfile, hrd, Int.toNat_ofNat]
      by_cases hread : mdt_read_record
          ((min K.LR_CLIENT_SIZE (f.la_size - slot_pos K msd i) : Nat) : Int)
          K.LR_CLIENT_SIZE = 0
      · have hmin : min K.LR_CLIENT_SIZE (f.la_size - slot_pos K msd i) =
            K.LR_CLIENT_SIZE := by
          unfold mdt_read_record at hread
          by_cases hmin : min K.LR_CLIENT_SIZE (f.la_size - slot_pos K msd i) =
            K.LR_CLIENT_SIZE
          · exact hmin
          · exfalso
            have h1 : ¬ (((min K.LR_CLIENT_SIZE (f.la_size - slot_pos K msd i) : Nat) : Int)
                = (K.LR_CLIENT_SIZE : Int)) := by
              intro hc
              exact hmin (by exact_mod_cast hc)
            rw [if_neg h1, if_pos (by omega)] at hread
            simp [EFAULT] at hread
        have hrec : ∀ (hv : Bool) (m : mdt_device), m.mdt_msd = msd → m.mdt_last_rcvd = f →
            mdt_init_clients_loop K e f.la_size (fuel + 1 + k) (i + 1)
                (slot_pos K msd i + min K.LR_CLIENT_SIZE (f.la_size - slot_pos K msd i)) hv m =
              mdt_init_clients_loop K e f.la_size (fuel + 1) (i + 1)
                (slot_pos K msd i + min K.LR_CLIENT_SIZE (f.la_size - slot_pos K msd i)) hv m := by
          intro hv m hm1 hm2
          refine ih k (i + 1) _ hv m hm1 hm2 (Or.inr ⟨Nat.succ_pos i, ?_⟩) ?_
          · rw [hmin]; rfl
          · rw [hmin]; omega
        simp only [hread, ne_eq, not_true_eq_false, if_false]
        split
        · rfl
        · by_cases hemp : mcd_empty (f.client (slot_pos K msd i)) = true
          · simp only [hemp, if_true]
            exact hrec true mdt hmsd hfile
          · simp only [hemp, Bool.false_eq_true, if_false]
            split
            · exact hrec true mdt hmsd hfile
            · cases hadd : mdt_client_add K ⟨false, 0⟩ mdt
                  { (class_new_export (f.client (slot_pos K msd i)).mcd_uuid).exp_mdt_data with
                    med_mcd := some (f.client (slot_pos K msd i)) } (i : Int) with
              | none => rfl
              | some r =>
                obtain ⟨mdt1, med1, rc⟩ := r
                obtain ⟨a1, a2, _⟩ := mdt_client_add_known K _ mdt mdt1 _ med1 i rc hadd
                dsimp only
                split
                · rfl
                · exact hrec false _ (by simp only [a1, hmsd]) (by simp only [a2, hfile])
      · simp only [hread, ne_eq, not_false_eq_true, if_true]
    · simp only [hlt, not_false_eq_true, if_true]

/-- `mdt_init_clients_data` gives the result of the loop with any larger number of
rounds. -/
theorem init_clients_data_fuel (K : mdt_consts) (e : init_env) (mdt : mdt_device) (k : Nat)
    (hfits : ledger_fits K mdt.mdt_msd mdt.mdt_last_rcvd.la_size)
    (hfault : ∀ i, 0 ≤ e.slot_fault i) :
    mdt_init_clients_loop K e mdt.mdt_last_rcvd.la_size (mdt.mdt_last_rcvd.la_size + 1 + k) 0
        (le32_to_cpu K mdt.mdt_msd.msd_client_start) false mdt =
      mdt_init_clients_data K e mdt mdt.mdt_last_rcvd.la_size :=
  init_clients_loop_fuel K e mdt.mdt_last_rcvd mdt.mdt_msd hfits hfault _ k 0 _ false mdt rfl rfl
    (Or.inl ⟨rfl, by simp [slot_pos]⟩) (Nat.le_add_left _ _)

/-! ### Feature checks of the header -/

/-- C11: when the attributes and the header of an existing ledger file have been read and
`msd_feature_incompat` of the header has a bit outside `MDT_INCOMPAT_SUPP`,
`mdt_init_server_data` returns `-EINVAL`; the device it leaves is the one it found with
the header in memory: no export has been created, no bit set, nothing written to the
file. -/
theorem init_server_data_incompat_einval (K : mdt_consts) (e : init_env) (mdt : mdt_device)
    (hattr : e.attr_rc = 0) (hfile : mdt.mdt_last_rcvd.la_size ≠ 0)
    (hread : mdt_read_record
      (dbo_read mdt.mdt_last_rcvd e.header_fault K.LR_SERVER_SIZE 0) K.LR_SERVER_SIZE = 0)
    (hbits : bits_outside mdt.mdt_last_rcvd.header.msd_feature_incompat
      (cpu_to_le32 K K.MDT_INCOMPAT_SUPP) ≠ 0) :
    mdt_init_server_data K e mdt =
        some ({ mdt with mdt_msd := mdt.mdt_last_rcvd.header }, -EINVAL) ∧
      ∀ mdt' rc, mdt_init_server_data K e mdt = some (mdt', rc) →
        mdt'.mdt_obd.obd_exports = mdt.mdt_obd.obd_exports ∧
        mdt'.mdt_client_bitmap = mdt.mdt_client_bitmap ∧
        mdt'.mdt_last_rcvd = mdt.mdt_last_rcvd ∧ mdt'.mdt_trace = mdt.mdt_trace := by
  have h : mdt_init_server_data K e mdt =
      some ({ mdt with mdt_msd := mdt.mdt_last_rcvd.header }, -EINVAL) := by
    unfold mdt_init_server_data
    simp only [hattr, ne_eq, not_true_eq_false, if_false, hfile, hread]
    split
    · rfl
    · unfold mdt_init_server_tail
      simp only [hbits, ne_eq, not_false_eq_true, if_true]
  refine ⟨h, ?_⟩
  intro mdt' rc h'
  rw [h] at h'
  simp only [Option.some.injEq, Prod.mk.injEq] at h'
  obtain ⟨h1, _⟩ := h'
  subst h1
  exact ⟨rfl, rfl, rfl, rfl⟩

theorem init_server_data_incompat_einval_witness :
    mdt_init_server_data lustre_disk_small init_env_ok mdt_incompat_sample =
      some ({ mdt_incompat_sample with mdt_msd := mdt_incompat_sample.mdt_last_rcvd.header },
        -EINVAL) :=
  (init_server_data_incompat_einval lustre_disk_small init_env_ok mdt_incompat_sample rfl
    (by decide) (by decide) (by decide)).1

/-- C12 (amended): when the attributes and the header of an existing ledger file have
been read, every bit of `msd_feature_incompat` is in `MDT_INCOMPAT_SUPP` and
`msd_feature_rocompat` has a bit outside `MDT_ROCOMPAT_SUPP`, `mdt_init_server_data`
aborts as it does for an unsupported incompat feature: it returns `-EINVAL`, and the
device it leaves is the one it found with the header in memory. -/
theorem init_server_data_rocompat_einval (K : mdt_consts) (e : init_env) (mdt : mdt_device)
    (hattr : e.attr_rc = 0) (hfile : mdt.mdt_last_rcvd.la_size ≠ 0)
    (hread : mdt_read_record
      (dbo_read mdt.mdt_last_rcvd e.header_fault K.LR_SERVER_SIZE 0) K.LR_SERVER_SIZE = 0)
    (hinc : bits_outside mdt.mdt_last_rcvd.header.msd_feature_incompat
      (cpu_to_le32 K K.MDT_INCOMPAT_SUPP) = 0)
    (hbits : bits_outside mdt.mdt_last_rcvd.header.msd_feature_rocompat
      (cpu_to_le32 K K.MDT_ROCOMPAT_SUPP) ≠ 0) :
    mdt_init_server_data K e mdt =
      some ({ mdt with mdt_msd := mdt.mdt_last_rcvd.header }, -EINVAL) := by
  unfold mdt_init_server_data
  simp only [hattr, ne_eq, not_true_eq_false, if_false, hfile, hread]
  split
  · rfl
  · unfold mdt_init_server_tail
    simp only [hinc, hbits, ne_eq, not_true_eq_false, not_false_eq_true, if_true, if_false]

theorem init_server_data_rocompat_einval_witness :
    mdt_init_server_data lustre_disk_small init_env_ok mdt_rocompat_sample =
      some ({ mdt_rocompat_sample with mdt_msd := mdt_rocompat_sample.mdt_last_rcvd.header },
        -EINVAL) :=
  init_server_data_rocompat_einval lustre_disk_small init_env_ok mdt_rocompat_sample rfl
    (by decide) (by decide) (by decide) (by decide)

/-- C12, as stated, fails: the header of the sample ledger is valid, its incompat bits
are supported and its rocompat field has the bit `0x2` outside `MDT_ROCOMPAT_SUPP`;
every outside call succeeds, and `mdt_init_server_data` returns `-EINVAL` (`-22`) with
no export created and nothing written. -/
theorem init_server_data_rocompat_counterexample :
    bits_outside mdt_rocompat_sample.mdt_last_rcvd.header.msd_feature_incompat
        (cpu_to_le32 lustre_disk_small lustre_disk_small.MDT_INCOMPAT_SUPP) = 0 ∧
      cstr mdt_rocompat_sample.mdt_last_rcvd.header.msd_uuid =
        cstr mdt_rocompat_sample.mdt_obd.obd_uuid ∧
      (mdt_init_server_data lustre_disk_small init_env_ok mdt_rocompat_sample).map
        (fun r => (r.2, r.1.mdt_obd.obd_exports.length, r.1.mdt_trace.length)) =
        some (-22, 0, 0) := by
  exact ⟨by decide, by decide, rfl⟩

/-! ### The record of a client is updated in place -/

/-- `mdt_write_last_rcvd` appends one write of the record at the offset given to the
trace, and changes no other record of the file and not its header. -/
theorem write_last_rcvd_frame (K : mdt_consts) (wr : Int) (mcd : mdt_client_data) (off : Int)
    (mdt : mdt_device) :
    (mdt_write_last_rcvd K wr mcd off mdt).1.mdt_trace =
        mdt.mdt_trace ++ [mdt_event.write_client off mcd (mdt_write_last_rcvd K wr mcd off mdt).2] ∧
      (mdt_write_last_rcvd K wr mcd off mdt).1.mdt_last_rcvd.header = mdt.mdt_last_rcvd.header ∧
      ∀ o, o ≠ off.toNat →
        (mdt_write_last_rcvd K wr mcd off mdt).1.mdt_last_rcvd.client o =
          mdt.mdt_last_rcvd.client o := by
  unfold mdt_write_last_rcvd
  refine ⟨rfl, ?_, ?_⟩
  · simp only []
    split <;> rfl
  · intro o ho
    simp only []
    split
    · simp only [if_neg ho]
    · rfl

/-- C26: `mdt_update_last_rcvd` never changes the identity `mcd_uuid` of the client record
nor the offset `med_lr_off` of the slot, and the only record it writes is the record of
the client, at `med_lr_off`: no other record of the file and not the header is changed.
For a request that is not `MDS_CLOSE` the last-close transno, xid and result keep their
values, for an `MDS_CLOSE` request `mcd_last_transno`, `mcd_last_xid`, `mcd_last_result`
and `mcd_last_data` keep theirs.  For an export that has not failed the other group is
set from the transaction, and with a positive offset the record is written exactly
once. -/
theorem update_last_rcvd_frame (K : mdt_consts) (wr : Int) (mdt : mdt_device)
    (mti : mdt_thread_info) (th_result : Int) (req : ptlrpc_request) (exp : obd_export)
    (mcd : mdt_client_data) (hreq : mti.mti_req = some req) (hexp : req.rq_export = some exp)
    (hmcd : exp.exp_mdt_data.med_mcd = some mcd) :
    ∃ mdt1 mti1 rc req1 exp1 mcd1,
      mdt_update_last_rcvd K wr mdt mti th_result = some (mdt1, mti1, rc) ∧
      mti1.mti_req = some req1 ∧ req1.rq_export = some exp1 ∧
      exp1.exp_mdt_data.med_mcd = some mcd1 ∧
      exp1.exp_mdt_data.med_lr_off = exp.exp_mdt_data.med_lr_off ∧
      mcd1.mcd_uuid = mcd.mcd_uuid ∧
      (req.rq_opc ≠ K.MDS_CLOSE →
        mcd1.mcd_last_close_transno = mcd.mcd_last_close_transno ∧
        mcd1.mcd_last_close_xid = mcd.mcd_last_close_xid ∧
        mcd1.mcd_last_close_result = mcd.mcd_last_close_result) ∧
      (req.rq_opc = K.MDS_CLOSE →
        mcd1.mcd_last_transno = mcd.mcd_last_transno ∧
        mcd1.mcd_last_xid = mcd.mcd_last_xid ∧
        mcd1.mcd_last_result = mcd.mcd_last_result ∧
        mcd1.mcd_last_data = mcd.mcd_last_data) ∧
      (exp.exp_failed = false → req.rq_opc ≠ K.MDS_CLOSE →
        mcd1.mcd_last_transno = cpu_to_le64 K mti.mti_transno ∧
        mcd1.mcd_last_xid = cpu_to_le64 K req.rq_xid ∧
        mcd1.mcd_last_result = cpu_to_le32 K (as_u32 th_result) ∧
        mcd1.mcd_last_data = cpu_to_le32 K mti.mti_opdata) ∧
      (exp.exp_failed = false → req.rq_opc = K.MDS_CLOSE →
        mcd1.mcd_last_close_transno = cpu_to_le64 K mti.mti_transno ∧
        mcd1.mcd_last_close_xid = cpu_to_le64 K req.rq_xid ∧
        mcd1.mcd_last_close_result = cpu_to_le32 K (as_u32 th_result)) ∧
      (mdt1.mdt_trace = mdt.mdt_trace ∨
        mdt1.mdt_trace = mdt.mdt_trace ++
          [mdt_event.write_client exp.exp_mdt_data.med_lr_off mcd1 rc]) ∧
      (exp.exp_failed = false → 0 < exp.exp_mdt_data.med_lr_off →
        mdt1.mdt_trace = mdt.mdt_trace ++
          [mdt_event.write_client exp.exp_mdt_data.med_lr_off mcd1 rc]) ∧
      mdt1.mdt_last_rcvd.header = mdt.mdt_last_rcvd.header ∧
      ∀ o, o ≠ exp.exp_mdt_data.med_lr_off.toNat →
        mdt1.mdt_last_rcvd.client o = mdt.mdt_last_rcvd.client o := by
  unfold mdt_update_last_rcvd
  simp only [hreq, hexp, hmcd]
  by_cases hfail : exp.exp_failed = true
  · rw [if_pos hfail]
    refine ⟨mdt, mti, _, req, exp, mcd, rfl, hreq, hexp, hmcd, rfl, rfl,
      fun _ => ⟨rfl, rfl, rfl⟩, fun _ => ⟨rfl, rfl, rfl, rfl⟩, ?_, ?_, Or.inl rfl, ?_, rfl,
      fun _ _ => rfl⟩
    · intro h; rw [hfail] at h; exact absurd h (by decide)
    · intro h; rw [hfail] at h; exact absurd h (by decide)
    · intro h; rw [hfail] at h; exact absurd h (by decide)
  · rw [if_neg hfail]
    by_cases hoff : exp.exp_mdt_data.med_lr_off ≤ 0
    · rw [if_pos hoff]
      by_cases hclose : req.rq_opc = K.MDS_CLOSE
      · simp only [if_pos hclose]
        exact ⟨_, _, _, _, _, _, rfl, rfl, rfl, rfl, rfl, rfl, fun h => absurd hclose h,
          fun _ => ⟨rfl, rfl, rfl, rfl⟩, fun _ h => absurd hclose h, fun _ _ => ⟨rfl, rfl, rfl⟩,
          Or.inl rfl, fun _ h => absurd h (by omega), rfl, fun _ _ => rfl⟩
      · simp only [if_neg hclose]
        exact ⟨_, _, _, _, _, _, rfl, rfl, rfl, rfl, rfl, rfl, fun _ => ⟨rfl, rfl, rfl⟩,
          fun h => absurd h hclose, fun _ _ => ⟨rfl, rfl, rfl, rfl⟩, fun _ h => absurd h hclose,
          Or.inl rfl, fun _ h => absurd h (by omega), rfl, fun _ _ => rfl⟩
    · rw [if_neg hoff]
      by_cases hclose : req.rq_opc = K.MDS_CLOSE
      · simp only [if_pos hclose]
        obtain ⟨t1, t2, t3⟩ := write_last_rcvd_frame K wr
          { mcd with mcd_last_close_transno := cpu_to_le64 K mti.mti_transno,
                     mcd_last_close_xid := cpu_to_le64 K req.rq_xid,
                     mcd_last_close_result := cpu_to_le32 K (as_u32 th_result) }
          exp.exp_mdt_data.med_lr_off mdt
        exact ⟨_, _, _, _, _, _, rfl, rfl, rfl, rfl, rfl, rfl, fun h => absurd hclose h,
          fun _ => ⟨rfl, rfl, rfl, rfl⟩, fun _ h => absurd hclose h, fun _ _ => ⟨rfl, rfl, rfl⟩,
          Or.inr t1, fun _ _ => t1, t2, t3⟩
      · simp only [if_neg hclose]
        obtain ⟨t1, t2, t3⟩ := write_last_rcvd_frame K wr
          { mcd with mcd_last_transno := cpu_to_le64 K mti.mti_transno,
                     mcd_last_xid := cpu_to_le64 K req.rq_xid,
                     mcd_last_result := cpu_to_le32 K (as_u32 th_result),
                     mcd_last_data := cpu_to_le32 K mti.mti_opdata }
          exp.exp_mdt_data.med_lr_off mdt
        exact ⟨_, _, _, _, _, _, rfl, rfl, rfl, rfl, rfl, rfl, fun _ => ⟨rfl, rfl, rfl⟩,
          fun h => absurd h hclose, fun _ _ => ⟨rfl, rfl, rfl, rfl⟩, fun _ h => absurd h hclose,
          Or.inr t1, fun _ _ => t1, t2, t3⟩

/-- A close request of client 65 with xid 9, committed with transno 44: the record keeps
the identity and the last transno 42 and xid 7 of the client, and it is written once, at
the offset 8192 of the slot. -/
theorem update_last_rcvd_frame_witness :
    ∃ mdt1 mti1 rc mcd1,
      mdt_update_last_rcvd lustre_disk_h 128 (mdt_running 44)
        ⟨true, 44, 0, some (req_sample 9 35 exp_sample)⟩ 0 = some (mdt1, mti1, rc) ∧
      mcd1.mcd_uuid = uuid_field [65] ∧ mcd1.mcd_last_transno = 42 ∧ mcd1.mcd_last_xid = 7 ∧
      mcd1.mcd_last_close_transno = 44 ∧ mcd1.mcd_last_close_xid = 9 ∧
      mdt1.mdt_trace = [mdt_event.write_client 8192 mcd1 rc] := by
  obtain ⟨mdt1, mti1, rc, _, _, mcd1, h, _, _, _, _, h1, _, h2, _, h3, _, h4, _⟩ :=
    update_last_rcvd_frame lustre_disk_h 128 (mdt_running 44)
      ⟨true, 44, 0, some (req_sample 9 35 exp_sample)⟩ 0 (req_sample 9 35 exp_sample)
      exp_sample (mcd_sample 65 42 7 0) rfl rfl rfl
  exact ⟨mdt1, mti1, rc, mcd1, h, h1, (h2 rfl).1, (h2 rfl).2.1, (h3 rfl rfl).1, (h3 rfl rfl).2.1,
    h4 rfl (by decide)⟩

/-! ### The mount count -/

/-- C38: `mdt_init_server_data` on the sample ledger, whose header has the mount count 3,
with every outside call succeeding.  It returns 0, and the mount count it writes back to
the header is not 4: for a device whose `mdt_mount_count` is 0 it is 1, and for a device
whose `mdt_mount_count` is 7 it is 8.  The count read from the header does not enter
the one written, which is `mdt_mount_count` of the device plus one. -/
theorem init_server_data_mount_count :
    le64_to_cpu lustre_disk_small mdt_sample.mdt_last_rcvd.header.msd_mount_count = 3 ∧
      mdt_sample.mdt_mount_count = 0 ∧
      (mdt_init_server_data lustre_disk_small init_env_ok mdt_sample).map
        (fun r => (r.2, r.1.mdt_mount_count,
          le64_to_cpu lustre_disk_small r.1.mdt_msd.msd_mount_count,
          le64_to_cpu lustre_disk_small r.1.mdt_last_rcvd.header.msd_mount_count)) =
        some (0, 1, 1, 1) ∧
      (mdt_init_server_data lustre_disk_small init_env_ok
          { mdt_sample with mdt_mount_count := 7 }).map
        (fun r => (r.2, r.1.mdt_mount_count,
          le64_to_cpu lustre_disk_small r.1.mdt_msd.msd_mount_count,
          le64_to_cpu lustre_disk_small r.1.mdt_last_rcvd.header.msd_mount_count)) =
        some (0, 8, 8, 8) := by
  exact ⟨rfl, rfl, rfl, rfl⟩

/-! ### Empty slots -/

/-- A returning `mdt_client_add` for the client of slot `i` found the bit of the slot
clear and has set it. -/
theorem mdt_client_add_bit (K : mdt_consts) (e : client_add_env) (mdt mdt1 : mdt_device)
    (med med1 : mdt_export_data) (i : Nat) (rc : Int)
    (h : mdt_client_add K e mdt med (i : Int) = some (mdt1, med1, rc)) :
    mdt.mdt_client_bitmap i = false ∧
      mdt1.mdt_client_bitmap = set_bit i mdt.mdt_client_bitmap := by
  unfold mdt_client_add at h
  have hnn : ¬ ((i : Int) ≤ -2) := by omega
  have hnew : ¬ ((i : Int) = -1) := by omega
  simp only [hnn, if_false, hnew, decide_False, Bool.false_eq_true, Int.toNat_ofNat] at h
  split at h
  · simp at h
  · rename_i hslot
    split at hslot <;> simp at hslot
  · rename_i idx hslot
    split at hslot
    · simp at hslot
    · rename_i hbit
      simp only [Option.some.injEq] at hslot
      subst hslot
      split at h
      · simp at h
      · simp only [Option.some.injEq, Prod.mk.injEq] at h
        obtain ⟨h1, _, _⟩ := h
        subst h1
        exact ⟨by simpa using hbit, rfl⟩

/-- The loop of `mdt_init_clients_data` sets the bit and creates the export of every slot
it finds occupied and of no other. -/
theorem init_clients_loop_marks (K : mdt_consts) (e : init_env) (f : last_rcvd_file)
    (msd : mdt_server_data) (b0 : Nat → Bool) (x0 : List obd_export)
    (hfits : ledger_fits K msd f.la_size)
    (hfault : ∀ i, 0 ≤ e.slot_fault i) (hexp : ∀ i, e.export_ok i = true) :
    ∀ (fuel i off : Nat) (have_mcd : Bool) (mdt r : mdt_device),
      mdt.mdt_msd = msd → mdt.mdt_last_rcvd = f →
      ((i = 0 ∧ off = slot_pos K msd 0) ∨
        (0 < i ∧ off = slot_pos K msd (i - 1) + K.LR_CLIENT_SIZE ∧
          slot_pos K msd (i - 1) + K.LR_CLIENT_SIZE ≤ f.la_size)) →
      slots_marked K msd f b0 x0 i mdt →
      mdt_init_clients_loop K e f.la_size fuel i off have_mcd mdt = some (r, 0) →
      ∃ n, slots_marked K msd f b0 x0 n r ∧
        ∀ j, n ≤ j → ¬ (slot_pos K msd j + K.LR_CLIENT_SIZE ≤ f.la_size) := by
  obtain ⟨hC, hD, hW⟩ := hfits
  have hmono : ∀ a b, a ≤ b → slot_pos K msd a ≤ slot_pos K msd b := by
    intro a b hab
    unfold slot_pos
    have := Nat.mul_le_mul_right (le16_to_cpu K msd.msd_client_size) hab
    omega
  have hsucc : ∀ a, slot_pos K msd (a + 1) =
      slot_pos K msd a + le16_to_cpu K msd.msd_client_size := by
    intro a
    unfold slot_pos
    rw [Nat.add_mul]
    omega
  intro fuel
  induction fuel with
  | zero =>
    intro i off have_mcd mdt r _ _ _ _ h
    simp [mdt_init_clients_loop] at h
  | succ fuel ih =>
    intro i off have_mcd mdt r hmsd hfile hoff hinv h
    unfold mdt_init_clients_loop at h
    by_cases hlt : off < f.la_size
    · have hpos : slot_off K mdt.mdt_msd i = slot_pos K msd i := by
        rw [hmsd]
        unfold slot_off
        apply Nat.mod_eq_of_lt
        change slot_pos K msd i < 2 ^ 32
        rcases hoff with ⟨hi, ho⟩ | ⟨hi, ho, _⟩
        · subst hi; omega
        · have := hsucc (i - 1)
          rw [Nat.sub_add_cancel hi] at this
          omega
      simp only [hlt, not_true_eq_false, if_false] at h
      split at h
      · simp [ENOMEM] at h
      · rw [hpos, hfile] at h
        have hrd : dbo_read f (e.slot_fault i) K.LR_CLIENT_SIZE (slot_pos K msd i) =
            ((min K.LR_CLIENT_SIZE (f.la_size - slot_pos K msd i) : Nat) : Int) := by
          unfold dbo_read
          have := hfault i
          rw [if_neg (by omega)]
        rw [hrd] at h
        by_cases hread : mdt_read_record
            ((min K.LR_CLIENT_SIZE (f.la_size - slot_pos K msd i) : Nat) : Int)
            K.LR_CLIENT_SIZE = 0
        · have hmin : min K.LR_CLIENT_SIZE (f.la_size - slot_pos K msd i) =
              K.LR_CLIENT_SIZE := by
            unfold mdt_read_record at hread
            by_cases hmin : min K.LR_CLIENT_SIZE (f.la_size - slot_pos K msd i) =
              K.LR_CLIENT_SIZE
            · exact hmin
            · exfalso
              have h1 : ¬ (((min K.LR_CLIENT_SIZE (f.la_size - slot_pos K msd i) : Nat) : Int)
                  = (K.LR_CLIENT_SIZE : Int)) := by
                intro hc
                exact hmin (by exact_mod_cast hc)
              rw [if_neg h1, if_pos (by omega)] at hread
              simp [EFAULT] at hread
          have hin : slot_pos K msd i + K.LR_CLIENT_SIZE ≤ f.la_size := by
            have : K.LR_CLIENT_SIZE ≤ f.la_size - slot_pos K msd i := by
              rw [← hmin]; exact Nat.min_le_right _ _
            omega
          have hoff' : (0 < i + 1 ∧
              slot_pos K msd i + (min K.LR_CLIENT_SIZE (f.la_size - slot_pos K msd i) : Nat) =
                slot_pos K msd (i + 1 - 1) + K.LR_CLIENT_SIZE ∧
              slot_pos K msd (i + 1 - 1) + K.LR_CLIENT_SIZE ≤ f.la_size) := by
            rw [hmin]
            exact ⟨Nat.succ_pos i, rfl, hin⟩
          simp only [hread, ne_eq, not_true_eq_false, if_false, Int.toNat_ofNat] at h
          by_cases hemp : mcd_empty (f.client (slot_pos K msd i)) = true
          · simp only [hemp, if_true] at h
            refine ih (i + 1) _ true mdt r hmsd hfile (Or.inr hoff') ?_ h
            obtain ⟨h1, h2, new, h3, h4, h5⟩ := hinv
            have hnocc : slot_occupied K msd f i = false := by
              simp [slot_occupied, hemp]
            refine ⟨?_, ?_, new, h3, ?_, ?_⟩
            · intro j
              rw [h1 j]
              by_cases hj : j = i
              · subst hj
                simp [hnocc]
              · have : (j < i + 1) = (j < i) := by
                  apply propext
                  omega
                simp only [this]
            · intro j hj hocc
              rcases Nat.lt_succ_iff_lt_or_eq.mp hj with hj | hj
              · exact h2 j hj hocc
              · subst hj; rw [hnocc] at hocc; cases hocc
            · intro exp hx
              obtain ⟨j, hj, hrest⟩ := h4 exp hx
              exact ⟨j, Nat.lt_succ_of_lt hj, hrest⟩
            · intro j hj hocc
              rcases Nat.lt_succ_iff_lt_or_eq.mp hj with hj | hj
              · exact h5 j hj hocc
              · subst hj; rw [hnocc] at hocc; cases hocc
          · simp only [hemp, Bool.false_eq_true, if_false, hexp i, Bool.not_true] at h
            split at h
            · cases h
            · rename_i mdt1 med1 rc hadd
              obtain ⟨a1, a2, a3, a4, a5, a6⟩ := mdt_client_add_known K _ mdt mdt1 _ med1 i rc hadd
              obtain ⟨b1, b2⟩ := mdt_client_add_bit K _ mdt mdt1 _ med1 i rc hadd
              subst a6
              simp only [ne_eq, not_true_eq_false, if_false] at h
              refine ih (i + 1) _ false _ r (by simp only [a1, hmsd]) (by simp only [a2, hfile])
                (Or.inr hoff') ?_ h
              obtain ⟨h1, h2, new, h3, h4, h5⟩ := hinv
              have hocc_i : slot_occupied K msd f i = true := by
                simp [slot_occupied, hemp, hin]
              have hb0 : b0 i = false := by
                have := h1 i
                rw [b1] at this
                cases hb : b0 i with
                | false => rfl
                | true => rw [hb] at this; simp at this
              simp only [slots_marked, a4, b2]
              refine ⟨?_, ?_, new ++ [_], by rw [h3, List.append_assoc], ?_, ?_⟩
              · intro j
                unfold set_bit
                by_cases hj : j = i
                · subst hj
                  simp [hocc_i]
                · rw [if_neg hj, h1 j]
                  have : (j < i + 1) = (j < i) := by
                    apply propext
                    omega
                  simp only [this]
              · intro j hj hocc
                rcases Nat.lt_succ_iff_lt_or_eq.mp hj with hj | hj
                · exact h2 j hj hocc
                · subst hj; exact hb0
              · intro exp hx
                rcases List.mem_append.1 hx with hx | hx
                · obtain ⟨j, hj, hrest⟩ := h4 exp hx
                  exact ⟨j, Nat.lt_succ_of_lt hj, hrest⟩
                · rw [List.mem_singleton] at hx
                  subst hx
                  exact ⟨i, Nat.lt_succ_self i, hocc_i, by rw [a5]⟩
              · intro j hj hocc
                rcases Nat.lt_succ_iff_lt_or_eq.mp hj with hj | hj
                · obtain ⟨exp, hm, hrest⟩ := h5 j hj hocc
                  exact ⟨exp, List.mem_append_left _ hm, hrest⟩
                · subst hj
                  exact ⟨_, List.mem_append_right _ (List.mem_singleton.mpr rfl),
                    by rw [a5], rfl⟩
        · simp only [hread, ne_eq, not_false_eq_true, if_true, Option.some.injEq,
            Prod.mk.injEq, and_true] at h
          subst h
          refine ⟨i, hinv, ?_⟩
          intro j hj hcon
          apply hread
          have := hmono i j hj
          have hmin : min K.LR_CLIENT_SIZE (f.la_size - slot_pos K msd i) =
              K.LR_CLIENT_SIZE := Nat.min_eq_left (by omega)
          rw [hmin]
          simp [mdt_read_record]
    · simp only [hlt, not_false_eq_true, if_true, Option.some.injEq, Prod.mk.injEq,
        and_true] at h
      subst h
      refine ⟨i, hinv, ?_⟩
      intro j hj hcon
      rcases hoff with ⟨hi, ho⟩ | ⟨hi, ho, _⟩
      · have := hmono 0 j (Nat.zero_le j)
        omega
      · have h1 := hmono i j hj
        have h2 := hsucc (i - 1)
        rw [Nat.sub_add_cancel hi] at h2
        omega

/-- C33 (amended): when `mdt_init_clients_data` returns 0, with no error in the reads of
the slots, every export creation succeeding and the slot offsets fitting 32 bits, then
for every slot whose record lies in the file: if the first byte of the identity field
of the slot is zero, as it is when the field consists entirely of zero bytes, the bit of
the slot is as it was and none of the exports created has the index of the slot; and if
the first byte is not zero, the bit of the slot was clear and is set, and one of the
exports created has the index and the identity of the slot. -/
theorem init_clients_data_empty_slot (K : mdt_consts) (e : init_env) (mdt r : mdt_device)
    (hfits : ledger_fits K mdt.mdt_msd mdt.mdt_last_rcvd.la_size)
    (hfault : ∀ i, 0 ≤ e.slot_fault i) (hexp : ∀ i, e.export_ok i = true)
    (h : mdt_init_clients_data K e mdt mdt.mdt_last_rcvd.la_size = some (r, 0)) :
    ∃ new, r.mdt_obd.obd_exports = mdt.mdt_obd.obd_exports ++ new ∧
      ∀ i, slot_pos K mdt.mdt_msd i + K.LR_CLIENT_SIZE ≤ mdt.mdt_last_rcvd.la_size →
        ((mdt.mdt_last_rcvd.client (slot_pos K mdt.mdt_msd i)).mcd_uuid.headD 0 = 0 →
          r.mdt_client_bitmap i = mdt.mdt_client_bitmap i ∧
          ∀ exp ∈ new, exp.exp_mdt_data.med_lr_idx ≠ (i : Int)) ∧
        ((∀ b ∈ (mdt.mdt_last_rcvd.client (slot_pos K mdt.mdt_msd i)).mcd_uuid, b = 0) →
          r.mdt_client_bitmap i = mdt.mdt_client_bitmap i ∧
          ∀ exp ∈ new, exp.exp_mdt_data.med_lr_idx ≠ (i : Int)) ∧
        ((mdt.mdt_last_rcvd.client (slot_pos K mdt.mdt_msd i)).mcd_uuid.headD 0 ≠ 0 →
          mdt.mdt_client_bitmap i = false ∧ r.mdt_client_bitmap i = true ∧
          ∃ exp ∈ new, exp.exp_mdt_data.med_lr_idx = (i : Int) ∧
            exp.exp_client_uuid =
              (mdt.mdt_last_rcvd.client (slot_pos K mdt.mdt_msd i)).mcd_uuid) := by
  unfold mdt_init_clients_data at h
  obtain ⟨n, ⟨h1, h2, new, h3, h4, h5⟩, hend⟩ :=
    init_clients_loop_marks K e mdt.mdt_last_rcvd mdt.mdt_msd mdt.mdt_client_bitmap
      mdt.mdt_obd.obd_exports hfits hfault hexp _ 0 _ false mdt r rfl rfl
      (Or.inl ⟨rfl, by simp [slot_pos]⟩)
      ⟨by intro j; simp, by intro j hj; omega, [], by simp, by simp,
        by intro j hj; omega⟩ h
  refine ⟨new, h3, ?_⟩
  intro i hin
  have hlt : i < n := by
    by_contra hcon
    exact hend i (by omega) hin
  have hempty : (mdt.mdt_last_rcvd.client (slot_pos K mdt.mdt_msd i)).mcd_uuid.headD 0 = 0 →
      r.mdt_client_bitmap i = mdt.mdt_client_bitmap i ∧
      ∀ exp ∈ new, exp.exp_mdt_data.med_lr_idx ≠ (i : Int) := by
    intro hz
    have hme : mcd_empty (mdt.mdt_last_rcvd.client (slot_pos K mdt.mdt_msd i)) = true := by
      unfold mcd_empty
      rw [hz]
      rfl
    have hnocc : slot_occupied K mdt.mdt_msd mdt.mdt_last_rcvd i = false := by
      simp [slot_occupied, hme]
    refine ⟨by rw [h1 i, hnocc]; simp, ?_⟩
    intro exp hx hc
    obtain ⟨j, _, hocc, hidx⟩ := h4 exp hx
    rw [hc] at hidx
    have : i = j := by exact_mod_cast hidx
    subst this
    rw [hnocc] at hocc
    cases hocc
  refine ⟨hempty, ?_, ?_⟩
  · intro hall
    apply hempty
    cases hu : (mdt.mdt_last_rcvd.client (slot_pos K mdt.mdt_msd i)).mcd_uuid with
    | nil => rfl
    | cons b rest =>
      rw [hu] at hall
      exact hall b (List.mem_cons_self _ _)
  · intro hnz
    have hme : mcd_empty (mdt.mdt_last_rcvd.client (slot_pos K mdt.mdt_msd i)) = false := by
      unfold mcd_empty
      exact beq_eq_false_iff_ne.2 hnz
    have hocc : slot_occupied K mdt.mdt_msd mdt.mdt_last_rcvd i = true := by
      simp [slot_occupied, hme, hin]
    refine ⟨h2 i hlt hocc, ?_, h5 i hlt hocc⟩
    rw [h1 i, hocc]
    simp [hlt]

/-- On the sample ledger slot 1, whose identity is all zero, gets no bit and no export,
and slot 0, the one of client 65, gets both. -/
theorem init_clients_data_empty_slot_witness :
    ∃ r new, mdt_init_clients_data lustre_disk_small init_env_ok mdt_header_read
        mdt_header_read.mdt_last_rcvd.la_size = some (r, 0) ∧
      r.mdt_obd.obd_exports = mdt_header_read.mdt_obd.obd_exports ++ new ∧
      r.mdt_client_bitmap 1 = false ∧
      (∀ exp ∈ new, exp.exp_mdt_data.med_lr_idx ≠ 1) ∧
      r.mdt_client_bitmap 0 = true ∧
      ∃ exp ∈ new, exp.exp_mdt_data.med_lr_idx = 0 ∧ exp.exp_client_uuid = uuid_field [65] := by
  cases hs : mdt_init_clients_data lustre_disk_small init_env_ok mdt_header_read
      mdt_header_read.mdt_last_rcvd.la_size with
  | none =>
    have hsome : (mdt_init_clients_data lustre_disk_small init_env_ok mdt_header_read
      mdt_header_read.mdt_last_rcvd.la_size).isSome = true := rfl
    rw [hs] at hsome
    cases hsome
  | some p =>
    obtain ⟨r, rc⟩ := p
    have hrc : (mdt_init_clients_data lustre_disk_small init_env_ok mdt_header_read
      mdt_header_read.mdt_last_rcvd.la_size).map (fun p => p.2) = some 0 := rfl
    rw [hs] at hrc
    simp only [Option.map_some', Option.some.injEq] at hrc
    subst hrc
    obtain ⟨new, hnew, hall⟩ := init_clients_data_empty_slot lustre_disk_small init_env_ok
      mdt_header_read r ⟨by decide, by decide, by decide⟩ (fun _ => Int.le_refl 0)
      (fun _ => rfl) hs
    obtain ⟨e1, _, _⟩ := hall 1 (by decide)
    obtain ⟨_, _, o0⟩ := hall 0 (by decide)
    obtain ⟨z1, z2⟩ := e1 (by decide)
    obtain ⟨_, s2, s3⟩ := o0 (by decide)
    exact ⟨r, new, rfl, hnew, z1, z2, s2, s3⟩

/-- C33, as stated, fails: slot 1 of this ledger has an identity field that does not
consist entirely of zero bytes (its second byte is 67), but its first byte is zero, and
`mdt_init_clients_data` treats the slot as empty: it returns 0 with the bit of slot 1
clear and exports for the slots 0 and 2 only. -/
theorem init_clients_data_first_byte_counterexample :
    (last_rcvd_nul_sample.client (slot_pos lustre_disk_small msd_sample 1)).mcd_uuid =
        0 :: 67 :: List.replicate 38 0 ∧
      (mdt_init_clients_data lustre_disk_small init_env_ok
          { mdt_header_read with mdt_last_rcvd := last_rcvd_nul_sample }
          last_rcvd_nul_sample.la_size).map
        (fun r => (r.2, r.1.mdt_client_bitmap 0, r.1.mdt_client_bitmap 1,
          r.1.mdt_client_bitmap 2,
          r.1.mdt_obd.obd_exports.map (fun x => x.exp_mdt_data.med_lr_idx))) =
        some (0, true, false, true, [0, 2]) := by
  exact ⟨rfl, rfl⟩

/-! ## Theorems: PtlRPC -/

/-! ### Reply events -/

/-- C27: `reply_in_callback` accepts only a PUT event: for it the reply location becomes
the start of the buffer plus the offset of the event, the waiter on `rq_wait_for_rep` is
woken once, and the callback returns 1.  Every other event type ends in `LBUG()`, with
the request, and so its reply location, as it was. -/
theorem reply_in_callback_put_only (ev : ptl_event_t) (rpc : ptlrpc_reply_request) :
    (ev.type = .PTL_EVENT_PUT →
        reply_in_callback ev rpc =
          .returned { rq_repmsg := some (ev.mem_desc_start + ev.offset),
                      rq_wait_for_rep := rpc.rq_wait_for_rep + 1 } 1) ∧
      (ev.type ≠ .PTL_EVENT_PUT → reply_in_callback ev rpc = .lbug rpc) := by
  unfold reply_in_callback
  constructor
  · intro h
    rw [if_pos h]
  · intro h
    rw [if_neg h]

/-- A reply put at offset 64 of the buffer at 4096 is found at 4160; a SENT event on the
reply buffer is fatal and leaves the reply location unset. -/
theorem reply_in_callback_put_only_witness :
    reply_in_callback ⟨.PTL_EVENT_PUT, 4096, 64⟩ ⟨none, 0⟩ = .returned ⟨some 4160, 1⟩ 1 ∧
      reply_in_callback ⟨.PTL_EVENT_SENT, 4096, 64⟩ ⟨none, 0⟩ = .lbug ⟨none, 0⟩ :=
  ⟨(reply_in_callback_put_only ⟨.PTL_EVENT_PUT, 4096, 64⟩ ⟨none, 0⟩).1 rfl,
    (reply_in_callback_put_only ⟨.PTL_EVENT_SENT, 4096, 64⟩ ⟨none, 0⟩).2 (by decide)⟩

/-! ### Sending a buffer -/

/-- C28: `ptl_send_buf`, called with a connection and a portal that is not 0, returns 0
whenever binding the MD succeeds, also when the `PtlPut` that follows fails: then it
unlinks the MD it has bound, the one call `PtlMDUnlink` that is asserted to succeed, so
that completion is reported through the unlink event.  It returns `-ENOMEM` only when the
bind itself fails, and then neither a put nor an unlink is issued. -/
theorem send_buf_returns_zero (R : ptlrpc_consts) (e : send_buf_env) (base : Nat) (len : Int)
    (ack : ptl_ack_req_t) (cbid : Nat) (c : ptlrpc_connection) (portal : Int) (xid : Nat)
    (hportal : portal ≠ 0) :
    (e.bind_rc = .PTL_OK → e.put_rc = .PTL_OK →
        ∃ r md ack1, ptl_send_buf R e base len ack cbid (some c) portal xid = some r ∧
          r.rc = 0 ∧ r.mdh = some e.bind_mdh ∧
          r.calls = [.PtlMDBind c.pni_ni_h md .PTL_OK,
            .PtlPut e.bind_mdh ack1 c.peer_id portal xid .PTL_OK]) ∧
      (e.bind_rc = .PTL_OK → e.put_rc ≠ .PTL_OK → e.unlink_rc = .PTL_OK →
        ∃ r md ack1, ptl_send_buf R e base len ack cbid (some c) portal xid = some r ∧
          r.rc = 0 ∧ r.mdh = some e.bind_mdh ∧
          r.calls = [.PtlMDBind c.pni_ni_h md .PTL_OK,
            .PtlPut e.bind_mdh ack1 c.peer_id portal xid e.put_rc,
            .PtlMDUnlink e.bind_mdh .PTL_OK]) ∧
      (e.bind_rc = .PTL_NO_SPACE →
        ∃ r md, ptl_send_buf R e base len ack cbid (some c) portal xid = some r ∧
          r.rc = -ENOMEM ∧ r.calls = [.PtlMDBind c.pni_ni_h md .PTL_NO_SPACE]) ∧
      (∀ r, ptl_send_buf R e base len ack cbid (some c) portal xid = some r →
        (r.rc = 0 ∧ e.bind_rc = .PTL_OK) ∨
          (r.rc = -ENOMEM ∧ e.bind_rc ≠ .PTL_OK ∧
            ∃ md, r.calls = [.PtlMDBind c.pni_ni_h md e.bind_rc])) := by
  refine ⟨?_, ?_, ?_, ?_⟩
  · intro hb hp
    unfold ptl_send_buf
    simp only [if_neg hportal, hb, hp, ne_eq, not_true_eq_false, if_false]
    exact ⟨_, _, _, rfl, rfl, rfl, rfl⟩
  · intro hb hp hu
    unfold ptl_send_buf
    simp only [if_neg hportal, hb, hu, ne_eq, not_true_eq_false, if_false, hp,
      not_false_eq_true, if_true]
    exact ⟨_, _, _, rfl, rfl, rfl, rfl⟩
  · intro hb
    unfold ptl_send_buf
    have hne : ptl_err_t.PTL_NO_SPACE ≠ ptl_err_t.PTL_OK := by decide
    simp only [if_neg hportal, hb, if_pos hne, if_true]
    exact ⟨_, _, rfl, rfl, rfl⟩
  · intro r hr
    unfold ptl_send_buf at hr
    simp only [if_neg hportal] at hr
    by_cases hb : e.bind_rc = .PTL_OK
    · left
      simp only [hb, ne_eq, not_true_eq_false, if_false] at hr
      refine ⟨?_, hb⟩
      split at hr
      · split at hr
        · cases hr; rfl
        · cases hr
      · cases hr; rfl
    · right
      simp only [ne_eq, hb, not_false_eq_true, if_true] at hr
      split at hr
      · cases hr
        exact ⟨rfl, hb, _, rfl⟩
      · cases hr

/-- A reply is sent with an acknowledgement asked for and `PtlPut` fails: the call binds,
puts, unlinks the MD 5 and returns 0. -/
theorem send_buf_returns_zero_witness :
    ∃ r md ack1,
      ptl_send_buf ⟨0⟩ ⟨false, .PTL_OK, 5, .PTL_FAIL 3, .PTL_OK⟩ 4096 128 .PTL_ACK_REQ 1
        (some ⟨2, 3, 4⟩) 10 8 = some r ∧
      r.rc = 0 ∧ r.mdh = some 5 ∧
      r.calls = [.PtlMDBind 2 md .PTL_OK, .PtlPut 5 ack1 4 10 8 (.PTL_FAIL 3),
        .PtlMDUnlink 5 .PTL_OK] :=
  (send_buf_returns_zero ⟨0⟩ ⟨false, .PTL_OK, 5, .PTL_FAIL 3, .PTL_OK⟩ 4096 128 .PTL_ACK_REQ 1
    ⟨2, 3, 4⟩ 10 8 (by decide)).2.1 rfl (by decide) rfl

/-! ### Aborting a bulk transfer -/

/-- `l_wait_event` returns 0 exactly when the descriptor is not in flight. -/
theorem l_wait_event_zero (desc : ptlrpc_bulk_desc) :
    l_wait_event (!ptlrpc_bulk_active desc) = 0 ↔ ptlrpc_bulk_active desc = false := by
  unfold l_wait_event
  cases ptlrpc_bulk_active desc <;> simp [ETIMEDOUT]

/-- The other code of `l_wait_event` is `-ETIMEDOUT`. -/
theorem l_wait_event_timeout (condition : Bool) :
    l_wait_event condition = 0 ∨ l_wait_event condition = -ETIMEDOUT := by
  unfold l_wait_event
  cases condition <;> simp

/-- The wait ends only with a descriptor that is not in flight. -/
theorem bulk_wait_inactive (rounds : Nat → ptlrpc_bulk_desc → ptlrpc_bulk_desc)
    (unlinked : List Nat) :
    ∀ (fuel k : Nat) (desc desc1 : ptlrpc_bulk_desc) (u : List Nat),
      bulk_wait rounds unlinked fuel k desc = .returned desc1 u →
      ptlrpc_bulk_active desc1 = false := by
  intro fuel
  induction fuel with
  | zero => intro k desc desc1 u h; simp [bulk_wait] at h
  | succ fuel ih =>
    intro k desc desc1 u h
    unfold bulk_wait at h
    simp only at h
    split at h
    · rename_i hact
      cases h
      exact (l_wait_event_zero _).1 hact
    · split at h
      · cases h
      · exact ih _ _ _ _ h

/-- The wait ends once the descriptor is taken off the network: `n + 1` rounds are enough
when it is not in flight after them. -/
theorem bulk_wait_enough (rounds : Nat → ptlrpc_bulk_desc → ptlrpc_bulk_desc)
    (unlinked : List Nat) :
    ∀ (n j fuel : Nat) (desc : ptlrpc_bulk_desc), n < fuel →
      ptlrpc_bulk_active (bulk_after rounds j (n + 1) desc) = false →
      ∃ desc1, bulk_wait rounds unlinked fuel j desc = .returned desc1 unlinked := by
  intro n
  induction n with
  | zero =>
    intro j fuel desc hf h
    obtain ⟨fuel1, rfl⟩ : ∃ f, fuel = f + 1 := ⟨fuel - 1, by omega⟩
    unfold bulk_wait
    simp only [bulk_after] at h
    simp only [(l_wait_event_zero _).2 h, if_true]
    exact ⟨_, rfl⟩
  | succ n ih =>
    intro j fuel desc hf h
    obtain ⟨fuel1, rfl⟩ : ∃ f, fuel = f + 1 := ⟨fuel - 1, by omega⟩
    unfold bulk_wait
    simp only
    split
    · exact ⟨_, rfl⟩
    · rename_i hrc
      have ht := (l_wait_event_timeout (!ptlrpc_bulk_active (rounds j desc))).resolve_left hrc
      rw [if_neg (fun hne => hne ht)]
      exact ih (j + 1) fuel1 (rounds j desc) (by omega) h

/-- C29: `ptlrpc_abort_bulk` and `ptlrpc_unregister_bulk` are idempotent.  Called on a
descriptor that is not in flight they return at once, without a call of `PtlMDUnlink` and
with the descriptor unchanged.  Whenever they return the descriptor is not in flight, so
that a second call right after the first returns at once and changes nothing.  They
return as soon as the descriptor has been taken off the network. -/
theorem bulk_abort_idempotent (rounds rounds2 : Nat → ptlrpc_bulk_desc → ptlrpc_bulk_desc)
    (fuel fuel2 : Nat) (desc : ptlrpc_bulk_desc) (req : ptlrpc_bulk_request) :
    (ptlrpc_bulk_active desc = false →
        ptlrpc_abort_bulk false rounds fuel desc = .returned desc []) ∧
      (ptlrpc_bulk_active req.rq_bulk = false →
        ptlrpc_unregister_bulk false rounds fuel req = .returned req.rq_bulk []) ∧
      (∀ desc1 unlinked, ptlrpc_abort_bulk false rounds fuel desc = .returned desc1 unlinked →
        ptlrpc_bulk_active desc1 = false ∧
          ptlrpc_abort_bulk false rounds2 fuel2 desc1 = .returned desc1 []) ∧
      (∀ desc1 unlinked,
        ptlrpc_unregister_bulk false rounds fuel req = .returned desc1 unlinked →
        ptlrpc_bulk_active desc1 = false ∧
          ptlrpc_unregister_bulk false rounds2 fuel2 { req with rq_bulk := desc1 } =
            .returned desc1 []) ∧
      (∀ n, n < fuel → ptlrpc_bulk_active (bulk_after rounds 0 (n + 1) desc) = false →
        ∃ desc1 unlinked, ptlrpc_abort_bulk false rounds fuel desc = .returned desc1 unlinked) ∧
      (∀ n, n < fuel → req.rq_bulk.bd_req = some req.rq_addr →
        ptlrpc_bulk_active (bulk_after rounds 0 (n + 1) req.rq_bulk) = false →
        ∃ desc1 unlinked,
          ptlrpc_unregister_bulk false rounds fuel req = .returned desc1 unlinked) := by
  have idle : ∀ (r : Nat → ptlrpc_bulk_desc → ptlrpc_bulk_desc) (f : Nat)
      (d : ptlrpc_bulk_desc), ptlrpc_bulk_active d = false →
      ptlrpc_abort_bulk false r f d = .returned d [] := by
    intro r f d h
    unfold ptlrpc_abort_bulk
    simp [h]
  have idle2 : ∀ (r : Nat → ptlrpc_bulk_desc → ptlrpc_bulk_desc) (f : Nat)
      (q : ptlrpc_bulk_request), ptlrpc_bulk_active q.rq_bulk = false →
      ptlrpc_unregister_bulk false r f q = .returned q.rq_bulk [] := by
    intro r f q h
    unfold ptlrpc_unregister_bulk
    simp [h]
  refine ⟨idle rounds fuel desc, idle2 rounds fuel req, ?_, ?_, ?_, ?_⟩
  · intro desc1 unlinked h
    have hin : ptlrpc_bulk_active desc1 = false := by
      unfold ptlrpc_abort_bulk at h
      simp only [Bool.false_eq_true, if_false] at h
      split at h
      · rename_i hact
        cases h
        simpa using hact
      · exact bulk_wait_inactive rounds _ fuel 0 desc _ _ h
    exact ⟨hin, idle rounds2 fuel2 desc1 hin⟩
  · intro desc1 unlinked h
    have hin : ptlrpc_bulk_active desc1 = false := by
      unfold ptlrpc_unregister_bulk at h
      simp only [Bool.false_eq_true, if_false] at h
      split at h
      · rename_i hact
        cases h
        simpa using hact
      · split at h
        · cases h
        · exact bulk_wait_inactive rounds _ fuel 0 req.rq_bulk _ _ h
    exact ⟨hin, idle2 rounds2 fuel2 { req with rq_bulk := desc1 } hin⟩
  · intro n hn h
    obtain ⟨d, hd⟩ := bulk_wait_enough rounds [desc.bd_md_h] n 0 fuel desc hn h
    unfold ptlrpc_abort_bulk
    simp only [Bool.false_eq_true, if_false, hd]
    split
    · exact ⟨_, _, rfl⟩
    · exact ⟨_, _, rfl⟩
  · intro n hn hreq h
    obtain ⟨d, hd⟩ := bulk_wait_enough rounds [req.rq_bulk.bd_md_h] n 0 fuel req.rq_bulk hn h
    unfold ptlrpc_unregister_bulk
    simp only [Bool.false_eq_true, if_false, hd, hreq, ne_eq, not_true_eq_false]
    split
    · exact ⟨_, _, rfl⟩
    · exact ⟨_, _, rfl⟩

/-- The descriptor of the sample is aborted while it is in flight: the MD 77 is unlinked
once, the third wait ends with the descriptor off the network, and a second call does
nothing. -/
theorem bulk_abort_idempotent_witness :
    ptlrpc_abort_bulk false bulk_rounds_sample 5 bulk_desc_sample =
        .returned { bulk_desc_sample with bd_network_rw := false, bd_success := true } [77] ∧
      ptlrpc_abort_bulk false bulk_rounds_sample 5
          { bulk_desc_sample with bd_network_rw := false, bd_success := true } =
        .returned { bulk_desc_sample with bd_network_rw := false, bd_success := true } [] ∧
      ptlrpc_unregister_bulk false bulk_rounds_sample 5
          ⟨500, 8, none, { bulk_desc_sample with bd_network_rw := false, bd_success := true }⟩ =
        .returned { bulk_desc_sample with bd_network_rw := false, bd_success := true } [] :=
  have h := bulk_abort_idempotent bulk_rounds_sample bulk_rounds_sample 5 5 bulk_desc_sample
    ⟨500, 8, none, { bulk_desc_sample with bd_network_rw := false, bd_success := true }⟩
  ⟨by decide, (h.2.2.1 _ [77] (by decide)).2, h.2.1 rfl⟩

/-! ### Bulk events -/

theorem or_and_self_right (a b : Nat) : (a ||| b) &&& b = b := by
  apply Nat.eq_of_testBit_eq
  intro i
  simp only [Nat.testBit_and, Nat.testBit_or]
  cases a.testBit i <;> cases b.testBit i <;> rfl

/-- C35: `bulk_source_callback` returns on a SENT event with the descriptor as it was, so
without `PTL_BULK_FL_SENT` unless that was set before and without waking the waiter; on
an ACK event it sets `PTL_BULK_FL_SENT` and wakes the waiter once; on any other event it
stops in `LBUG()`.  `bulk_sink_callback` on a PUT event sets `PTL_BULK_FL_RCVD`, calls
`b_cb`, if there is one, with the flag set, and wakes the waiter; on any other event it
stops in `LBUG()`. -/
theorem bulk_callbacks_complete (F : bulk_flags) (cb : ptlrpc_bulk_ev → ptlrpc_bulk_ev)
    (ev : ptl_event_t) (bulk : ptlrpc_bulk_ev) :
    (ev.type = .PTL_EVENT_SENT → bulk_source_callback F ev bulk = .returned bulk 1) ∧
      (ev.type = .PTL_EVENT_ACK →
        ∃ b1, bulk_source_callback F ev bulk = .returned b1 1 ∧
          bulk_flag_set F.PTL_BULK_FL_SENT b1 = true ∧ b1.b_waitq = bulk.b_waitq + 1 ∧
          b1 = { bulk with b_flags := bulk.b_flags ||| F.PTL_BULK_FL_SENT,
                           b_waitq := bulk.b_waitq + 1 }) ∧
      (ev.type ≠ .PTL_EVENT_SENT → ev.type ≠ .PTL_EVENT_ACK →
        bulk_source_callback F ev bulk = .lbug bulk) ∧
      (ev.type = .PTL_EVENT_PUT → bulk.b_cb = none →
        ∃ b1, bulk_sink_callback F cb ev bulk = .returned b1 1 ∧
          bulk_flag_set F.PTL_BULK_FL_RCVD b1 = true ∧ b1.b_waitq = bulk.b_waitq + 1 ∧
          b1 = { bulk with b_flags := bulk.b_flags ||| F.PTL_BULK_FL_RCVD,
                           b_waitq := bulk.b_waitq + 1 }) ∧
      (ev.type = .PTL_EVENT_PUT → bulk.b_cb ≠ none →
        ∃ b1, bulk_flag_set F.PTL_BULK_FL_RCVD b1 = true ∧
          b1 = { bulk with b_flags := bulk.b_flags ||| F.PTL_BULK_FL_RCVD,
                           b_cb_calls := bulk.b_cb_calls ++
                             [bulk.b_flags ||| F.PTL_BULK_FL_RCVD] } ∧
          bulk_sink_callback F cb ev bulk =
            .returned (if (cb b1).b_cb ≠ none
              then { cb b1 with b_waitq := (cb b1).b_waitq + 1, freed := true }
              else { cb b1 with b_waitq := (cb b1).b_waitq + 1 }) 1) ∧
      (ev.type ≠ .PTL_EVENT_PUT → bulk_sink_callback F cb ev bulk = .lbug bulk) := by
  refine ⟨?_, ?_, ?_, ?_, ?_, ?_⟩
  · intro h
    unfold bulk_source_callback
    rw [if_pos h]
  · intro h
    have hne : ev.type ≠ .PTL_EVENT_SENT := by rw [h]; decide
    refine ⟨_, ?_, ?_, rfl, rfl⟩
    · unfold bulk_source_callback
      rw [if_neg hne, if_pos h]
    · unfold bulk_flag_set
      simp only [or_and_self_right, beq_self_eq_true]
  · intro h1 h2
    unfold bulk_source_callback
    rw [if_neg h1, if_neg h2]
  · intro h hcb
    refine ⟨_, ?_, ?_, rfl, rfl⟩
    · unfold bulk_sink_callback
      simp only [if_pos h, hcb, ne_eq, not_true_eq_false, if_false]
    · unfold bulk_flag_set
      simp only [or_and_self_right, beq_self_eq_true]
  · intro h hcb
    refine ⟨_, ?_, rfl, ?_⟩
    · unfold bulk_flag_set
      simp only [or_and_self_right, beq_self_eq_true]
    · unfold bulk_sink_callback
      simp only [if_pos h, ne_eq, hcb, not_false_eq_true, if_true]
  · intro h
    unfold bulk_sink_callback
    rw [if_neg h]

/-- The events SENT and ACK at the source and PUT at the sink, on the sample descriptor:
after SENT alone the flag `PTL_BULK_FL_SENT` is not set and nobody has been woken. -/
theorem bulk_callbacks_complete_witness :
    bulk_source_callback bulk_flags_sample ⟨.PTL_EVENT_SENT, 4096, 0⟩ bulk_ev_sample =
        .returned bulk_ev_sample 1 ∧
      bulk_flag_set bulk_flags_sample.PTL_BULK_FL_SENT bulk_ev_sample = false ∧
      (∃ b1, bulk_source_callback bulk_flags_sample ⟨.PTL_EVENT_ACK, 4096, 0⟩ bulk_ev_sample =
          .returned b1 1 ∧
        bulk_flag_set bulk_flags_sample.PTL_BULK_FL_SENT b1 = true ∧
        b1.b_waitq = bulk_ev_sample.b_waitq + 1 ∧
        b1 = { bulk_ev_sample with
          b_flags := bulk_ev_sample.b_flags ||| bulk_flags_sample.PTL_BULK_FL_SENT,
          b_waitq := bulk_ev_sample.b_waitq + 1 }) ∧
      bulk_sink_callback bulk_flags_sample id ⟨.PTL_EVENT_ACK, 4096, 0⟩ bulk_ev_sample =
        .lbug bulk_ev_sample :=
  ⟨(bulk_callbacks_complete bulk_flags_sample id ⟨.PTL_EVENT_SENT, 4096, 0⟩
      bulk_ev_sample).1 rfl,
    by decide,
    (bulk_callbacks_complete bulk_flags_sample id ⟨.PTL_EVENT_ACK, 4096, 0⟩
      bulk_ev_sample).2.1 rfl,
    (bulk_callbacks_complete bulk_flags_sample id ⟨.PTL_EVENT_ACK, 4096, 0⟩
      bulk_ev_sample).2.2.2.2.2 (by decide)⟩

/-! ### Putting a bulk descriptor on the network -/

/-- `ptlrpc_start_bulk_transfer` on a descriptor in its asserted state, with the fault
injection off and no completion before the return: the code is `-ENOMEM` with the
descriptor off the network when `PtlMDBind` finds no space, and otherwise 0 with the
descriptor on the network and the transfer issued behind the bind, a put with
acknowledgement for `BULK_PUT_SOURCE` and a get for `BULK_GET_SINK`. -/
theorem start_bulk_transfer_spec (R : ptlrpc_consts) (M : ptl_md_consts) (e : start_bulk_env)
    (cbid : Nat) (conn : ptlrpc_connection) (xid iov : Nat) (desc : ptlrpc_bulk_desc)
    (hfail : e.fail_check = false) (hquiet : ∀ d, e.completion d = d)
    (hready : start_bulk_ready desc)
    (hbind : e.bind_rc = .PTL_OK ∨ e.bind_rc = .PTL_NO_SPACE)
    (hunlink : e.unlink_rc = .PTL_OK) :
    ∃ r, ptlrpc_start_bulk_transfer R M e cbid conn xid iov desc = some r ∧
      (r.rc = 0 ∨ r.rc = -ENOMEM) ∧
      (r.rc = -ENOMEM → r.desc.bd_network_rw = false) ∧
      (r.rc = 0 → r.desc.bd_network_rw = true) ∧
      (r.rc = 0 → ∃ bind rest, r.calls = bind :: (if desc.bd_type = .BULK_PUT_SOURCE
          then ptl_call.PtlPut e.bind_mdh .PTL_ACK_REQ conn.peer_id desc.bd_portal xid e.xfer_rc
          else ptl_call.PtlGet e.bind_mdh conn.peer_id desc.bd_portal xid e.xfer_rc) :: rest ∧
        (rest = [] ∨ rest = [ptl_call.PtlMDUnlink e.bind_mdh .PTL_OK])) := by
  obtain ⟨hrw, htype, hfn, harg, hreq⟩ := hready
  obtain ⟨q, hq⟩ := Option.ne_none_iff_exists'.1 hreq
  have hno : ptl_err_t.PTL_NO_SPACE ≠ ptl_err_t.PTL_OK := by decide
  have hne : (-ENOMEM : Int) ≠ 0 := by decide
  unfold ptlrpc_start_bulk_transfer
  simp only [hfail, hrw, htype, hfn, harg, hq, Bool.false_eq_true, if_false, not_true_eq_false,
    ne_eq, Bool.not_true]
  rcases hbind with hb | hb
  · simp only [hb, not_true_eq_false, if_false, hquiet, hunlink, if_true]
    by_cases hx : e.xfer_rc = .PTL_OK
    · simp only [hx, not_true_eq_false, if_false]
      exact ⟨_, rfl, Or.inl rfl, fun h => absurd h.symm hne, fun _ => rfl,
        fun _ => ⟨_, [], rfl, Or.inl rfl⟩⟩
    · simp only [hx, not_false_eq_true, if_true]
      exact ⟨_, rfl, Or.inl rfl, fun h => absurd h.symm hne, fun _ => rfl,
        fun _ => ⟨_, _, rfl, Or.inr rfl⟩⟩
  · simp only [hb, hno, not_false_eq_true, if_true]
    exact ⟨_, rfl, Or.inr rfl, fun _ => rfl, fun h => absurd h hne,
      fun h => absurd h hne⟩

/-- `ptlrpc_register_bulk` on a request in its asserted state, with the fault injection
off and no completion before the return: the code is `-ENOMEM` with the descriptor off
the network when `PtlMEAttach` or `PtlMDAttach` finds no space, and otherwise 0 with the
descriptor on the network. -/
theorem register_bulk_spec (R : ptlrpc_consts) (M : ptl_md_consts) (e : register_bulk_env)
    (cbid : Nat) (conn : ptlrpc_connection) (iov : Nat) (req : ptlrpc_bulk_request)
    (hfail : e.fail_check = false) (hquiet : ∀ d, e.completion d = d)
    (hready : register_bulk_ready M req)
    (hme : e.me_rc = .PTL_OK ∨ e.me_rc = .PTL_NO_SPACE)
    (hmd : e.md_rc = .PTL_OK ∨ e.md_rc = .PTL_NO_SPACE)
    (hunlink : e.me_unlink_rc = .PTL_OK) :
    ∃ r, ptlrpc_register_bulk R M e cbid conn iov req = some r ∧
      (r.rc = 0 ∨ r.rc = -ENOMEM) ∧
      (r.rc = -ENOMEM → r.desc.bd_network_rw = false) ∧
      (r.rc = 0 → r.desc.bd_network_rw = true) ∧
      (r.rc = 0 ↔ e.me_rc = .PTL_OK ∧ e.md_rc = .PTL_OK) := by
  obtain ⟨hnob, hrw, hiov, hreq, htype, hfn, harg, hxid⟩ := hready
  have hno : ptl_err_t.PTL_NO_SPACE ≠ ptl_err_t.PTL_OK := by decide
  have hne : (-ENOMEM : Int) ≠ 0 := by decide
  have hreg : (!req.rq_bulk.bd_registered || req.rq_xid != req.rq_bulk.bd_last_xid) = true := by
    cases hr : req.rq_bulk.bd_registered with
    | false => rfl
    | true => simpa using hxid hr
  unfold ptlrpc_register_bulk
  simp only [hfail, hrw, htype, hfn, harg, hreq, hnob, hiov, hreg, Bool.false_eq_true, if_false,
    not_true_eq_false, ne_eq, Bool.not_true, gt_iff_lt]
  rcases hme with h1 | h1
  · rcases hmd with h2 | h2
    · simp only [h1, h2, not_true_eq_false, if_false, hquiet]
      exact ⟨_, rfl, Or.inl rfl, fun h => absurd h.symm hne, fun _ => rfl,
        fun _ => ⟨trivial, trivial⟩, fun _ => rfl⟩
    · simp only [h1, h2, hno, not_true_eq_false, not_false_eq_true, if_false, if_true,
        hunlink]
      exact ⟨_, rfl, Or.inr rfl, fun _ => rfl, fun h => absurd h hne,
        fun h => absurd h hne, fun h => h.2.elim⟩
  · simp only [h1, hno, not_false_eq_true, if_true]
    exact ⟨_, rfl, Or.inr rfl, fun _ => rfl, fun h => absurd h hne,
      fun h => absurd h hne, fun h => h.1.elim⟩

/-- C31: with the fault injection off, `ptlrpc_start_bulk_transfer` and
`ptlrpc_register_bulk`, called on a descriptor in the state their assertions require and
with the Portals codes their assertions allow, return 0 or `-ENOMEM`; as they leave the
descriptor (no completion callback running before the return), `bd_network_rw` is 0 on
the return of `-ENOMEM` and 1 on the return of 0.  When it returns 0,
`ptlrpc_start_bulk_transfer` has issued, behind the bind, `PtlPut` for `BULK_PUT_SOURCE`
and `PtlGet` for `BULK_GET_SINK`. -/
theorem bulk_network_rw_on_return (R : ptlrpc_consts) (M : ptl_md_consts)
    (es : start_bulk_env) (er : register_bulk_env) (cbid : Nat) (conn : ptlrpc_connection)
    (xid iov : Nat) (desc : ptlrpc_bulk_desc) (req : ptlrpc_bulk_request)
    (hsfail : es.fail_check = false) (hrfail : er.fail_check = false)
    (hsquiet : ∀ d, es.completion d = d) (hrquiet : ∀ d, er.completion d = d)
    (hsready : start_bulk_ready desc) (hrready : register_bulk_ready M req)
    (hbind : es.bind_rc = .PTL_OK ∨ es.bind_rc = .PTL_NO_SPACE)
    (hunlink : es.unlink_rc = .PTL_OK)
    (hme : er.me_rc = .PTL_OK ∨ er.me_rc = .PTL_NO_SPACE)
    (hmd : er.md_rc = .PTL_OK ∨ er.md_rc = .PTL_NO_SPACE)
    (hmeunlink : er.me_unlink_rc = .PTL_OK) :
    (∃ r, ptlrpc_start_bulk_transfer R M es cbid conn xid iov desc = some r ∧
      (r.rc = 0 ∨ r.rc = -ENOMEM) ∧
      (r.rc = -ENOMEM → r.desc.bd_network_rw = false) ∧
      (r.rc = 0 → r.desc.bd_network_rw = true) ∧
      (r.rc = 0 → desc.bd_type = .BULK_PUT_SOURCE →
        ∃ bind rest, r.calls = bind ::
          ptl_call.PtlPut es.bind_mdh .PTL_ACK_REQ conn.peer_id desc.bd_portal xid es.xfer_rc ::
          rest) ∧
      (r.rc = 0 → desc.bd_type = .BULK_GET_SINK →
        ∃ bind rest, r.calls = bind ::
          ptl_call.PtlGet es.bind_mdh conn.peer_id desc.bd_portal xid es.xfer_rc :: rest)) ∧
    (∃ r, ptlrpc_register_bulk R M er cbid conn iov req = some r ∧
      (r.rc = 0 ∨ r.rc = -ENOMEM) ∧
      (r.rc = -ENOMEM → r.desc.bd_network_rw = false) ∧
      (r.rc = 0 → r.desc.bd_network_rw = true)) := by
  obtain ⟨r, h1, h2, h3, h4, h5⟩ := start_bulk_transfer_spec R M es cbid conn xid iov desc
    hsfail hsquiet hsready hbind hunlink
  obtain ⟨r', g1, g2, g3, g4, _⟩ := register_bulk_spec R M er cbid conn iov req hrfail
    hrquiet hrready hme hmd hmeunlink
  refine ⟨⟨r, h1, h2, h3, h4, ?_, ?_⟩, ⟨r', g1, g2, g3, g4⟩⟩
  · intro h0 ht
    obtain ⟨bind, rest, hc, _⟩ := h5 h0
    rw [if_pos ht] at hc
    exact ⟨bind, rest, hc⟩
  · intro h0 ht
    obtain ⟨bind, rest, hc, _⟩ := h5 h0
    rw [if_neg (by rw [ht]; decide)] at hc
    exact ⟨bind, rest, hc⟩

/-- A server sends the bulk of request 8 with a put and a client registers the sink of
its request 9; nothing fails, and both descriptors are on the network at the return. -/
theorem bulk_network_rw_on_return_witness :
    (∃ r, ptlrpc_start_bulk_transfer ⟨0⟩ ptl_md_consts_sample
        ⟨false, .PTL_OK, 9, .PTL_OK, .PTL_OK, id⟩ 1 ⟨2, 3, 4⟩ 8 4096 bulk_source_sample =
          some r ∧
      (r.rc = 0 ∨ r.rc = -ENOMEM) ∧
      (r.rc = -ENOMEM → r.desc.bd_network_rw = false) ∧
      (r.rc = 0 → r.desc.bd_network_rw = true) ∧
      (r.rc = 0 → bulk_source_sample.bd_type = .BULK_PUT_SOURCE →
        ∃ bind rest, r.calls = bind ::
          ptl_call.PtlPut 9 .PTL_ACK_REQ 4 bulk_source_sample.bd_portal 8 .PTL_OK :: rest) ∧
      (r.rc = 0 → bulk_source_sample.bd_type = .BULK_GET_SINK →
        ∃ bind rest, r.calls = bind ::
          ptl_call.PtlGet 9 4 bulk_source_sample.bd_portal 8 .PTL_OK :: rest)) ∧
    (∃ r, ptlrpc_register_bulk ⟨0⟩ ptl_md_consts_sample
        ⟨false, .PTL_OK, 5, .PTL_OK, 6, .PTL_OK, id⟩ 1 ⟨2, 3, 4⟩ 4096
        ⟨500, 9, none, bulk_sink_sample⟩ = some r ∧
      (r.rc = 0 ∨ r.rc = -ENOMEM) ∧
      (r.rc = -ENOMEM → r.desc.bd_network_rw = false) ∧
      (r.rc = 0 → r.desc.bd_network_rw = true)) :=
  bulk_network_rw_on_return ⟨0⟩ ptl_md_consts_sample ⟨false, .PTL_OK, 9, .PTL_OK, .PTL_OK, id⟩
    ⟨false, .PTL_OK, 5, .PTL_OK, 6, .PTL_OK, id⟩ 1 ⟨2, 3, 4⟩ 8 4096 bulk_source_sample
    ⟨500, 9, none, bulk_sink_sample⟩ rfl rfl (fun _ => rfl) (fun _ => rfl)
    (by unfold start_bulk_ready; decide) (by unfold register_bulk_ready; decide)
    (Or.inl rfl) rfl (Or.inl rfl) (Or.inl rfl) rfl

/-! ### The code of a request that cannot be sent -/

/-- `ptl_send_rpc` for a request without bulk, in its asserted state, when `PtlMEAttach`
succeeds and `PtlMDAttach` finds no space: the call returns the number of the Portals
code `PTL_NO_SPACE`, whatever that is. -/
theorem send_rpc_md_attach_no_space (R : ptlrpc_consts) (M : ptl_md_consts) (E : ptl_errno_h)
    (e : send_rpc_env) (a : send_rpc_addrs) (fuel : Nat) (imp : obd_import)
    (req : ptlrpc_send_request)
    (htype : req.rq_type = .PTL_RPC_MSG_REQUEST) (hrecv : req.rq_receiving_reply = false)
    (hbulk : req.rq_bulk = none) (hwrap : e.wrap_rc = 0) (hreplen : req.rq_replen ≠ 0)
    (halloc : e.alloc_rc = 0) (hme : e.me_rc = .PTL_OK) (hmd : e.md_rc = .PTL_NO_SPACE)
    (hunlink : e.me_unlink_rc = .PTL_OK) (hevent : e.unlink_event = true) :
    send_rpc_rc (ptl_send_rpc R M E e a fuel imp req) = some E.PTL_NO_SPACE := by
  have hno : ptl_err_t.PTL_NO_SPACE ≠ ptl_err_t.PTL_OK := by decide
  have hattach : ∀ (r : ptlrpc_send_request) (calls : List ptl_call), r.rq_bulk = none →
      send_rpc_rc (send_rpc_attach R M E e a fuel imp.imp_connection r calls) =
        some E.PTL_NO_SPACE := by
    intro r calls hb
    unfold send_rpc_attach send_rpc_cleanup_me send_rpc_cleanup_repmsg send_rpc_cleanup_bulk
      ptlrpcs_cli_free_repbuf
    simp only [hme, hmd, hunlink, hevent, hb, hno, ne_eq, not_true_eq_false, if_false,
      not_false_eq_true, if_true, Bool.false_eq_true]
    rfl
  unfold ptl_send_rpc
  simp only [htype, hrecv, hbulk, hwrap, hreplen, halloc, ne_eq, not_true_eq_false, if_false,
    Bool.false_eq_true]
  split
  · exact hattach _ _ rfl
  · exact hattach _ _ rfl

/-- C36: `ptl_send_rpc` on the sample request, which has no bulk and has its reply
buffer.  When nothing fails it returns 0.  When `PtlMEAttach` finds no space it returns
`-ENOMEM`.  When `PtlMDAttach` finds no space it returns 2, the number of the Portals
code `PTL_NO_SPACE`, and not `-ENOMEM`; and if the callback of the unlink event has not
run when `PtlMEUnlink` returns, it does not return at all, because `rq_receiving_reply`
is still set at the assertion behind `cleanup_me`. -/
theorem send_rpc_md_attach_rc :
    send_rpc_rc (ptl_send_rpc ⟨0⟩ ptl_md_consts_sample ptl_errno_sample send_rpc_env_ok
        ⟨1, 4096, 2, 3⟩ 5 obd_import_sample send_request_sample) = some 0 ∧
      send_rpc_rc (ptl_send_rpc ⟨0⟩ ptl_md_consts_sample ptl_errno_sample
        { send_rpc_env_ok with me_rc := .PTL_NO_SPACE }
        ⟨1, 4096, 2, 3⟩ 5 obd_import_sample send_request_sample) = some (-ENOMEM) ∧
      send_rpc_rc (ptl_send_rpc ⟨0⟩ ptl_md_consts_sample ptl_errno_sample
        { send_rpc_env_ok with md_rc := .PTL_NO_SPACE }
        ⟨1, 4096, 2, 3⟩ 5 obd_import_sample send_request_sample) = some 2 ∧
      ptl_send_rpc ⟨0⟩ ptl_md_consts_sample ptl_errno_sample
        { send_rpc_env_ok with md_rc := .PTL_NO_SPACE, unlink_event := false }
        ⟨1, 4096, 2, 3⟩ 5 obd_import_sample send_request_sample = .lbug := by
  refine ⟨?_, ?_, ?_, ?_⟩ <;> decide

end Lustre
